import Mathlib

/-! # CoCoA congestion-management core of `PointToPointNetDevice`

A shallow embedding of `src/point-to-point/model/point-to-point-net-device.cc`.

* A packet is the record of the IPv4 and TCP header fields the device reads.
* `FlowState& st` (a reference into `flow_info`) is modelled by the key of the
  entry; reads and writes go through `FlowMap.find` and `FlowMap.insert`.
* `Simulator::Schedule` appends to the log `Device.scheduled`.
* Undefined behaviour and failed assertions of the source are results
  `Except.error` of the embedding.
* The window variables are exact rationals; the sequence arithmetic of the
  source on `uint32_t` and `uint16_t` is written with explicit remainders.
-/

namespace CoCoA

/-- The header fields read by the device: `Ipv4Header` (source, destination,
protocol, payload size) and `TcpHeader` (ports, sequence and acknowledgment
number, control bits, header length in 32-bit words). -/
structure Packet where
  src : Nat
  dst : Nat
  protocol : Nat
  payloadSize : Nat
  srcPort : Nat
  dstPort : Nat
  seq : Nat
  ack : Nat
  flags : Nat
  length : Nat
  deriving DecidableEq

/-- The type `fid_t`: a tuple (address, port, address, port, protocol). -/
abbrev FlowId := Nat × Nat × Nat × Nat × Nat

inductive TCPState
  | SETUP | DATA | TEAR_DOWN
  deriving DecidableEq, Inhabited

inductive HandshakeState
  | NONE | SYN | SYN_ACK | ACK
  deriving DecidableEq, Inhabited

inductive CCState
  | START | SLOW_START | AI | MD | FR | IDLE
  deriving DecidableEq, Inhabited

inductive CCEvent
  | PKT_ENQ | PKT_DEQ | PKT_SENT | ACK_RCVD
  deriving DecidableEq

inductive TxMachineState
  | READY | BUSY
  deriving DecidableEq

/-- Ways in which a run of the source leaves defined behaviour. -/
inductive Fault
  /-- The call `st.queue.top ()` on an empty priority queue. -/
  | emptyTop
  /-- The access `fit->second` on `flow_info.end ()`. -/
  | endIterator
  /-- A failed `NS_ASSERT_MSG`. -/
  | assertFailed
  /-- The call of `TransmitStart` on a null packet pointer. -/
  | nullPacket
  /-- The bound on the iterations of a loop of the embedding was reached. -/
  | fuel
  deriving DecidableEq

/-- Modelled from the spec: the struct `FlowState` is declared in the header,
which is not part of the sources. The fields are those the code uses; the
window variables `cc_ss_threshold`, `cc_tmp_win` and `cm_window_size` are
real-valued (exact rationals here), sequence and acknowledgment numbers are
`uint32_t` values, counters are natural numbers, `rtx_timeout__timer_delay` is
in milliseconds, and `queue` is the pending priority queue, smallest sequence
number first. -/
structure FlowState where
  state : TCPState
  setup_state : HandshakeState
  cc_state : CCState
  cc_ss_threshold : ℚ
  cc_tmp_win : ℚ
  cc_recovery_seq : Nat
  cm_start : Nat
  cm_window_size : ℚ
  max_ack__val : Nat
  new_ack__val : Bool
  new_ack__ack_num : Nat
  dup_acks__val : Nat
  dup_acks__first_ack : Bool
  dup_acks__last_ack : Nat
  max_sent__val : Nat
  rtx_timeout__val : Bool
  rtx_timeout__timer__isset : Bool
  rtx_timeout__timeout_cnt : Nat
  rtx_timeout__timer_delay : Nat
  initiator : Bool
  init_seq : Nat
  queue : List (Packet × Nat)
  deriving DecidableEq, Inhabited

/-- The calls handed to `Simulator::Schedule` and `Simulator::ScheduleNow`. -/
inductive SimEvent
  /-- The event `Schedule (txCompleteTime, TransmitComplete)`. -/
  | TransmitComplete
  /-- The event `ScheduleNow (CoCoASched)`. -/
  | CoCoASched
  /-- The event `Schedule (MicroSeconds (CC_LATENCY), RenoControl, s, fid)`. -/
  | RenoControl (delay_us : Nat) (s : CCState) (fid : FlowId)
  /-- The event `Schedule (timer_delay, rtx_timeout__timeout, ipv4, tcp, cnt)`. -/
  | rtx_timeout (delay_ms : Nat) (hdr : Packet) (cnt : Nat)
  deriving DecidableEq

/-- The state of a `PointToPointNetDevice` that the CoCoA code reads or writes.
`m_queue` with `m_queue_cap` is the transmit queue, `m_channel p` is the answer
of `m_channel->TransmitStart` for `p`, `isCorrupt` is the receive error model,
`scheduled` is the log of scheduler calls. -/
structure Device where
  nodeId : Nat
  m_linkUp : Bool
  m_txMachineState : TxMachineState
  m_currentPkt : Option Packet
  m_queue : List Packet
  m_queue_cap : Nat
  m_channel : Packet → Bool
  isCorrupt : Packet → Bool
  flow_info : List (FlowId × FlowState)
  queues_empty : Bool
  CC_LATENCY : Nat
  scheduled : List SimEvent

namespace TcpHeader

/-- The control bit `TcpHeader::FIN`. -/
def FIN : Nat := 1

/-- The control bit `TcpHeader::SYN`. -/
def SYN : Nat := 2

/-- The control bit `TcpHeader::ACK`. -/
def ACK : Nat := 16

end TcpHeader

/-- Modelled from the spec: the macro `MSS` of the header, 1460 bytes. -/
def MSS : Nat := 1460

/-- The C++ logical negation `!x` of an integer: 1 for zero, 0 otherwise. -/
def lnot (x : Nat) : Nat := if x = 0 then 1 else 0

/-- The value of `uint16_t data_size = ipv4.GetPayloadSize () - tcp.GetLength () * 4`. -/
def data_size (p : Packet) : Nat :=
  Int.toNat (((p.payloadSize : Int) - (p.length : Int) * 4) % 65536)

/-- The flow id with the source side first, as computed by `Send`,
`TransmitComplete` and (as `fid1`) `rtx_timeout__timeout`. -/
def sendFid (p : Packet) : FlowId := (p.src, p.srcPort, p.dst, p.dstPort, p.protocol)

/-- The flow id with the destination side first, as computed by `Receive`, the
`ACK_RCVD` handler and (as `fid2`) `rtx_timeout__timeout`. -/
def recvFid (p : Packet) : FlowId := (p.dst, p.dstPort, p.src, p.srcPort, p.protocol)

/-- The order of `std::tuple` keys in `std::map`: lexicographic. -/
def FlowId.lt (a b : FlowId) : Bool :=
  decide (a.1 < b.1) || (a.1 == b.1 &&
   (decide (a.2.1 < b.2.1) || (a.2.1 == b.2.1 &&
    (decide (a.2.2.1 < b.2.2.1) || (a.2.2.1 == b.2.2.1 &&
     (decide (a.2.2.2.1 < b.2.2.2.1) || (a.2.2.2.1 == b.2.2.2.1 &&
      decide (a.2.2.2.2 < b.2.2.2.2))))))))

namespace FlowMap

/-- The lookup `flow_info.find (fid)`; `none` stands for `flow_info.end ()`. -/
def find : List (FlowId × FlowState) → FlowId → Option FlowState
  | [], _ => none
  | (k, v) :: rest, fid => if fid = k then some v else find rest fid

/-- The assignment `flow_info[fid] = s`, and the write through a reference to
the entry of `fid`; the entries stay in key order. -/
def insert : List (FlowId × FlowState) → FlowId → FlowState → List (FlowId × FlowState)
  | [], fid, s => [(fid, s)]
  | (k, v) :: rest, fid, s =>
    if fid = k then (k, s) :: rest
    else if FlowId.lt fid k then (fid, s) :: (k, v) :: rest
    else (k, v) :: insert rest fid s

end FlowMap

namespace PQ

/-- Modelled from the spec: the comparator of the pending priority queue is
declared in the header; the queue is a min-priority queue on the sequence
number. `push` keeps the list in ascending order of the key. -/
def push : List (Packet × Nat) → Packet × Nat → List (Packet × Nat)
  | [], x => [x]
  | y :: rest, x => if x.2 < y.2 then x :: y :: rest else y :: push rest x

end PQ

/-- The switch of `RenoControl` on the flow state it found. -/
def RenoControl_switch (s : CCState) (st : FlowState) : FlowState :=
  match s with
  | CCState.START =>
    { st with cc_tmp_win := 1, cm_window_size := 1, cc_recovery_seq := st.max_sent__val,
              cc_ss_threshold := st.cc_ss_threshold / 2 }
  | CCState.SLOW_START =>
    { st with cc_tmp_win := st.cc_tmp_win + 1, cm_window_size := st.cm_window_size + 1 }
  | CCState.AI =>
    { st with cm_window_size := st.cc_tmp_win + 1 / st.cc_tmp_win,
              cc_tmp_win := st.cc_tmp_win + 1 / st.cc_tmp_win }
  | CCState.MD =>
    { st with cc_recovery_seq := st.max_sent__val,
              cc_tmp_win := st.cm_window_size / 2,
              cc_ss_threshold := st.cm_window_size / 2,
              cm_window_size := st.cm_window_size / 2 + (st.dup_acks__val : ℚ) }
  | CCState.FR =>
    { st with cm_window_size := st.cc_tmp_win + (st.dup_acks__val : ℚ) }
  | CCState.IDLE => st

/-- The function `RenoControl (s, fid)`: the switch on the flow found under
`fid`, then `ScheduleNow (CoCoASched)` unless `queues_empty`. -/
def RenoControl (dev : Device) (s : CCState) (fid : FlowId) : Except Fault Device :=
  match FlowMap.find dev.flow_info fid with
  | none => Except.error Fault.endIterator
  | some st =>
    Except.ok { dev with
      flow_info := FlowMap.insert dev.flow_info fid (RenoControl_switch s st),
      scheduled := if dev.queues_empty then dev.scheduled
                   else dev.scheduled ++ [SimEvent.CoCoASched] }

/-- The function `RenoInit`: the aggregate assigned to `st`; members without a
designated initializer are value-initialized. -/
def RenoInit (_st : FlowState) : FlowState :=
  { state := TCPState.SETUP,
    setup_state := HandshakeState.NONE,
    cc_state := CCState.START,
    cc_ss_threshold := 131072,
    cc_tmp_win := 0,
    cc_recovery_seq := 0,
    cm_start := 0,
    cm_window_size := 1,
    max_ack__val := 0,
    new_ack__val := false,
    new_ack__ack_num := 0,
    dup_acks__val := 0,
    dup_acks__first_ack := true,
    dup_acks__last_ack := 0,
    max_sent__val := 0,
    rtx_timeout__val := false,
    rtx_timeout__timer__isset := false,
    rtx_timeout__timeout_cnt := 0,
    rtx_timeout__timer_delay := 500,
    initiator := false,
    init_seq := 0,
    queue := [] }

/-- The block `if (ack > st.cm_start)` of the `ACK_RCVD` case. -/
def ack_window_edge (st : FlowState) (ack : Nat) : FlowState :=
  if ack > st.cm_start then { st with cm_start := ack } else st

/-- The block `if (ack > st.max_ack__val)` of the `ACK_RCVD` case. -/
def ack_max_ack (st : FlowState) (ack : Nat) : FlowState :=
  if ack > st.max_ack__val then { st with max_ack__val := ack } else st

/-- The block that sets `new_ack__val` in the `ACK_RCVD` case. -/
def ack_new_ack (st : FlowState) (ack : Nat) : FlowState :=
  if ack = st.max_ack__val ∧ st.max_ack__val > st.new_ack__ack_num then
    { st with new_ack__ack_num := ack, new_ack__val := true }
  else { st with new_ack__val := false }

/-- The block that counts duplicate acknowledgments in the `ACK_RCVD` case. -/
def ack_dup_acks (st : FlowState) (ack : Nat) : FlowState :=
  if st.dup_acks__first_ack = true then
    { st with dup_acks__first_ack := false, dup_acks__last_ack := ack }
  else if st.dup_acks__last_ack = ack then
    { st with dup_acks__val := st.dup_acks__val + 1 }
  else { st with dup_acks__last_ack := ack, dup_acks__val := 0 }

/-- The bookkeeping of the `ACK_RCVD` case: window edge, `max_ack`, `new_ack`
and `dup_acks`, in the order of the source. -/
def ACK_RCVD_bookkeeping (st : FlowState) (ack : Nat) : FlowState :=
  ack_dup_acks (ack_new_ack (ack_max_ack (ack_window_edge st ack) ack) ack) ack

/-- The condition `st.new_ack__val || st.dup_acks__val == 3` under which the
`ACK_RCVD` case arms the retransmission timer again. -/
def ACK_RCVD_rearms (st : FlowState) : Bool :=
  st.new_ack__val || decide (st.dup_acks__val = 3)

/-- The re-arming of the retransmission timer: the three assignments before
`Simulator::Schedule`. -/
def rtx_arm (st : FlowState) : FlowState :=
  { st with rtx_timeout__val := false, rtx_timeout__timer__isset := true,
            rtx_timeout__timeout_cnt := st.rtx_timeout__timeout_cnt + 1 }

/-- The switch on `st.cc_state` of the `ACK_RCVD` case (the part under the
comment ASM): the new `cc_state` and the flag `transitioned`. -/
def ACK_RCVD_asm (st : FlowState) : CCState × Bool :=
  match st.cc_state with
  | CCState.START =>
    if st.new_ack__val = true then (CCState.SLOW_START, true) else (CCState.START, false)
  | CCState.SLOW_START =>
    if st.new_ack__val = true then
      if st.cm_window_size < st.cc_ss_threshold then (CCState.SLOW_START, true)
      else (CCState.AI, true)
    else if st.dup_acks__val = 3 then
      if st.max_ack__val > st.cc_recovery_seq then (CCState.MD, true) else (CCState.IDLE, true)
    else (CCState.SLOW_START, false)
  | CCState.AI =>
    if st.new_ack__val = true then (CCState.AI, true)
    else if st.dup_acks__val = 3 then
      if st.max_ack__val > st.cc_recovery_seq then (CCState.MD, true) else (CCState.IDLE, true)
    else (CCState.AI, false)
  | CCState.MD =>
    if st.new_ack__val = true then (CCState.AI, true)
    else if st.dup_acks__val > 0 then (CCState.FR, true)
    else (CCState.MD, false)
  | CCState.FR =>
    if st.new_ack__val = true then (CCState.AI, true)
    else if st.dup_acks__val > 0 then (CCState.FR, true)
    else (CCState.FR, false)
  | CCState.IDLE =>
    if st.new_ack__val = true then
      if st.cm_window_size < st.cc_ss_threshold then (CCState.SLOW_START, true)
      else (CCState.AI, true)
    else (CCState.IDLE, false)

/-- The flow state of the `ACK_RCVD` case when the switch on `st.cc_state` is
reached: after the bookkeeping and the re-arming of the timer. -/
def ACK_RCVD_pre (st : FlowState) (ack : Nat) : FlowState :=
  let st1 := ACK_RCVD_bookkeeping st ack
  if ACK_RCVD_rearms st1 = true then rtx_arm st1 else st1

/-- The flow state at the end of the switch of the `ACK_RCVD` case, before the
engine is called or scheduled. -/
def ACK_RCVD_flow (st : FlowState) (ack : Nat) : FlowState :=
  { ACK_RCVD_pre st ack with cc_state := (ACK_RCVD_asm (ACK_RCVD_pre st ack)).1 }

/-- The flag `transitioned` at the end of the switch of the `ACK_RCVD` case. -/
def ACK_RCVD_transitioned (st : FlowState) (ack : Nat) : Bool :=
  (ACK_RCVD_asm (ACK_RCVD_pre st ack)).2

/-- The block `if (sent > st.max_sent__val)` of the `PKT_SENT` case, with
`uint32_t sent = tcp.GetSequenceNumber ().GetValue () + data_size`. -/
def sent_max_sent (st : FlowState) (packet : Packet) : FlowState :=
  if (packet.seq + data_size packet) % 2 ^ 32 > st.max_sent__val then
    { st with max_sent__val := (packet.seq + data_size packet) % 2 ^ 32 }
  else st

/-- The flow state written by the `PKT_SENT` case. -/
def PKT_SENT_flow (st : FlowState) (packet : Packet) : FlowState :=
  if (sent_max_sent st packet).rtx_timeout__timer__isset = false ∧
      (sent_max_sent st packet).max_sent__val > (sent_max_sent st packet).max_ack__val then
    rtx_arm (sent_max_sent st packet)
  else sent_max_sent st packet

/-- The function `CoCoAEventHandler (packet, ipv4, tcp, st, ev)`, where `key`
is the key of the entry of `flow_info` that `st` refers to. -/
def CoCoAEventHandler (dev : Device) (key : FlowId) (packet : Packet) (ev : CCEvent) :
    Except Fault Device :=
  match FlowMap.find dev.flow_info key with
  | none => Except.error Fault.endIterator
  | some st =>
    match ev with
    | CCEvent.PKT_ENQ =>
      let st1 : FlowState := { st with queue := PQ.push st.queue (packet, packet.seq) }
      Except.ok { dev with
        flow_info := FlowMap.insert dev.flow_info key st1,
        queues_empty := false,
        scheduled := if dev.queues_empty then dev.scheduled ++ [SimEvent.CoCoASched]
                     else dev.scheduled }
    | CCEvent.PKT_DEQ => Except.ok dev
    | CCEvent.PKT_SENT =>
      let st1 := PKT_SENT_flow st packet
      Except.ok { dev with
        flow_info := FlowMap.insert dev.flow_info key st1,
        scheduled :=
          if st1.rtx_timeout__timeout_cnt = st.rtx_timeout__timeout_cnt then dev.scheduled
          else dev.scheduled ++
            [SimEvent.rtx_timeout st1.rtx_timeout__timer_delay packet st1.rtx_timeout__timeout_cnt] }
    | CCEvent.ACK_RCVD =>
      let st1 := ACK_RCVD_flow st packet.ack
      let dev1 : Device := { dev with
        flow_info := FlowMap.insert dev.flow_info key st1,
        scheduled :=
          if ACK_RCVD_rearms (ACK_RCVD_bookkeeping st packet.ack) = true then
            dev.scheduled ++
              [SimEvent.rtx_timeout st1.rtx_timeout__timer_delay packet st1.rtx_timeout__timeout_cnt]
          else dev.scheduled }
      if ACK_RCVD_transitioned st packet.ack = true then
        if dev.CC_LATENCY > 0 then
          Except.ok { dev1 with
            scheduled := dev1.scheduled ++
              [SimEvent.RenoControl dev.CC_LATENCY st1.cc_state (recvFid packet)] }
        else RenoControl dev1 st1.cc_state (recvFid packet)
      else Except.ok dev1

/-- Modelled from the spec: `Queue<Packet>::Enqueue` of the simulator, a FIFO
of bounded capacity: the packet is appended unless the queue is full. -/
def Enqueue (cap : Nat) (q : List Packet) (p : Packet) : Bool × List Packet :=
  if q.length < cap then (true, q ++ [p]) else (false, q)

/-- Modelled from the spec: `Queue<Packet>::Dequeue` of the simulator: the
oldest packet, or a null pointer when the queue is empty. -/
def Dequeue (q : List Packet) : Option Packet × List Packet :=
  match q with
  | [] => (none, [])
  | p :: rest => (some p, rest)

/-- The function `TransmitStart (p)`: the device becomes `BUSY`, the completion
event is scheduled, and the result is the answer of the channel. -/
def TransmitStart (dev : Device) (p : Packet) : Except Fault (Bool × Device) :=
  if dev.m_txMachineState = TxMachineState.READY then
    Except.ok (dev.m_channel p,
      { dev with m_txMachineState := TxMachineState.BUSY, m_currentPkt := some p,
                 scheduled := dev.scheduled ++ [SimEvent.TransmitComplete] })
  else Except.error Fault.assertFailed

/-- The inner loop of `CoCoASched`,
`while (!st.queue.empty () && seq < st.cm_start)`, with the local `seq` and the
counter `queues_occ`. The body pops the head and reads the next head with
`st.queue.top ()`. -/
def headDropLoop (cm_start : Nat) :
    List (Packet × Nat) → Nat → Nat → Except Fault (List (Packet × Nat) × Nat)
  | [], _, occ => Except.ok ([], occ)
  | [x], seq, occ =>
    if seq < cm_start then Except.error Fault.emptyTop else Except.ok ([x], occ)
  | x :: y :: rest, seq, occ =>
    if seq < cm_start then headDropLoop cm_start (y :: rest) y.1.seq (occ - 1)
    else Except.ok (x :: y :: rest, occ)

/-- The window test of `CoCoASched`:
`seq >= st.cm_start && seq + data_size <= st.cm_start + st.cm_window_size * MSS`,
with `seq + data_size` computed on `uint32_t`. -/
def fitsWindow (st : FlowState) (p : Packet) : Bool :=
  decide (p.seq ≥ st.cm_start) &&
  decide ((((p.seq + data_size p) % 2 ^ 32 : Nat) : ℚ) ≤
    (st.cm_start : ℚ) + st.cm_window_size * (MSS : ℚ))

/-- The loop `for (it = flow_info.begin (); it != flow_info.end (); it++)` of
`CoCoASched` over the entries from `it` on. The result is the updated entries,
the transmit queue, `queues_occ` and `m_queue_full` (set together with the
`break`). -/
def schedFor (cap : Nat) :
    List (FlowId × FlowState) → List Packet → Nat →
      Except Fault (List (FlowId × FlowState) × List Packet × Nat × Bool)
  | [], q, occ => Except.ok ([], q, occ, false)
  | (fid, st) :: rest, q, occ =>
    match st.queue with
    | [] =>
      match schedFor cap rest q (occ + st.queue.length) with
      | Except.error e => Except.error e
      | Except.ok (fl, q1, occ1, full) => Except.ok ((fid, st) :: fl, q1, occ1, full)
    | (p, k) :: tl =>
      if p.seq < st.cm_start then
        match headDropLoop st.cm_start ((p, k) :: tl) p.seq (occ + st.queue.length) with
        | Except.error e => Except.error e
        | Except.ok (pq, occ0) =>
          match schedFor cap rest q occ0 with
          | Except.error e => Except.error e
          | Except.ok (fl, q1, occ1, full) =>
            Except.ok ((fid, { st with queue := pq }) :: fl, q1, occ1, full)
      else if fitsWindow st p = true then
        match Enqueue cap q p with
        | (true, q0) =>
          match schedFor cap rest q0 (occ + st.queue.length - 1) with
          | Except.error e => Except.error e
          | Except.ok (fl, q1, occ1, full) =>
            Except.ok ((fid, { st with queue := tl }) :: fl, q1, occ1, full)
        | (false, q0) => Except.ok ((fid, st) :: rest, q0, occ + st.queue.length, true)
      else
        match schedFor cap rest q (occ + st.queue.length) with
        | Except.error e => Except.error e
        | Except.ok (fl, q1, occ1, full) => Except.ok ((fid, st) :: fl, q1, occ1, full)

/-- The loop `while ((int32_t) m_queue->GetNPackets () > qlen && !m_queue_full)`
of `CoCoASched`, with the locals `qlen`, `m_queue_full` and `queues_occ`; the
first argument bounds the number of evaluations of the loop condition. -/
def schedWhile (cap : Nat) :
    Nat → List (FlowId × FlowState) → List Packet → Int → Bool → Nat →
      Except Fault (List (FlowId × FlowState) × List Packet × Nat)
  | 0, _, _, _, _, _ => Except.error Fault.fuel
  | n + 1, flows, q, qlen, full, occ =>
    if (q.length : Int) > qlen ∧ full = false then
      match schedFor cap flows q 0 with
      | Except.error e => Except.error e
      | Except.ok (flows1, q1, occ1, full1) => schedWhile cap n flows1 q1 (q.length : Int) full1 occ1
    else Except.ok (flows, q, occ)

/-- The number of packets in all pending queues. -/
def totalPending (flows : List (FlowId × FlowState)) : Nat :=
  (flows.map (fun e => e.2.queue.length)).sum

/-- The admission part of `CoCoASched`: the while loop, started with
`qlen = -1` and `m_queue_full = false`. Every iteration but the last moves a
pending packet, so `totalPending + 2` evaluations of the condition suffice. -/
def CoCoASched_loop (dev : Device) :
    Except Fault (List (FlowId × FlowState) × List Packet × Nat) :=
  schedWhile dev.m_queue_cap (totalPending dev.flow_info + 2) dev.flow_info dev.m_queue (-1)
    false 0

/-- The function `CoCoASched ()`: the admission loop, the assignment of
`queues_empty`, and the start of a transmission when the machine is `READY`. -/
def CoCoASched (dev : Device) : Except Fault Device :=
  match CoCoASched_loop dev with
  | Except.error e => Except.error e
  | Except.ok (flows, q, occ) =>
    if dev.m_txMachineState = TxMachineState.READY ∧ q.length > 0 then
      match Dequeue q with
      | (some p, q1) =>
        match TransmitStart { dev with flow_info := flows, m_queue := q1,
                                       queues_empty := decide (occ = 0) } p with
        | Except.error e => Except.error e
        | Except.ok (_, dev1) => Except.ok dev1
      | (none, _) => Except.error Fault.nullPacket
    else
      Except.ok { dev with flow_info := flows, m_queue := q, queues_empty := decide (occ = 0) }

/-- The flow table after the block `if (fit == flow_info.end ())` of `Send` and
`Receive`: a new entry initialised by `RenoInit` for an unknown flow. -/
def ensureFlow (flows : List (FlowId × FlowState)) (fid : FlowId) : List (FlowId × FlowState) :=
  match FlowMap.find flows fid with
  | some _ => flows
  | none => FlowMap.insert flows fid (RenoInit default)

/-- The flow state `fit->second` after the block `if (fit == flow_info.end ())`. -/
def flowOf (flows : List (FlowId × FlowState)) (fid : FlowId) : FlowState :=
  match FlowMap.find flows fid with
  | some st => st
  | none => RenoInit default

/-- The inner switch on `st.setup_state` of `Send` (case `SETUP`). -/
def Send_handshake (st : FlowState) (tcp : Packet) : FlowState :=
  match st.setup_state with
  | HandshakeState.NONE =>
    if (tcp.flags &&& TcpHeader.SYN) > 0 ∧ (tcp.flags &&& lnot TcpHeader.SYN) = 0 then
      { st with initiator := true, setup_state := HandshakeState.SYN,
                init_seq := tcp.seq, cm_start := tcp.seq }
    else st
  | HandshakeState.SYN =>
    if st.initiator = false ∧ (tcp.flags &&& TcpHeader.SYN) > 0 ∧
        (tcp.flags &&& TcpHeader.ACK) > 0 ∧
        (tcp.flags &&& lnot TcpHeader.SYN &&& lnot TcpHeader.ACK) = 0 then
      { st with setup_state := HandshakeState.SYN_ACK, init_seq := tcp.seq, cm_start := tcp.seq }
    else st
  | HandshakeState.SYN_ACK =>
    if st.initiator = true ∧ (tcp.flags &&& TcpHeader.ACK) > 0 ∧
        (tcp.flags &&& lnot TcpHeader.ACK) = 0 then
      { st with setup_state := HandshakeState.ACK, state := TCPState.DATA }
    else st
  | HandshakeState.ACK => st

/-- The block of `Send` that hands a packet to the transmit queue, as written
under `if (cur_st != DATA)` and for nodes outside the CoCoA core. -/
def Send_direct (dev : Device) (packet : Packet) : Except Fault (Bool × Device) :=
  match Enqueue dev.m_queue_cap dev.m_queue packet with
  | (true, q) =>
    if dev.m_txMachineState = TxMachineState.READY then
      match Dequeue q with
      | (some p, q1) => TransmitStart { dev with m_queue := q1 } p
      | (none, _) => Except.error Fault.nullPacket
    else Except.ok (true, { dev with m_queue := q })
  | (false, q) => Except.ok (false, { dev with m_queue := q })

/-- The block of `Send` for a packet without payload and with `FIN` set in case
`DATA`: as `Send_direct`, but control leaves the `if (m_queue->Enqueue (packet))`
block towards `return false` when the machine is not `READY`. -/
def Send_fin (dev : Device) (packet : Packet) : Except Fault (Bool × Device) :=
  match Enqueue dev.m_queue_cap dev.m_queue packet with
  | (true, q) =>
    if dev.m_txMachineState = TxMachineState.READY then
      match Dequeue q with
      | (some p, q1) => TransmitStart { dev with m_queue := q1 } p
      | (none, _) => Except.error Fault.nullPacket
    else Except.ok (false, { dev with m_queue := q })
  | (false, q) => Except.ok (false, { dev with m_queue := q })

/-- The function `Send (packet, dest, protocolNumber)`: the returned flag and
the device afterwards. -/
def Send (dev : Device) (packet : Packet) : Except Fault (Bool × Device) :=
  if dev.m_linkUp = false then Except.ok (false, dev)
  else if dev.nodeId > 1 then
    let fid := sendFid packet
    let flows := ensureFlow dev.flow_info fid
    let st := flowOf dev.flow_info fid
    match st.state with
    | TCPState.SETUP =>
      Send_direct { dev with flow_info := FlowMap.insert flows fid (Send_handshake st packet) } packet
    | TCPState.DATA =>
      if data_size packet > 0 then
        match CoCoAEventHandler { dev with flow_info := flows } fid packet CCEvent.PKT_ENQ with
        | Except.error e => Except.error e
        | Except.ok dev1 => Except.ok (true, dev1)
      else if (packet.flags &&& TcpHeader.FIN) ≠ 0 then
        Send_fin { dev with flow_info := flows } packet
      else
        let st1 : FlowState := { st with state := TCPState.TEAR_DOWN }
        Send_direct { dev with flow_info := FlowMap.insert flows fid st1 } packet
    | TCPState.TEAR_DOWN => Send_direct { dev with flow_info := flows } packet
  else Send_direct dev packet

/-- The function `Receive (packet)`, up to the callbacks of the upper layers. -/
def Receive (dev : Device) (packet : Packet) : Except Fault Device :=
  if dev.isCorrupt packet = true then Except.ok dev
  else if dev.nodeId > 1 then
    let fid := recvFid packet
    let flows := ensureFlow dev.flow_info fid
    let st := flowOf dev.flow_info fid
    match st.state with
    | TCPState.SETUP =>
      match st.setup_state with
      | HandshakeState.NONE =>
        if (packet.flags &&& TcpHeader.SYN) > 0 ∧ (packet.flags &&& lnot TcpHeader.SYN) = 0 then
          let st1 : FlowState := { st with setup_state := HandshakeState.SYN, initiator := false }
          Except.ok { dev with flow_info := FlowMap.insert flows fid st1 }
        else Except.ok { dev with flow_info := flows }
      | HandshakeState.SYN =>
        if st.initiator = true ∧ (packet.flags &&& TcpHeader.SYN) > 0 ∧
            (packet.flags &&& TcpHeader.ACK) > 0 ∧
            (packet.flags &&& lnot TcpHeader.SYN &&& lnot TcpHeader.ACK) = 0 then
          let st1 : FlowState := { st with setup_state := HandshakeState.SYN_ACK }
          CoCoAEventHandler { dev with flow_info := FlowMap.insert flows fid st1 }
            fid packet CCEvent.ACK_RCVD
        else Except.ok { dev with flow_info := flows }
      | HandshakeState.SYN_ACK =>
        if st.initiator = false ∧ (packet.flags &&& TcpHeader.ACK) > 0 ∧
            (packet.flags &&& lnot TcpHeader.ACK) = 0 then
          let st1 : FlowState := { st with setup_state := HandshakeState.ACK, state := TCPState.DATA }
          CoCoAEventHandler { dev with flow_info := FlowMap.insert flows fid st1 }
            fid packet CCEvent.ACK_RCVD
        else Except.ok { dev with flow_info := flows }
      | HandshakeState.ACK => Except.ok { dev with flow_info := flows }
    | TCPState.DATA =>
      if (packet.flags &&& TcpHeader.ACK) > 0 then
        CoCoAEventHandler { dev with flow_info := flows } fid packet CCEvent.ACK_RCVD
      else Except.ok { dev with flow_info := flows }
    | TCPState.TEAR_DOWN => Except.ok { dev with flow_info := flows }
  else Except.ok dev

/-- The block of `rtx_timeout__timeout` run on the flow state `st` found under
`fid` (the same text for `fid1` and for `fid2`). -/
def rtx_timeout_found (dev : Device) (fid : FlowId) (st : FlowState) (cnt : Nat) :
    Except Fault Device :=
  if st.rtx_timeout__timeout_cnt = cnt then
    let st1 : FlowState := { st with rtx_timeout__timer__isset := false, rtx_timeout__val := true }
    if st.rtx_timeout__val = false then
      match st.cc_state with
      | CCState.START => Except.ok { dev with flow_info := FlowMap.insert dev.flow_info fid st1 }
      | _ =>
        let st2 : FlowState := { st1 with cc_state := CCState.START }
        let dev1 : Device := { dev with flow_info := FlowMap.insert dev.flow_info fid st2 }
        if dev.CC_LATENCY > 0 then
          Except.ok { dev1 with
            scheduled := dev1.scheduled ++
              [SimEvent.RenoControl dev.CC_LATENCY CCState.START fid] }
        else RenoControl dev1 CCState.START fid
    else Except.ok { dev with flow_info := FlowMap.insert dev.flow_info fid st1 }
  else Except.ok dev

/-- The function `rtx_timeout__timeout (ipv4, tcp, cnt)`. -/
def rtx_timeout__timeout (dev : Device) (hdr : Packet) (cnt : Nat) : Except Fault Device :=
  match FlowMap.find dev.flow_info (sendFid hdr) with
  | some st => rtx_timeout_found dev (sendFid hdr) st cnt
  | none =>
    match FlowMap.find dev.flow_info (recvFid hdr) with
    | some st => rtx_timeout_found dev (recvFid hdr) st cnt
    | none => Except.ok dev

/-- The function `TransmitComplete ()`. -/
def TransmitComplete (dev : Device) : Except Fault Device :=
  if dev.m_txMachineState = TxMachineState.BUSY then
    match dev.m_currentPkt with
    | none => Except.error Fault.assertFailed
    | some cur =>
      let dev0 : Device := { dev with m_txMachineState := TxMachineState.READY }
      let sent : Except Fault Device :=
        if dev0.nodeId > 1 then
          match FlowMap.find dev0.flow_info (sendFid cur) with
          | some _ => CoCoAEventHandler dev0 (sendFid cur) cur CCEvent.PKT_SENT
          | none => Except.ok dev0
        else Except.ok dev0
      match sent with
      | Except.error e => Except.error e
      | Except.ok dev1 =>
        match Dequeue dev1.m_queue with
        | (none, _) => Except.ok { dev1 with m_currentPkt := none }
        | (some p, q) =>
          match TransmitStart { dev1 with m_currentPkt := none, m_queue := q } p with
          | Except.error e => Except.error e
          | Except.ok (_, dev2) => Except.ok dev2
  else Except.error Fault.assertFailed

/-- The entry points of the device: the calls of the upper layer, of the
channel and of the scheduler. -/
inductive Call
  | Send (packet : Packet)
  | Receive (packet : Packet)
  | TransmitComplete
  | CoCoASched
  | rtx_timeout (hdr : Packet) (cnt : Nat)
  | RenoControl (s : CCState) (fid : FlowId)

/-- One entry-point call on a device. -/
def step (dev : Device) (c : Call) : Except Fault Device :=
  match c with
  | Call.Send packet =>
    match Send dev packet with
    | Except.error e => Except.error e
    | Except.ok (_, dev1) => Except.ok dev1
  | Call.Receive packet => Receive dev packet
  | Call.TransmitComplete => TransmitComplete dev
  | Call.CoCoASched => CoCoASched dev
  | Call.rtx_timeout hdr cnt => rtx_timeout__timeout dev hdr cnt
  | Call.RenoControl s fid => RenoControl dev s fid

/-- A sequence of entry-point calls, each run on the device left by the one
before. -/
def run (dev : Device) : List Call → Except Fault Device
  | [] => Except.ok dev
  | c :: cs =>
    match step dev c with
    | Except.error e => Except.error e
    | Except.ok dev1 => run dev1 cs

/-! ## Relations, invariants and example inputs used by the theorems -/

/-- The flow table `m2` arises from `m1` by changes of flow states along the
relation `R`, a new flow starting from `RenoInit`; no flow disappears. -/
def Evolves (R : FlowState → FlowState → Prop) (m1 m2 : List (FlowId × FlowState)) : Prop :=
  ∀ fid : FlowId,
    (∀ st1, FlowMap.find m1 fid = some st1 → ∃ st2, FlowMap.find m2 fid = some st2 ∧ R st1 st2) ∧
    (FlowMap.find m1 fid = none → ∀ st2, FlowMap.find m2 fid = some st2 → R (RenoInit default) st2)

/-- The single writes of the code to a flow state, each with the condition under
which the code performs it. -/
inductive Atomic : FlowState → FlowState → Prop
  /-- The handshake switch of `Send`. -/
  | handshake (st : FlowState) (p : Packet) (h : st.state = TCPState.SETUP) :
      Atomic st (Send_handshake st p)
  /-- The assignment `st.state = TEAR_DOWN` of `Send`. -/
  | tear (st : FlowState) (h : st.state = TCPState.DATA) :
      Atomic st { st with state := TCPState.TEAR_DOWN }
  /-- A push to the pending queue by `PKT_ENQ`, or pops from it. -/
  | queue (st : FlowState) (q : List (Packet × Nat))
      (h : q <:+ st.queue ∨ ∃ p : Packet, q = PQ.push st.queue (p, p.seq)) :
      Atomic st { st with queue := q }
  /-- The case `PKT_SENT`. -/
  | sent (st : FlowState) (p : Packet) : Atomic st (PKT_SENT_flow st p)
  /-- The case `NONE` of `Receive`. -/
  | recv_syn (st : FlowState) (h : st.state = TCPState.SETUP)
      (hs : st.setup_state = HandshakeState.NONE) :
      Atomic st { st with setup_state := HandshakeState.SYN, initiator := false }
  /-- The case `SYN` of `Receive`, before the event handler runs. -/
  | recv_synack (st : FlowState) (h : st.state = TCPState.SETUP)
      (hs : st.setup_state = HandshakeState.SYN) (hi : st.initiator = true) :
      Atomic st { st with setup_state := HandshakeState.SYN_ACK }
  /-- The case `SYN_ACK` of `Receive`, before the event handler runs. -/
  | recv_ack (st : FlowState) (h : st.state = TCPState.SETUP)
      (hs : st.setup_state = HandshakeState.SYN_ACK) (hi : st.initiator = false) :
      Atomic st { st with setup_state := HandshakeState.ACK, state := TCPState.DATA }
  /-- The case `ACK_RCVD`, which `Receive` reaches in `DATA` or right after the
  handshake moved to `SYN_ACK`. -/
  | ack (st : FlowState) (a : Nat)
      (h : st.state = TCPState.DATA ∨ st.setup_state = HandshakeState.SYN_ACK) :
      Atomic st (ACK_RCVD_flow st a)
  /-- The switch of `RenoControl`. -/
  | reno (st : FlowState) (s : CCState) : Atomic st (RenoControl_switch s st)
  /-- The two assignments of a live `rtx_timeout__timeout`. -/
  | rto (st : FlowState) :
      Atomic st { st with rtx_timeout__timer__isset := false, rtx_timeout__val := true }
  /-- The assignment `st.cc_state = START` of `rtx_timeout__timeout`. -/
  | rto_start (st : FlowState) : Atomic st { st with cc_state := CCState.START }

/-- Any number of single writes, one after the other. -/
abbrev FlowTrans : FlowState → FlowState → Prop := Relation.ReflTransGen Atomic

/-- The entry `b` is the entry `a` after pops from its pending queue. -/
def Popped (a b : FlowId × FlowState) : Prop :=
  a.1 = b.1 ∧ ∃ pq, b.2 = { a.2 with queue := pq } ∧ pq <:+ a.2.queue

/-- The state `b` has the TCP phase, handshake phase, initiator flag and window
edge of the state `a`. -/
def Frame4 (a b : FlowState) : Prop :=
  b.state = a.state ∧ b.setup_state = a.setup_state ∧ b.initiator = a.initiator ∧
  b.cm_start = a.cm_start

/-- While the handshake has not fixed the initial sequence number of this side,
`cm_start` still has the value 0 given by `RenoInit`. -/
def HandInv (st : FlowState) : Prop :=
  st.state = TCPState.SETUP →
    (st.setup_state = HandshakeState.NONE → st.cm_start = 0) ∧
    (st.setup_state = HandshakeState.SYN → st.initiator = false → st.cm_start = 0)

/-- The relation between a flow state and a later one that carries `HandInv` and
the growth of `cm_start`. -/
def CmRel (a b : FlowState) : Prop := HandInv a → HandInv b ∧ a.cm_start ≤ b.cm_start

/-- Every flow of the table satisfies `HandInv`. -/
def DevInv (m : List (FlowId × FlowState)) : Prop :=
  ∀ fid st, FlowMap.find m fid = some st → HandInv st

/-- The device reached by a run, for runs that are known to succeed. -/
def runTo (dev : Device) (calls : List Call) : Device :=
  match run dev calls with
  | Except.ok d => d
  | Except.error _ => dev

/-- An endpoint device (node 2) with the link up, an idle transmitter, an empty
transmit queue of capacity 100 and no flows. -/
def exDevice : Device :=
  { nodeId := 2, m_linkUp := true, m_txMachineState := TxMachineState.READY, m_currentPkt := none,
    m_queue := [], m_queue_cap := 100, m_channel := fun _ => true, isCorrupt := fun _ => false,
    flow_info := [], queues_empty := true, CC_LATENCY := 0, scheduled := [] }

/-- The SYN of scenario S1, from 10.0.0.1:5000 to 10.0.0.2:80. -/
def exSyn : Packet :=
  { src := 167772161, dst := 167772162, protocol := 6, payloadSize := 20, srcPort := 5000,
    dstPort := 80, seq := 1000, ack := 0, flags := 2, length := 5 }

/-- The SYN-ACK of scenario S1, the answer to `exSyn`. -/
def exSynAck : Packet :=
  { src := 167772162, dst := 167772161, protocol := 6, payloadSize := 20, srcPort := 80,
    dstPort := 5000, seq := 2000, ack := 1001, flags := 18, length := 5 }

/-- The ACK of scenario S1, which ends the handshake. -/
def exAck : Packet :=
  { src := 167772161, dst := 167772162, protocol := 6, payloadSize := 20, srcPort := 5000,
    dstPort := 80, seq := 1001, ack := 2001, flags := 16, length := 5 }

/-- The payload length of the claim: `ipv4.payload_len - 4 * tcp.header_len`. -/
def payload (p : Packet) : Int := (p.payloadSize : Int) - 4 * (p.length : Int)

/-- The packet `p` was offered to the transmit queue of `dev` and `d` is the
device afterwards: with room in the queue the packet is appended, and the head
of the queue goes to the transmitter if that was `READY`; without room the queue
and the transmitter are as before. -/
def HandedToFifo (dev : Device) (p : Packet) (d : Device) : Prop :=
  if dev.m_queue.length < dev.m_queue_cap then
    if dev.m_txMachineState = TxMachineState.READY then
      d.m_txMachineState = TxMachineState.BUSY ∧
      d.m_currentPkt = (dev.m_queue ++ [p]).head? ∧
      d.m_queue = (dev.m_queue ++ [p]).tail
    else
      d.m_txMachineState = dev.m_txMachineState ∧ d.m_currentPkt = dev.m_currentPkt ∧
      d.m_queue = dev.m_queue ++ [p]
  else
    d.m_txMachineState = dev.m_txMachineState ∧ d.m_currentPkt = dev.m_currentPkt ∧
    d.m_queue = dev.m_queue

/-- A FIN|ACK segment without payload, sent by the initiator after the handshake
of scenario S1. -/
def exFin : Packet :=
  { src := 167772161, dst := 167772162, protocol := 6, payloadSize := 20, srcPort := 5000,
    dstPort := 80, seq := 1001, ack := 2001, flags := 17, length := 5 }

/-- A data segment of 1460 bytes with sequence number 5000, in the flow of
scenario S1. -/
def exData : Packet :=
  { src := 167772161, dst := 167772162, protocol := 6, payloadSize := 1480, srcPort := 5000,
    dstPort := 80, seq := 5000, ack := 2001, flags := 24, length := 5 }

/-- The first data segment of scenario S2: 1460 bytes with sequence number 1001. -/
def exData1 : Packet :=
  { src := 167772161, dst := 167772162, protocol := 6, payloadSize := 1480, srcPort := 5000,
    dstPort := 80, seq := 1001, ack := 2001, flags := 24, length := 5 }

/-- The initiator of scenario S1 after the handshake, the SYN still on the wire. -/
def exAfterHandshake : Device :=
  runTo exDevice [Call.Send exSyn, Call.Receive exSynAck, Call.Send exAck]

/-- The value of a result of the embedding, or `dflt` for a fault. -/
def valueOr {α : Type} (r : Except Fault α) (dflt : α) : α :=
  match r with
  | Except.ok x => x
  | Except.error _ => dflt

/-- The result of the embedding is a value, not a fault. -/
def isOk {α : Type} (r : Except Fault α) : Bool :=
  match r with
  | Except.ok _ => true
  | Except.error _ => false

/-- The initiator of scenario S1 after the handshake and after `Send` of the
first data segment, which is pending. -/
def exPending : Device := runTo exAfterHandshake [Call.Send exData1]

/-- The flow state after the case `ACK_RCVD` when `CC_LATENCY` is 0, so that
`RenoControl` runs inside the handler. -/
def ACK_RCVD_sync (st : FlowState) (ack : Nat) : FlowState :=
  if ACK_RCVD_transitioned st ack = true then
    RenoControl_switch (ACK_RCVD_flow st ack).cc_state (ACK_RCVD_flow st ack)
  else ACK_RCVD_flow st ack

/-- The transition table of the specification for a new ACK; `below` says
whether `cm_window < cc_ss_threshold`. -/
def newAckPhase (phase : CCState) (below : Bool) : CCState :=
  match phase with
  | CCState.START => CCState.SLOW_START
  | CCState.SLOW_START => if below = true then CCState.SLOW_START else CCState.AI
  | CCState.AI => CCState.AI
  | CCState.MD => CCState.AI
  | CCState.FR => CCState.AI
  | CCState.IDLE => if below = true then CCState.SLOW_START else CCState.AI

/-- The state `b` has the congestion-control phase and the window variables of
the state `a`. -/
def FrameCC (a b : FlowState) : Prop :=
  b.cc_state = a.cc_state ∧ b.cm_window_size = a.cm_window_size ∧
  b.cc_ss_threshold = a.cc_ss_threshold ∧ b.cc_recovery_seq = a.cc_recovery_seq ∧
  b.cc_tmp_win = a.cc_tmp_win ∧ b.max_sent__val = a.max_sent__val

/-- The transition table of the specification for an ACK that is not new: the
phase reached and whether the engine is invoked. `dup` is `dup_acks_val` and
`fresh` says whether `max_ack > cc_recovery_seq`. -/
def dupAckPhase (phase : CCState) (dup : Nat) (fresh : Bool) : CCState × Bool :=
  match phase with
  | CCState.START => (CCState.START, false)
  | CCState.SLOW_START =>
    if dup = 3 then (if fresh = true then CCState.MD else CCState.IDLE, true)
    else (CCState.SLOW_START, false)
  | CCState.AI =>
    if dup = 3 then (if fresh = true then CCState.MD else CCState.IDLE, true)
    else (CCState.AI, false)
  | CCState.MD => if dup > 0 then (CCState.FR, true) else (CCState.MD, false)
  | CCState.FR => if dup > 0 then (CCState.FR, true) else (CCState.FR, false)
  | CCState.IDLE => (CCState.IDLE, false)

/-- A pure ACK of the responder that acknowledges 1001 once more. -/
def exDupAck : Packet :=
  { src := 167772162, dst := 167772161, protocol := 6, payloadSize := 20, srcPort := 80,
    dstPort := 5000, seq := 2001, ack := 1001, flags := 16, length := 5 }

/-- The state of the flow of the packet after `Send`, as a function of its state
before (`RenoInit` for a new flow). -/
def Send_flow (st : FlowState) (p : Packet) : FlowState :=
  match st.state with
  | TCPState.SETUP => Send_handshake st p
  | TCPState.DATA =>
    if data_size p > 0 then { st with queue := PQ.push st.queue (p, p.seq) }
    else if (p.flags &&& TcpHeader.FIN) ≠ 0 then st
    else { st with state := TCPState.TEAR_DOWN }
  | TCPState.TEAR_DOWN => st

/-- The flow state after the case `ACK_RCVD` on a device whose `CC_LATENCY` is
`lat`: with a positive latency the call of `RenoControl` is only scheduled. -/
def ACK_RCVD_handled (lat : Nat) (st : FlowState) (ack : Nat) : FlowState :=
  if lat > 0 then ACK_RCVD_flow st ack else ACK_RCVD_sync st ack

/-- The state of the flow of the packet after `Receive` on a device whose
`CC_LATENCY` is `lat`, as a function of its state before (`RenoInit` for a new
flow). -/
def Receive_flow (lat : Nat) (st : FlowState) (p : Packet) : FlowState :=
  match st.state with
  | TCPState.SETUP =>
    match st.setup_state with
    | HandshakeState.NONE =>
      if (p.flags &&& TcpHeader.SYN) > 0 ∧ (p.flags &&& lnot TcpHeader.SYN) = 0 then
        { st with setup_state := HandshakeState.SYN, initiator := false }
      else st
    | HandshakeState.SYN =>
      if st.initiator = true ∧ (p.flags &&& TcpHeader.SYN) > 0 ∧
          (p.flags &&& TcpHeader.ACK) > 0 ∧
          (p.flags &&& lnot TcpHeader.SYN &&& lnot TcpHeader.ACK) = 0 then
        ACK_RCVD_handled lat { st with setup_state := HandshakeState.SYN_ACK } p.ack
      else st
    | HandshakeState.SYN_ACK =>
      if st.initiator = false ∧ (p.flags &&& TcpHeader.ACK) > 0 ∧
          (p.flags &&& lnot TcpHeader.ACK) = 0 then
        ACK_RCVD_handled lat
          { st with setup_state := HandshakeState.ACK, state := TCPState.DATA } p.ack
      else st
    | HandshakeState.ACK => st
  | TCPState.DATA =>
    if (p.flags &&& TcpHeader.ACK) > 0 then ACK_RCVD_handled lat st p.ack else st
  | TCPState.TEAR_DOWN => st

/-- The device `d` has the configuration of the device `dev`. -/
def SameConfig (dev d : Device) : Prop :=
  d.nodeId = dev.nodeId ∧ d.m_linkUp = dev.m_linkUp ∧ d.CC_LATENCY = dev.CC_LATENCY ∧
  d.isCorrupt = dev.isCorrupt

/-- The flow of the initiator after `Send` of the SYN. -/
def s1InitiatorSyn : FlowState :=
  { RenoInit default with
    initiator := true, setup_state := HandshakeState.SYN, init_seq := 1000, cm_start := 1000 }

/-- The flow of the initiator after `Receive` of the SYN-ACK on a device whose
`CC_LATENCY` is `lat`: the window grows in the call only when `lat` is 0. -/
def s1InitiatorSynAck (lat : Nat) : FlowState :=
  { RenoInit default with
    initiator := true, setup_state := HandshakeState.SYN_ACK, init_seq := 1000, cm_start := 1001,
    max_ack__val := 1001, new_ack__val := true, new_ack__ack_num := 1001,
    dup_acks__first_ack := false, dup_acks__last_ack := 1001,
    rtx_timeout__timer__isset := true, rtx_timeout__timeout_cnt := 1,
    cc_state := CCState.SLOW_START,
    cc_tmp_win := if lat > 0 then 0 else 1,
    cm_window_size := if lat > 0 then 1 else 2 }

/-- The flow of the initiator after `Send` of the ACK that ends the handshake. -/
def s1InitiatorAck (lat : Nat) : FlowState :=
  { s1InitiatorSynAck lat with setup_state := HandshakeState.ACK, state := TCPState.DATA }

/-- The flow of the responder after `Receive` of the SYN. -/
def s1ResponderSyn : FlowState :=
  { RenoInit default with initiator := false, setup_state := HandshakeState.SYN }

/-- The flow of the responder after `Send` of the SYN-ACK. -/
def s1ResponderSynAck : FlowState :=
  { RenoInit default with
    initiator := false, setup_state := HandshakeState.SYN_ACK, init_seq := 2000,
    cm_start := 2000 }

/-- The flow of the responder after `Receive` of the ACK that ends the
handshake, on a device whose `CC_LATENCY` is `lat`. -/
def s1ResponderAck (lat : Nat) : FlowState :=
  { RenoInit default with
    initiator := false, setup_state := HandshakeState.ACK, state := TCPState.DATA,
    init_seq := 2000, cm_start := 2001,
    max_ack__val := 2001, new_ack__val := true, new_ack__ack_num := 2001,
    dup_acks__first_ack := false, dup_acks__last_ack := 2001,
    rtx_timeout__timer__isset := true, rtx_timeout__timeout_cnt := 1,
    cc_state := CCState.SLOW_START,
    cc_tmp_win := if lat > 0 then 0 else 1,
    cm_window_size := if lat > 0 then 1 else 2 }

/-- A second endpoint device (node 3), the responder of scenario S1: link up,
idle transmitter, empty transmit queue of capacity 100, no flows. -/
def exResponder : Device :=
  { nodeId := 3, m_linkUp := true, m_txMachineState := TxMachineState.READY, m_currentPkt := none,
    m_queue := [], m_queue_cap := 100, m_channel := fun _ => true, isCorrupt := fun _ => false,
    flow_info := [], queues_empty := true, CC_LATENCY := 0, scheduled := [] }

/-- The starting point of scenario S3 after `k` duplicates: phase AI, window 8,
`max_sent` 20000, `cc_recovery_seq` 0, and 10000 is the last ACK seen, counted
`k` times as a duplicate and not new for the flow. -/
def S3State (st : FlowState) (k : Nat) : Prop :=
  st.cc_state = CCState.AI ∧ st.cm_window_size = 8 ∧ st.max_sent__val = 20000 ∧
  st.cc_recovery_seq = 0 ∧ st.dup_acks__first_ack = false ∧ st.dup_acks__last_ack = 10000 ∧
  st.dup_acks__val = k ∧ (10000 ≤ st.new_ack__ack_num ∨ 10000 < st.max_ack__val)

/-- A pure ACK of the responder with acknowledgment number 10000. -/
def exAck10000 : Packet :=
  { src := 167772162, dst := 167772161, protocol := 6, payloadSize := 20, srcPort := 80,
    dstPort := 5000, seq := 2001, ack := 10000, flags := 16, length := 5 }

/-- A flow in phase AI with window 8, `max_sent` 20000 and `cc_recovery_seq` 0
whose last ACK was 9000, so that 10000 is a new ACK for it. -/
def exS3Fresh : FlowState :=
  { RenoInit default with
    state := TCPState.DATA, setup_state := HandshakeState.ACK, initiator := true,
    init_seq := 1000, cm_start := 9000, cc_state := CCState.AI, cm_window_size := 8,
    cc_tmp_win := 8, cc_ss_threshold := 4, cc_recovery_seq := 0, max_sent__val := 20000,
    max_ack__val := 9000, new_ack__ack_num := 9000, new_ack__val := true,
    dup_acks__first_ack := false, dup_acks__last_ack := 9000, dup_acks__val := 0 }

/-- A flow in phase AI with window 8, `max_sent` 20000 and `cc_recovery_seq` 0
whose last ACK was 10000 already. -/
def exS3Acked : FlowState :=
  { exS3Fresh with
    cm_start := 10000, max_ack__val := 10000, new_ack__ack_num := 10000,
    dup_acks__last_ack := 10000 }

/-- The device `exDevice` with the flow of `exAck10000` in the state `st`. -/
def exS3Device (st : FlowState) : Device :=
  { exDevice with flow_info := [(recvFid exAck10000, st)] }

/-- The two lookups of `rtx_timeout__timeout`: the entry under `fid1` (source side
first) if there is one, else the entry under `fid2` (destination side first). -/
def rtx_timeout_lookup (flows : List (FlowId × FlowState)) (hdr : Packet) :
    Option (FlowId × FlowState) :=
  match FlowMap.find flows (sendFid hdr) with
  | some st => some (sendFid hdr, st)
  | none =>
    match FlowMap.find flows (recvFid hdr) with
    | some st => some (recvFid hdr, st)
    | none => none

/-- A device of a node outside the CoCoA core (node id 1), otherwise as
`exDevice`. -/
def exMiddlebox : Device := { exDevice with nodeId := 1 }

/-- The flow of scenario S4: phase AI, window 8, the timer armed with generation
number 5 and not yet expired. -/
def exS4Flow : FlowState :=
  { exS3Fresh with
    rtx_timeout__timeout_cnt := 5, rtx_timeout__timer__isset := true,
    rtx_timeout__val := false }

/-- The flow of scenario S5: as `exS4Flow`, re-armed once more, so that its
generation number is 6. -/
def exS5Flow : FlowState := { exS4Flow with rtx_timeout__timeout_cnt := 6 }

/-- The last block of `CoCoASched`, seen from outside: `d` is the device after
the block when the admission loop left the transmit queue `q`. A `READY`
transmitter takes the head of a non-empty queue. -/
def TransmitFromFifo (dev : Device) (q : List Packet) (d : Device) : Prop :=
  if dev.m_txMachineState = TxMachineState.READY ∧ q.length > 0 then
    d.m_txMachineState = TxMachineState.BUSY ∧ d.m_currentPkt = q.head? ∧ d.m_queue = q.tail
  else
    d.m_txMachineState = dev.m_txMachineState ∧ d.m_currentPkt = dev.m_currentPkt ∧
    d.m_queue = q

/-- The second data segment of scenario S6: 1460 bytes with sequence number 6460. -/
def exData6460 : Packet :=
  { src := 167772161, dst := 167772162, protocol := 6, payloadSize := 1480, srcPort := 5000,
    dstPort := 80, seq := 6460, ack := 2001, flags := 24, length := 5 }

/-- The flow of scenario S6: the segments 5000 and 6460 are pending and an ACK
has moved `cm_start` to 6460. -/
def exS6Flow : FlowState :=
  { RenoInit default with
    state := TCPState.DATA, setup_state := HandshakeState.ACK, initiator := true,
    init_seq := 1000, cm_start := 6460, cc_state := CCState.SLOW_START, cm_window_size := 3,
    cc_tmp_win := 2, max_ack__val := 6460, new_ack__ack_num := 6460, new_ack__val := true,
    dup_acks__first_ack := false, dup_acks__last_ack := 6460,
    rtx_timeout__timer__isset := true, rtx_timeout__timeout_cnt := 2,
    queue := [(exData, 5000), (exData6460, 6460)] }

/-- The device of scenario S6: `exDevice` with the single flow `exS6Flow`. -/
def exS6Device : Device :=
  { exDevice with flow_info := [(sendFid exData, exS6Flow)], queues_empty := false }

/-- The events of a flow that touch the retransmission timer and the ACK
bookkeeping, as the entry points raise them. -/
inductive FlowEvent
  /-- The event `PKT_SENT`, raised by `TransmitComplete` for the packet sent, under
  the key with the source side first. -/
  | PKT_SENT (p : Packet)
  /-- The event `ACK_RCVD`, raised by `Receive` for the packet received, under the
  key with the destination side first. -/
  | ACK_RCVD (p : Packet)
  /-- The call `rtx_timeout__timeout (ipv4, tcp, cnt)` made by the scheduler. -/
  | rto_fire (hdr : Packet) (cnt : Nat)

/-- One event of a flow, run on the device. -/
def flowEvent (dev : Device) (ev : FlowEvent) : Except Fault Device :=
  match ev with
  | FlowEvent.PKT_SENT p => CoCoAEventHandler dev (sendFid p) p CCEvent.PKT_SENT
  | FlowEvent.ACK_RCVD p => CoCoAEventHandler dev (recvFid p) p CCEvent.ACK_RCVD
  | FlowEvent.rto_fire hdr cnt => rtx_timeout__timeout dev hdr cnt

/-- A sequence of events, each run on the device left by the one before. -/
def flowEvents (dev : Device) : List FlowEvent → Except Fault Device
  | [] => Except.ok dev
  | ev :: evs =>
    match flowEvent dev ev with
    | Except.error e => Except.error e
    | Except.ok dev1 => flowEvents dev1 evs

/-- The state `b` has the ACK bookkeeping of the state `a`. -/
def SameAcks (a b : FlowState) : Prop :=
  b.max_ack__val = a.max_ack__val ∧ b.new_ack__val = a.new_ack__val ∧
  b.new_ack__ack_num = a.new_ack__ack_num ∧ b.dup_acks__val = a.dup_acks__val ∧
  b.dup_acks__first_ack = a.dup_acks__first_ack ∧ b.dup_acks__last_ack = a.dup_acks__last_ack

/-- The number of the last new ACK is the highest ACK number seen. -/
def AckInv (st : FlowState) : Prop := st.new_ack__ack_num = st.max_ack__val

/-- A pure ACK of the responder with acknowledgment number 2461, the first new
ACK of scenario S2. -/
def exAck2461 : Packet :=
  { src := 167772162, dst := 167772161, protocol := 6, payloadSize := 20, srcPort := 80,
    dstPort := 5000, seq := 2001, ack := 2461, flags := 16, length := 5 }

/-- The device `exDevice` with one freshly initialised flow, the one of the ACKs
sent by the responder. -/
def exFreshFlow : Device := exS3Device (RenoInit default)

/-- The generation numbers handed to the scheduler with the calls
`Schedule (timer_delay, rtx_timeout__timeout, ipv4, tcp, cnt)`, in the order of
the calls. -/
def rtxCounts (evs : List SimEvent) : List Nat :=
  evs.filterMap (fun e =>
    match e with
    | SimEvent.rtx_timeout _ _ c => some c
    | _ => none)

/-- The effect of one event on the generation counter of the single flow `fid`
of a device: the counter and the scheduled numbers stay, or the counter is
incremented and its new value is scheduled. -/
def GenStep (fid : FlowId) (dev d : Device) : Prop :=
  ∀ st, dev.flow_info = [(fid, st)] →
    ∃ st1, d.flow_info = [(fid, st1)] ∧
      ((st1.rtx_timeout__timeout_cnt = st.rtx_timeout__timeout_cnt ∧
          rtxCounts d.scheduled = rtxCounts dev.scheduled) ∨
       (st1.rtx_timeout__timeout_cnt = st.rtx_timeout__timeout_cnt + 1 ∧
          rtxCounts d.scheduled =
            rtxCounts dev.scheduled ++ [st.rtx_timeout__timeout_cnt + 1]))

/-- The generation-counter invariant of a device with the single flow `fid`: the
scheduled numbers increase strictly and none exceeds the counter of the flow. -/
def GenInv (fid : FlowId) (dev : Device) : Prop :=
  ∃ st, dev.flow_info = [(fid, st)] ∧
    List.Pairwise (fun a b => a < b) (rtxCounts dev.scheduled) ∧
    ∀ c ∈ rtxCounts dev.scheduled, c ≤ st.rtx_timeout__timeout_cnt

/-- A sequence of events of the flow of `exFreshFlow`: a packet is sent, two new
ACKs arrive, the first timer fires (stale), another packet is sent. -/
def exGenEvents : List FlowEvent :=
  [FlowEvent.PKT_SENT exData1, FlowEvent.ACK_RCVD exAck2461, FlowEvent.ACK_RCVD exAck10000,
   FlowEvent.rto_fire exData1 1, FlowEvent.PKT_SENT exData6460]

/-- The pending queue is in ascending order of its keys, and the key of every
entry is the sequence number of its packet, as `PKT_ENQ` pushes it. -/
def QueueInv (q : List (Packet × Nat)) : Prop :=
  q.Pairwise (fun a b => a.2 ≤ b.2) ∧ ∀ x ∈ q, x.2 = x.1.seq

/-- No pending packet of the flow lies below the window edge `cm_start`. -/
def NoneBelow (st : FlowState) : Prop := ∀ x ∈ st.queue, st.cm_start ≤ x.1.seq

/-- The entry `e1` has the key of the entry `e`, and no pending packet below its
window edge provided that the queue of `e` satisfied `QueueInv`. -/
def Tidied (e e1 : FlowId × FlowState) : Prop :=
  e.1 = e1.1 ∧ (QueueInv e.2.queue → NoneBelow e1.2)

/-- Every flow of the table has a pending queue that satisfies `QueueInv`. -/
def DevQueueInv (m : List (FlowId × FlowState)) : Prop :=
  ∀ fid st, FlowMap.find m fid = some st → QueueInv st.queue

/-- The device `exDevice` with a transmit queue of capacity 1. -/
def exSmallFifo : Device := { exDevice with m_queue_cap := 1 }

/-- The SYN of a second flow of the same hosts, from port 5001. -/
def exSynB : Packet := { exSyn with srcPort := 5001 }

/-- The SYN-ACK of the second flow. -/
def exSynAckB : Packet := { exSynAck with dstPort := 5001 }

/-- The ACK that ends the handshake of the second flow. -/
def exAckB : Packet := { exAck with srcPort := 5001 }

/-- A data segment of the second flow: 1460 bytes with sequence number 5000. -/
def exDataB5000 : Packet := { exData with srcPort := 5001 }

/-- A data segment of the second flow: 1460 bytes with sequence number 6460. -/
def exDataB6460 : Packet := { exData6460 with srcPort := 5001 }

/-- A pure ACK of the responder for the second flow, with number 6460. -/
def exAckB6460 : Packet := { exAck10000 with dstPort := 5001, ack := 6460 }

/-- Two flows on `exSmallFifo`: the handshake of the first flow and one data
segment for it; then the handshake of the second flow, two data segments for it
and an ACK that moves its window edge to 6460. The ACK of the first handshake
stays in the transmit queue, which is full with it. -/
def exTwoFlowCalls : List Call :=
  [Call.Send exSyn, Call.Receive exSynAck, Call.Send exAck, Call.Send exData1,
   Call.Send exSynB, Call.Receive exSynAckB, Call.Send exAckB,
   Call.Send exDataB5000, Call.Send exDataB6460, Call.Receive exAckB6460]

/-- The flow of scenario S3 when the third duplicate ACK has been counted:
`cm_window_size = 8` and `dup_acks__val = 3`. -/
def exS3Third : FlowState := { exS3Acked with dup_acks__val := 3 }

/-- The state `b` has the window variables of the engine of the state `a`. -/
def SameWin (a b : FlowState) : Prop :=
  b.cm_window_size = a.cm_window_size ∧ b.cc_tmp_win = a.cc_tmp_win ∧
  b.cc_ss_threshold = a.cc_ss_threshold ∧ b.cc_recovery_seq = a.cc_recovery_seq

/-- The calls that leave a single packet pending below the window edge: the
handshake of `exSyn`, the data segment 5000 with the call of `CoCoASched` that
`PKT_ENQ` schedules (the segment is beyond the window and stays pending), and an
ACK with number 10000. -/
def exStaleCalls : List Call :=
  [Call.Send exSyn, Call.Receive exSynAck, Call.Send exAck, Call.Send exData,
   Call.CoCoASched, Call.Receive exAck10000]

/-- The fault of a result of the embedding, if it is one. -/
def faultOf {α : Type} (r : Except Fault α) : Option Fault :=
  match r with
  | Except.ok _ => none
  | Except.error e => some e

/-- The position of a TCP phase in the order `SETUP < DATA < TEAR_DOWN`. -/
def phaseRank : TCPState → Nat
  | TCPState.SETUP => 0
  | TCPState.DATA => 1
  | TCPState.TEAR_DOWN => 2

/-- The retransmission timer of `b` is that of `a`, armed once more: the
generation number incremented by one, the timer set, the flag of expiry cleared. -/
def Armed (a b : FlowState) : Prop :=
  b.rtx_timeout__timeout_cnt = a.rtx_timeout__timeout_cnt + 1 ∧
  b.rtx_timeout__timer__isset = true ∧ b.rtx_timeout__val = false

/-- The retransmission timer of `b` is that of `a`: generation number, set flag
and flag of expiry. -/
def SameTimer (a b : FlowState) : Prop :=
  b.rtx_timeout__timeout_cnt = a.rtx_timeout__timeout_cnt ∧
  b.rtx_timeout__timer__isset = a.rtx_timeout__timer__isset ∧
  b.rtx_timeout__val = a.rtx_timeout__val

/-- A flow in DATA at the end of the sequence space: all bytes up to 4294967196
are sent and acknowledged, and the timer is not set. -/
def exWrapFlow : FlowState :=
  { exS3Fresh with
    cm_start := 4294967196, max_sent__val := 4294967196, max_ack__val := 4294967196,
    new_ack__ack_num := 4294967196, rtx_timeout__timer__isset := false }

/-- A data segment of 1460 bytes with sequence number 4294967196: its last byte
is beyond the end of the 32-bit sequence space. -/
def exWrapData : Packet := { exData with seq := 4294967196 }

/-- A flow in DATA with window 1 from `cm_start = 5000` whose pending queue holds
the segment 6460, beyond the window. -/
def exBlockedFlow : FlowState :=
  { exS3Fresh with
    cm_start := 5000, cm_window_size := 1, cc_tmp_win := 1, queue := [(exData6460, 6460)] }

/-- The device `exDevice` with the single flow `exBlockedFlow`. -/
def exBlockedDevice : Device :=
  { exDevice with flow_info := [(sendFid exData6460, exBlockedFlow)], queues_empty := false }

/-- The relation between `cc_tmp_win` and `cm_window_size` that the code keeps:
they are equal in AI; in START, SLOW_START and IDLE the window is `cc_tmp_win`
or `cc_tmp_win + 1`; nothing is said in MD and FR. -/
def ShadowInv (st : FlowState) : Prop :=
  match st.cc_state with
  | CCState.START =>
    st.cm_window_size = st.cc_tmp_win ∨ st.cm_window_size = st.cc_tmp_win + 1
  | CCState.SLOW_START =>
    st.cm_window_size = st.cc_tmp_win ∨ st.cm_window_size = st.cc_tmp_win + 1
  | CCState.AI => st.cm_window_size = st.cc_tmp_win
  | CCState.MD => True
  | CCState.FR => True
  | CCState.IDLE =>
    st.cm_window_size = st.cc_tmp_win ∨ st.cm_window_size = st.cc_tmp_win + 1

/-- The flow state left by a call of `rtx_timeout__timeout` that finds the flow
`st`, on a device with `CC_LATENCY = 0`. -/
def rto_fire_flow (st : FlowState) (cnt : Nat) : FlowState :=
  if st.rtx_timeout__timeout_cnt = cnt then
    if st.rtx_timeout__val = false then
      match st.cc_state with
      | CCState.START =>
        { st with rtx_timeout__timer__isset := false, rtx_timeout__val := true }
      | _ =>
        RenoControl_switch CCState.START
          { st with rtx_timeout__timer__isset := false, rtx_timeout__val := true,
                    cc_state := CCState.START }
    else { st with rtx_timeout__timer__isset := false, rtx_timeout__val := true }
  else st

/-- Every flow of the table satisfies `ShadowInv`. -/
def DevShadow (m : List (FlowId × FlowState)) : Prop :=
  ∀ fid st, FlowMap.find m fid = some st → ShadowInv st

/-- Pure ACKs of the responder with the numbers `base + 1`, ..., `base + n`. -/
def ackRun : Nat → Nat → List Packet
  | _, 0 => []
  | base, n + 1 => { exAck2461 with ack := base + 1 } :: ackRun (base + 1) n

/-- The window is at least one segment and `cc_tmp_win` is not negative, and
positive once the flow has left the phase START. -/
def WinInv (st : FlowState) : Prop :=
  1 ≤ st.cm_window_size ∧ 0 ≤ st.cc_tmp_win ∧
  (st.cc_state ≠ CCState.START → 0 < st.cc_tmp_win)

/-- Every flow of the table satisfies the predicate `I`. -/
def DevAll (I : FlowState → Prop) (m : List (FlowId × FlowState)) : Prop :=
  ∀ fid st, FlowMap.find m fid = some st → I st

/-- The last packet of the pending queue, if there is one, is not below the
window edge `cm_start`. -/
def LastOk (st : FlowState) : Prop :=
  ∀ x, st.queue.getLast? = some x → st.cm_start ≤ x.1.seq

/-- Entry by entry, the table `m1` is the table `m` after pops from the pending
queues, and every popped packet is accounted for: the packets of the queue
before are, as a multiset, those of the queue after, those admitted (`adm`) and
those dropped (`drp`); the dropped ones lie below `cm_start` of the flow and the
admitted ones passed its window test. The third argument is the multiset of the
packets admitted from all entries. -/
inductive Accounted :
    List (FlowId × FlowState) → List (FlowId × FlowState) → Multiset Packet → Prop
  | nil : Accounted [] [] 0
  | cons (e e1 : FlowId × FlowState) (rest rest1 : List (FlowId × FlowState))
      (adm drp : List Packet) (A B : Multiset Packet)
      (hp : Popped e e1)
      (hq : (↑(e.2.queue.map Prod.fst) : Multiset Packet) =
        ↑(e1.2.queue.map Prod.fst) + ↑adm + ↑drp)
      (hd : ∀ x ∈ drp, x.seq < e.2.cm_start)
      (ha : ∀ x ∈ adm, fitsWindow e.2 x = true)
      (hrest : Accounted rest rest1 A) (hB : B = ↑adm + A) :
      Accounted (e :: rest) (e1 :: rest1) B

/-- A flow in DATA with window 8 from `cm_start = 6460` whose pending queue holds
the segment 6460, inside the window. -/
def exFitFlow : FlowState :=
  { exS3Fresh with cm_start := 6460, queue := [(exData6460, 6460)] }

/-- The state `b` has the congestion-control phase and the window variables of
the engine of the state `a`. -/
def SameCC (a b : FlowState) : Prop := b.cc_state = a.cc_state ∧ SameWin a b

/-- The writes of the `ACK_RCVD` case to a flow state: none, or the case up to the
end of its switch, or that and the switch of `RenoControl` for the phase the
case reached. -/
def AckWrite (ack : Nat) (a b : FlowState) : Prop :=
  b = a ∨ b = ACK_RCVD_flow a ack ∨
    b = RenoControl_switch (ACK_RCVD_flow a ack).cc_state (ACK_RCVD_flow a ack)

/-- What `Receive` can do to a flow: writes that keep the phase and the window
variables (giving `a1`), followed by the writes of the `ACK_RCVD` case. -/
def AckStep (ack : Nat) (a b : FlowState) : Prop :=
  ∃ a1, SameCC a a1 ∧ AckWrite ack a1 b

/-- The writes of `rtx_timeout__timeout` to the phase and the window variables:
none, or the assignment `st.cc_state = START`, or that and the switch of
`RenoControl` for START. -/
def RtoWrite (a b : FlowState) : Prop :=
  b = a ∨ b = { a with cc_state := CCState.START } ∨
    b = RenoControl_switch CCState.START { a with cc_state := CCState.START }

/-- What `rtx_timeout__timeout` can do to a flow: writes that keep the phase and
the window variables (giving `a1`), followed by the writes of `RtoWrite`. -/
def RtoStep (a b : FlowState) : Prop :=
  ∃ a1, SameCC a a1 ∧ RtoWrite a1 b

/-- What the call `RenoControl (s, fid)` can do to a flow: nothing, or the switch
of `RenoControl` for `s`. -/
def EngineStep (s : CCState) (a b : FlowState) : Prop :=
  b = a ∨ b = RenoControl_switch s a

/-! ## The flow table -/

theorem FlowMap_find_insert_self (m : List (FlowId × FlowState)) (fid : FlowId) (s : FlowState) :
    FlowMap.find (FlowMap.insert m fid s) fid = some s := by
  induction m with
  | nil => simp [FlowMap.insert, FlowMap.find]
  | cons e rest ih =>
    obtain ⟨k, v⟩ := e
    by_cases h : fid = k
    · simp [FlowMap.insert, FlowMap.find, h]
    · by_cases hl : FlowId.lt fid k = true
      · simp [FlowMap.insert, FlowMap.find, h, hl]
      · simp [FlowMap.insert, FlowMap.find, h, hl, ih]

theorem FlowMap_find_insert_ne (m : List (FlowId × FlowState)) (fid k : FlowId) (s : FlowState)
    (hk : k ≠ fid) : FlowMap.find (FlowMap.insert m fid s) k = FlowMap.find m k := by
  induction m with
  | nil => simp [FlowMap.insert, FlowMap.find, hk]
  | cons e rest ih =>
    obtain ⟨k0, v⟩ := e
    by_cases h : fid = k0
    · subst h
      simp [FlowMap.insert, FlowMap.find, hk]
    · by_cases hl : FlowId.lt fid k0 = true
      · simp [FlowMap.insert, FlowMap.find, h, hl, hk]
      · by_cases hk0 : k = k0
        · simp [FlowMap.insert, FlowMap.find, h, hl, hk0]
        · simp [FlowMap.insert, FlowMap.find, h, hl, hk0, ih]

theorem find_ensureFlow_self (m : List (FlowId × FlowState)) (fid : FlowId) :
    FlowMap.find (ensureFlow m fid) fid = some (flowOf m fid) := by
  unfold ensureFlow flowOf
  cases h : FlowMap.find m fid with
  | none => simp [FlowMap_find_insert_self]
  | some st => simp [h]

theorem find_ensureFlow_ne (m : List (FlowId × FlowState)) (fid k : FlowId) (hk : k ≠ fid) :
    FlowMap.find (ensureFlow m fid) k = FlowMap.find m k := by
  unfold ensureFlow
  cases h : FlowMap.find m fid with
  | none => simp [FlowMap_find_insert_ne _ _ _ _ hk]
  | some st => simp

theorem flowOf_of_find {m : List (FlowId × FlowState)} {fid : FlowId} {st : FlowState}
    (h : FlowMap.find m fid = some st) : flowOf m fid = st := by
  simp [flowOf, h]

theorem ensureFlow_of_find {m : List (FlowId × FlowState)} {fid : FlowId} {st : FlowState}
    (h : FlowMap.find m fid = some st) : ensureFlow m fid = m := by
  simp [ensureFlow, h]

theorem flowOf_of_none {m : List (FlowId × FlowState)} {fid : FlowId}
    (h : FlowMap.find m fid = none) : flowOf m fid = RenoInit default := by
  simp [flowOf, h]

theorem Evolves_refl {R : FlowState → FlowState → Prop} (hr : ∀ s, R s s)
    (m : List (FlowId × FlowState)) : Evolves R m m := by
  intro fid
  refine ⟨fun st1 h => ⟨st1, h, hr st1⟩, fun h st2 h2 => ?_⟩
  rw [h] at h2
  cases h2

theorem Evolves_trans {R : FlowState → FlowState → Prop}
    (ht : ∀ a b c, R a b → R b c → R a c) {m1 m2 m3 : List (FlowId × FlowState)}
    (h12 : Evolves R m1 m2) (h23 : Evolves R m2 m3) : Evolves R m1 m3 := by
  intro fid
  refine ⟨fun st1 h => ?_, fun h st3 h3 => ?_⟩
  · obtain ⟨st2, h2, r12⟩ := (h12 fid).1 st1 h
    obtain ⟨st3, h3, r23⟩ := (h23 fid).1 st2 h2
    exact ⟨st3, h3, ht _ _ _ r12 r23⟩
  · cases h2 : FlowMap.find m2 fid with
    | none =>
      exact (h23 fid).2 h2 st3 h3
    | some st2 =>
      obtain ⟨st3b, h3b, r23⟩ := (h23 fid).1 st2 h2
      rw [h3] at h3b
      cases h3b
      exact ht _ _ _ ((h12 fid).2 h st2 h2) r23

theorem Evolves_of_ensureFlow {R : FlowState → FlowState → Prop} (hr : ∀ s, R s s)
    (m : List (FlowId × FlowState)) (fid : FlowId) : Evolves R m (ensureFlow m fid) := by
  intro k
  by_cases hk : k = fid
  · subst hk
    rw [find_ensureFlow_self]
    refine ⟨fun st1 h => ⟨_, rfl, ?_⟩, fun h st2 h2 => ?_⟩
    · rw [flowOf_of_find h]
      exact hr st1
    · rw [flowOf_of_none h] at h2
      cases h2
      exact hr _
  · rw [find_ensureFlow_ne _ _ _ hk]
    refine ⟨fun st1 h => ⟨st1, h, hr st1⟩, fun h st2 h2 => ?_⟩
    rw [h] at h2
    cases h2

theorem Evolves_of_insert {R : FlowState → FlowState → Prop} (hr : ∀ s, R s s)
    (m : List (FlowId × FlowState)) (fid : FlowId) (s : FlowState)
    (hs : R (flowOf m fid) s) : Evolves R m (FlowMap.insert m fid s) := by
  intro k
  by_cases hk : k = fid
  · subst hk
    rw [FlowMap_find_insert_self]
    refine ⟨fun st1 h => ⟨_, rfl, ?_⟩, fun h st2 h2 => ?_⟩
    · rw [flowOf_of_find h] at hs
      exact hs
    · rw [flowOf_of_none h] at hs
      cases h2
      exact hs
  · rw [FlowMap_find_insert_ne _ _ _ _ hk]
    refine ⟨fun st1 h => ⟨st1, h, hr st1⟩, fun h st2 h2 => ?_⟩
    rw [h] at h2
    cases h2

/-! ## What one entry-point call can do to a flow -/

theorem FlowTrans_refl (s : FlowState) : FlowTrans s s := Relation.ReflTransGen.refl

theorem FlowTrans_trans3 (a b c : FlowState) (h1 : FlowTrans a b) (h2 : FlowTrans b c) :
    FlowTrans a c := Relation.ReflTransGen.trans h1 h2

theorem FlowTrans_one {a b : FlowState} (h : Atomic a b) : FlowTrans a b :=
  Relation.ReflTransGen.single h

theorem FlowTrans_two {a b c : FlowState} (h1 : Atomic a b) (h2 : Atomic b c) : FlowTrans a c :=
  Relation.ReflTransGen.trans (Relation.ReflTransGen.single h1) (Relation.ReflTransGen.single h2)

theorem Evolves_mono {R S : FlowState → FlowState → Prop} (h : ∀ a b, R a b → S a b)
    {m1 m2 : List (FlowId × FlowState)} (he : Evolves R m1 m2) : Evolves S m1 m2 := by
  intro fid
  refine ⟨fun st1 h1 => ?_, fun h1 st2 h2 => h _ _ ((he fid).2 h1 st2 h2)⟩
  obtain ⟨st2, h2, r⟩ := (he fid).1 st1 h1
  exact ⟨st2, h2, h _ _ r⟩

theorem flowOf_ensureFlow (m : List (FlowId × FlowState)) (fid : FlowId) :
    flowOf (ensureFlow m fid) fid = flowOf m fid := by
  have h := find_ensureFlow_self m fid
  simp [flowOf, h]

/-- A write to the entry of `fid` after the block that creates unknown flows. -/
theorem Evolves_ensure_insert (m : List (FlowId × FlowState)) (fid : FlowId) (s : FlowState)
    (hs : FlowTrans (flowOf m fid) s) :
    Evolves FlowTrans m (FlowMap.insert (ensureFlow m fid) fid s) := by
  refine Evolves_trans FlowTrans_trans3 (Evolves_of_ensureFlow FlowTrans_refl m fid) ?_
  apply Evolves_of_insert FlowTrans_refl
  rw [flowOf_ensureFlow]
  exact hs

/-- A write to the entry of `fid`, whose state `st` was found in the table. -/
theorem Evolves_found_insert (m : List (FlowId × FlowState)) (fid : FlowId) (st s : FlowState)
    (hf : FlowMap.find m fid = some st) (hs : FlowTrans st s) :
    Evolves FlowTrans m (FlowMap.insert m fid s) := by
  apply Evolves_of_insert FlowTrans_refl
  rw [flowOf_of_find hf]
  exact hs

/-! ## The transmit queue and `TransmitStart` -/

theorem TransmitStart_flows {dev : Device} {p : Packet} {r : Bool} {d : Device}
    (h : TransmitStart dev p = Except.ok (r, d)) :
    d.flow_info = dev.flow_info ∧ d.queues_empty = dev.queues_empty ∧
    d.m_queue = dev.m_queue ∧ d.nodeId = dev.nodeId ∧ d.CC_LATENCY = dev.CC_LATENCY := by
  unfold TransmitStart at h
  split at h
  · cases h
    simp
  · cases h

theorem Send_direct_flows {dev : Device} {p : Packet} {r : Bool} {d : Device}
    (h : Send_direct dev p = Except.ok (r, d)) :
    d.flow_info = dev.flow_info ∧ d.queues_empty = dev.queues_empty ∧
    d.nodeId = dev.nodeId ∧ d.CC_LATENCY = dev.CC_LATENCY := by
  unfold Send_direct at h
  split at h
  · split at h
    · split at h
      · have := TransmitStart_flows h
        simpa using ⟨this.1, this.2.1, this.2.2.2⟩
      · cases h
    · cases h
      simp
  · cases h
    simp

theorem Send_fin_flows {dev : Device} {p : Packet} {r : Bool} {d : Device}
    (h : Send_fin dev p = Except.ok (r, d)) :
    d.flow_info = dev.flow_info ∧ d.queues_empty = dev.queues_empty ∧
    d.nodeId = dev.nodeId ∧ d.CC_LATENCY = dev.CC_LATENCY := by
  unfold Send_fin at h
  split at h
  · split at h
    · split at h
      · have := TransmitStart_flows h
        simpa using ⟨this.1, this.2.1, this.2.2.2⟩
      · cases h
    · cases h
      simp
  · cases h
    simp

/-! ## The flow table across the engine and the event handler -/

theorem RenoControl_evolves {dev : Device} {s : CCState} {fid : FlowId} {d : Device}
    (h : RenoControl dev s fid = Except.ok d) : Evolves FlowTrans dev.flow_info d.flow_info := by
  unfold RenoControl at h
  split at h
  · cases h
  · rename_i st hf
    cases h
    exact Evolves_found_insert _ _ st _ hf (FlowTrans_one (Atomic.reno st s))

theorem RenoControl_config {dev : Device} {s : CCState} {fid : FlowId} {d : Device}
    (h : RenoControl dev s fid = Except.ok d) :
    d.nodeId = dev.nodeId ∧ d.CC_LATENCY = dev.CC_LATENCY := by
  unfold RenoControl at h
  split at h
  · cases h
  · cases h
    simp

theorem CoCoAEventHandler_evolves {dev : Device} {key : FlowId} {p : Packet} {ev : CCEvent}
    {d : Device} (h : CoCoAEventHandler dev key p ev = Except.ok d)
    (hack : ev = CCEvent.ACK_RCVD → ∀ st, FlowMap.find dev.flow_info key = some st →
      st.state = TCPState.DATA ∨ st.setup_state = HandshakeState.SYN_ACK) :
    Evolves FlowTrans dev.flow_info d.flow_info := by
  unfold CoCoAEventHandler at h
  split at h
  · cases h
  · rename_i st hf
    cases ev with
    | PKT_ENQ =>
      simp only at h
      cases h
      exact Evolves_found_insert _ _ st _ hf
        (FlowTrans_one (Atomic.queue st _ (Or.inr ⟨p, rfl⟩)))
    | PKT_DEQ =>
      simp only at h
      cases h
      exact Evolves_refl FlowTrans_refl _
    | PKT_SENT =>
      simp only at h
      cases h
      exact Evolves_found_insert _ _ st _ hf (FlowTrans_one (Atomic.sent st p))
    | ACK_RCVD =>
      simp only at h
      have h1 : Evolves FlowTrans dev.flow_info
          (FlowMap.insert dev.flow_info key (ACK_RCVD_flow st p.ack)) :=
        Evolves_found_insert _ _ st _ hf (FlowTrans_one (Atomic.ack st p.ack (hack rfl st hf)))
      split at h
      · split at h
        · cases h
          exact h1
        · exact Evolves_trans FlowTrans_trans3 h1 (RenoControl_evolves h)
      · cases h
        exact h1

theorem CoCoAEventHandler_config {dev : Device} {key : FlowId} {p : Packet} {ev : CCEvent}
    {d : Device} (h : CoCoAEventHandler dev key p ev = Except.ok d) :
    d.nodeId = dev.nodeId ∧ d.CC_LATENCY = dev.CC_LATENCY := by
  unfold CoCoAEventHandler at h
  split at h
  · cases h
  · cases ev with
    | PKT_ENQ =>
      simp only at h
      cases h
      simp
    | PKT_DEQ =>
      simp only at h
      cases h
      simp
    | PKT_SENT =>
      simp only at h
      cases h
      simp
    | ACK_RCVD =>
      simp only at h
      split at h
      · split at h
        · cases h
          simp
        · simpa using RenoControl_config h
      · cases h
        simp

/-! ## The flow table across the entry points -/

theorem Send_evolves {dev : Device} {p : Packet} {r : Bool} {d : Device}
    (h : Send dev p = Except.ok (r, d)) : Evolves FlowTrans dev.flow_info d.flow_info := by
  unfold Send at h
  split at h
  · cases h
    exact Evolves_refl FlowTrans_refl _
  · split at h
    · simp only at h
      split at h
      · rename_i hst
        have hd := (Send_direct_flows h).1
        simp only at hd
        rw [hd]
        exact Evolves_ensure_insert _ _ _ (FlowTrans_one (Atomic.handshake _ p hst))
      · rename_i hst
        split at h
        · split at h
          · cases h
          · rename_i d1 hh
            cases h
            have he := CoCoAEventHandler_evolves hh (by intro hc; cases hc)
            simp only at he
            exact Evolves_trans FlowTrans_trans3 (Evolves_of_ensureFlow FlowTrans_refl _ _) he
        · split at h
          · have hd := (Send_fin_flows h).1
            simp only at hd
            rw [hd]
            exact Evolves_of_ensureFlow FlowTrans_refl _ _
          · have hd := (Send_direct_flows h).1
            simp only at hd
            rw [hd]
            exact Evolves_ensure_insert _ _ _ (FlowTrans_one (Atomic.tear _ hst))
      · have hd := (Send_direct_flows h).1
        simp only at hd
        rw [hd]
        exact Evolves_of_ensureFlow FlowTrans_refl _ _
    · rw [(Send_direct_flows h).1]
      exact Evolves_refl FlowTrans_refl _

theorem find_insert_ensure (m : List (FlowId × FlowState)) (fid : FlowId) (s : FlowState) :
    FlowMap.find (FlowMap.insert (ensureFlow m fid) fid s) fid = some s :=
  FlowMap_find_insert_self _ _ _

theorem Receive_evolves {dev : Device} {p : Packet} {d : Device}
    (h : Receive dev p = Except.ok d) : Evolves FlowTrans dev.flow_info d.flow_info := by
  unfold Receive at h
  split at h
  · cases h
    exact Evolves_refl FlowTrans_refl _
  · split at h
    · simp only at h
      split at h
      · rename_i hst
        split at h
        · rename_i hs
          split at h
          · cases h
            exact Evolves_ensure_insert _ _ _ (FlowTrans_one (Atomic.recv_syn _ hst hs))
          · cases h
            exact Evolves_of_ensureFlow FlowTrans_refl _ _
        · rename_i hs
          split at h
          · rename_i hc
            have he := CoCoAEventHandler_evolves h (by
              intro _ st hf
              simp only [find_insert_ensure] at hf
              cases hf
              exact Or.inr rfl)
            simp only at he
            exact Evolves_trans FlowTrans_trans3
              (Evolves_ensure_insert _ _ _ (FlowTrans_one (Atomic.recv_synack _ hst hs hc.1))) he
          · cases h
            exact Evolves_of_ensureFlow FlowTrans_refl _ _
        · rename_i hs
          split at h
          · rename_i hc
            have he := CoCoAEventHandler_evolves h (by
              intro _ st hf
              simp only [find_insert_ensure] at hf
              cases hf
              exact Or.inl rfl)
            simp only at he
            exact Evolves_trans FlowTrans_trans3
              (Evolves_ensure_insert _ _ _ (FlowTrans_one (Atomic.recv_ack _ hst hs hc.1))) he
          · cases h
            exact Evolves_of_ensureFlow FlowTrans_refl _ _
        · cases h
          exact Evolves_of_ensureFlow FlowTrans_refl _ _
      · rename_i hst
        split at h
        · have he := CoCoAEventHandler_evolves h (by
            intro _ st hf
            simp only [find_ensureFlow_self] at hf
            cases hf
            exact Or.inl hst)
          simp only at he
          exact Evolves_trans FlowTrans_trans3 (Evolves_of_ensureFlow FlowTrans_refl _ _) he
        · cases h
          exact Evolves_of_ensureFlow FlowTrans_refl _ _
      · cases h
        exact Evolves_of_ensureFlow FlowTrans_refl _ _
    · cases h
      exact Evolves_refl FlowTrans_refl _

theorem rtx_timeout_found_evolves {dev : Device} {fid : FlowId} {st : FlowState} {cnt : Nat}
    {d : Device} (hf : FlowMap.find dev.flow_info fid = some st)
    (h : rtx_timeout_found dev fid st cnt = Except.ok d) :
    Evolves FlowTrans dev.flow_info d.flow_info := by
  unfold rtx_timeout_found at h
  split at h
  · simp only at h
    split at h
    · split at h
      · cases h
        exact Evolves_found_insert _ _ st _ hf (FlowTrans_one (Atomic.rto st))
      · have h1 : Evolves FlowTrans dev.flow_info (FlowMap.insert dev.flow_info fid
            { st with rtx_timeout__timer__isset := false, rtx_timeout__val := true,
                      cc_state := CCState.START }) :=
          Evolves_found_insert _ _ st _ hf
            (FlowTrans_two (Atomic.rto st) (Atomic.rto_start _))
        split at h
        · cases h
          exact h1
        · exact Evolves_trans FlowTrans_trans3 h1 (RenoControl_evolves h)
    · cases h
      exact Evolves_found_insert _ _ st _ hf (FlowTrans_one (Atomic.rto st))
  · cases h
    exact Evolves_refl FlowTrans_refl _

theorem rtx_timeout_evolves {dev : Device} {hdr : Packet} {cnt : Nat} {d : Device}
    (h : rtx_timeout__timeout dev hdr cnt = Except.ok d) :
    Evolves FlowTrans dev.flow_info d.flow_info := by
  unfold rtx_timeout__timeout at h
  split at h
  · rename_i st hf
    exact rtx_timeout_found_evolves hf h
  · split at h
    · rename_i st hf
      exact rtx_timeout_found_evolves hf h
    · cases h
      exact Evolves_refl FlowTrans_refl _

theorem TransmitComplete_evolves {dev : Device} {d : Device}
    (h : TransmitComplete dev = Except.ok d) : Evolves FlowTrans dev.flow_info d.flow_info := by
  unfold TransmitComplete at h
  split at h
  · split at h
    · cases h
    · rename_i cur hcur
      simp only at h
      split at h
      · cases h
      · rename_i dev1 hsent
        have h1 : Evolves FlowTrans dev.flow_info dev1.flow_info := by
          split at hsent
          · split at hsent
            · have he := CoCoAEventHandler_evolves hsent (by intro hc; cases hc)
              simpa using he
            · cases hsent
              exact Evolves_refl FlowTrans_refl _
          · cases hsent
            exact Evolves_refl FlowTrans_refl _
        split at h
        · cases h
          exact h1
        · split at h
          · cases h
          · rename_i x r dev2 hts
            cases h
            have := (TransmitStart_flows hts).1
            simp only at this
            rw [this]
            exact h1
  · cases h

/-! ## The admission loop of `CoCoASched` -/

theorem Popped_refl (a : FlowId × FlowState) : Popped a a :=
  ⟨rfl, a.2.queue, rfl, List.suffix_refl _⟩

theorem Popped_trans {a b c : FlowId × FlowState} (h1 : Popped a b) (h2 : Popped b c) :
    Popped a c := by
  obtain ⟨k1, pq1, e1, s1⟩ := h1
  obtain ⟨k2, pq2, e2, s2⟩ := h2
  refine ⟨k1.trans k2, pq2, ?_, ?_⟩
  · rw [e2, e1]
  · rw [e1] at s2
    exact List.IsSuffix.trans s2 s1

theorem Popped_fitsWindow {a b : FlowId × FlowState} (h : Popped a b) (p : Packet) :
    fitsWindow b.2 p = fitsWindow a.2 p := by
  obtain ⟨_, pq, e, _⟩ := h
  rw [e]
  rfl

theorem forall2_Popped_refl (m : List (FlowId × FlowState)) : List.Forall₂ Popped m m := by
  induction m with
  | nil => exact List.Forall₂.nil
  | cons a rest ih => exact List.Forall₂.cons (Popped_refl a) ih

theorem forall2_Popped_trans {m1 m2 m3 : List (FlowId × FlowState)}
    (h1 : List.Forall₂ Popped m1 m2) (h2 : List.Forall₂ Popped m2 m3) :
    List.Forall₂ Popped m1 m3 := by
  induction m1 generalizing m2 m3 with
  | nil =>
    cases h1
    cases h2
    exact List.Forall₂.nil
  | cons a rest ih =>
    cases h1 with
    | cons hab hrest1 =>
      cases h2 with
      | cons hbc hrest2 => exact List.Forall₂.cons (Popped_trans hab hbc) (ih hrest1 hrest2)

theorem headDropLoop_suffix (cm_start : Nat) (pq : List (Packet × Nat)) (seq occ : Nat)
    (pq1 : List (Packet × Nat)) (occ1 : Nat)
    (h : headDropLoop cm_start pq seq occ = Except.ok (pq1, occ1)) : pq1 <:+ pq := by
  induction pq generalizing seq occ with
  | nil =>
    simp [headDropLoop] at h
    rw [← h.1]
  | cons x rest ih =>
    cases rest with
    | nil =>
      simp only [headDropLoop] at h
      split at h
      · cases h
      · cases h
        exact List.suffix_refl _
    | cons y rest1 =>
      simp only [headDropLoop] at h
      split at h
      · exact List.IsSuffix.trans (ih _ _ h) (List.suffix_cons _ _)
      · cases h
        exact List.suffix_refl _

theorem schedFor_popped (cap : Nat) (m : List (FlowId × FlowState)) (q : List Packet) (occ : Nat)
    (m1 : List (FlowId × FlowState)) (q1 : List Packet) (occ1 : Nat) (full : Bool)
    (h : schedFor cap m q occ = Except.ok (m1, q1, occ1, full)) : List.Forall₂ Popped m m1 := by
  induction m generalizing q occ m1 q1 occ1 full with
  | nil =>
    simp [schedFor] at h
    obtain ⟨h1, -⟩ := h
    subst h1
    exact List.Forall₂.nil
  | cons e rest ih =>
    obtain ⟨fid, st⟩ := e
    unfold schedFor at h
    split at h
    · split at h
      · cases h
      · rename_i fl q2 occ2 full2 hrec
        cases h
        exact List.Forall₂.cons (Popped_refl _) (ih _ _ _ _ _ _ hrec)
    · rename_i p k tl hq
      split at h
      · split at h
        · cases h
        · rename_i pq occ0 hdrop
          split at h
          · cases h
          · rename_i fl q2 occ2 full2 hrec
            cases h
            refine List.Forall₂.cons ⟨rfl, pq, rfl, ?_⟩ (ih _ _ _ _ _ _ hrec)
            simp only [hq]
            exact headDropLoop_suffix _ _ _ _ _ _ hdrop
      · split at h
        · split at h
          · split at h
            · cases h
            · rename_i fl q2 occ2 full2 hrec
              cases h
              refine List.Forall₂.cons ⟨rfl, tl, rfl, ?_⟩ (ih _ _ _ _ _ _ hrec)
              simp only [hq]
              exact List.suffix_cons _ _
          · cases h
            exact forall2_Popped_refl _
        · split at h
          · cases h
          · rename_i fl q2 occ2 full2 hrec
            cases h
            exact List.Forall₂.cons (Popped_refl _) (ih _ _ _ _ _ _ hrec)

theorem schedWhile_popped (cap : Nat) (n : Nat) (m : List (FlowId × FlowState)) (q : List Packet)
    (qlen : Int) (full : Bool) (occ : Nat)
    (m1 : List (FlowId × FlowState)) (q1 : List Packet) (occ1 : Nat)
    (h : schedWhile cap n m q qlen full occ = Except.ok (m1, q1, occ1)) :
    List.Forall₂ Popped m m1 := by
  induction n generalizing m q qlen full occ with
  | zero => simp [schedWhile] at h
  | succ n ih =>
    simp only [schedWhile] at h
    split at h
    · split at h
      · cases h
      · rename_i m2 q2 occ2 full2 hfor
        exact forall2_Popped_trans (schedFor_popped _ _ _ _ _ _ _ _ hfor) (ih _ _ _ _ _ h)
    · cases h
      exact forall2_Popped_refl _

theorem Popped_flowTrans {a b : FlowId × FlowState} (h : Popped a b) : FlowTrans a.2 b.2 := by
  obtain ⟨_, pq, e, hs⟩ := h
  rw [e]
  exact FlowTrans_one (Atomic.queue a.2 pq (Or.inl hs))

theorem Evolves_of_popped {m1 m2 : List (FlowId × FlowState)} (h : List.Forall₂ Popped m1 m2) :
    Evolves FlowTrans m1 m2 := by
  induction m1 generalizing m2 with
  | nil =>
    cases h
    exact Evolves_refl FlowTrans_refl _
  | cons a rest ih =>
    cases h with
    | cons hab hrest =>
      rename_i b rest2
      obtain ⟨ka, va⟩ := a
      obtain ⟨kb, vb⟩ := b
      have hk : ka = kb := hab.1
      subst hk
      intro fid
      by_cases hf : fid = ka
      · subst hf
        simp only [FlowMap.find, if_true]
        refine ⟨fun st1 h1 => ?_, fun h1 => ?_⟩
        · cases h1
          exact ⟨vb, rfl, Popped_flowTrans hab⟩
        · cases h1
      · simp only [FlowMap.find, hf, if_false]
        exact ih hrest fid

theorem CoCoASched_evolves {dev : Device} {d : Device}
    (h : CoCoASched dev = Except.ok d) : Evolves FlowTrans dev.flow_info d.flow_info := by
  unfold CoCoASched at h
  split at h
  · cases h
  · rename_i flows q occ hloop
    have hp : Evolves FlowTrans dev.flow_info flows :=
      Evolves_of_popped (schedWhile_popped _ _ _ _ _ _ _ _ _ _ hloop)
    split at h
    · split at h
      · split at h
        · cases h
        · rename_i r dev1 hts
          cases h
          have := (TransmitStart_flows hts).1
          simp only at this
          rw [this]
          exact hp
      · cases h
    · cases h
      exact hp

theorem step_evolves {dev : Device} {c : Call} {d : Device} (h : step dev c = Except.ok d) :
    Evolves FlowTrans dev.flow_info d.flow_info := by
  cases c with
  | Send p =>
    simp only [step] at h
    split at h
    · cases h
    · rename_i r dev1 hs
      cases h
      exact Send_evolves hs
  | Receive p => exact Receive_evolves h
  | TransmitComplete => exact TransmitComplete_evolves h
  | CoCoASched => exact CoCoASched_evolves h
  | rtx_timeout hdr cnt => exact rtx_timeout_evolves h
  | RenoControl s fid => exact RenoControl_evolves h

/-! ## Fields that the event handler and the engine leave alone -/

theorem Frame4_refl (a : FlowState) : Frame4 a a := ⟨rfl, rfl, rfl, rfl⟩

theorem Frame4_trans {a b c : FlowState} (h1 : Frame4 a b) (h2 : Frame4 b c) : Frame4 a c :=
  ⟨h2.1.trans h1.1, h2.2.1.trans h1.2.1, h2.2.2.1.trans h1.2.2.1, h2.2.2.2.trans h1.2.2.2⟩

theorem ack_max_ack_frame (st : FlowState) (a : Nat) : Frame4 st (ack_max_ack st a) := by
  unfold ack_max_ack
  split
  · exact ⟨rfl, rfl, rfl, rfl⟩
  · exact Frame4_refl st

theorem ack_new_ack_frame (st : FlowState) (a : Nat) : Frame4 st (ack_new_ack st a) := by
  unfold ack_new_ack
  split <;> exact ⟨rfl, rfl, rfl, rfl⟩

theorem ack_dup_acks_frame (st : FlowState) (a : Nat) : Frame4 st (ack_dup_acks st a) := by
  unfold ack_dup_acks
  split
  · exact ⟨rfl, rfl, rfl, rfl⟩
  · split <;> exact ⟨rfl, rfl, rfl, rfl⟩

theorem rtx_arm_frame (st : FlowState) : Frame4 st (rtx_arm st) := ⟨rfl, rfl, rfl, rfl⟩

theorem ACK_RCVD_flow_frame4 (st : FlowState) (a : Nat) :
    Frame4 (ack_window_edge st a) (ACK_RCVD_flow st a) := by
  have h1 : Frame4 (ack_window_edge st a) (ACK_RCVD_bookkeeping st a) :=
    Frame4_trans (Frame4_trans (ack_max_ack_frame _ a) (ack_new_ack_frame _ a))
      (ack_dup_acks_frame _ a)
  have h2 : Frame4 (ACK_RCVD_bookkeeping st a) (ACK_RCVD_pre st a) := by
    unfold ACK_RCVD_pre
    simp only
    split
    · exact rtx_arm_frame _
    · exact Frame4_refl _
  have h3 : Frame4 (ACK_RCVD_pre st a) (ACK_RCVD_flow st a) := ⟨rfl, rfl, rfl, rfl⟩
  exact Frame4_trans (Frame4_trans h1 h2) h3

theorem ACK_RCVD_flow_frame (st : FlowState) (a : Nat) :
    (ACK_RCVD_flow st a).state = st.state ∧ (ACK_RCVD_flow st a).setup_state = st.setup_state ∧
    (ACK_RCVD_flow st a).initiator = st.initiator ∧
    (ACK_RCVD_flow st a).cm_start = (if a > st.cm_start then a else st.cm_start) := by
  obtain ⟨e1, e2, e3, e4⟩ := ACK_RCVD_flow_frame4 st a
  rw [e1, e2, e3, e4]
  unfold ack_window_edge
  split <;> exact ⟨rfl, rfl, rfl, rfl⟩

theorem sent_max_sent_frame (st : FlowState) (p : Packet) : Frame4 st (sent_max_sent st p) := by
  unfold sent_max_sent
  split
  · exact ⟨rfl, rfl, rfl, rfl⟩
  · exact Frame4_refl st

theorem PKT_SENT_flow_frame (st : FlowState) (p : Packet) :
    (PKT_SENT_flow st p).state = st.state ∧ (PKT_SENT_flow st p).setup_state = st.setup_state ∧
    (PKT_SENT_flow st p).initiator = st.initiator ∧
    (PKT_SENT_flow st p).cm_start = st.cm_start := by
  have h2 : Frame4 st (PKT_SENT_flow st p) := by
    unfold PKT_SENT_flow
    split
    · exact Frame4_trans (sent_max_sent_frame st p) (rtx_arm_frame _)
    · exact sent_max_sent_frame st p
  exact h2

theorem RenoControl_switch_frame (s : CCState) (st : FlowState) :
    (RenoControl_switch s st).state = st.state ∧
    (RenoControl_switch s st).setup_state = st.setup_state ∧
    (RenoControl_switch s st).initiator = st.initiator ∧
    (RenoControl_switch s st).cm_start = st.cm_start := by
  cases s <;> simp [RenoControl_switch]

/-! ## The window edge `cm_start` -/

theorem CmRel_of_atomic {a b : FlowState} (h : Atomic a b) : CmRel a b := by
  intro hi
  cases h with
  | handshake p hst =>
    have h1 := hi hst
    unfold Send_handshake
    split
    · rename_i hs
      split
      · refine ⟨fun _ => ⟨fun h => ?_, fun _ h => ?_⟩, ?_⟩
        · simp at h
        · simp at h
        · simp [h1.1 hs]
      · exact ⟨hi, le_refl _⟩
    · rename_i hs
      split
      · rename_i hc
        refine ⟨fun _ => ⟨fun h => ?_, fun h => ?_⟩, ?_⟩
        · simp at h
        · simp at h
        · simp [h1.2 hs hc.1]
      · exact ⟨hi, le_refl _⟩
    · split
      · refine ⟨fun h => ?_, le_refl _⟩
        simp at h
      · exact ⟨hi, le_refl _⟩
    · exact ⟨hi, le_refl _⟩
  | tear hst =>
    refine ⟨fun h => ?_, le_refl _⟩
    simp at h
  | queue q hq => exact ⟨hi, le_refl _⟩
  | sent p =>
    obtain ⟨e1, e2, e3, e4⟩ := PKT_SENT_flow_frame a p
    refine ⟨?_, by rw [e4]⟩
    unfold HandInv
    rw [e1, e2, e3, e4]
    exact hi
  | recv_syn hst hs =>
    refine ⟨fun _ => ⟨fun h => ?_, fun _ _ => ?_⟩, le_refl _⟩
    · simp at h
    · exact (hi hst).1 hs
  | recv_synack hst hs hini =>
    refine ⟨fun _ => ⟨fun h => ?_, fun h => ?_⟩, le_refl _⟩
    · simp at h
    · simp at h
  | recv_ack hst hs hini =>
    refine ⟨fun h => ?_, le_refl _⟩
    simp at h
  | ack n hpre =>
    obtain ⟨e1, e2, e3, e4⟩ := ACK_RCVD_flow_frame a n
    refine ⟨?_, ?_⟩
    · unfold HandInv
      rw [e1, e2, e3]
      intro hst
      rcases hpre with hd | hs
      · rw [hd] at hst
        cases hst
      · refine ⟨fun h => ?_, fun h => ?_⟩
        · rw [hs] at h
          cases h
        · rw [hs] at h
          cases h
    · rw [e4]
      split_ifs with hgt
      · exact le_of_lt hgt
      · exact le_refl _
  | reno s =>
    obtain ⟨e1, e2, e3, e4⟩ := RenoControl_switch_frame s a
    refine ⟨?_, by rw [e4]⟩
    unfold HandInv
    rw [e1, e2, e3, e4]
    exact hi
  | rto => exact ⟨hi, le_refl _⟩
  | rto_start => exact ⟨hi, le_refl _⟩

theorem CmRel_of_flowTrans {a b : FlowState} (h : FlowTrans a b) : CmRel a b := by
  induction h with
  | refl => exact fun hi => ⟨hi, le_refl _⟩
  | tail _ hbc ih =>
    intro hi
    obtain ⟨hb, hle⟩ := ih hi
    obtain ⟨hc, hle2⟩ := CmRel_of_atomic hbc hb
    exact ⟨hc, le_trans hle hle2⟩

theorem HandInv_RenoInit : HandInv (RenoInit default) := by
  intro _
  exact ⟨fun _ => rfl, fun _ _ => rfl⟩

theorem DevInv_step {dev : Device} {c : Call} {d : Device} (hinv : DevInv dev.flow_info)
    (h : step dev c = Except.ok d) : DevInv d.flow_info := by
  intro fid st2 hf2
  have he := step_evolves h fid
  cases hf1 : FlowMap.find dev.flow_info fid with
  | none => exact (CmRel_of_flowTrans (he.2 hf1 st2 hf2) HandInv_RenoInit).1
  | some st1 =>
    obtain ⟨st3, hf3, ht⟩ := he.1 st1 hf1
    rw [hf2] at hf3
    cases hf3
    exact (CmRel_of_flowTrans ht (hinv fid st1 hf1)).1

theorem DevInv_run {dev0 : Device} (calls : List Call) {dev : Device}
    (hinv : DevInv dev0.flow_info) (h : run dev0 calls = Except.ok dev) :
    DevInv dev.flow_info := by
  induction calls generalizing dev0 with
  | nil =>
    simp only [CoCoA.run] at h
    cases h
    exact hinv
  | cons c cs ih =>
    simp only [CoCoA.run] at h
    split at h
    · cases h
    · rename_i dev1 hs
      exact ih (DevInv_step hinv hs) h

/-- Claim C3. In every device state reached from a device with an empty flow table
by entry-point calls (`Send`, `Receive`, `TransmitComplete`, `CoCoASched`,
`rtx_timeout__timeout`, `RenoControl`), one more call leaves every flow in the
table and does not decrease its `cm_start`. -/
theorem cm_start_never_decreases (dev0 : Device) (h0 : dev0.flow_info = [])
    (calls : List Call) (dev : Device) (hrun : run dev0 calls = Except.ok dev)
    (c : Call) (dev1 : Device) (hstep : step dev c = Except.ok dev1)
    (fid : FlowId) (st : FlowState) (hf : FlowMap.find dev.flow_info fid = some st) :
    ∃ st1, FlowMap.find dev1.flow_info fid = some st1 ∧ st.cm_start ≤ st1.cm_start := by
  have hinv0 : DevInv dev0.flow_info := by
    intro k s hk
    rw [h0] at hk
    cases hk
  have hinv : DevInv dev.flow_info := DevInv_run calls hinv0 hrun
  obtain ⟨st1, hf1, ht⟩ := (step_evolves hstep fid).1 st hf
  exact ⟨st1, hf1, (CmRel_of_flowTrans ht (hinv fid st hf)).2⟩

theorem cm_start_never_decreases_witness :
    ∃ st1, FlowMap.find (runTo exDevice [Call.Send exSyn, Call.Receive exSynAck]).flow_info
        (sendFid exSyn) = some st1 ∧ 1000 ≤ st1.cm_start :=
  cm_start_never_decreases exDevice rfl [Call.Send exSyn]
    (runTo exDevice [Call.Send exSyn]) rfl (Call.Receive exSynAck)
    (runTo exDevice [Call.Send exSyn, Call.Receive exSynAck]) rfl (sendFid exSyn)
    { RenoInit default with initiator := true, setup_state := HandshakeState.SYN,
                            init_seq := 1000, cm_start := 1000 } rfl

/-! ## Packets admitted by the loop of `CoCoASched` -/

theorem Enqueue_true {cap : Nat} {q : List Packet} {p : Packet} {q0 : List Packet}
    (h : Enqueue cap q p = (true, q0)) : q0 = q ++ [p] ∧ q.length < cap := by
  unfold Enqueue at h
  split at h
  · rename_i hlt
    cases h
    exact ⟨rfl, hlt⟩
  · cases h

theorem Enqueue_false {cap : Nat} {q : List Packet} {p : Packet} {q0 : List Packet}
    (h : Enqueue cap q p = (false, q0)) : q0 = q ∧ ¬ q.length < cap := by
  unfold Enqueue at h
  split at h
  · cases h
  · rename_i hlt
    cases h
    exact ⟨rfl, hlt⟩

theorem forall2_Popped_mem {m1 m2 : List (FlowId × FlowState)} (h : List.Forall₂ Popped m1 m2)
    {e2 : FlowId × FlowState} (he : e2 ∈ m2) : ∃ e1 ∈ m1, Popped e1 e2 := by
  induction m1 generalizing m2 with
  | nil =>
    cases h
    cases he
  | cons a rest ih =>
    cases h with
    | cons hab hrest =>
      rcases List.mem_cons.1 he with heq | hmem
      · subst heq
        exact ⟨a, List.mem_cons_self _ _, hab⟩
      · obtain ⟨e1, h1, hp⟩ := ih hrest hmem
        exact ⟨e1, List.mem_cons_of_mem _ h1, hp⟩

theorem fitsWindow_iff (st : FlowState) (p : Packet) :
    fitsWindow st p = true ↔
      st.cm_start ≤ p.seq ∧
      (((p.seq + data_size p) % 2 ^ 32 : Nat) : ℚ) ≤
        (st.cm_start : ℚ) + st.cm_window_size * (MSS : ℚ) := by
  simp [fitsWindow]

/-! ## `Send` on a flow in `DATA` -/

theorem data_size_of_payload_pos (p : Packet) (hwf : p.payloadSize < 65536)
    (h : payload p > 0) : data_size p > 0 := by
  unfold payload at h
  unfold data_size
  omega

theorem data_size_of_payload_zero (p : Packet) (h : payload p = 0) : data_size p = 0 := by
  unfold payload at h
  unfold data_size
  omega

theorem Send_direct_handed (dev : Device) (p : Packet) :
    ∃ r d, Send_direct dev p = Except.ok (r, d) ∧ HandedToFifo dev p d ∧
      d.flow_info = dev.flow_info := by
  unfold Send_direct HandedToFifo Enqueue
  by_cases hroom : dev.m_queue.length < dev.m_queue_cap
  · by_cases hready : dev.m_txMachineState = TxMachineState.READY
    · have hx : ∃ x rest, dev.m_queue ++ [p] = x :: rest := by
        cases dev.m_queue with
        | nil => exact ⟨p, [], rfl⟩
        | cons y ys => exact ⟨y, ys ++ [p], rfl⟩
      obtain ⟨x, rest, hx⟩ := hx
      simp only [hroom, hready, ↓reduceIte, hx, Dequeue, TransmitStart, List.head?_cons,
        List.tail_cons]
      exact ⟨_, _, rfl, ⟨rfl, rfl, rfl⟩, rfl⟩
    · simp only [hroom, hready, ↓reduceIte]
      exact ⟨_, _, rfl, ⟨rfl, rfl, rfl⟩, rfl⟩
  · simp only [hroom, ↓reduceIte]
    exact ⟨_, _, rfl, ⟨rfl, rfl, rfl⟩, rfl⟩

theorem Send_fin_handed (dev : Device) (p : Packet) :
    ∃ r d, Send_fin dev p = Except.ok (r, d) ∧ HandedToFifo dev p d ∧
      d.flow_info = dev.flow_info := by
  unfold Send_fin HandedToFifo Enqueue
  by_cases hroom : dev.m_queue.length < dev.m_queue_cap
  · by_cases hready : dev.m_txMachineState = TxMachineState.READY
    · have hx : ∃ x rest, dev.m_queue ++ [p] = x :: rest := by
        cases dev.m_queue with
        | nil => exact ⟨p, [], rfl⟩
        | cons y ys => exact ⟨y, ys ++ [p], rfl⟩
      obtain ⟨x, rest, hx⟩ := hx
      simp only [hroom, hready, ↓reduceIte, hx, Dequeue, TransmitStart, List.head?_cons,
        List.tail_cons]
      exact ⟨_, _, rfl, ⟨rfl, rfl, rfl⟩, rfl⟩
    · simp only [hroom, hready, ↓reduceIte]
      exact ⟨_, _, rfl, ⟨rfl, rfl, rfl⟩, rfl⟩
  · simp only [hroom, ↓reduceIte]
    exact ⟨_, _, rfl, ⟨rfl, rfl, rfl⟩, rfl⟩

/-- The body of `Send` for a node with the CoCoA core engaged, the link up and
a known flow in `DATA`. -/
theorem Send_engaged_data (dev : Device) (p : Packet) (st : FlowState)
    (hup : dev.m_linkUp = true) (hid : dev.nodeId > 1)
    (hf : FlowMap.find dev.flow_info (sendFid p) = some st) (hst : st.state = TCPState.DATA) :
    Send dev p =
      if data_size p > 0 then
        match CoCoAEventHandler dev (sendFid p) p CCEvent.PKT_ENQ with
        | Except.error e => Except.error e
        | Except.ok dev1 => Except.ok (true, dev1)
      else if (p.flags &&& TcpHeader.FIN) ≠ 0 then Send_fin dev p
      else
        Send_direct
          { dev with
            flow_info := FlowMap.insert dev.flow_info (sendFid p)
              (FlowState.mk TCPState.TEAR_DOWN st.setup_state st.cc_state st.cc_ss_threshold
            st.cc_tmp_win st.cc_recovery_seq st.cm_start st.cm_window_size st.max_ack__val
            st.new_ack__val st.new_ack__ack_num st.dup_acks__val st.dup_acks__first_ack
            st.dup_acks__last_ack st.max_sent__val st.rtx_timeout__val
            st.rtx_timeout__timer__isset st.rtx_timeout__timeout_cnt st.rtx_timeout__timer_delay
            st.initiator st.init_seq st.queue) } p := by
  unfold Send
  rw [if_neg (by simp [hup]), if_pos hid]
  simp only
  rw [flowOf_of_find hf, ensureFlow_of_find hf]
  split
  · rename_i h
    rw [hst] at h
    cases h
  · rfl
  · rename_i h
    rw [hst] at h
    cases h

theorem Send_data_pending (dev : Device) (p : Packet) (st : FlowState)
    (hup : dev.m_linkUp = true) (hid : dev.nodeId > 1)
    (hf : FlowMap.find dev.flow_info (sendFid p) = some st) (hst : st.state = TCPState.DATA)
    (hpay : data_size p > 0) :
    ∃ d, Send dev p = Except.ok (true, d) ∧
      FlowMap.find d.flow_info (sendFid p) =
        some { st with queue := PQ.push st.queue (p, p.seq) } ∧
      d.m_queue = dev.m_queue ∧ d.m_currentPkt = dev.m_currentPkt ∧
      d.m_txMachineState = dev.m_txMachineState := by
  rw [Send_engaged_data dev p st hup hid hf hst, if_pos hpay]
  unfold CoCoAEventHandler
  rw [hf]
  exact ⟨_, rfl, FlowMap_find_insert_self _ _ _, rfl, rfl, rfl⟩

theorem Send_data_fin (dev : Device) (p : Packet) (st : FlowState)
    (hup : dev.m_linkUp = true) (hid : dev.nodeId > 1)
    (hf : FlowMap.find dev.flow_info (sendFid p) = some st) (hst : st.state = TCPState.DATA)
    (hpay : data_size p = 0) (hfin : (p.flags &&& TcpHeader.FIN) ≠ 0) :
    ∃ r d, Send dev p = Except.ok (r, d) ∧
      FlowMap.find d.flow_info (sendFid p) = some st ∧ HandedToFifo dev p d := by
  obtain ⟨r, d, hs, hh, hfl⟩ := Send_fin_handed dev p
  refine ⟨r, d, ?_, ?_, hh⟩
  · rw [Send_engaged_data dev p st hup hid hf hst, if_neg (by omega), if_pos hfin]
    exact hs
  · rw [hfl]
    exact hf

theorem Send_data_teardown (dev : Device) (p : Packet) (st : FlowState)
    (hup : dev.m_linkUp = true) (hid : dev.nodeId > 1)
    (hf : FlowMap.find dev.flow_info (sendFid p) = some st) (hst : st.state = TCPState.DATA)
    (hpay : data_size p = 0) (hfin : (p.flags &&& TcpHeader.FIN) = 0) :
    ∃ r d, Send dev p = Except.ok (r, d) ∧
      FlowMap.find d.flow_info (sendFid p) = some { st with state := TCPState.TEAR_DOWN } ∧
      HandedToFifo dev p d := by
  rw [Send_engaged_data dev p st hup hid hf hst, if_neg (by omega), if_neg (by simp [hfin])]
  obtain ⟨r, d, hs, hh, hfl⟩ := Send_direct_handed
    { dev with
      flow_info := FlowMap.insert dev.flow_info (sendFid p)
        (FlowState.mk TCPState.TEAR_DOWN st.setup_state st.cc_state st.cc_ss_threshold
            st.cc_tmp_win st.cc_recovery_seq st.cm_start st.cm_window_size st.max_ack__val
            st.new_ack__val st.new_ack__ack_num st.dup_acks__val st.dup_acks__first_ack
            st.dup_acks__last_ack st.max_sent__val st.rtx_timeout__val
            st.rtx_timeout__timer__isset st.rtx_timeout__timeout_cnt st.rtx_timeout__timer_delay
            st.initiator st.init_seq st.queue) } p
  refine ⟨r, d, hs, ?_, hh⟩
  rw [hfl]
  exact FlowMap_find_insert_self _ _ _

/-- Claim C1 (code defect). After the handshake of scenario S1 the link is up, the
transmitter is `BUSY` and the transmit queue has room; `Send` of a FIN segment
without payload appends the segment to the transmit queue and still returns
`false`, where the claim says `true`. -/
theorem Send_fin_while_busy_returns_false :
    exAfterHandshake.m_linkUp = true ∧
    exAfterHandshake.m_txMachineState = TxMachineState.BUSY ∧
    exAfterHandshake.m_queue.length < exAfterHandshake.m_queue_cap ∧
    (flowOf exAfterHandshake.flow_info (sendFid exFin)).state = TCPState.DATA ∧
    data_size exFin = 0 ∧
    ∃ d, Send exAfterHandshake exFin = Except.ok (false, d) ∧
      d.m_queue = exAfterHandshake.m_queue ++ [exFin] :=
  ⟨rfl, rfl, by decide, rfl, rfl, _, rfl, rfl⟩

theorem ok_of_isOk {α : Type} {r : Except Fault α} (dflt : α) (h : isOk r = true) :
    r = Except.ok (valueOr r dflt) := by
  cases r with
  | error e => simp [isOk] at h
  | ok x => rfl

theorem FrameCC_refl (a : FlowState) : FrameCC a a := ⟨rfl, rfl, rfl, rfl, rfl, rfl⟩

theorem FrameCC_trans {a b c : FlowState} (h1 : FrameCC a b) (h2 : FrameCC b c) : FrameCC a c :=
  ⟨h2.1.trans h1.1, h2.2.1.trans h1.2.1, h2.2.2.1.trans h1.2.2.1,
   h2.2.2.2.1.trans h1.2.2.2.1, h2.2.2.2.2.1.trans h1.2.2.2.2.1,
   h2.2.2.2.2.2.trans h1.2.2.2.2.2⟩

theorem ACK_RCVD_bookkeeping_frameCC (st : FlowState) (a : Nat) :
    FrameCC st (ACK_RCVD_bookkeeping st a) := by
  have h1 : FrameCC st (ack_window_edge st a) := by
    unfold ack_window_edge
    split
    · exact ⟨rfl, rfl, rfl, rfl, rfl, rfl⟩
    · exact FrameCC_refl st
  have h2 : ∀ s, FrameCC s (ack_max_ack s a) := by
    intro s
    unfold ack_max_ack
    split
    · exact ⟨rfl, rfl, rfl, rfl, rfl, rfl⟩
    · exact FrameCC_refl s
  have h3 : ∀ s, FrameCC s (ack_new_ack s a) := by
    intro s
    unfold ack_new_ack
    split <;> exact ⟨rfl, rfl, rfl, rfl, rfl, rfl⟩
  have h4 : ∀ s, FrameCC s (ack_dup_acks s a) := by
    intro s
    unfold ack_dup_acks
    split
    · exact ⟨rfl, rfl, rfl, rfl, rfl, rfl⟩
    · split <;> exact ⟨rfl, rfl, rfl, rfl, rfl, rfl⟩
  exact FrameCC_trans (FrameCC_trans (FrameCC_trans h1 (h2 _)) (h3 _)) (h4 _)

/-- Re-arming the timer changes none of the fields read by the state machine. -/
theorem ACK_RCVD_pre_fields (st : FlowState) (a : Nat) :
    FrameCC (ACK_RCVD_bookkeeping st a) (ACK_RCVD_pre st a) ∧
    (ACK_RCVD_pre st a).new_ack__val = (ACK_RCVD_bookkeeping st a).new_ack__val ∧
    (ACK_RCVD_pre st a).dup_acks__val = (ACK_RCVD_bookkeeping st a).dup_acks__val ∧
    (ACK_RCVD_pre st a).max_ack__val = (ACK_RCVD_bookkeeping st a).max_ack__val := by
  unfold ACK_RCVD_pre
  simp only
  split
  · exact ⟨⟨rfl, rfl, rfl, rfl, rfl, rfl⟩, rfl, rfl, rfl⟩
  · exact ⟨FrameCC_refl _, rfl, rfl, rfl⟩

/-- The body of the case `ACK_RCVD` for the flow state found under `key`. -/
theorem CoCoAEventHandler_ack_eq (dev : Device) (key : FlowId) (p : Packet) (st : FlowState)
    (hf : FlowMap.find dev.flow_info key = some st) :
    CoCoAEventHandler dev key p CCEvent.ACK_RCVD =
      if ACK_RCVD_transitioned st p.ack = true then
        if dev.CC_LATENCY > 0 then
          Except.ok { dev with
            flow_info := FlowMap.insert dev.flow_info key (ACK_RCVD_flow st p.ack),
            scheduled :=
              (if ACK_RCVD_rearms (ACK_RCVD_bookkeeping st p.ack) = true then
                dev.scheduled ++ [SimEvent.rtx_timeout (ACK_RCVD_flow st p.ack).rtx_timeout__timer_delay
                  p (ACK_RCVD_flow st p.ack).rtx_timeout__timeout_cnt]
              else dev.scheduled) ++
              [SimEvent.RenoControl dev.CC_LATENCY (ACK_RCVD_flow st p.ack).cc_state (recvFid p)] }
        else
          RenoControl { dev with
            flow_info := FlowMap.insert dev.flow_info key (ACK_RCVD_flow st p.ack),
            scheduled :=
              if ACK_RCVD_rearms (ACK_RCVD_bookkeeping st p.ack) = true then
                dev.scheduled ++ [SimEvent.rtx_timeout (ACK_RCVD_flow st p.ack).rtx_timeout__timer_delay
                  p (ACK_RCVD_flow st p.ack).rtx_timeout__timeout_cnt]
              else dev.scheduled }
            (ACK_RCVD_flow st p.ack).cc_state (recvFid p)
      else
        Except.ok { dev with
          flow_info := FlowMap.insert dev.flow_info key (ACK_RCVD_flow st p.ack),
          scheduled :=
            if ACK_RCVD_rearms (ACK_RCVD_bookkeeping st p.ack) = true then
              dev.scheduled ++ [SimEvent.rtx_timeout (ACK_RCVD_flow st p.ack).rtx_timeout__timer_delay
                p (ACK_RCVD_flow st p.ack).rtx_timeout__timeout_cnt]
            else dev.scheduled } := by
  unfold CoCoAEventHandler
  rw [hf]

/-- With `CC_LATENCY = 0` the handler of `ACK_RCVD` returns, and the flow is in
the state `ACK_RCVD_sync`. -/
theorem CoCoAEventHandler_ack_sync (dev : Device) (p : Packet) (st : FlowState)
    (hf : FlowMap.find dev.flow_info (recvFid p) = some st) (hlat : dev.CC_LATENCY = 0) :
    ∃ d, CoCoAEventHandler dev (recvFid p) p CCEvent.ACK_RCVD = Except.ok d ∧
      FlowMap.find d.flow_info (recvFid p) = some (ACK_RCVD_sync st p.ack) ∧
      (∀ k, k ≠ recvFid p → FlowMap.find d.flow_info k = FlowMap.find dev.flow_info k) ∧
      d.nodeId = dev.nodeId ∧ d.m_linkUp = dev.m_linkUp ∧ d.CC_LATENCY = dev.CC_LATENCY ∧
      d.isCorrupt = dev.isCorrupt ∧ d.m_queue = dev.m_queue ∧
      d.m_queue_cap = dev.m_queue_cap ∧ d.m_txMachineState = dev.m_txMachineState := by
  rw [CoCoAEventHandler_ack_eq dev _ p st hf]
  unfold ACK_RCVD_sync
  split
  · rw [if_neg (by omega)]
    unfold RenoControl
    simp only [FlowMap_find_insert_self]
    refine ⟨_, rfl, FlowMap_find_insert_self _ _ _, ?_, rfl, rfl, rfl, rfl, rfl, rfl, rfl⟩
    intro k hk
    simp only [FlowMap_find_insert_ne _ _ _ _ hk]
  · refine ⟨_, rfl, FlowMap_find_insert_self _ _ _, ?_, rfl, rfl, rfl, rfl, rfl, rfl, rfl⟩
    intro k hk
    simp only [FlowMap_find_insert_ne _ _ _ _ hk]

theorem RenoControl_switch_cc_state (s : CCState) (st : FlowState) :
    (RenoControl_switch s st).cc_state = st.cc_state := by
  cases s <;> rfl

theorem ACK_RCVD_asm_new (s : FlowState) (h : s.new_ack__val = true) :
    ACK_RCVD_asm s =
      (newAckPhase s.cc_state (decide (s.cm_window_size < s.cc_ss_threshold)), true) := by
  unfold ACK_RCVD_asm newAckPhase
  cases hc : s.cc_state <;> simp only [h, if_true]
  · by_cases hw : s.cm_window_size < s.cc_ss_threshold <;> simp [hw]
  · by_cases hw : s.cm_window_size < s.cc_ss_threshold <;> simp [hw]

theorem ACK_RCVD_asm_old (s : FlowState) (h : s.new_ack__val = false) :
    ACK_RCVD_asm s =
      dupAckPhase s.cc_state s.dup_acks__val (decide (s.max_ack__val > s.cc_recovery_seq)) := by
  unfold ACK_RCVD_asm dupAckPhase
  cases hc : s.cc_state <;> simp only [h, Bool.false_eq_true, if_false]
  · by_cases hd : s.dup_acks__val = 3 <;>
      by_cases hm : s.max_ack__val > s.cc_recovery_seq <;> simp [hd, hm]
  · by_cases hd : s.dup_acks__val = 3 <;>
      by_cases hm : s.max_ack__val > s.cc_recovery_seq <;> simp [hd, hm]

theorem dupAckPhase_unchanged (ph : CCState) (dup : Nat) (fresh : Bool)
    (h : (dupAckPhase ph dup fresh).2 = false) : (dupAckPhase ph dup fresh).1 = ph := by
  cases ph
  · rfl
  · unfold dupAckPhase at h ⊢
    by_cases hd : dup = 3
    · simp [hd] at h
    · simp [hd]
  · unfold dupAckPhase at h ⊢
    by_cases hd : dup = 3
    · simp [hd] at h
    · simp [hd]
  · unfold dupAckPhase at h ⊢
    by_cases hd : dup > 0
    · simp [hd] at h
    · simp [hd]
  · unfold dupAckPhase at h ⊢
    by_cases hd : dup > 0
    · simp [hd] at h
    · simp [hd]
  · rfl

/-- Claim C4. For an `ACK_RCVD` event whose bookkeeping yields `new_ack__val = true`
the phase after the event is the one of the table `newAckPhase`, taken at the
phase before the event and at `cm_window_size < cc_ss_threshold` before the
engine runs; the engine is invoked for that phase, also when it is the source
phase: with `CC_LATENCY = 0` the flow is left in the state `RenoControl_switch`
of that phase, and with `CC_LATENCY > 0` the call of `RenoControl` for that
phase is scheduled. -/
theorem new_ack_transition (dev : Device) (p : Packet) (st : FlowState)
    (hf : FlowMap.find dev.flow_info (recvFid p) = some st)
    (hnew : (ACK_RCVD_bookkeeping st p.ack).new_ack__val = true) :
    (ACK_RCVD_flow st p.ack).cc_state =
        newAckPhase st.cc_state (decide (st.cm_window_size < st.cc_ss_threshold)) ∧
    (dev.CC_LATENCY = 0 →
      ∃ d, CoCoAEventHandler dev (recvFid p) p CCEvent.ACK_RCVD = Except.ok d ∧
        FlowMap.find d.flow_info (recvFid p) =
          some (RenoControl_switch
            (newAckPhase st.cc_state (decide (st.cm_window_size < st.cc_ss_threshold)))
            (ACK_RCVD_flow st p.ack))) ∧
    (dev.CC_LATENCY > 0 →
      ∃ d, CoCoAEventHandler dev (recvFid p) p CCEvent.ACK_RCVD = Except.ok d ∧
        FlowMap.find d.flow_info (recvFid p) = some (ACK_RCVD_flow st p.ack) ∧
        SimEvent.RenoControl dev.CC_LATENCY
          (newAckPhase st.cc_state (decide (st.cm_window_size < st.cc_ss_threshold)))
          (recvFid p) ∈ d.scheduled) := by
  obtain ⟨hcc, hnv, _, _⟩ := ACK_RCVD_pre_fields st p.ack
  have hbk := ACK_RCVD_bookkeeping_frameCC st p.ack
  have hasm := ACK_RCVD_asm_new (ACK_RCVD_pre st p.ack) (by rw [hnv]; exact hnew)
  rw [hcc.1, hcc.2.1, hcc.2.2.1, hbk.1, hbk.2.1, hbk.2.2.1] at hasm
  have hphase : (ACK_RCVD_flow st p.ack).cc_state =
      newAckPhase st.cc_state (decide (st.cm_window_size < st.cc_ss_threshold)) := by
    show (ACK_RCVD_asm (ACK_RCVD_pre st p.ack)).1 = _
    rw [hasm]
  have htr : ACK_RCVD_transitioned st p.ack = true := by
    unfold ACK_RCVD_transitioned
    rw [hasm]
  refine ⟨hphase, fun hlat => ?_, fun hlat => ?_⟩
  · obtain ⟨d, hd, hfd, _⟩ := CoCoAEventHandler_ack_sync dev p st hf hlat
    refine ⟨d, hd, ?_⟩
    rw [hfd]
    unfold ACK_RCVD_sync
    rw [if_pos htr, hphase]
  · rw [CoCoAEventHandler_ack_eq dev _ p st hf, if_pos htr, if_pos hlat]
    refine ⟨_, rfl, FlowMap_find_insert_self _ _ _, ?_⟩
    rw [hphase]
    simp

/-- Claim C5. For an `ACK_RCVD` event whose bookkeeping yields
`new_ack__val = false` the phase after the event is the one of the table
`dupAckPhase`, taken at the phase before the event, at `dup_acks__val` after the
bookkeeping and at `max_ack__val > cc_recovery_seq`; where the table says that
the engine is not invoked, the flow is left in the state the switch produced and
no call of `RenoControl` is scheduled. -/
theorem dup_ack_transition (dev : Device) (p : Packet) (st : FlowState)
    (hf : FlowMap.find dev.flow_info (recvFid p) = some st)
    (hold : (ACK_RCVD_bookkeeping st p.ack).new_ack__val = false) :
    (ACK_RCVD_flow st p.ack).cc_state =
        (dupAckPhase st.cc_state (ACK_RCVD_bookkeeping st p.ack).dup_acks__val
          (decide ((ACK_RCVD_bookkeeping st p.ack).max_ack__val > st.cc_recovery_seq))).1 ∧
    ((dupAckPhase st.cc_state (ACK_RCVD_bookkeeping st p.ack).dup_acks__val
          (decide ((ACK_RCVD_bookkeeping st p.ack).max_ack__val > st.cc_recovery_seq))).2 = false →
      ∃ d, CoCoAEventHandler dev (recvFid p) p CCEvent.ACK_RCVD = Except.ok d ∧
        FlowMap.find d.flow_info (recvFid p) = some (ACK_RCVD_flow st p.ack) ∧
        (ACK_RCVD_flow st p.ack).cc_state = st.cc_state ∧
        (ACK_RCVD_flow st p.ack).cm_window_size = st.cm_window_size ∧
        ∀ lat s fid, SimEvent.RenoControl lat s fid ∈ d.scheduled →
          SimEvent.RenoControl lat s fid ∈ dev.scheduled) := by
  obtain ⟨hcc, hnv, hdv, hmv⟩ := ACK_RCVD_pre_fields st p.ack
  have hbk := ACK_RCVD_bookkeeping_frameCC st p.ack
  have hasm := ACK_RCVD_asm_old (ACK_RCVD_pre st p.ack) (by rw [hnv]; exact hold)
  rw [hcc.1, hcc.2.2.2.1, hdv, hmv, hbk.1, hbk.2.2.2.1] at hasm
  have hphase : (ACK_RCVD_flow st p.ack).cc_state =
      (dupAckPhase st.cc_state (ACK_RCVD_bookkeeping st p.ack).dup_acks__val
        (decide ((ACK_RCVD_bookkeeping st p.ack).max_ack__val > st.cc_recovery_seq))).1 := by
    show (ACK_RCVD_asm (ACK_RCVD_pre st p.ack)).1 = _
    rw [hasm]
  refine ⟨hphase, fun hno => ?_⟩
  have htr : ¬ ACK_RCVD_transitioned st p.ack = true := by
    unfold ACK_RCVD_transitioned
    rw [hasm, hno]
    simp
  rw [CoCoAEventHandler_ack_eq dev _ p st hf, if_neg htr]
  refine ⟨_, rfl, FlowMap_find_insert_self _ _ _, ?_, ?_, ?_⟩
  · rw [hphase]
    exact dupAckPhase_unchanged _ _ _ hno
  · show (ACK_RCVD_pre st p.ack).cm_window_size = _
    rw [hcc.2.1, hbk.2.1]
  · intro lat s fid hmem
    simp only at hmem
    split at hmem
    · rcases List.mem_append.1 hmem with h | h
      · exact h
      · simp at h
    · exact hmem

theorem new_ack_transition_witness :
    (ACK_RCVD_flow (flowOf (runTo exDevice [Call.Send exSyn]).flow_info (recvFid exSynAck))
      exSynAck.ack).cc_state = CCState.SLOW_START :=
  (new_ack_transition (runTo exDevice [Call.Send exSyn]) exSynAck
    (flowOf (runTo exDevice [Call.Send exSyn]).flow_info (recvFid exSynAck)) rfl rfl).1

theorem dup_ack_transition_witness :
    (ACK_RCVD_flow (flowOf exAfterHandshake.flow_info (recvFid exDupAck))
      exDupAck.ack).cc_state = CCState.SLOW_START :=
  (dup_ack_transition exAfterHandshake exDupAck
    (flowOf exAfterHandshake.flow_info (recvFid exDupAck)) rfl rfl).1

/-- Claim C9. For a flow in `DATA` on an engaged node with the link up, `Send`
classifies the packet by its payload length: with payload the packet is pushed
to the pending queue of the flow, the transmit queue and the transmitter are
untouched, the flow stays in `DATA` and `Send` returns `true`; without payload
and with `FIN` set the packet is handed to the transmit queue and the flow state
is unchanged; without payload and without `FIN` the flow moves to `TEAR_DOWN`
and the packet is handed to the transmit queue. -/
theorem Send_DATA_classifies (dev : Device) (p : Packet) (st : FlowState)
    (hup : dev.m_linkUp = true) (hid : dev.nodeId > 1)
    (hf : FlowMap.find dev.flow_info (sendFid p) = some st) (hst : st.state = TCPState.DATA)
    (hwf : p.payloadSize < 65536) :
    (payload p > 0 →
      ∃ d st1, Send dev p = Except.ok (true, d) ∧
        FlowMap.find d.flow_info (sendFid p) = some st1 ∧
        st1 = { st with queue := PQ.push st.queue (p, p.seq) } ∧
        st1.state = TCPState.DATA ∧
        d.m_queue = dev.m_queue ∧ d.m_currentPkt = dev.m_currentPkt ∧
        d.m_txMachineState = dev.m_txMachineState) ∧
    (payload p = 0 → (p.flags &&& TcpHeader.FIN) ≠ 0 →
      ∃ r d, Send dev p = Except.ok (r, d) ∧
        FlowMap.find d.flow_info (sendFid p) = some st ∧ HandedToFifo dev p d) ∧
    (payload p = 0 → (p.flags &&& TcpHeader.FIN) = 0 →
      ∃ r d st1, Send dev p = Except.ok (r, d) ∧
        FlowMap.find d.flow_info (sendFid p) = some st1 ∧
        st1 = { st with state := TCPState.TEAR_DOWN } ∧ HandedToFifo dev p d) := by
  refine ⟨fun hp => ?_, fun hp hfin => ?_, fun hp hfin => ?_⟩
  · obtain ⟨d, hs, hfd, hq, hc, ht⟩ :=
      Send_data_pending dev p st hup hid hf hst (data_size_of_payload_pos p hwf hp)
    exact ⟨d, _, hs, hfd, rfl, hst, hq, hc, ht⟩
  · exact Send_data_fin dev p st hup hid hf hst (data_size_of_payload_zero p hp) hfin
  · obtain ⟨r, d, hs, hfd, hh⟩ :=
      Send_data_teardown dev p st hup hid hf hst (data_size_of_payload_zero p hp) hfin
    exact ⟨r, d, _, hs, hfd, rfl, hh⟩

theorem Send_DATA_classifies_witness :
    ∃ d st1, Send exAfterHandshake exData1 = Except.ok (true, d) ∧
      FlowMap.find d.flow_info (sendFid exData1) = some st1 ∧
      st1 = { flowOf exAfterHandshake.flow_info (sendFid exData1) with
              queue := PQ.push (flowOf exAfterHandshake.flow_info (sendFid exData1)).queue
                (exData1, exData1.seq) } ∧
      st1.state = TCPState.DATA ∧
      d.m_queue = exAfterHandshake.m_queue ∧ d.m_currentPkt = exAfterHandshake.m_currentPkt ∧
      d.m_txMachineState = exAfterHandshake.m_txMachineState :=
  (Send_DATA_classifies exAfterHandshake exData1
    (flowOf exAfterHandshake.flow_info (sendFid exData1)) rfl (by decide) rfl rfl
    (by decide)).1 (by decide)

/-! ## `Send` and `Receive` seen from one flow -/

theorem Send_direct_config (dev : Device) (p : Packet) :
    ∃ r d, Send_direct dev p = Except.ok (r, d) ∧ d.flow_info = dev.flow_info ∧
      SameConfig dev d := by
  unfold Send_direct Enqueue
  by_cases hroom : dev.m_queue.length < dev.m_queue_cap
  · by_cases hready : dev.m_txMachineState = TxMachineState.READY
    · have hx : ∃ x rest, dev.m_queue ++ [p] = x :: rest := by
        cases dev.m_queue with
        | nil => exact ⟨p, [], rfl⟩
        | cons y ys => exact ⟨y, ys ++ [p], rfl⟩
      obtain ⟨x, rest, hx⟩ := hx
      simp only [hroom, hready, ↓reduceIte, hx, Dequeue, TransmitStart]
      exact ⟨_, _, rfl, rfl, rfl, rfl, rfl, rfl⟩
    · simp only [hroom, hready, ↓reduceIte]
      exact ⟨_, _, rfl, rfl, rfl, rfl, rfl, rfl⟩
  · simp only [hroom, ↓reduceIte]
    exact ⟨_, _, rfl, rfl, rfl, rfl, rfl, rfl⟩

theorem Send_fin_config (dev : Device) (p : Packet) :
    ∃ r d, Send_fin dev p = Except.ok (r, d) ∧ d.flow_info = dev.flow_info ∧
      SameConfig dev d := by
  unfold Send_fin Enqueue
  by_cases hroom : dev.m_queue.length < dev.m_queue_cap
  · by_cases hready : dev.m_txMachineState = TxMachineState.READY
    · have hx : ∃ x rest, dev.m_queue ++ [p] = x :: rest := by
        cases dev.m_queue with
        | nil => exact ⟨p, [], rfl⟩
        | cons y ys => exact ⟨y, ys ++ [p], rfl⟩
      obtain ⟨x, rest, hx⟩ := hx
      simp only [hroom, hready, ↓reduceIte, hx, Dequeue, TransmitStart]
      exact ⟨_, _, rfl, rfl, rfl, rfl, rfl, rfl⟩
    · simp only [hroom, hready, ↓reduceIte]
      exact ⟨_, _, rfl, rfl, rfl, rfl, rfl, rfl⟩
  · simp only [hroom, ↓reduceIte]
    exact ⟨_, _, rfl, rfl, rfl, rfl, rfl, rfl⟩

/-- The call `Send` on an engaged node with the link up returns, and leaves the flow of
the packet in the state `Send_flow`. -/
theorem Send_project (dev : Device) (p : Packet) (hup : dev.m_linkUp = true)
    (hid : dev.nodeId > 1) :
    ∃ r d, Send dev p = Except.ok (r, d) ∧
      FlowMap.find d.flow_info (sendFid p) =
        some (Send_flow (flowOf dev.flow_info (sendFid p)) p) ∧
      SameConfig dev d := by
  unfold Send Send_flow
  rw [if_neg (by simp [hup]), if_pos hid]
  simp only
  split
  · obtain ⟨r, d, hs, hfl, hc⟩ := Send_direct_config
      { dev with
        flow_info := FlowMap.insert (ensureFlow dev.flow_info (sendFid p)) (sendFid p)
          (Send_handshake (flowOf dev.flow_info (sendFid p)) p) } p
    refine ⟨r, d, hs, ?_, hc⟩
    rw [hfl]
    exact FlowMap_find_insert_self _ _ _
  · split
    · unfold CoCoAEventHandler
      simp only [find_ensureFlow_self]
      exact ⟨_, _, rfl, FlowMap_find_insert_self _ _ _, rfl, rfl, rfl, rfl⟩
    · split
      · obtain ⟨r, d, hs, hfl, hc⟩ := Send_fin_config
          { dev with flow_info := ensureFlow dev.flow_info (sendFid p) } p
        refine ⟨r, d, hs, ?_, hc⟩
        rw [hfl]
        exact find_ensureFlow_self _ _
      · obtain ⟨r, d, hs, hfl, hc⟩ := Send_direct_config
          { dev with
            flow_info := FlowMap.insert (ensureFlow dev.flow_info (sendFid p)) (sendFid p)
              ({ flowOf dev.flow_info (sendFid p) with state := TCPState.TEAR_DOWN }) } p
        refine ⟨r, d, hs, ?_, hc⟩
        rw [hfl]
        exact FlowMap_find_insert_self _ _ _
  · obtain ⟨r, d, hs, hfl, hc⟩ := Send_direct_config
      { dev with flow_info := ensureFlow dev.flow_info (sendFid p) } p
    refine ⟨r, d, hs, ?_, hc⟩
    rw [hfl]
    exact find_ensureFlow_self _ _

/-- The handler of `ACK_RCVD` returns for a flow it finds, and the flow is left
in the state `ACK_RCVD_handled`. -/
theorem CoCoAEventHandler_ack_handled (dev : Device) (p : Packet) (st : FlowState)
    (hf : FlowMap.find dev.flow_info (recvFid p) = some st) :
    ∃ d, CoCoAEventHandler dev (recvFid p) p CCEvent.ACK_RCVD = Except.ok d ∧
      FlowMap.find d.flow_info (recvFid p) =
        some (ACK_RCVD_handled dev.CC_LATENCY st p.ack) ∧
      SameConfig dev d := by
  by_cases hlat : dev.CC_LATENCY > 0
  · rw [CoCoAEventHandler_ack_eq dev _ p st hf]
    unfold ACK_RCVD_handled
    rw [if_pos hlat]
    split
    · exact ⟨_, rfl, FlowMap_find_insert_self _ _ _, rfl, rfl, rfl, rfl⟩
    · exact ⟨_, rfl, FlowMap_find_insert_self _ _ _, rfl, rfl, rfl, rfl⟩
  · obtain ⟨d, hd, hfd, _, h1, h2, h3, h4, _⟩ :=
      CoCoAEventHandler_ack_sync dev p st hf (by omega)
    refine ⟨d, hd, ?_, h1, h2, h3, h4⟩
    unfold ACK_RCVD_handled
    rw [if_neg hlat]
    exact hfd

/-- The call `Receive` of an uncorrupted packet on an engaged node returns, and leaves the
flow of the packet in the state `Receive_flow`. -/
theorem Receive_project (dev : Device) (p : Packet) (hid : dev.nodeId > 1)
    (hc : dev.isCorrupt p = false) :
    ∃ d, Receive dev p = Except.ok d ∧
      FlowMap.find d.flow_info (recvFid p) =
        some (Receive_flow dev.CC_LATENCY (flowOf dev.flow_info (recvFid p)) p) ∧
      SameConfig dev d := by
  have hack : ∀ st1 : FlowState,
      ∃ d, CoCoAEventHandler
          { dev with
            flow_info := FlowMap.insert (ensureFlow dev.flow_info (recvFid p)) (recvFid p) st1 }
          (recvFid p) p CCEvent.ACK_RCVD = Except.ok d ∧
        FlowMap.find d.flow_info (recvFid p) =
          some (ACK_RCVD_handled dev.CC_LATENCY st1 p.ack) ∧
        SameConfig dev d := by
    intro st1
    exact CoCoAEventHandler_ack_handled
      { dev with
        flow_info := FlowMap.insert (ensureFlow dev.flow_info (recvFid p)) (recvFid p) st1 }
      p st1 (FlowMap_find_insert_self _ _ _)
  unfold Receive Receive_flow
  rw [if_neg (by simp [hc]), if_pos hid]
  simp only
  split
  · split
    · split
      · exact ⟨_, rfl, FlowMap_find_insert_self _ _ _, rfl, rfl, rfl, rfl⟩
      · exact ⟨_, rfl, find_ensureFlow_self _ _, rfl, rfl, rfl, rfl⟩
    · split
      · exact hack _
      · exact ⟨_, rfl, find_ensureFlow_self _ _, rfl, rfl, rfl, rfl⟩
    · split
      · exact hack _
      · exact ⟨_, rfl, find_ensureFlow_self _ _, rfl, rfl, rfl, rfl⟩
    · exact ⟨_, rfl, find_ensureFlow_self _ _, rfl, rfl, rfl, rfl⟩
  · split
    · exact CoCoAEventHandler_ack_handled
        { dev with flow_info := ensureFlow dev.flow_info (recvFid p) }
        p _ (find_ensureFlow_self _ _)
    · exact ⟨_, rfl, find_ensureFlow_self _ _, rfl, rfl, rfl, rfl⟩
  · exact ⟨_, rfl, find_ensureFlow_self _ _, rfl, rfl, rfl, rfl⟩

/-! ## Scenario S1: the handshake -/

theorem land_18_2 : (18 &&& 2 : Nat) = 2 := by decide

theorem land_18_16 : (18 &&& 16 : Nat) = 16 := by decide

theorem s1_send_syn (syn : Packet) (h1 : syn.seq = 1000) (h2 : syn.flags = 2) :
    Send_flow (RenoInit default) syn = s1InitiatorSyn := by
  simp [Send_flow, Send_handshake, RenoInit, s1InitiatorSyn, h1, h2, TcpHeader.SYN, lnot]

theorem s1_receive_synack (lat : Nat) (synack : Packet) (h4 : synack.ack = 1001)
    (h5 : synack.flags = 18) :
    Receive_flow lat s1InitiatorSyn synack = s1InitiatorSynAck lat := by
  by_cases hlat : lat > 0
  · simp [Receive_flow, ACK_RCVD_handled, hlat, s1InitiatorSyn, s1InitiatorSynAck, RenoInit,
      h4, h5, TcpHeader.SYN,
      TcpHeader.ACK, lnot, ACK_RCVD_flow, ACK_RCVD_pre,
      ACK_RCVD_bookkeeping, ack_window_edge, ack_max_ack, ack_new_ack, ack_dup_acks,
      ACK_RCVD_rearms, rtx_arm, ACK_RCVD_asm, land_18_2, land_18_16]
  · simp [Receive_flow, ACK_RCVD_handled, hlat, s1InitiatorSyn, s1InitiatorSynAck, RenoInit,
      h4, h5, TcpHeader.SYN,
      TcpHeader.ACK, lnot, ACK_RCVD_sync, ACK_RCVD_transitioned, ACK_RCVD_flow, ACK_RCVD_pre,
      ACK_RCVD_bookkeeping, ack_window_edge, ack_max_ack, ack_new_ack, ack_dup_acks,
      ACK_RCVD_rearms, rtx_arm, ACK_RCVD_asm, RenoControl_switch, land_18_2, land_18_16]
    norm_num

theorem s1_send_ack (lat : Nat) (ack : Packet) (h7 : ack.flags = 16) :
    Send_flow (s1InitiatorSynAck lat) ack = s1InitiatorAck lat := by
  simp [Send_flow, Send_handshake, s1InitiatorSynAck, s1InitiatorAck, RenoInit, h7,
    TcpHeader.ACK, lnot]

theorem s1_receive_syn (lat : Nat) (syn : Packet) (h2 : syn.flags = 2) :
    Receive_flow lat (RenoInit default) syn = s1ResponderSyn := by
  simp [Receive_flow, RenoInit, s1ResponderSyn, h2, TcpHeader.SYN, lnot]

theorem s1_send_synack (synack : Packet) (h3 : synack.seq = 2000) (h5 : synack.flags = 18) :
    Send_flow s1ResponderSyn synack = s1ResponderSynAck := by
  simp [Send_flow, Send_handshake, RenoInit, s1ResponderSyn, s1ResponderSynAck, h3, h5,
    TcpHeader.SYN, TcpHeader.ACK, lnot, land_18_2, land_18_16]

theorem s1_receive_ack (lat : Nat) (ack : Packet) (h6 : ack.ack = 2001) (h7 : ack.flags = 16) :
    Receive_flow lat s1ResponderSynAck ack = s1ResponderAck lat := by
  by_cases hlat : lat > 0
  · simp [Receive_flow, ACK_RCVD_handled, hlat, s1ResponderSynAck, s1ResponderAck, RenoInit,
      h6, h7,
      TcpHeader.ACK, lnot, ACK_RCVD_flow, ACK_RCVD_pre,
      ACK_RCVD_bookkeeping, ack_window_edge, ack_max_ack, ack_new_ack, ack_dup_acks,
      ACK_RCVD_rearms, rtx_arm, ACK_RCVD_asm]
  · simp [Receive_flow, ACK_RCVD_handled, hlat, s1ResponderSynAck, s1ResponderAck, RenoInit,
      h6, h7,
      TcpHeader.ACK, lnot, ACK_RCVD_sync, ACK_RCVD_transitioned, ACK_RCVD_flow, ACK_RCVD_pre,
      ACK_RCVD_bookkeeping, ack_window_edge, ack_max_ack, ack_new_ack, ack_dup_acks,
      ACK_RCVD_rearms, rtx_arm, ACK_RCVD_asm, RenoControl_switch]
    norm_num

theorem recvFid_eq_sendFid_symm {p q : Packet} (h : recvFid p = sendFid q) :
    sendFid p = recvFid q := by
  simp only [recvFid, sendFid, Prod.mk.injEq] at h ⊢
  exact ⟨h.2.2.1, h.2.2.2.1, h.1, h.2.1, h.2.2.2.2⟩

theorem sendFid_eq_recvFid {p q : Packet} (h : sendFid p = sendFid q) :
    recvFid p = recvFid q := by
  simp only [recvFid, sendFid, Prod.mk.injEq] at h ⊢
  exact ⟨h.2.2.1, h.2.2.2.1, h.1, h.2.1, h.2.2.2.2⟩

/-- The initiator side of scenario S1 on any engaged device that does not know
the flow yet: the three calls return and leave the flow in `s1InitiatorAck`. -/
theorem s1_initiator (dev : Device) (syn synack ack : Packet)
    (hup : dev.m_linkUp = true) (hid : dev.nodeId > 1)
    (hnew : FlowMap.find dev.flow_info (sendFid syn) = none)
    (hc : dev.isCorrupt synack = false)
    (hdir1 : recvFid synack = sendFid syn) (hdir2 : sendFid ack = sendFid syn)
    (h1 : syn.seq = 1000) (h2 : syn.flags = 2)
    (h4 : synack.ack = 1001) (h5 : synack.flags = 18) (h7 : ack.flags = 16) :
    ∃ d, run dev [Call.Send syn, Call.Receive synack, Call.Send ack] = Except.ok d ∧
      FlowMap.find d.flow_info (sendFid syn) = some (s1InitiatorAck dev.CC_LATENCY) := by
  obtain ⟨r1, d1, hs1, hf1, hc1⟩ := Send_project dev syn hup hid
  rw [flowOf_of_none hnew, s1_send_syn syn h1 h2] at hf1
  obtain ⟨d2, hs2, hf2, hc2⟩ := Receive_project d1 synack (by rw [hc1.1]; exact hid)
    (by rw [hc1.2.2.2]; exact hc)
  rw [hdir1, flowOf_of_find hf1, s1_receive_synack _ synack h4 h5, hc1.2.2.1] at hf2
  obtain ⟨r3, d3, hs3, hf3, hc3⟩ := Send_project d2 ack (by rw [hc2.2.1, hc1.2.1]; exact hup)
    (by rw [hc2.1, hc1.1]; exact hid)
  rw [hdir2, flowOf_of_find hf2, s1_send_ack _ ack h7] at hf3
  refine ⟨d3, ?_, hf3⟩
  simp only [run, step, hs1, hs2, hs3]

/-- The responder side of scenario S1 on any engaged device that does not know
the flow yet: the three calls return and leave the flow in `s1ResponderAck`. -/
theorem s1_responder (dev : Device) (syn synack ack : Packet)
    (hup : dev.m_linkUp = true) (hid : dev.nodeId > 1)
    (hnew : FlowMap.find dev.flow_info (recvFid syn) = none)
    (hc1 : dev.isCorrupt syn = false) (hc2 : dev.isCorrupt ack = false)
    (hdir1 : recvFid synack = sendFid syn) (hdir2 : sendFid ack = sendFid syn)
    (h2 : syn.flags = 2) (h3 : synack.seq = 2000) (h5 : synack.flags = 18)
    (h6 : ack.ack = 2001) (h7 : ack.flags = 16) :
    ∃ d, run dev [Call.Receive syn, Call.Send synack, Call.Receive ack] = Except.ok d ∧
      FlowMap.find d.flow_info (recvFid syn) = some (s1ResponderAck dev.CC_LATENCY) := by
  obtain ⟨d1, hs1, hf1, hk1⟩ := Receive_project dev syn hid hc1
  rw [flowOf_of_none hnew, s1_receive_syn _ syn h2] at hf1
  obtain ⟨r2, d2, hs2, hf2, hk2⟩ := Send_project d1 synack (by rw [hk1.2.1]; exact hup)
    (by rw [hk1.1]; exact hid)
  rw [recvFid_eq_sendFid_symm hdir1, flowOf_of_find hf1, s1_send_synack synack h3 h5] at hf2
  obtain ⟨d3, hs3, hf3, hk3⟩ := Receive_project d2 ack (by rw [hk2.1, hk1.1]; exact hid)
    (by rw [hk2.2.2.2, hk1.2.2.2]; exact hc2)
  rw [sendFid_eq_recvFid hdir2, flowOf_of_find hf2, s1_receive_ack _ ack h6 h7,
    hk2.2.2.1, hk1.2.2.1] at hf3
  refine ⟨d3, ?_, hf3⟩
  simp only [run, step, hs1, hs2, hs3]

/-- Claim C6, counterexample. On the endpoints `exDevice` and `exResponder`, both
with `CC_LATENCY = 0` and node id above 1, the exchange of scenario S1 leaves the
flow of each side with `cc_state = SLOW_START` and `cm_window_size = 2`: the ACK
that ends the handshake (the SYN-ACK for the initiator) is a new ACK, so neither
side ends with `cc_state = START` and `cm_window_size = 1`. -/
theorem S1_handshake_leaves_START :
    exDevice.CC_LATENCY = 0 ∧ exResponder.CC_LATENCY = 0 ∧
    exDevice.nodeId > 1 ∧ exResponder.nodeId > 1 ∧
    (∃ d st, run exDevice [Call.Send exSyn, Call.Receive exSynAck, Call.Send exAck]
        = Except.ok d ∧
      FlowMap.find d.flow_info (sendFid exSyn) = some st ∧
      st.cc_state = CCState.SLOW_START ∧ st.cm_window_size = 2 ∧
      ¬ (st.cc_state = CCState.START ∧ st.cm_window_size = 1)) ∧
    (∃ d st, run exResponder [Call.Receive exSyn, Call.Send exSynAck, Call.Receive exAck]
        = Except.ok d ∧
      FlowMap.find d.flow_info (recvFid exSyn) = some st ∧
      st.cc_state = CCState.SLOW_START ∧ st.cm_window_size = 2 ∧
      ¬ (st.cc_state = CCState.START ∧ st.cm_window_size = 1)) := by
  refine ⟨rfl, rfl, by decide, by decide, ?_, ?_⟩
  · obtain ⟨d, hr, hf⟩ := s1_initiator exDevice exSyn exSynAck exAck rfl (by decide) rfl rfl
      rfl rfl rfl rfl rfl rfl rfl
    refine ⟨d, _, hr, hf, rfl, ?_, ?_⟩
    · simp [s1InitiatorAck, s1InitiatorSynAck, exDevice]
    · intro h
      exact absurd h.1 (by simp [s1InitiatorAck, s1InitiatorSynAck])
  · obtain ⟨d, hr, hf⟩ := s1_responder exResponder exSyn exSynAck exAck rfl (by decide) rfl rfl
      rfl rfl rfl rfl rfl rfl rfl rfl
    refine ⟨d, _, hr, hf, rfl, ?_, ?_⟩
    · simp [s1ResponderAck, exResponder]
    · intro h
      exact absurd h.1 (by simp [s1ResponderAck])

/-- Claim C6, amended. Scenario S1 with `CC_LATENCY = 0`: on an initiator endpoint
(node id above 1, link up, flow not yet known) that Sends the SYN (seq 1000, flags
0x02), Receives the SYN-ACK (ack 1001, flags 0x12) and Sends the ACK (flags
0x10), and on a responder endpoint that Receives that SYN, Sends that SYN-ACK
(seq 2000) and Receives that ACK (ack 2001), the three calls return and the flow
on each side ends with `cc_state = SLOW_START` and `cm_window_size = 2`. -/
theorem S1_handshake_cc (ini rsp : Device) (syn synack ack : Packet)
    (hupI : ini.m_linkUp = true) (hidI : ini.nodeId > 1) (hlatI : ini.CC_LATENCY = 0)
    (hupR : rsp.m_linkUp = true) (hidR : rsp.nodeId > 1) (hlatR : rsp.CC_LATENCY = 0)
    (hnewI : FlowMap.find ini.flow_info (sendFid syn) = none)
    (hnewR : FlowMap.find rsp.flow_info (recvFid syn) = none)
    (hcI : ini.isCorrupt synack = false)
    (hcR1 : rsp.isCorrupt syn = false) (hcR2 : rsp.isCorrupt ack = false)
    (hdir1 : recvFid synack = sendFid syn) (hdir2 : sendFid ack = sendFid syn)
    (h1 : syn.seq = 1000) (h2 : syn.flags = 2)
    (h3 : synack.seq = 2000) (h4 : synack.ack = 1001) (h5 : synack.flags = 18)
    (h6 : ack.ack = 2001) (h7 : ack.flags = 16) :
    (∃ d st, run ini [Call.Send syn, Call.Receive synack, Call.Send ack] = Except.ok d ∧
      FlowMap.find d.flow_info (sendFid syn) = some st ∧
      st.cc_state = CCState.SLOW_START ∧ st.cm_window_size = 2) ∧
    (∃ d st, run rsp [Call.Receive syn, Call.Send synack, Call.Receive ack] = Except.ok d ∧
      FlowMap.find d.flow_info (recvFid syn) = some st ∧
      st.cc_state = CCState.SLOW_START ∧ st.cm_window_size = 2) := by
  constructor
  · obtain ⟨d, hr, hf⟩ := s1_initiator ini syn synack ack hupI hidI hnewI hcI hdir1 hdir2
      h1 h2 h4 h5 h7
    refine ⟨d, _, hr, hf, rfl, ?_⟩
    simp [s1InitiatorAck, s1InitiatorSynAck, hlatI]
  · obtain ⟨d, hr, hf⟩ := s1_responder rsp syn synack ack hupR hidR hnewR hcR1 hcR2 hdir1 hdir2
      h2 h3 h5 h6 h7
    refine ⟨d, _, hr, hf, rfl, ?_⟩
    simp [s1ResponderAck, hlatR]

theorem S1_handshake_cc_witness :
    (∃ d st, run exDevice [Call.Send exSyn, Call.Receive exSynAck, Call.Send exAck]
        = Except.ok d ∧
      FlowMap.find d.flow_info (sendFid exSyn) = some st ∧
      st.cc_state = CCState.SLOW_START ∧ st.cm_window_size = 2) ∧
    (∃ d st, run exResponder [Call.Receive exSyn, Call.Send exSynAck, Call.Receive exAck]
        = Except.ok d ∧
      FlowMap.find d.flow_info (recvFid exSyn) = some st ∧
      st.cc_state = CCState.SLOW_START ∧ st.cm_window_size = 2) :=
  S1_handshake_cc exDevice exResponder exSyn exSynAck exAck rfl (by decide) rfl rfl (by decide)
    rfl rfl rfl rfl rfl rfl rfl rfl rfl rfl rfl rfl rfl rfl rfl

/-- Claim C7. Scenario S1, the outcome of the handshake, for any `CC_LATENCY`: on
engaged endpoints (node id above 1, link up) that do not know the flow yet, the
exchange SYN (seq 1000, flags 0x02), SYN-ACK (seq 2000, ack 1001, flags 0x12),
ACK (ack 2001, flags 0x10) processed by `Send` and `Receive` returns on both
sides; both flows end with `state = DATA` and `setup_state = ACK`, the initiator
has `initiator = true` and `cm_start = 1001`, and the responder has
`initiator = false` and `cm_start = 2001`. -/
theorem S1_handshake_outcome (ini rsp : Device) (syn synack ack : Packet)
    (hupI : ini.m_linkUp = true) (hidI : ini.nodeId > 1)
    (hupR : rsp.m_linkUp = true) (hidR : rsp.nodeId > 1)
    (hnewI : FlowMap.find ini.flow_info (sendFid syn) = none)
    (hnewR : FlowMap.find rsp.flow_info (recvFid syn) = none)
    (hcI : ini.isCorrupt synack = false)
    (hcR1 : rsp.isCorrupt syn = false) (hcR2 : rsp.isCorrupt ack = false)
    (hdir1 : recvFid synack = sendFid syn) (hdir2 : sendFid ack = sendFid syn)
    (h1 : syn.seq = 1000) (h2 : syn.flags = 2)
    (h3 : synack.seq = 2000) (h4 : synack.ack = 1001) (h5 : synack.flags = 18)
    (h6 : ack.ack = 2001) (h7 : ack.flags = 16) :
    (∃ d st, run ini [Call.Send syn, Call.Receive synack, Call.Send ack] = Except.ok d ∧
      FlowMap.find d.flow_info (sendFid syn) = some st ∧
      st.state = TCPState.DATA ∧ st.setup_state = HandshakeState.ACK ∧
      st.initiator = true ∧ st.cm_start = 1001) ∧
    (∃ d st, run rsp [Call.Receive syn, Call.Send synack, Call.Receive ack] = Except.ok d ∧
      FlowMap.find d.flow_info (recvFid syn) = some st ∧
      st.state = TCPState.DATA ∧ st.setup_state = HandshakeState.ACK ∧
      st.initiator = false ∧ st.cm_start = 2001) := by
  constructor
  · obtain ⟨d, hr, hf⟩ := s1_initiator ini syn synack ack hupI hidI hnewI hcI hdir1 hdir2
      h1 h2 h4 h5 h7
    exact ⟨d, _, hr, hf, rfl, rfl, rfl, rfl⟩
  · obtain ⟨d, hr, hf⟩ := s1_responder rsp syn synack ack hupR hidR hnewR hcR1 hcR2 hdir1 hdir2
      h2 h3 h5 h6 h7
    exact ⟨d, _, hr, hf, rfl, rfl, rfl, rfl⟩

theorem S1_handshake_outcome_witness :
    (∃ d st, run exDevice [Call.Send exSyn, Call.Receive exSynAck, Call.Send exAck]
        = Except.ok d ∧
      FlowMap.find d.flow_info (sendFid exSyn) = some st ∧
      st.state = TCPState.DATA ∧ st.setup_state = HandshakeState.ACK ∧
      st.initiator = true ∧ st.cm_start = 1001) ∧
    (∃ d st, run exResponder [Call.Receive exSyn, Call.Send exSynAck, Call.Receive exAck]
        = Except.ok d ∧
      FlowMap.find d.flow_info (recvFid exSyn) = some st ∧
      st.state = TCPState.DATA ∧ st.setup_state = HandshakeState.ACK ∧
      st.initiator = false ∧ st.cm_start = 2001) :=
  S1_handshake_outcome exDevice exResponder exSyn exSynAck exAck rfl (by decide) rfl (by decide)
    rfl rfl rfl rfl rfl rfl rfl rfl rfl rfl rfl rfl rfl rfl

/-- The mask `!(TcpHeader::SYN)` of the source is 0, so the test
`(flags & !(TcpHeader::SYN)) == 0` holds for every value of the flags. -/
theorem land_lnot_SYN (flags : Nat) : (flags &&& lnot TcpHeader.SYN) = 0 := by
  simp [lnot, TcpHeader.SYN]

/-- Claim C8. The handshake tests of the source accept packets with further control
bits, because `flags & !(SYN)` is `flags & 0`. A SYN|ACK (0x12) met in
SETUP/NONE moves the flow to `setup_state = SYN`, in `Send` (which also sets
`initiator`, `init_seq` and `cm_start`; first part, on `exDevice`) and in
`Receive` (second part). A FIN|ACK (0x11) met in SETUP/SYN_ACK moves the flow to
`setup_state = ACK` and `state = DATA`, in `Send` for the initiator (third part,
after `Send` of the SYN and `Receive` of the SYN-ACK) and in `Receive` for the
responder (fourth part). -/
theorem handshake_masks_accept_extra_bits :
    exSynAck.flags = 18 ∧ exFin.flags = 17 ∧
    (FlowMap.find exDevice.flow_info (sendFid exSynAck) = none ∧
      (RenoInit default).state = TCPState.SETUP ∧
      (RenoInit default).setup_state = HandshakeState.NONE ∧
      (RenoInit default).initiator = false ∧ (RenoInit default).init_seq = 0 ∧
      (RenoInit default).cm_start = 0 ∧
      ∃ d st, run exDevice [Call.Send exSynAck] = Except.ok d ∧
        FlowMap.find d.flow_info (sendFid exSynAck) = some st ∧
        st.setup_state = HandshakeState.SYN ∧ st.initiator = true ∧
        st.init_seq = 2000 ∧ st.cm_start = 2000) ∧
    (FlowMap.find exDevice.flow_info (recvFid exSynAck) = none ∧
      ∃ d st, run exDevice [Call.Receive exSynAck] = Except.ok d ∧
        FlowMap.find d.flow_info (recvFid exSynAck) = some st ∧
        st.setup_state = HandshakeState.SYN) ∧
    (∃ d0 st0 d st,
      run exDevice [Call.Send exSyn, Call.Receive exSynAck] = Except.ok d0 ∧
      FlowMap.find d0.flow_info (sendFid exFin) = some st0 ∧
      st0.state = TCPState.SETUP ∧ st0.setup_state = HandshakeState.SYN_ACK ∧
      run d0 [Call.Send exFin] = Except.ok d ∧
      FlowMap.find d.flow_info (sendFid exFin) = some st ∧
      st.state = TCPState.DATA ∧ st.setup_state = HandshakeState.ACK) ∧
    (∃ d0 st0 d st,
      run exResponder [Call.Receive exSyn, Call.Send exSynAck] = Except.ok d0 ∧
      FlowMap.find d0.flow_info (recvFid exFin) = some st0 ∧
      st0.state = TCPState.SETUP ∧ st0.setup_state = HandshakeState.SYN_ACK ∧
      run d0 [Call.Receive exFin] = Except.ok d ∧
      FlowMap.find d.flow_info (recvFid exFin) = some st ∧
      st.state = TCPState.DATA ∧ st.setup_state = HandshakeState.ACK) :=
  ⟨rfl, rfl,
   ⟨rfl, rfl, rfl, rfl, rfl, rfl, _, _, rfl, rfl, rfl, rfl, rfl, rfl⟩,
   ⟨rfl, _, _, rfl, rfl, rfl⟩,
   ⟨_, _, _, _, rfl, rfl, rfl, rfl, rfl, rfl, rfl, rfl⟩,
   ⟨_, _, _, _, rfl, rfl, rfl, rfl, rfl, rfl, rfl, rfl⟩⟩

/-! ## Scenario S3: three duplicate ACKs in phase AI -/

theorem ack_window_edge_acks (st : FlowState) (a : Nat) :
    (ack_window_edge st a).max_ack__val = st.max_ack__val ∧
    (ack_window_edge st a).new_ack__ack_num = st.new_ack__ack_num ∧
    (ack_window_edge st a).dup_acks__val = st.dup_acks__val ∧
    (ack_window_edge st a).dup_acks__first_ack = st.dup_acks__first_ack ∧
    (ack_window_edge st a).dup_acks__last_ack = st.dup_acks__last_ack := by
  unfold ack_window_edge
  split <;> exact ⟨rfl, rfl, rfl, rfl, rfl⟩

theorem ack_max_ack_acks (st : FlowState) (a : Nat) :
    (ack_max_ack st a).max_ack__val = max a st.max_ack__val ∧
    (ack_max_ack st a).new_ack__ack_num = st.new_ack__ack_num ∧
    (ack_max_ack st a).dup_acks__val = st.dup_acks__val ∧
    (ack_max_ack st a).dup_acks__first_ack = st.dup_acks__first_ack ∧
    (ack_max_ack st a).dup_acks__last_ack = st.dup_acks__last_ack := by
  unfold ack_max_ack
  split
  · rename_i h
    exact ⟨(max_eq_left (Nat.le_of_lt h)).symm, rfl, rfl, rfl, rfl⟩
  · rename_i h
    exact ⟨(max_eq_right (Nat.le_of_not_lt h)).symm, rfl, rfl, rfl, rfl⟩

theorem ack_new_ack_acks (st : FlowState) (a : Nat) :
    (ack_new_ack st a).max_ack__val = st.max_ack__val ∧
    (ack_new_ack st a).new_ack__val =
      decide (a = st.max_ack__val ∧ st.max_ack__val > st.new_ack__ack_num) ∧
    (ack_new_ack st a).new_ack__ack_num =
      (if a = st.max_ack__val ∧ st.max_ack__val > st.new_ack__ack_num then a
       else st.new_ack__ack_num) ∧
    (ack_new_ack st a).dup_acks__val = st.dup_acks__val ∧
    (ack_new_ack st a).dup_acks__first_ack = st.dup_acks__first_ack ∧
    (ack_new_ack st a).dup_acks__last_ack = st.dup_acks__last_ack := by
  unfold ack_new_ack
  split
  · rename_i h
    exact ⟨rfl, (decide_eq_true h).symm, rfl, rfl, rfl, rfl⟩
  · rename_i h
    exact ⟨rfl, (decide_eq_false h).symm, rfl, rfl, rfl, rfl⟩

theorem ack_dup_acks_acks (st : FlowState) (a : Nat) :
    (ack_dup_acks st a).max_ack__val = st.max_ack__val ∧
    (ack_dup_acks st a).new_ack__val = st.new_ack__val ∧
    (ack_dup_acks st a).new_ack__ack_num = st.new_ack__ack_num ∧
    (ack_dup_acks st a).dup_acks__first_ack = false ∧
    (ack_dup_acks st a).dup_acks__last_ack = a ∧
    (ack_dup_acks st a).dup_acks__val =
      (if st.dup_acks__first_ack = true then st.dup_acks__val
       else if st.dup_acks__last_ack = a then st.dup_acks__val + 1 else 0) := by
  unfold ack_dup_acks
  split
  · exact ⟨rfl, rfl, rfl, rfl, rfl, rfl⟩
  · rename_i h
    split
    · rename_i h2
      exact ⟨rfl, rfl, rfl, by simpa using h, h2, rfl⟩
    · exact ⟨rfl, rfl, rfl, by simpa using h, rfl, rfl⟩

/-- The bookkeeping of `ACK_RCVD`, read on the fields that count ACKs. -/
theorem ACK_RCVD_bookkeeping_acks (st : FlowState) (a : Nat) :
    (ACK_RCVD_bookkeeping st a).max_ack__val = max a st.max_ack__val ∧
    (ACK_RCVD_bookkeeping st a).new_ack__val =
      decide (a = max a st.max_ack__val ∧ max a st.max_ack__val > st.new_ack__ack_num) ∧
    (ACK_RCVD_bookkeeping st a).new_ack__ack_num =
      (if a = max a st.max_ack__val ∧ max a st.max_ack__val > st.new_ack__ack_num then a
       else st.new_ack__ack_num) ∧
    (ACK_RCVD_bookkeeping st a).dup_acks__first_ack = false ∧
    (ACK_RCVD_bookkeeping st a).dup_acks__last_ack = a ∧
    (ACK_RCVD_bookkeeping st a).dup_acks__val =
      (if st.dup_acks__first_ack = true then st.dup_acks__val
       else if st.dup_acks__last_ack = a then st.dup_acks__val + 1 else 0) := by
  unfold ACK_RCVD_bookkeeping
  obtain ⟨a1, a2, a3, a4, a5⟩ := ack_window_edge_acks st a
  obtain ⟨b1, b2, b3, b4, b5⟩ := ack_max_ack_acks (ack_window_edge st a) a
  obtain ⟨c1, c2, c3, c4, c5, c6⟩ := ack_new_ack_acks (ack_max_ack (ack_window_edge st a) a) a
  obtain ⟨d1, d2, d3, d4, d5, d6⟩ :=
    ack_dup_acks_acks (ack_new_ack (ack_max_ack (ack_window_edge st a) a) a) a
  rw [a1] at b1
  rw [a2] at b2
  rw [a3] at b3
  rw [a4] at b4
  rw [a5] at b5
  rw [b1] at c1
  rw [b1, b2] at c2 c3
  rw [b3] at c4
  rw [b4] at c5
  rw [b5] at c6
  rw [c1] at d1
  rw [c2] at d2
  rw [c3] at d3
  rw [c4, c5, c6] at d6
  exact ⟨d1, d2, d3, d4, d5, d6⟩

theorem S3_bookkeeping (st : FlowState) (k : Nat) (h : S3State st k) :
    (ACK_RCVD_bookkeeping st 10000).new_ack__val = false ∧
    (ACK_RCVD_bookkeeping st 10000).dup_acks__val = k + 1 ∧
    (ACK_RCVD_bookkeeping st 10000).dup_acks__first_ack = false ∧
    (ACK_RCVD_bookkeeping st 10000).dup_acks__last_ack = 10000 ∧
    (10000 ≤ (ACK_RCVD_bookkeeping st 10000).new_ack__ack_num ∨
      10000 < (ACK_RCVD_bookkeeping st 10000).max_ack__val) ∧
    10000 ≤ (ACK_RCVD_bookkeeping st 10000).max_ack__val := by
  obtain ⟨-, -, -, -, h5, h6, h7, h8⟩ := h
  obtain ⟨b1, b2, b3, b4, b5, b6⟩ := ACK_RCVD_bookkeeping_acks st 10000
  have hn : ¬ (10000 = max 10000 st.max_ack__val ∧
      max 10000 st.max_ack__val > st.new_ack__ack_num) := by
    intro hc
    rcases h8 with h8 | h8
    · have := hc.1
      omega
    · have := hc.1
      have := le_max_right 10000 st.max_ack__val
      omega
  rw [if_neg hn] at b3
  rw [decide_eq_false hn] at b2
  rw [h5, h6, h7] at b6
  simp only [Bool.false_eq_true, if_false, if_true] at b6
  refine ⟨b2, b6, b4, b5, ?_, ?_⟩
  · rw [b3, b1]
    rcases h8 with h8 | h8
    · exact Or.inl h8
    · exact Or.inr (lt_of_lt_of_le h8 (le_max_right _ _))
  · rw [b1]
    exact le_max_left _ _

/-- The state at the switch of `ACK_RCVD` for one more ACK 10000 in scenario S3. -/
theorem S3_pre (st : FlowState) (k : Nat) (h : S3State st k) :
    S3State (ACK_RCVD_pre st 10000) (k + 1) ∧
    (ACK_RCVD_pre st 10000).new_ack__val = false ∧
    10000 ≤ (ACK_RCVD_pre st 10000).max_ack__val := by
  obtain ⟨b1, b2, b3, b4, b5, b6⟩ := S3_bookkeeping st k h
  obtain ⟨f1, f2, -, f4, -, f6⟩ := ACK_RCVD_bookkeeping_frameCC st 10000
  obtain ⟨h1, h2, h3, h4, -, -, -, -⟩ := h
  rw [h1] at f1
  rw [h2] at f2
  rw [h4] at f4
  rw [h3] at f6
  unfold ACK_RCVD_pre
  simp only
  split
  · exact ⟨⟨f1, f2, f6, f4, b3, b4, b2, b5⟩, b1, b6⟩
  · exact ⟨⟨f1, f2, f6, f4, b3, b4, b2, b5⟩, b1, b6⟩

/-- In scenario S3 an ACK 10000 that is not the third duplicate only counts. -/
theorem S3_dup (st : FlowState) (k : Nat) (h : S3State st k) (hk : k + 1 ≠ 3) :
    S3State (ACK_RCVD_sync st 10000) (k + 1) := by
  obtain ⟨⟨p1, p2, p3, p4, p5, p6, p7, p8⟩, hnew, -⟩ := S3_pre st k h
  have hasm : ACK_RCVD_asm (ACK_RCVD_pre st 10000) = (CCState.AI, false) := by
    rw [ACK_RCVD_asm_old _ hnew, p1, p7]
    simp [dupAckPhase, hk]
  have hs : ACK_RCVD_sync st 10000 = ACK_RCVD_flow st 10000 := by
    unfold ACK_RCVD_sync ACK_RCVD_transitioned
    rw [hasm]
    simp
  rw [hs]
  unfold ACK_RCVD_flow
  exact ⟨by rw [hasm], p2, p3, p4, p5, p6, p7, p8⟩

/-- In scenario S3 the third duplicate of the ACK 10000 moves the flow to MD and
runs the engine. -/
theorem S3_third (st : FlowState) (h : S3State st 2) :
    (ACK_RCVD_sync st 10000).dup_acks__val = 3 ∧
    (ACK_RCVD_sync st 10000).cc_state = CCState.MD ∧
    (ACK_RCVD_sync st 10000).cc_tmp_win = 4 ∧
    (ACK_RCVD_sync st 10000).cc_ss_threshold = 4 ∧
    (ACK_RCVD_sync st 10000).cm_window_size = 7 := by
  obtain ⟨⟨p1, p2, p3, p4, p5, p6, p7, p8⟩, hnew, hmax⟩ := S3_pre st 2 h
  have hasm : ACK_RCVD_asm (ACK_RCVD_pre st 10000) = (CCState.MD, true) := by
    rw [ACK_RCVD_asm_old _ hnew, p1, p7, p4]
    have : (ACK_RCVD_pre st 10000).max_ack__val > 0 := by omega
    simp [dupAckPhase, this]
  have hs : ACK_RCVD_sync st 10000 =
      RenoControl_switch CCState.MD (ACK_RCVD_flow st 10000) := by
    unfold ACK_RCVD_sync ACK_RCVD_transitioned
    rw [hasm]
    simp only [if_true]
    unfold ACK_RCVD_flow
    rw [hasm]
  rw [hs]
  refine ⟨p7, ?_, ?_, ?_, ?_⟩
  · show (ACK_RCVD_asm (ACK_RCVD_pre st 10000)).1 = CCState.MD
    rw [hasm]
  · show (ACK_RCVD_pre st 10000).cm_window_size / 2 = 4
    rw [p2]
    norm_num
  · show (ACK_RCVD_pre st 10000).cm_window_size / 2 = 4
    rw [p2]
    norm_num
  · show (ACK_RCVD_pre st 10000).cm_window_size / 2 +
      ((ACK_RCVD_pre st 10000).dup_acks__val : ℚ) = 7
    rw [p2, p7]
    norm_num

/-- Claim C10, counterexample. The flow `exS3Fresh` is in phase AI with
`cm_window_size = 8`, `max_sent__val = 20000` and `cc_recovery_seq = 0`, on a
device with `CC_LATENCY = 0`; its last ACK was 9000. After three consecutive
`ACK_RCVD` events that all carry ack 10000 the first of them was a new ACK and
only two were duplicates: `dup_acks__val = 2` and the phase is AI, not MD. -/
theorem S3_three_acks_first_new :
    exS3Fresh.cc_state = CCState.AI ∧ exS3Fresh.cm_window_size = 8 ∧
    exS3Fresh.max_sent__val = 20000 ∧ exS3Fresh.cc_recovery_seq = 0 ∧
    (exS3Device exS3Fresh).CC_LATENCY = 0 ∧ exAck10000.ack = 10000 ∧
    FlowMap.find (exS3Device exS3Fresh).flow_info (recvFid exAck10000) = some exS3Fresh ∧
    ∃ d1 d2 d3 st3,
      CoCoAEventHandler (exS3Device exS3Fresh) (recvFid exAck10000) exAck10000 CCEvent.ACK_RCVD
        = Except.ok d1 ∧
      CoCoAEventHandler d1 (recvFid exAck10000) exAck10000 CCEvent.ACK_RCVD = Except.ok d2 ∧
      CoCoAEventHandler d2 (recvFid exAck10000) exAck10000 CCEvent.ACK_RCVD = Except.ok d3 ∧
      FlowMap.find d3.flow_info (recvFid exAck10000) = some st3 ∧
      st3.dup_acks__val = 2 ∧ st3.cc_state = CCState.AI ∧
      ¬ (st3.dup_acks__val = 3 ∧ st3.cc_state = CCState.MD) :=
  ⟨rfl, rfl, rfl, rfl, rfl, rfl, rfl, _, _, _, _, rfl, rfl, rfl, rfl, rfl, rfl, by decide⟩

/-- Claim C10, amended. Scenario S3 on a device with `CC_LATENCY = 0`: for a flow
in phase AI with `cm_window_size = 8`, `max_sent__val = 20000` and
`cc_recovery_seq = 0` that has seen the ACK 10000 already (it is the last ACK,
`dup_acks__val = 0`, and it is not new: `new_ack__ack_num ≥ 10000` or
`max_ack__val > 10000`), three consecutive `ACK_RCVD` events of the flow that
all carry ack 10000 return, and afterwards `dup_acks__val = 3`, the phase is MD,
`cc_tmp_win = 4`, `cc_ss_threshold = 4` and `cm_window_size = 7`. -/
theorem S3_three_dup_acks (dev : Device) (p1 p2 p3 : Packet) (st : FlowState)
    (hlat : dev.CC_LATENCY = 0)
    (hf : FlowMap.find dev.flow_info (recvFid p1) = some st)
    (hk2 : recvFid p2 = recvFid p1) (hk3 : recvFid p3 = recvFid p1)
    (ha1 : p1.ack = 10000) (ha2 : p2.ack = 10000) (ha3 : p3.ack = 10000)
    (hph : st.cc_state = CCState.AI) (hw : st.cm_window_size = 8)
    (hms : st.max_sent__val = 20000) (hrec : st.cc_recovery_seq = 0)
    (hfirst : st.dup_acks__first_ack = false) (hlast : st.dup_acks__last_ack = 10000)
    (hdup : st.dup_acks__val = 0)
    (hold : 10000 ≤ st.new_ack__ack_num ∨ 10000 < st.max_ack__val) :
    ∃ d1 d2 d3 st3,
      CoCoAEventHandler dev (recvFid p1) p1 CCEvent.ACK_RCVD = Except.ok d1 ∧
      CoCoAEventHandler d1 (recvFid p2) p2 CCEvent.ACK_RCVD = Except.ok d2 ∧
      CoCoAEventHandler d2 (recvFid p3) p3 CCEvent.ACK_RCVD = Except.ok d3 ∧
      FlowMap.find d3.flow_info (recvFid p1) = some st3 ∧
      st3.dup_acks__val = 3 ∧ st3.cc_state = CCState.MD ∧ st3.cc_tmp_win = 4 ∧
      st3.cc_ss_threshold = 4 ∧ st3.cm_window_size = 7 := by
  have h0 : S3State st 0 := ⟨hph, hw, hms, hrec, hfirst, hlast, hdup, hold⟩
  obtain ⟨d1, e1, f1, -, -, -, l1, -⟩ := CoCoAEventHandler_ack_sync dev p1 st hf hlat
  rw [ha1] at f1
  rw [← hk2] at f1
  obtain ⟨d2, e2, f2, -, -, -, l2, -⟩ :=
    CoCoAEventHandler_ack_sync d1 p2 _ f1 (by rw [l1]; exact hlat)
  rw [ha2, hk2, ← hk3] at f2
  obtain ⟨d3, e3, f3, -, -, -, l3, -⟩ :=
    CoCoAEventHandler_ack_sync d2 p3 _ f2 (by rw [l2, l1]; exact hlat)
  rw [ha3, hk3] at f3
  have h1 : S3State (ACK_RCVD_sync st 10000) 1 := S3_dup st 0 h0 (by decide)
  have h2 : S3State (ACK_RCVD_sync (ACK_RCVD_sync st 10000) 10000) 2 :=
    S3_dup _ 1 h1 (by decide)
  exact ⟨d1, d2, d3, _, e1, e2, e3, f3, S3_third _ h2⟩

theorem S3_three_dup_acks_witness :
    ∃ d1 d2 d3 st3,
      CoCoAEventHandler (exS3Device exS3Acked) (recvFid exAck10000) exAck10000 CCEvent.ACK_RCVD
        = Except.ok d1 ∧
      CoCoAEventHandler d1 (recvFid exAck10000) exAck10000 CCEvent.ACK_RCVD = Except.ok d2 ∧
      CoCoAEventHandler d2 (recvFid exAck10000) exAck10000 CCEvent.ACK_RCVD = Except.ok d3 ∧
      FlowMap.find d3.flow_info (recvFid exAck10000) = some st3 ∧
      st3.dup_acks__val = 3 ∧ st3.cc_state = CCState.MD ∧ st3.cc_tmp_win = 4 ∧
      st3.cc_ss_threshold = 4 ∧ st3.cm_window_size = 7 :=
  S3_three_dup_acks (exS3Device exS3Acked) exAck10000 exAck10000 exAck10000 exS3Acked
    rfl rfl rfl rfl rfl rfl rfl rfl rfl rfl rfl rfl rfl rfl (Or.inl (by decide))

/-! ## `RenoInit` and the gating by node id -/

/-- Claim C19. For any prior content of the flow state, `RenoInit` yields
`state = SETUP`, `setup_state = NONE`, `cc_state = START`,
`cc_ss_threshold = 131072`, `cm_window_size = 1`, `max_ack__val = 0`,
`new_ack__val = false`, `new_ack__ack_num = 0`, `dup_acks__val = 0`,
`dup_acks__first_ack = true`, `max_sent__val = 0`, `rtx_timeout__val = false`,
`rtx_timeout__timer__isset = false`, `rtx_timeout__timeout_cnt = 0`,
`rtx_timeout__timer_delay = 500` (milliseconds) and an empty pending queue; the
result does not depend on the prior content. -/
theorem RenoInit_yields (st st0 : FlowState) :
    (RenoInit st).state = TCPState.SETUP ∧
    (RenoInit st).setup_state = HandshakeState.NONE ∧
    (RenoInit st).cc_state = CCState.START ∧
    (RenoInit st).cc_ss_threshold = 131072 ∧
    (RenoInit st).cm_window_size = 1 ∧
    (RenoInit st).max_ack__val = 0 ∧
    (RenoInit st).new_ack__val = false ∧
    (RenoInit st).new_ack__ack_num = 0 ∧
    (RenoInit st).dup_acks__val = 0 ∧
    (RenoInit st).dup_acks__first_ack = true ∧
    (RenoInit st).max_sent__val = 0 ∧
    (RenoInit st).rtx_timeout__val = false ∧
    (RenoInit st).rtx_timeout__timer__isset = false ∧
    (RenoInit st).rtx_timeout__timeout_cnt = 0 ∧
    (RenoInit st).rtx_timeout__timer_delay = 500 ∧
    (RenoInit st).queue = [] ∧
    RenoInit st = RenoInit st0 :=
  ⟨rfl, rfl, rfl, rfl, rfl, rfl, rfl, rfl, rfl, rfl, rfl, rfl, rfl, rfl, rfl, rfl, rfl⟩

/-- Claim C20. On a device whose node has id at most 1: `Send` returns for every
packet and leaves the flow table and `queues_empty` as they were; with the link
up `Send` offers the packet, whatever its payload, to the transmit queue
(`HandedToFifo`); `Receive` returns the device unchanged; `TransmitComplete`
returns when the transmitter is `BUSY` with a current packet, and whenever it
returns the flow table and `queues_empty` are as they were. -/
theorem node_gating (dev : Device) (hid : dev.nodeId ≤ 1) :
    (∀ p, ∃ r d, Send dev p = Except.ok (r, d) ∧ d.flow_info = dev.flow_info ∧
      d.queues_empty = dev.queues_empty) ∧
    (∀ p, dev.m_linkUp = true →
      ∃ r d, Send dev p = Except.ok (r, d) ∧ HandedToFifo dev p d) ∧
    (∀ p, Receive dev p = Except.ok dev) ∧
    (dev.m_txMachineState = TxMachineState.BUSY → dev.m_currentPkt ≠ none →
      ∃ d, TransmitComplete dev = Except.ok d) ∧
    (∀ d, TransmitComplete dev = Except.ok d →
      d.flow_info = dev.flow_info ∧ d.queues_empty = dev.queues_empty) := by
  have hnot : ¬ dev.nodeId > 1 := by omega
  refine ⟨fun p => ?_, fun p hup => ?_, fun p => ?_, fun hbusy hcur => ?_, fun d h => ?_⟩
  · unfold Send
    by_cases hup : dev.m_linkUp = false
    · rw [if_pos hup]
      exact ⟨false, dev, rfl, rfl, rfl⟩
    · rw [if_neg hup, if_neg hnot]
      obtain ⟨r, d, hs, -, hfl⟩ := Send_direct_handed dev p
      exact ⟨r, d, hs, hfl, (Send_direct_flows hs).2.1⟩
  · unfold Send
    rw [if_neg (by simp [hup]), if_neg hnot]
    obtain ⟨r, d, hs, hh, -⟩ := Send_direct_handed dev p
    exact ⟨r, d, hs, hh⟩
  · unfold Receive
    by_cases hc : dev.isCorrupt p = true
    · rw [if_pos hc]
    · rw [if_neg hc, if_neg hnot]
  · unfold TransmitComplete
    rw [if_pos hbusy]
    cases hcp : dev.m_currentPkt with
    | none => exact absurd hcp hcur
    | some cur =>
      simp only [if_neg hnot]
      cases hq : dev.m_queue with
      | nil => exact ⟨_, rfl⟩
      | cons x rest =>
        simp only [Dequeue, TransmitStart, if_true]
        exact ⟨_, rfl⟩
  · unfold TransmitComplete at h
    split at h
    · split at h
      · cases h
      · simp only [if_neg hnot] at h
        split at h
        · cases h
          exact ⟨rfl, rfl⟩
        · split at h
          · cases h
          · rename_i x r dev2 hts
            cases h
            obtain ⟨h1, h2, -⟩ := TransmitStart_flows hts
            exact ⟨h1, h2⟩
    · cases h

theorem node_gating_witness :
    (∀ p, ∃ r d, Send exMiddlebox p = Except.ok (r, d) ∧ d.flow_info = exMiddlebox.flow_info ∧
      d.queues_empty = exMiddlebox.queues_empty) ∧
    (∀ p, exMiddlebox.m_linkUp = true →
      ∃ r d, Send exMiddlebox p = Except.ok (r, d) ∧ HandedToFifo exMiddlebox p d) ∧
    (∀ p, Receive exMiddlebox p = Except.ok exMiddlebox) ∧
    (exMiddlebox.m_txMachineState = TxMachineState.BUSY → exMiddlebox.m_currentPkt ≠ none →
      ∃ d, TransmitComplete exMiddlebox = Except.ok d) ∧
    (∀ d, TransmitComplete exMiddlebox = Except.ok d →
      d.flow_info = exMiddlebox.flow_info ∧ d.queues_empty = exMiddlebox.queues_empty) :=
  node_gating exMiddlebox (by decide)

/-! ## The retransmission timeout -/

/-- The function `rtx_timeout__timeout` runs its block on the entry found by
the two lookups and does nothing when there is none. -/
theorem rtx_timeout_eq (dev : Device) (hdr : Packet) (cnt : Nat) :
    rtx_timeout__timeout dev hdr cnt =
      match rtx_timeout_lookup dev.flow_info hdr with
      | some (fid, st) => rtx_timeout_found dev fid st cnt
      | none => Except.ok dev := by
  unfold rtx_timeout__timeout rtx_timeout_lookup
  cases FlowMap.find dev.flow_info (sendFid hdr) with
  | some st => rfl
  | none =>
    cases FlowMap.find dev.flow_info (recvFid hdr) with
    | some st => rfl
    | none => rfl

/-- Claim C12. A live firing of the retransmission timeout with `CC_LATENCY = 0`:
when the lookup of `rtx_timeout__timeout` finds a flow whose generation number
`rtx_timeout__timeout_cnt` is `cnt`, with `rtx_timeout__val = false` and the
phase one of SLOW_START, AI, MD, FR, IDLE, the call returns and leaves that flow
with `rtx_timeout__timer__isset = false`, `rtx_timeout__val = true`,
`cc_state = START`, `cm_window_size = 1`, `cc_tmp_win = 1`, `cc_ss_threshold`
half of its previous value, `cc_recovery_seq = max_sent__val` and the generation
number unchanged. -/
theorem rto_fire_live (dev : Device) (hdr : Packet) (cnt : Nat) (fid : FlowId) (st : FlowState)
    (hlat : dev.CC_LATENCY = 0)
    (hl : rtx_timeout_lookup dev.flow_info hdr = some (fid, st))
    (hcnt : st.rtx_timeout__timeout_cnt = cnt)
    (hval : st.rtx_timeout__val = false)
    (hph : st.cc_state = CCState.SLOW_START ∨ st.cc_state = CCState.AI ∨
      st.cc_state = CCState.MD ∨ st.cc_state = CCState.FR ∨ st.cc_state = CCState.IDLE) :
    ∃ d st1, rtx_timeout__timeout dev hdr cnt = Except.ok d ∧
      FlowMap.find d.flow_info fid = some st1 ∧
      st1.rtx_timeout__timer__isset = false ∧ st1.rtx_timeout__val = true ∧
      st1.cc_state = CCState.START ∧ st1.cm_window_size = 1 ∧ st1.cc_tmp_win = 1 ∧
      st1.cc_ss_threshold = st.cc_ss_threshold / 2 ∧
      st1.cc_recovery_seq = st.max_sent__val ∧ st1.max_sent__val = st.max_sent__val ∧
      st1.rtx_timeout__timeout_cnt = cnt := by
  rw [rtx_timeout_eq, hl]
  simp only
  unfold rtx_timeout_found
  rw [if_pos hcnt, if_pos hval]
  have hgo : ∀ dev1 : Device, dev1.flow_info = FlowMap.insert dev.flow_info fid
      { st with rtx_timeout__timer__isset := false, rtx_timeout__val := true,
                cc_state := CCState.START } →
      ∃ d st1, RenoControl dev1 CCState.START fid = Except.ok d ∧
        FlowMap.find d.flow_info fid = some st1 ∧
        st1.rtx_timeout__timer__isset = false ∧ st1.rtx_timeout__val = true ∧
        st1.cc_state = CCState.START ∧ st1.cm_window_size = 1 ∧ st1.cc_tmp_win = 1 ∧
        st1.cc_ss_threshold = st.cc_ss_threshold / 2 ∧
        st1.cc_recovery_seq = st.max_sent__val ∧ st1.max_sent__val = st.max_sent__val ∧
        st1.rtx_timeout__timeout_cnt = cnt := by
    intro dev1 hfl
    unfold RenoControl
    rw [hfl, FlowMap_find_insert_self]
    exact ⟨_, _, rfl, FlowMap_find_insert_self _ _ _, rfl, rfl, rfl, rfl, rfl, rfl, rfl, rfl, hcnt⟩
  have hz : ¬ dev.CC_LATENCY > 0 := by omega
  rcases hph with h | h | h | h | h <;> rw [h] <;> simp only [if_neg hz] <;> exact hgo _ rfl

theorem rto_fire_live_witness :
    ∃ d st1, rtx_timeout__timeout (exS3Device exS4Flow) exData1 5 = Except.ok d ∧
      FlowMap.find d.flow_info (sendFid exData1) = some st1 ∧
      st1.rtx_timeout__timer__isset = false ∧ st1.rtx_timeout__val = true ∧
      st1.cc_state = CCState.START ∧ st1.cm_window_size = 1 ∧ st1.cc_tmp_win = 1 ∧
      st1.cc_ss_threshold = exS4Flow.cc_ss_threshold / 2 ∧
      st1.cc_recovery_seq = exS4Flow.max_sent__val ∧
      st1.max_sent__val = exS4Flow.max_sent__val ∧
      st1.rtx_timeout__timeout_cnt = 5 :=
  rto_fire_live (exS3Device exS4Flow) exData1 5 (sendFid exData1) exS4Flow rfl rfl rfl rfl
    (Or.inr (Or.inl rfl))

/-- Claim C13. A stale or orphan firing of the retransmission timeout does
nothing: when the lookup of `rtx_timeout__timeout` finds no flow under either
key, or finds a flow whose generation number differs from `cnt`, the call
returns the device as it was: the whole flow table, `queues_empty` and the log of
scheduled events (so no call of `RenoControl` is made or scheduled). -/
theorem rto_fire_stale (dev : Device) (hdr : Packet) (cnt : Nat)
    (h : (FlowMap.find dev.flow_info (sendFid hdr) = none ∧
        FlowMap.find dev.flow_info (recvFid hdr) = none) ∨
      ∃ fid st, rtx_timeout_lookup dev.flow_info hdr = some (fid, st) ∧
        st.rtx_timeout__timeout_cnt ≠ cnt) :
    rtx_timeout__timeout dev hdr cnt = Except.ok dev := by
  rcases h with ⟨h1, h2⟩ | ⟨fid, st, h, hne⟩
  · unfold rtx_timeout__timeout
    rw [h1, h2]
  · rw [rtx_timeout_eq, h]
    simp only
    unfold rtx_timeout_found
    rw [if_neg hne]

theorem rto_fire_stale_witness :
    rtx_timeout__timeout (exS3Device exS5Flow) exData1 5 = Except.ok (exS3Device exS5Flow) :=
  rto_fire_stale (exS3Device exS5Flow) exData1 5
    (Or.inr ⟨sendFid exData1, exS5Flow, rfl, by decide⟩)

/-! ## Scenario S6: a pending packet below the window -/

theorem S6_first_loop (dev : Device) (fid : FlowId) (st : FlowState) (p1 p2 : Packet)
    (k1 k2 : Nat)
    (hfl : dev.flow_info = [(fid, st)]) (hq : st.queue = [(p1, k1), (p2, k2)])
    (h1 : p1.seq = 5000) (h2 : p2.seq = 6460) (hcm : st.cm_start = 6460) :
    CoCoASched_loop dev =
      Except.ok ([(fid, { st with queue := [(p2, k2)] })], dev.m_queue, 1) := by
  unfold CoCoASched_loop
  rw [hfl]
  have htp : totalPending [(fid, st)] = 2 := by simp [totalPending, hq]
  rw [htp]
  have hfor : schedFor dev.m_queue_cap [(fid, st)] dev.m_queue 0 =
      Except.ok ([(fid, { st with queue := [(p2, k2)] })], dev.m_queue, 1, false) := by
    simp [schedFor, hq, h1, h2, hcm, headDropLoop]
  have hc1 : ((dev.m_queue.length : Int) > -1 ∧ false = false) := by
    constructor
    · omega
    · rfl
  rw [schedWhile, if_pos hc1, hfor]
  simp only
  rw [schedWhile, if_neg (by simp)]

theorem S6_second_loop (dev : Device) (fid : FlowId) (st : FlowState) (p2 : Packet) (k2 : Nat)
    (hfl : dev.flow_info = [(fid, st)]) (hq : st.queue = [(p2, k2)])
    (h2 : p2.seq = 6460) (hd2 : data_size p2 = 1460) (hcm : st.cm_start = 6460)
    (hw : 1 ≤ st.cm_window_size) (hroom : dev.m_queue.length < dev.m_queue_cap) :
    CoCoASched_loop dev =
      Except.ok ([(fid, { st with queue := [] })], dev.m_queue ++ [p2], 0) := by
  unfold CoCoASched_loop
  rw [hfl]
  have htp : totalPending [(fid, st)] = 1 := by simp [totalPending, hq]
  rw [htp]
  have hfit : fitsWindow st p2 = true := by
    rw [fitsWindow_iff, h2, hd2, hcm]
    refine ⟨le_refl _, ?_⟩
    have : ((MSS : Nat) : ℚ) = 1460 := by norm_num [MSS]
    rw [this]
    norm_num
    linarith
  have hfor1 : schedFor dev.m_queue_cap [(fid, st)] dev.m_queue 0 =
      Except.ok ([(fid, { st with queue := [] })], dev.m_queue ++ [p2], 0, false) := by
    simp [schedFor, hq, h2, hcm, hfit, Enqueue, hroom]
  have hfor2 : schedFor dev.m_queue_cap [(fid, { st with queue := [] })] (dev.m_queue ++ [p2]) 0 =
      Except.ok ([(fid, { st with queue := [] })], dev.m_queue ++ [p2], 0, false) := by
    simp [schedFor]
  have hc1 : ((dev.m_queue.length : Int) > -1 ∧ false = false) := by
    constructor
    · omega
    · rfl
  have hc2 : (((dev.m_queue ++ [p2]).length : Int) > (dev.m_queue.length : Int) ∧
      false = false) := by
    constructor
    · simp
    · rfl
  rw [schedWhile, if_pos hc1, hfor1]
  simp only
  rw [schedWhile, if_pos hc2, hfor2]
  simp only
  rw [schedWhile, if_neg (by simp)]

/-- The function `CoCoASched` returns when its admission loop does, with the
flow table of the loop, `queues_empty` computed from `queues_occ`, and the
transmit queue handled by the last block. -/
theorem CoCoASched_of_loop (dev : Device) (flows : List (FlowId × FlowState))
    (q : List Packet) (occ : Nat) (h : CoCoASched_loop dev = Except.ok (flows, q, occ)) :
    ∃ d, CoCoASched dev = Except.ok d ∧ d.flow_info = flows ∧
      d.queues_empty = decide (occ = 0) ∧ TransmitFromFifo dev q d ∧
      d.m_queue_cap = dev.m_queue_cap ∧ SameConfig dev d := by
  unfold CoCoASched TransmitFromFifo
  rw [h]
  simp only
  by_cases hc : dev.m_txMachineState = TxMachineState.READY ∧ q.length > 0
  · rw [if_pos hc]
    cases q with
    | nil => simp at hc
    | cons x rest =>
      simp only [Dequeue, TransmitStart, hc.1, if_true]
      refine ⟨_, rfl, rfl, rfl, ?_, rfl, rfl, rfl, rfl, rfl⟩
      rw [if_pos ⟨trivial, hc.2⟩]
      exact ⟨rfl, rfl, rfl⟩
  · rw [if_neg hc]
    refine ⟨_, rfl, rfl, rfl, ?_, rfl, rfl, rfl, rfl, rfl⟩
    rw [if_neg hc]
    exact ⟨rfl, rfl, rfl⟩

theorem TransmitFromFifo_length {dev : Device} {q : List Packet} {d : Device}
    (h : TransmitFromFifo dev q d) : d.m_queue.length ≤ q.length := by
  unfold TransmitFromFifo at h
  split at h
  · rw [h.2.2]
    simp
  · rw [h.2.2]

/-- Claim C11, counterexample. On the device `exS6Device` the single flow has the
packets 5000 and 6460 pending (1460 bytes each), `cm_start = 6460`,
`cm_window_size = 3`, and the transmit queue is empty with capacity 100. One call
of `CoCoASched` discards the packet 5000, but the packet 6460 is still pending
afterwards, and neither the transmit queue nor the packet in transmission has
changed. -/
theorem S6_one_call_keeps_6460_pending :
    exS6Device.flow_info = [(sendFid exData, exS6Flow)] ∧
    exS6Flow.queue = [(exData, 5000), (exData6460, 6460)] ∧
    exData.seq = 5000 ∧ exData6460.seq = 6460 ∧
    data_size exData = 1460 ∧ data_size exData6460 = 1460 ∧
    exS6Flow.cm_start = 6460 ∧ 1 ≤ exS6Flow.cm_window_size ∧
    exS6Device.m_queue.length < exS6Device.m_queue_cap ∧
    ∃ d st, CoCoASched exS6Device = Except.ok d ∧
      FlowMap.find d.flow_info (sendFid exData) = some st ∧
      st.queue = [(exData6460, 6460)] ∧ st.queue ≠ [] ∧
      d.m_queue = exS6Device.m_queue ∧ d.m_currentPkt = exS6Device.m_currentPkt ∧
      d.queues_empty = false :=
  ⟨rfl, rfl, rfl, rfl, rfl, rfl, rfl, by norm_num [exS6Flow], by decide,
   _, _, rfl, rfl, rfl, by simp, rfl, rfl, rfl⟩

/-- Claim C11, amended. Scenario S6: a single flow has exactly the packets 5000
and 6460 pending (1460 bytes each), `cm_start = 6460`, `cm_window_size >= 1`, and
the transmit queue has room. One call of `CoCoASched` returns, discards the
packet 5000 and admits nothing: the packet 6460 stays pending, `queues_empty` is
false, and the last block works on the transmit queue as it was. A second call
returns, appends the packet 6460 to the transmit queue in its admission loop
(the last block may start its transmission), and leaves the pending queue empty
and `queues_empty` true. -/
theorem S6_head_drop (dev : Device) (fid : FlowId) (st : FlowState) (p1 p2 : Packet)
    (k1 k2 : Nat)
    (hfl : dev.flow_info = [(fid, st)]) (hq : st.queue = [(p1, k1), (p2, k2)])
    (h1 : p1.seq = 5000) (h2 : p2.seq = 6460)
    (hd1 : data_size p1 = 1460) (hd2 : data_size p2 = 1460)
    (hcm : st.cm_start = 6460) (hw : 1 ≤ st.cm_window_size)
    (hroom : dev.m_queue.length < dev.m_queue_cap) :
    ∃ d1, CoCoASched dev = Except.ok d1 ∧
      d1.flow_info = [(fid, { st with queue := [(p2, k2)] })] ∧
      d1.queues_empty = false ∧ TransmitFromFifo dev dev.m_queue d1 ∧
      ∃ d2, CoCoASched d1 = Except.ok d2 ∧
        d2.flow_info = [(fid, { st with queue := [] })] ∧
        d2.queues_empty = true ∧ TransmitFromFifo d1 (d1.m_queue ++ [p2]) d2 := by
  have _ := hd1
  obtain ⟨d1, hs1, hf1, hqe1, ht1, hcap1, -⟩ :=
    CoCoASched_of_loop dev _ _ _ (S6_first_loop dev fid st p1 p2 k1 k2 hfl hq h1 h2 hcm)
  have hroom1 : d1.m_queue.length < d1.m_queue_cap := by
    rw [hcap1]
    exact lt_of_le_of_lt (TransmitFromFifo_length ht1) hroom
  obtain ⟨d2, hs2, hf2, hqe2, ht2, -, -⟩ :=
    CoCoASched_of_loop d1 _ _ _
      (S6_second_loop d1 fid { st with queue := [(p2, k2)] } p2 k2 hf1 rfl h2 hd2 hcm hw hroom1)
  exact ⟨d1, hs1, hf1, by simpa using hqe1, ht1, d2, hs2, hf2, by simpa using hqe2, ht2⟩

theorem S6_head_drop_witness :
    ∃ d1, CoCoASched exS6Device = Except.ok d1 ∧
      d1.flow_info = [(sendFid exData, { exS6Flow with queue := [(exData6460, 6460)] })] ∧
      d1.queues_empty = false ∧ TransmitFromFifo exS6Device exS6Device.m_queue d1 ∧
      ∃ d2, CoCoASched d1 = Except.ok d2 ∧
        d2.flow_info = [(sendFid exData, { exS6Flow with queue := [] })] ∧
        d2.queues_empty = true ∧ TransmitFromFifo d1 (d1.m_queue ++ [exData6460]) d2 :=
  S6_head_drop exS6Device (sendFid exData) exS6Flow exData exData6460 5000 6460
    rfl rfl rfl rfl rfl rfl rfl (by norm_num [exS6Flow]) (by decide)

/-! ## Sequences of events of one flow -/

theorem SameAcks_refl (a : FlowState) : SameAcks a a := ⟨rfl, rfl, rfl, rfl, rfl, rfl⟩

theorem SameAcks_trans {a b c : FlowState} (h1 : SameAcks a b) (h2 : SameAcks b c) :
    SameAcks a c :=
  ⟨h2.1.trans h1.1, h2.2.1.trans h1.2.1, h2.2.2.1.trans h1.2.2.1,
   h2.2.2.2.1.trans h1.2.2.2.1, h2.2.2.2.2.1.trans h1.2.2.2.2.1,
   h2.2.2.2.2.2.trans h1.2.2.2.2.2⟩

theorem RenoControl_switch_acks (s : CCState) (st : FlowState) :
    SameAcks st (RenoControl_switch s st) := by
  cases s <;> exact ⟨rfl, rfl, rfl, rfl, rfl, rfl⟩

theorem ACK_RCVD_flow_acks (st : FlowState) (a : Nat) :
    SameAcks (ACK_RCVD_bookkeeping st a) (ACK_RCVD_flow st a) := by
  unfold ACK_RCVD_flow ACK_RCVD_pre
  simp only
  split <;> exact ⟨rfl, rfl, rfl, rfl, rfl, rfl⟩

/-- The state after an `ACK_RCVD` event has the ACK bookkeeping computed at the
start of the case. -/
theorem ACK_RCVD_handled_acks (lat : Nat) (st : FlowState) (a : Nat) :
    SameAcks (ACK_RCVD_bookkeeping st a) (ACK_RCVD_handled lat st a) := by
  unfold ACK_RCVD_handled ACK_RCVD_sync
  split
  · exact ACK_RCVD_flow_acks st a
  · split
    · exact SameAcks_trans (ACK_RCVD_flow_acks st a) (RenoControl_switch_acks _ _)
    · exact ACK_RCVD_flow_acks st a

/-- A sequence of `ACK_RCVD` events of one flow returns, and the flow goes through
the states `ACK_RCVD_handled`. -/
theorem flowEvents_acks (fid : FlowId) (ps : List Packet) (dev : Device) (st : FlowState)
    (hf : FlowMap.find dev.flow_info fid = some st) (hk : ∀ x ∈ ps, recvFid x = fid) :
    ∃ d, flowEvents dev (ps.map FlowEvent.ACK_RCVD) = Except.ok d ∧
      FlowMap.find d.flow_info fid =
        some (ps.foldl (fun s x => ACK_RCVD_handled dev.CC_LATENCY s x.ack) st) ∧
      SameConfig dev d := by
  induction ps generalizing dev st with
  | nil => exact ⟨dev, rfl, hf, rfl, rfl, rfl, rfl⟩
  | cons p rest ih =>
    have hp : recvFid p = fid := hk p (List.mem_cons_self _ _)
    rw [← hp] at hf
    obtain ⟨d1, h1, hf1, hc1⟩ := CoCoAEventHandler_ack_handled dev p st hf
    rw [hp] at hf1
    obtain ⟨d, h2, hf2, hc2⟩ := ih d1 _ hf1 (fun x hx => hk x (List.mem_cons_of_mem _ hx))
    refine ⟨d, ?_, ?_, ?_⟩
    · simp only [List.map_cons, flowEvents, flowEvent, h1]
      exact h2
    · rw [hf2, hc1.2.2.1]
      rfl
    · exact ⟨hc2.1.trans hc1.1, hc2.2.1.trans hc1.2.1, hc2.2.2.1.trans hc1.2.2.1,
        hc2.2.2.2.trans hc1.2.2.2⟩

/-! ## New ACKs -/

/-- One `ACK_RCVD` event on a flow that satisfies `AckInv`: the ACK is new exactly
when its number exceeds `max_ack__val`, and then both `max_ack__val` and
`new_ack__ack_num` take its number. -/
theorem ACK_RCVD_handled_new (lat : Nat) (st : FlowState) (a : Nat) (h : AckInv st) :
    ((ACK_RCVD_handled lat st a).new_ack__val = true ↔ a > st.max_ack__val) ∧
    (ACK_RCVD_handled lat st a).max_ack__val = max a st.max_ack__val ∧
    AckInv (ACK_RCVD_handled lat st a) ∧
    (a > st.max_ack__val → (ACK_RCVD_handled lat st a).max_ack__val = a ∧
      (ACK_RCVD_handled lat st a).new_ack__ack_num = a) := by
  obtain ⟨s1, s2, s3, -, -, -⟩ := ACK_RCVD_handled_acks lat st a
  obtain ⟨b1, b2, b3, -, -, -⟩ := ACK_RCVD_bookkeeping_acks st a
  unfold AckInv at h ⊢
  rw [s1, s2, s3, b1, b2, b3, h]
  by_cases hgt : a > st.max_ack__val
  · have hm : max a st.max_ack__val = a := max_eq_left (Nat.le_of_lt hgt)
    rw [hm]
    simp [hgt]
  · have hm : max a st.max_ack__val = st.max_ack__val := max_eq_right (Nat.le_of_not_lt hgt)
    rw [hm]
    simp [hgt]

theorem AckInv_foldl (lat : Nat) (ps : List Packet) (st : FlowState) (h : AckInv st) :
    AckInv (ps.foldl (fun s x => ACK_RCVD_handled lat s x.ack) st) := by
  induction ps generalizing st with
  | nil => exact h
  | cons p rest ih => exact ih _ (ACK_RCVD_handled_new lat st p.ack h).2.2.1

/-- Claim C15. Let a flow start from `RenoInit` and go through any sequence of
`ACK_RCVD` events (the events return). Then one more `ACK_RCVD` event with ACK
number `a` returns and sets `new_ack__val = true` if and only if `a` is greater
than `max_ack__val` before the event; in that case `max_ack__val` and
`new_ack__ack_num` both become `a`, and an `ACK_RCVD` event with the same number
right after it returns and sets `new_ack__val = false`. -/
theorem new_ack_exactly_once (dev : Device) (fid : FlowId) (ps : List Packet) (p q : Packet)
    (hf : FlowMap.find dev.flow_info fid = some (RenoInit default))
    (hk : ∀ x ∈ ps, recvFid x = fid) (hp : recvFid p = fid) (hq : recvFid q = fid)
    (hqa : q.ack = p.ack) :
    ∃ d st d1 st1,
      flowEvents dev (ps.map FlowEvent.ACK_RCVD) = Except.ok d ∧
      FlowMap.find d.flow_info fid = some st ∧
      flowEvent d (FlowEvent.ACK_RCVD p) = Except.ok d1 ∧
      FlowMap.find d1.flow_info fid = some st1 ∧
      (st1.new_ack__val = true ↔ p.ack > st.max_ack__val) ∧
      (p.ack > st.max_ack__val →
        st1.max_ack__val = p.ack ∧ st1.new_ack__ack_num = p.ack ∧
        ∃ d2 st2, flowEvent d1 (FlowEvent.ACK_RCVD q) = Except.ok d2 ∧
          FlowMap.find d2.flow_info fid = some st2 ∧ st2.new_ack__val = false) := by
  obtain ⟨d, hd, hfd, -⟩ := flowEvents_acks fid ps dev _ hf hk
  have hinv : AckInv (ps.foldl (fun s x => ACK_RCVD_handled dev.CC_LATENCY s x.ack)
      (RenoInit default)) := AckInv_foldl _ ps _ rfl
  have hfp := hfd
  rw [← hp] at hfp
  obtain ⟨d1, h1, hf1, -⟩ := CoCoAEventHandler_ack_handled d p _ hfp
  obtain ⟨n1, n2, n3, n4⟩ := ACK_RCVD_handled_new d.CC_LATENCY _ p.ack hinv
  have hfq := hf1
  rw [hp, ← hq] at hfq
  obtain ⟨d2, h2, hf2, -⟩ := CoCoAEventHandler_ack_handled d1 q _ hfq
  rw [hp] at hf1
  rw [hq] at hf2
  refine ⟨d, _, d1, _, hd, hfd, h1, hf1, n1, fun hgt => ?_⟩
  obtain ⟨m1, m2⟩ := n4 hgt
  refine ⟨m1, m2, d2, _, h2, hf2, ?_⟩
  obtain ⟨r1, -, -, -⟩ := ACK_RCVD_handled_new d1.CC_LATENCY _ q.ack n3
  rw [hqa, m1] at r1
  cases hv : (ACK_RCVD_handled d1.CC_LATENCY
      (ACK_RCVD_handled d.CC_LATENCY
        (ps.foldl (fun s x => ACK_RCVD_handled dev.CC_LATENCY s x.ack) (RenoInit default))
        p.ack) p.ack).new_ack__val with
  | false => rw [hqa]; exact hv
  | true =>
    rw [hv] at r1
    exact absurd (r1.1 rfl) (lt_irrefl _)

theorem new_ack_exactly_once_witness :
    ∃ d st d1 st1,
      flowEvents exFreshFlow ([exAck2461].map FlowEvent.ACK_RCVD) = Except.ok d ∧
      FlowMap.find d.flow_info (recvFid exAck2461) = some st ∧
      flowEvent d (FlowEvent.ACK_RCVD exAck10000) = Except.ok d1 ∧
      FlowMap.find d1.flow_info (recvFid exAck2461) = some st1 ∧
      (st1.new_ack__val = true ↔ exAck10000.ack > st.max_ack__val) ∧
      (exAck10000.ack > st.max_ack__val →
        st1.max_ack__val = exAck10000.ack ∧ st1.new_ack__ack_num = exAck10000.ack ∧
        ∃ d2 st2, flowEvent d1 (FlowEvent.ACK_RCVD exAck10000) = Except.ok d2 ∧
          FlowMap.find d2.flow_info (recvFid exAck2461) = some st2 ∧
          st2.new_ack__val = false) :=
  new_ack_exactly_once exFreshFlow (recvFid exAck2461) [exAck2461] exAck10000 exAck10000
    rfl (by intro x hx; rw [List.mem_singleton.1 hx]) rfl rfl rfl

/-! ## The slow-start ramp -/

/-- A new ACK met in START, or in SLOW_START with the window below the threshold,
with `CC_LATENCY = 0`: the flow is in SLOW_START afterwards and the window has
grown by one. -/
theorem slow_start_step (st : FlowState) (a : Nat) (hinv : AckInv st)
    (hgt : a > st.max_ack__val)
    (hph : st.cc_state = CCState.START ∨
      (st.cc_state = CCState.SLOW_START ∧ st.cm_window_size < st.cc_ss_threshold)) :
    (ACK_RCVD_handled 0 st a).cc_state = CCState.SLOW_START ∧
    (ACK_RCVD_handled 0 st a).cm_window_size = st.cm_window_size + 1 ∧
    (ACK_RCVD_handled 0 st a).cc_ss_threshold = st.cc_ss_threshold := by
  have hnew : (ACK_RCVD_bookkeeping st a).new_ack__val = true := by
    obtain ⟨s1, s2, -⟩ := ACK_RCVD_handled_acks 0 st a
    rw [← s2]
    exact (ACK_RCVD_handled_new 0 st a hinv).1.2 hgt
  obtain ⟨hcc, hnv, -, -⟩ := ACK_RCVD_pre_fields st a
  have hbk := ACK_RCVD_bookkeeping_frameCC st a
  have hasm := ACK_RCVD_asm_new (ACK_RCVD_pre st a) (by rw [hnv]; exact hnew)
  rw [hcc.1, hcc.2.1, hcc.2.2.1, hbk.1, hbk.2.1, hbk.2.2.1] at hasm
  have hphase : newAckPhase st.cc_state (decide (st.cm_window_size < st.cc_ss_threshold)) =
      CCState.SLOW_START := by
    rcases hph with h | ⟨h, hb⟩
    · rw [h]
      rfl
    · rw [h]
      simp [newAckPhase, hb]
  rw [hphase] at hasm
  have hs : ACK_RCVD_handled 0 st a =
      RenoControl_switch CCState.SLOW_START (ACK_RCVD_flow st a) := by
    unfold ACK_RCVD_handled ACK_RCVD_sync ACK_RCVD_transitioned
    rw [if_neg (by decide), hasm]
    simp only [if_true]
    unfold ACK_RCVD_flow
    rw [hasm]
  rw [hs]
  refine ⟨?_, ?_, ?_⟩
  · show (ACK_RCVD_asm (ACK_RCVD_pre st a)).1 = CCState.SLOW_START
    rw [hasm]
  · show (ACK_RCVD_pre st a).cm_window_size + 1 = st.cm_window_size + 1
    rw [hcc.2.1, hbk.2.1]
  · show (ACK_RCVD_pre st a).cc_ss_threshold = st.cc_ss_threshold
    rw [hcc.2.2.1, hbk.2.2.1]

theorem slow_start_foldl (ps : List Packet) (st : FlowState) (hinv : AckInv st)
    (hph : st.cc_state = CCState.START ∨ st.cc_state = CCState.SLOW_START)
    (hch : List.Chain (fun a b => a < b) st.max_ack__val (ps.map (fun x => x.ack)))
    (hbelow : ∀ j < ps.length,
      ((ps.take j).foldl (fun s x => ACK_RCVD_handled 0 s x.ack) st).cm_window_size <
        ((ps.take j).foldl (fun s x => ACK_RCVD_handled 0 s x.ack) st).cc_ss_threshold) :
    (ps.foldl (fun s x => ACK_RCVD_handled 0 s x.ack) st).cm_window_size =
      st.cm_window_size + (ps.length : ℚ) ∧
    (1 ≤ ps.length →
      (ps.foldl (fun s x => ACK_RCVD_handled 0 s x.ack) st).cc_state = CCState.SLOW_START) := by
  induction ps generalizing st with
  | nil => exact ⟨by simp, fun h => absurd h (by simp)⟩
  | cons p rest ih =>
    simp only [List.map_cons, List.chain_cons] at hch
    obtain ⟨hgt, hch1⟩ := hch
    have h0 := hbelow 0 (by simp)
    simp only [List.take_zero, List.foldl_nil] at h0
    have hcond : st.cc_state = CCState.START ∨
        (st.cc_state = CCState.SLOW_START ∧ st.cm_window_size < st.cc_ss_threshold) := by
      rcases hph with h | h
      · exact Or.inl h
      · exact Or.inr ⟨h, h0⟩
    obtain ⟨e1, e2, -⟩ := slow_start_step st p.ack hinv hgt hcond
    obtain ⟨-, n2, n3, n4⟩ := ACK_RCVD_handled_new 0 st p.ack hinv
    have hmax : (ACK_RCVD_handled 0 st p.ack).max_ack__val = p.ack := (n4 hgt).1
    obtain ⟨r1, r2⟩ := ih (ACK_RCVD_handled 0 st p.ack) n3 (Or.inr e1) (by rw [hmax]; exact hch1)
      (fun j hj => by
        have := hbelow (j + 1) (by simp; omega)
        simpa using this)
    simp only [List.foldl_cons, List.length_cons]
    refine ⟨?_, fun _ => ?_⟩
    · rw [r1, e2]
      push_cast
      ring
    · cases rest with
      | nil => exact e1
      | cons y ys => exact r2 (by simp)

/-- Claim C16. The slow-start ramp with `CC_LATENCY = 0`: a flow starts from
`RenoInit` (phase START, window 1) and receives `k >= 1` `ACK_RCVD` events whose
ACK numbers are positive and strictly increasing, so that each is a new ACK. If
before each of these events the window is below `cc_ss_threshold`, the events
return and the flow is in SLOW_START with `cm_window_size = 1 + k`. -/
theorem slow_start_ramp (dev : Device) (fid : FlowId) (ps : List Packet)
    (hlat : dev.CC_LATENCY = 0)
    (hf : FlowMap.find dev.flow_info fid = some (RenoInit default))
    (hk : ∀ x ∈ ps, recvFid x = fid)
    (hinc : List.Chain (fun a b => a < b) 0 (ps.map (fun x => x.ack)))
    (h1 : 1 ≤ ps.length)
    (hbelow : ∀ j < ps.length, ∀ d st,
      flowEvents dev ((ps.take j).map FlowEvent.ACK_RCVD) = Except.ok d →
      FlowMap.find d.flow_info fid = some st → st.cm_window_size < st.cc_ss_threshold) :
    ∃ d st, flowEvents dev (ps.map FlowEvent.ACK_RCVD) = Except.ok d ∧
      FlowMap.find d.flow_info fid = some st ∧
      st.cc_state = CCState.SLOW_START ∧ st.cm_window_size = 1 + (ps.length : ℚ) := by
  obtain ⟨d, hd, hfd, -⟩ := flowEvents_acks fid ps dev _ hf hk
  rw [hlat] at hfd
  have hb : ∀ j < ps.length,
      ((ps.take j).foldl (fun s x => ACK_RCVD_handled 0 s x.ack)
        (RenoInit default)).cm_window_size <
      ((ps.take j).foldl (fun s x => ACK_RCVD_handled 0 s x.ack)
        (RenoInit default)).cc_ss_threshold := by
    intro j hj
    obtain ⟨dj, hdj, hfj, -⟩ := flowEvents_acks fid (ps.take j) dev _ hf
      (fun x hx => hk x (List.mem_of_mem_take hx))
    rw [hlat] at hfj
    exact hbelow j hj dj _ hdj hfj
  obtain ⟨r1, r2⟩ := slow_start_foldl ps (RenoInit default) rfl (Or.inl rfl) hinc hb
  exact ⟨d, _, hd, hfd, r2 h1, r1⟩

theorem slow_start_ramp_witness :
    ∃ d st, flowEvents exFreshFlow ([exAck2461].map FlowEvent.ACK_RCVD) = Except.ok d ∧
      FlowMap.find d.flow_info (recvFid exAck2461) = some st ∧
      st.cc_state = CCState.SLOW_START ∧
      st.cm_window_size = 1 + (([exAck2461] : List Packet).length : ℚ) :=
  slow_start_ramp exFreshFlow (recvFid exAck2461) [exAck2461] rfl rfl
    (by intro x hx; rw [List.mem_singleton.1 hx]) (by simp [exAck2461]) (by simp)
    (by
      intro j hj d st hd hfs
      have hj0 : j = 0 := by simpa using hj
      subst hj0
      simp only [List.take_zero, List.map_nil, flowEvents, Except.ok.injEq] at hd
      subst hd
      have hfr : FlowMap.find exFreshFlow.flow_info (recvFid exAck2461) =
          some (RenoInit default) := rfl
      rw [hfr] at hfs
      cases hfs
      norm_num [RenoInit])

/-! ## The generation counter of the retransmission timer -/

theorem rtxCounts_append (l1 l2 : List SimEvent) :
    rtxCounts (l1 ++ l2) = rtxCounts l1 ++ rtxCounts l2 := by
  unfold rtxCounts
  exact List.filterMap_append _ _ _

theorem find_single (fid key : FlowId) (st : FlowState) :
    FlowMap.find [(fid, st)] key = if key = fid then some st else none := by
  simp [FlowMap.find]

theorem insert_single (fid : FlowId) (st st1 : FlowState) :
    FlowMap.insert [(fid, st)] fid st1 = [(fid, st1)] := by
  simp [FlowMap.insert]

theorem PKT_SENT_flow_cnt (st : FlowState) (p : Packet) :
    ((PKT_SENT_flow st p).rtx_timeout__timeout_cnt = st.rtx_timeout__timeout_cnt) ∨
    ((PKT_SENT_flow st p).rtx_timeout__timeout_cnt = st.rtx_timeout__timeout_cnt + 1) := by
  have h0 : (sent_max_sent st p).rtx_timeout__timeout_cnt = st.rtx_timeout__timeout_cnt := by
    unfold sent_max_sent
    split <;> rfl
  unfold PKT_SENT_flow
  split
  · right
    show (sent_max_sent st p).rtx_timeout__timeout_cnt + 1 = _
    rw [h0]
  · left
    exact h0

theorem ACK_RCVD_bookkeeping_cnt (st : FlowState) (a : Nat) :
    (ACK_RCVD_bookkeeping st a).rtx_timeout__timeout_cnt = st.rtx_timeout__timeout_cnt := by
  have h1 : ∀ s, (ack_window_edge s a).rtx_timeout__timeout_cnt = s.rtx_timeout__timeout_cnt := by
    intro s
    unfold ack_window_edge
    split <;> rfl
  have h2 : ∀ s, (ack_max_ack s a).rtx_timeout__timeout_cnt = s.rtx_timeout__timeout_cnt := by
    intro s
    unfold ack_max_ack
    split <;> rfl
  have h3 : ∀ s, (ack_new_ack s a).rtx_timeout__timeout_cnt = s.rtx_timeout__timeout_cnt := by
    intro s
    unfold ack_new_ack
    split <;> rfl
  have h4 : ∀ s, (ack_dup_acks s a).rtx_timeout__timeout_cnt = s.rtx_timeout__timeout_cnt := by
    intro s
    unfold ack_dup_acks
    split
    · rfl
    · split <;> rfl
  unfold ACK_RCVD_bookkeeping
  rw [h4, h3, h2, h1]

theorem ACK_RCVD_flow_cnt (st : FlowState) (a : Nat) :
    (ACK_RCVD_flow st a).rtx_timeout__timeout_cnt =
      if ACK_RCVD_rearms (ACK_RCVD_bookkeeping st a) = true then
        st.rtx_timeout__timeout_cnt + 1
      else st.rtx_timeout__timeout_cnt := by
  show (ACK_RCVD_pre st a).rtx_timeout__timeout_cnt = _
  unfold ACK_RCVD_pre
  simp only
  split
  · show (ACK_RCVD_bookkeeping st a).rtx_timeout__timeout_cnt + 1 = _
    rw [ACK_RCVD_bookkeeping_cnt]
  · exact ACK_RCVD_bookkeeping_cnt st a

theorem RenoControl_switch_cnt (s : CCState) (st : FlowState) :
    (RenoControl_switch s st).rtx_timeout__timeout_cnt = st.rtx_timeout__timeout_cnt := by
  cases s <;> rfl

/-- The function `RenoControl` on a device with a single flow keeps the counter
and the scheduled numbers. -/
theorem RenoControl_gen (fid : FlowId) (dev d : Device) (s : CCState) (key : FlowId)
    (h : RenoControl dev s key = Except.ok d) :
    ∀ st, dev.flow_info = [(fid, st)] →
      ∃ st1, d.flow_info = [(fid, st1)] ∧
        st1.rtx_timeout__timeout_cnt = st.rtx_timeout__timeout_cnt ∧
        rtxCounts d.scheduled = rtxCounts dev.scheduled := by
  intro st hfl
  unfold RenoControl at h
  rw [hfl, find_single] at h
  by_cases hk : key = fid
  · subst hk
    rw [if_pos rfl] at h
    simp only [insert_single] at h
    cases h
    refine ⟨_, rfl, RenoControl_switch_cnt _ _, ?_⟩
    simp only
    split
    · rfl
    · rw [rtxCounts_append]
      simp [rtxCounts]
  · rw [if_neg hk] at h
    cases h

theorem CoCoAEventHandler_sent_gen (fid : FlowId) (dev d : Device) (key : FlowId) (p : Packet)
    (h : CoCoAEventHandler dev key p CCEvent.PKT_SENT = Except.ok d) : GenStep fid dev d := by
  intro st hfl
  unfold CoCoAEventHandler at h
  rw [hfl, find_single] at h
  by_cases hk : key = fid
  · subst hk
    rw [if_pos rfl] at h
    simp only [insert_single] at h
    cases h
    refine ⟨_, rfl, ?_⟩
    rcases PKT_SENT_flow_cnt st p with hc | hc
    · left
      refine ⟨hc, ?_⟩
      simp only
      rw [if_pos hc]
    · right
      refine ⟨hc, ?_⟩
      simp only
      rw [if_neg (by omega), rtxCounts_append, hc]
      simp [rtxCounts]
  · rw [if_neg hk] at h
    cases h

theorem CoCoAEventHandler_ack_gen (fid : FlowId) (dev d : Device) (key : FlowId) (p : Packet)
    (h : CoCoAEventHandler dev key p CCEvent.ACK_RCVD = Except.ok d) : GenStep fid dev d := by
  intro st hfl
  have hfind : FlowMap.find dev.flow_info key = if key = fid then some st else none := by
    rw [hfl, find_single]
  by_cases hk : key = fid
  · subst hk
    rw [if_pos rfl] at hfind
    rw [CoCoAEventHandler_ack_eq dev _ p st hfind] at h
    have hcnt := ACK_RCVD_flow_cnt st p.ack
    have hbase : ∀ evs : List SimEvent,
        (rtxCounts evs = rtxCounts dev.scheduled ∧
          ¬ ACK_RCVD_rearms (ACK_RCVD_bookkeeping st p.ack) = true) ∨
        (rtxCounts evs = rtxCounts dev.scheduled ++ [st.rtx_timeout__timeout_cnt + 1] ∧
          ACK_RCVD_rearms (ACK_RCVD_bookkeeping st p.ack) = true) →
        ((ACK_RCVD_flow st p.ack).rtx_timeout__timeout_cnt = st.rtx_timeout__timeout_cnt ∧
          rtxCounts evs = rtxCounts dev.scheduled) ∨
        ((ACK_RCVD_flow st p.ack).rtx_timeout__timeout_cnt = st.rtx_timeout__timeout_cnt + 1 ∧
          rtxCounts evs = rtxCounts dev.scheduled ++ [st.rtx_timeout__timeout_cnt + 1]) := by
      intro evs hev
      rcases hev with ⟨e, hr⟩ | ⟨e, hr⟩
      · left
        rw [if_neg hr] at hcnt
        exact ⟨hcnt, e⟩
      · right
        rw [if_pos hr] at hcnt
        exact ⟨hcnt, e⟩
    have hlog : (rtxCounts
          (if ACK_RCVD_rearms (ACK_RCVD_bookkeeping st p.ack) = true then
            dev.scheduled ++ [SimEvent.rtx_timeout (ACK_RCVD_flow st p.ack).rtx_timeout__timer_delay
              p (ACK_RCVD_flow st p.ack).rtx_timeout__timeout_cnt]
          else dev.scheduled) = rtxCounts dev.scheduled ∧
          ¬ ACK_RCVD_rearms (ACK_RCVD_bookkeeping st p.ack) = true) ∨
        (rtxCounts
          (if ACK_RCVD_rearms (ACK_RCVD_bookkeeping st p.ack) = true then
            dev.scheduled ++ [SimEvent.rtx_timeout (ACK_RCVD_flow st p.ack).rtx_timeout__timer_delay
              p (ACK_RCVD_flow st p.ack).rtx_timeout__timeout_cnt]
          else dev.scheduled) =
            rtxCounts dev.scheduled ++ [st.rtx_timeout__timeout_cnt + 1] ∧
          ACK_RCVD_rearms (ACK_RCVD_bookkeeping st p.ack) = true) := by
      by_cases hr : ACK_RCVD_rearms (ACK_RCVD_bookkeeping st p.ack) = true
      · right
        rw [if_pos hr] at hcnt
        rw [if_pos hr, rtxCounts_append, hcnt]
        exact ⟨by simp [rtxCounts], hr⟩
      · left
        rw [if_neg hr]
        exact ⟨rfl, hr⟩
    split at h
    · split at h
      · cases h
        refine ⟨_, by
          show FlowMap.insert dev.flow_info key _ = _
          rw [hfl, insert_single], ?_⟩
        apply hbase
        simp only
        rw [rtxCounts_append]
        simpa [rtxCounts] using hlog
      · obtain ⟨st1, hf1, hc1, hl1⟩ := RenoControl_gen key _ d _ _ h (ACK_RCVD_flow st p.ack)
          (by
            show FlowMap.insert dev.flow_info key _ = _
            rw [hfl, insert_single])
        refine ⟨st1, hf1, ?_⟩
        rw [hc1, hl1]
        exact hbase _ hlog
    · cases h
      refine ⟨_, by
        show FlowMap.insert dev.flow_info key _ = _
        rw [hfl, insert_single], ?_⟩
      exact hbase _ hlog
  · rw [if_neg hk] at hfind
    unfold CoCoAEventHandler at h
    rw [hfind] at h
    cases h

theorem rtx_timeout_found_gen (fid : FlowId) (dev d : Device) (st : FlowState) (cnt : Nat)
    (hfl : dev.flow_info = [(fid, st)])
    (h : rtx_timeout_found dev fid st cnt = Except.ok d) :
    ∃ st1, d.flow_info = [(fid, st1)] ∧
      st1.rtx_timeout__timeout_cnt = st.rtx_timeout__timeout_cnt ∧
      rtxCounts d.scheduled = rtxCounts dev.scheduled := by
  have hins : ∀ s1, FlowMap.insert dev.flow_info fid s1 = [(fid, s1)] := by
    intro s1
    rw [hfl, insert_single]
  unfold rtx_timeout_found at h
  split at h
  · simp only at h
    split at h
    · split at h
      · cases h
        exact ⟨_, hins _, rfl, rfl⟩
      · split at h
        · cases h
          refine ⟨_, hins _, rfl, ?_⟩
          simp only
          rw [rtxCounts_append]
          simp [rtxCounts]
        · obtain ⟨st1, hf1, hc1, hl1⟩ := RenoControl_gen fid _ d _ _ h _ (hins _)
          exact ⟨st1, hf1, hc1, hl1⟩
    · cases h
      exact ⟨_, hins _, rfl, rfl⟩
  · cases h
    exact ⟨st, hfl, rfl, rfl⟩

theorem rtx_timeout_gen (fid : FlowId) (dev d : Device) (hdr : Packet) (cnt : Nat)
    (h : rtx_timeout__timeout dev hdr cnt = Except.ok d) : GenStep fid dev d := by
  intro st hfl
  unfold rtx_timeout__timeout at h
  rw [hfl, find_single, find_single] at h
  have hfound : ∀ key, key = fid → rtx_timeout_found dev key st cnt = Except.ok d →
      ∃ st1, d.flow_info = [(fid, st1)] ∧
        ((st1.rtx_timeout__timeout_cnt = st.rtx_timeout__timeout_cnt ∧
            rtxCounts d.scheduled = rtxCounts dev.scheduled) ∨
         (st1.rtx_timeout__timeout_cnt = st.rtx_timeout__timeout_cnt + 1 ∧
            rtxCounts d.scheduled =
              rtxCounts dev.scheduled ++ [st.rtx_timeout__timeout_cnt + 1])) := by
    intro key hk hr
    subst hk
    obtain ⟨st1, h1, h2, h3⟩ := rtx_timeout_found_gen key dev d st cnt hfl hr
    exact ⟨st1, h1, Or.inl ⟨h2, h3⟩⟩
  by_cases h1 : sendFid hdr = fid
  · rw [if_pos h1] at h
    exact hfound _ h1 h
  · rw [if_neg h1] at h
    by_cases h2 : recvFid hdr = fid
    · rw [if_pos h2] at h
      exact hfound _ h2 h
    · rw [if_neg h2] at h
      cases h
      exact ⟨st, hfl, Or.inl ⟨rfl, rfl⟩⟩

theorem flowEvent_gen (fid : FlowId) (dev d : Device) (ev : FlowEvent)
    (h : flowEvent dev ev = Except.ok d) : GenStep fid dev d := by
  cases ev with
  | PKT_SENT p => exact CoCoAEventHandler_sent_gen fid dev d _ p h
  | ACK_RCVD p => exact CoCoAEventHandler_ack_gen fid dev d _ p h
  | rto_fire hdr cnt => exact rtx_timeout_gen fid dev d hdr cnt h

theorem GenInv_step (fid : FlowId) (dev d : Device) (hinv : GenInv fid dev)
    (hstep : GenStep fid dev d) : GenInv fid d := by
  obtain ⟨st, hfl, hp, hb⟩ := hinv
  obtain ⟨st1, hfl1, hcase⟩ := hstep st hfl
  refine ⟨st1, hfl1, ?_⟩
  rcases hcase with ⟨hc, hl⟩ | ⟨hc, hl⟩
  · rw [hl, hc]
    exact ⟨hp, hb⟩
  · rw [hl, hc]
    constructor
    · rw [List.pairwise_append]
      refine ⟨hp, List.pairwise_singleton _ _, fun a ha b hb1 => ?_⟩
      rw [List.mem_singleton.1 hb1]
      exact Nat.lt_succ_of_le (hb a ha)
    · intro c hc1
      rcases List.mem_append.1 hc1 with h | h
      · exact Nat.le_succ_of_le (hb c h)
      · rw [List.mem_singleton.1 h]

theorem GenInv_flowEvents (fid : FlowId) (evs : List FlowEvent) (dev d : Device)
    (hinv : GenInv fid dev) (h : flowEvents dev evs = Except.ok d) : GenInv fid d := by
  induction evs generalizing dev with
  | nil =>
    simp only [flowEvents, Except.ok.injEq] at h
    subst h
    exact hinv
  | cons ev rest ih =>
    simp only [flowEvents] at h
    split at h
    · cases h
    · rename_i dev1 h1
      exact ih dev1 (GenInv_step fid dev dev1 hinv (flowEvent_gen fid dev dev1 ev h1)) h

/-- Claim C14. The generation-counter property. A device has a single flow, fresh
from `RenoInit`, and no retransmission timeout scheduled. After any sequence of
`PKT_SENT`, `ACK_RCVD` and timeout events that returns, the generation numbers
handed to the scheduler increase strictly in the order of scheduling, so they are
pairwise distinct; none exceeds the counter `rtx_timeout__timeout_cnt` of the
flow; and at most one scheduled number equals the counter. The counter is a
natural number, so it does not wrap around. -/
theorem generation_counter (dev : Device) (fid : FlowId) (evs : List FlowEvent) (d : Device)
    (hfl : dev.flow_info = [(fid, RenoInit default)])
    (hlog : rtxCounts dev.scheduled = [])
    (hrun : flowEvents dev evs = Except.ok d) :
    ∃ st, d.flow_info = [(fid, st)] ∧
      List.Pairwise (fun a b => a < b) (rtxCounts d.scheduled) ∧
      (rtxCounts d.scheduled).Nodup ∧
      (∀ c ∈ rtxCounts d.scheduled, c ≤ st.rtx_timeout__timeout_cnt) ∧
      (rtxCounts d.scheduled).count st.rtx_timeout__timeout_cnt ≤ 1 := by
  have h0 : GenInv fid dev := by
    refine ⟨_, hfl, ?_, ?_⟩
    · rw [hlog]
      exact List.Pairwise.nil
    · rw [hlog]
      intro c hc
      cases hc
  obtain ⟨st, hf, hp, hb⟩ := GenInv_flowEvents fid evs dev d h0 hrun
  have hnd : (rtxCounts d.scheduled).Nodup := hp.imp (fun h => Nat.ne_of_lt h)
  exact ⟨st, hf, hp, hnd, hb, List.nodup_iff_count_le_one.1 hnd _⟩

theorem generation_counter_witness :
    rtxCounts (valueOr (flowEvents exFreshFlow exGenEvents) exFreshFlow).scheduled = [1, 2, 3] ∧
    ∃ st, (valueOr (flowEvents exFreshFlow exGenEvents) exFreshFlow).flow_info =
        [(sendFid exData1, st)] ∧
      List.Pairwise (fun a b => a < b)
        (rtxCounts (valueOr (flowEvents exFreshFlow exGenEvents) exFreshFlow).scheduled) ∧
      (rtxCounts (valueOr (flowEvents exFreshFlow exGenEvents) exFreshFlow).scheduled).Nodup ∧
      (∀ c ∈ rtxCounts (valueOr (flowEvents exFreshFlow exGenEvents) exFreshFlow).scheduled,
        c ≤ st.rtx_timeout__timeout_cnt) ∧
      (rtxCounts (valueOr (flowEvents exFreshFlow exGenEvents) exFreshFlow).scheduled).count
        st.rtx_timeout__timeout_cnt ≤ 1 :=
  ⟨by decide!, generation_counter exFreshFlow (sendFid exData1) exGenEvents _ rfl rfl
    (ok_of_isOk exFreshFlow (by decide!))⟩

/-! ## The pending queues after `CoCoASched` -/

theorem totalPending_cons (e : FlowId × FlowState) (m : List (FlowId × FlowState)) :
    totalPending (e :: m) = e.2.queue.length + totalPending m := by
  simp [totalPending]

theorem headDropLoop_head (cm : Nat) (rest : List (Packet × Nat)) (x : Packet × Nat) (occ : Nat)
    (pq1 : List (Packet × Nat)) (occ1 : Nat)
    (h : headDropLoop cm (x :: rest) x.1.seq occ = Except.ok (pq1, occ1)) :
    (∃ y rest1, pq1 = y :: rest1 ∧ cm ≤ y.1.seq) ∧
    ((x :: rest).length ≤ occ → occ1 + (x :: rest).length = occ + pq1.length) := by
  induction rest generalizing x occ with
  | nil =>
    simp only [headDropLoop] at h
    split at h
    · cases h
    · rename_i hlt
      cases h
      exact ⟨⟨x, [], rfl, Nat.le_of_not_lt hlt⟩, fun _ => rfl⟩
  | cons y r ih =>
    simp only [headDropLoop] at h
    split at h
    · obtain ⟨i1, i2⟩ := ih y (occ - 1) h
      refine ⟨i1, fun hle => ?_⟩
      simp only [List.length_cons] at hle
      have := i2 (by simp only [List.length_cons]; omega)
      simp only [List.length_cons] at this ⊢
      omega
    · rename_i hlt
      cases h
      exact ⟨⟨x, y :: r, rfl, Nat.le_of_not_lt hlt⟩, fun _ => rfl⟩

theorem QueueInv_suffix {q q1 : List (Packet × Nat)} (h : QueueInv q) (hs : q1 <:+ q) :
    QueueInv q1 :=
  ⟨h.1.sublist hs.sublist, fun x hx => h.2 x (hs.subset hx)⟩

theorem QueueInv_head_le {x : Packet × Nat} {rest : List (Packet × Nat)}
    (h : QueueInv (x :: rest)) : ∀ y ∈ x :: rest, x.1.seq ≤ y.1.seq := by
  intro y hy
  rcases List.mem_cons.1 hy with he | hr
  · rw [he]
  · have h1 := (List.pairwise_cons.1 h.1).1 y hr
    rw [h.2 x (List.mem_cons_self _ _), h.2 y (List.mem_cons_of_mem _ hr)] at h1
    exact h1

theorem Tidied_of_popped_left {e0 e e2 : FlowId × FlowState} (h1 : Popped e0 e)
    (h2 : Tidied e e2) : Tidied e0 e2 := by
  obtain ⟨k, pq, he, hs⟩ := h1
  refine ⟨k.trans h2.1, fun hq => h2.2 ?_⟩
  rw [he]
  exact QueueInv_suffix hq hs

theorem Tidied_of_popped_right {e0 e e2 : FlowId × FlowState} (h1 : Tidied e0 e)
    (h2 : Popped e e2) : Tidied e0 e2 := by
  obtain ⟨k, pq, he, hs⟩ := h2
  refine ⟨h1.1.trans k, fun hq x hx => ?_⟩
  rw [he] at hx ⊢
  exact h1.2 hq x (hs.subset hx)

theorem forall2_Tidied_left {m0 m m2 : List (FlowId × FlowState)}
    (h1 : List.Forall₂ Popped m0 m) (h2 : List.Forall₂ Tidied m m2) :
    List.Forall₂ Tidied m0 m2 := by
  induction m0 generalizing m m2 with
  | nil =>
    cases h1
    cases h2
    exact List.Forall₂.nil
  | cons a rest ih =>
    cases h1 with
    | cons hab hrest1 =>
      cases h2 with
      | cons hbc hrest2 =>
        exact List.Forall₂.cons (Tidied_of_popped_left hab hbc) (ih hrest1 hrest2)

theorem forall2_Tidied_right {m0 m m2 : List (FlowId × FlowState)}
    (h1 : List.Forall₂ Tidied m0 m) (h2 : List.Forall₂ Popped m m2) :
    List.Forall₂ Tidied m0 m2 := by
  induction m0 generalizing m m2 with
  | nil =>
    cases h1
    cases h2
    exact List.Forall₂.nil
  | cons a rest ih =>
    cases h1 with
    | cons hab hrest1 =>
      cases h2 with
      | cons hbc hrest2 =>
        exact List.Forall₂.cons (Tidied_of_popped_right hab hbc) (ih hrest1 hrest2)

/-- One pass of the `for` loop of `CoCoASched`: if it ends with the `break` the
transmit queue is full; if it ends without, no flow has a pending packet below
its window edge, and `queues_occ` has grown by the number of pending packets. -/
theorem schedFor_pass (cap : Nat) (m : List (FlowId × FlowState)) (q : List Packet) (occ : Nat)
    (m1 : List (FlowId × FlowState)) (q1 : List Packet) (occ1 : Nat) (full : Bool)
    (h : schedFor cap m q occ = Except.ok (m1, q1, occ1, full)) :
    (full = true → cap ≤ q1.length ∧ 1 ≤ occ1 ∧ 1 ≤ totalPending m1) ∧
    (full = false → List.Forall₂ Tidied m m1 ∧ occ1 = occ + totalPending m1) ∧
    (q1.length - q.length) + totalPending m1 ≤ totalPending m ∧ q.length ≤ q1.length := by
  induction m generalizing q occ m1 q1 occ1 full with
  | nil =>
    simp only [schedFor, Except.ok.injEq, Prod.mk.injEq] at h
    obtain ⟨h1, h2, h3, h4⟩ := h
    subst h1 h2 h3 h4
    exact ⟨fun hc => (by cases hc), fun _ => ⟨List.Forall₂.nil, (by simp [totalPending])⟩,
      (by simp), le_refl _⟩
  | cons e rest ih =>
    obtain ⟨fid, st⟩ := e
    unfold schedFor at h
    split at h
    · rename_i hq
      split at h
      · cases h
      · rename_i fl q2 occ2 full2 hrec
        cases h
        obtain ⟨i1, i2, i3, i4⟩ := ih _ _ _ _ _ _ hrec
        refine ⟨fun hf => ?_, fun hf => ?_, ?_, i4⟩
        · obtain ⟨a, b, c⟩ := i1 hf
          refine ⟨a, b, ?_⟩
          rw [totalPending_cons]
          omega
        · obtain ⟨a, b⟩ := i2 hf
          refine ⟨List.Forall₂.cons ⟨rfl, fun _ x hx => ?_⟩ a, ?_⟩
          · simp only [hq] at hx
            cases hx
          · rw [totalPending_cons, b]
            simp only [hq, List.length_nil]
            omega
        · rw [totalPending_cons, totalPending_cons]
          omega
    · rename_i p k tl hq
      split at h
      · split at h
        · cases h
        · rename_i pq occ0 hdrop
          split at h
          · cases h
          · rename_i fl q2 occ2 full2 hrec
            cases h
            obtain ⟨i1, i2, i3, i4⟩ := ih _ _ _ _ _ _ hrec
            obtain ⟨⟨y, rest1, hpq, hy⟩, hocc⟩ := headDropLoop_head _ _ _ _ _ _ hdrop
            have hsuf := headDropLoop_suffix _ _ _ _ _ _ hdrop
            have hlen : pq.length ≤ ((p, k) :: tl).length := hsuf.length_le
            have ho := hocc (by simp only [hq]; omega)
            simp only [hq] at ho
            refine ⟨fun hf => ?_, fun hf => ?_, ?_, i4⟩
            · obtain ⟨a, b, c⟩ := i1 hf
              refine ⟨a, b, ?_⟩
              rw [totalPending_cons]
              omega
            · obtain ⟨a, b⟩ := i2 hf
              refine ⟨List.Forall₂.cons ⟨rfl, fun hinv x hx => ?_⟩ a, ?_⟩
              · simp only [hq] at hinv
                have hinv1 : QueueInv pq := QueueInv_suffix hinv hsuf
                simp only at hx ⊢
                rw [hpq] at hinv1 hx
                exact le_trans hy (QueueInv_head_le hinv1 x hx)
              · rw [totalPending_cons, b]
                simp only
                omega
            · rw [totalPending_cons, totalPending_cons]
              simp only [hq]
              omega
      · rename_i hnlt
        split at h
        · split at h
          · rename_i q0 henq
            obtain ⟨hq0, hroom⟩ := Enqueue_true henq
            split at h
            · cases h
            · rename_i fl q2 occ2 full2 hrec
              cases h
              obtain ⟨i1, i2, i3, i4⟩ := ih _ _ _ _ _ _ hrec
              rw [hq0] at i3 i4
              simp only [List.length_append, List.length_singleton] at i3 i4
              refine ⟨fun hf => ?_, fun hf => ?_, ?_, by omega⟩
              · obtain ⟨a, b, c⟩ := i1 hf
                refine ⟨a, b, ?_⟩
                rw [totalPending_cons]
                omega
              · obtain ⟨a, b⟩ := i2 hf
                refine ⟨List.Forall₂.cons ⟨rfl, fun hinv x hx => ?_⟩ a, ?_⟩
                · simp only [hq] at hinv
                  simp only at hx ⊢
                  exact le_trans (Nat.le_of_not_lt hnlt)
                    (QueueInv_head_le hinv x (List.mem_cons_of_mem _ hx))
                · rw [totalPending_cons, b]
                  simp only [hq, List.length_cons]
                  omega
              · rw [totalPending_cons, totalPending_cons]
                simp only [hq, List.length_cons]
                omega
          · rename_i q0 henq
            obtain ⟨hq0, hroom⟩ := Enqueue_false henq
            cases h
            refine ⟨fun _ => ⟨?_, ?_, ?_⟩, fun hf => (by cases hf), ?_, ?_⟩
            · rw [hq0]
              omega
            · simp only [hq, List.length_cons]
              omega
            · rw [totalPending_cons]
              simp only [hq, List.length_cons]
              omega
            · rw [hq0]
              simp
            · rw [hq0]
        · split at h
          · cases h
          · rename_i fl q2 occ2 full2 hrec
            cases h
            obtain ⟨i1, i2, i3, i4⟩ := ih _ _ _ _ _ _ hrec
            refine ⟨fun hf => ?_, fun hf => ?_, ?_, i4⟩
            · obtain ⟨a, b, c⟩ := i1 hf
              refine ⟨a, b, ?_⟩
              rw [totalPending_cons]
              omega
            · obtain ⟨a, b⟩ := i2 hf
              refine ⟨List.Forall₂.cons ⟨rfl, fun hinv x hx => ?_⟩ a, ?_⟩
              · simp only [hq] at hinv hx
                exact le_trans (Nat.le_of_not_lt hnlt) (QueueInv_head_le hinv x hx)
              · rw [totalPending_cons, b]
                simp only [hq, List.length_cons]
                omega
            · rw [totalPending_cons, totalPending_cons]
              omega

theorem schedFor_ne_fuel (cap : Nat) (m : List (FlowId × FlowState)) (q : List Packet)
    (occ : Nat) : schedFor cap m q occ ≠ Except.error Fault.fuel := by
  have hdrop : ∀ (cm : Nat) (pq : List (Packet × Nat)) (seq occ : Nat),
      headDropLoop cm pq seq occ ≠ Except.error Fault.fuel := by
    intro cm pq
    induction pq with
    | nil =>
      intro seq occ h
      simp [headDropLoop] at h
    | cons x rest ih =>
      intro seq occ h
      cases rest with
      | nil =>
        simp only [headDropLoop] at h
        split at h <;> cases h
      | cons y r =>
        simp only [headDropLoop] at h
        split at h
        · exact ih _ _ h
        · cases h
  induction m generalizing q occ with
  | nil =>
    intro h
    simp [schedFor] at h
  | cons e rest ih =>
    obtain ⟨fid, st⟩ := e
    intro h
    unfold schedFor at h
    split at h
    · split at h
      · rename_i e1 hrec
        cases h
        exact ih _ _ hrec
      · cases h
    · split at h
      · split at h
        · rename_i e1 hd
          cases h
          exact hdrop _ _ _ _ hd
        · split at h
          · rename_i e1 hrec
            cases h
            exact ih _ _ hrec
          · cases h
      · split at h
        · split at h
          · split at h
            · rename_i e1 hrec
              cases h
              exact ih _ _ hrec
            · cases h
          · cases h
        · split at h
          · rename_i e1 hrec
            cases h
            exact ih _ _ hrec
          · cases h

/-- The bound on the evaluations of the condition of the `while` loop is never
reached when it is at least `totalPending + 2`. -/
theorem schedWhile_ne_fuel (cap : Nat) (n : Nat) (m : List (FlowId × FlowState))
    (q : List Packet) (qlen : Int) (full : Bool) (occ : Nat) (hn : 1 ≤ n)
    (hc : ((q.length : Int) > qlen ∧ full = false) → totalPending m + 2 ≤ n) :
    schedWhile cap n m q qlen full occ ≠ Except.error Fault.fuel := by
  induction n generalizing m q qlen full occ with
  | zero => omega
  | succ n ih =>
    intro h
    simp only [schedWhile] at h
    split at h
    · rename_i hcond
      have hfuel := hc hcond
      split at h
      · rename_i e hfor
        cases h
        exact schedFor_ne_fuel _ _ _ _ hfor
      · rename_i m2 q2 occ2 full2 hfor
        obtain ⟨-, -, hmeas, hle⟩ := schedFor_pass _ _ _ _ _ _ _ _ hfor
        refine ih m2 q2 _ full2 occ2 (by omega) (fun hc2 => ?_) h
        have : q2.length > q.length := by
          have := hc2.1
          omega
        omega
    · cases h

theorem CoCoASched_loop_ne_fuel (dev : Device) :
    CoCoASched_loop dev ≠ Except.error Fault.fuel := by
  unfold CoCoASched_loop
  exact schedWhile_ne_fuel _ _ _ _ _ _ _ (by omega) (fun _ => le_refl _)

/-- The `while` loop of `CoCoASched`, started at the table `m0`: if it ends with
room in the transmit queue, no flow has a pending packet below its window edge;
and `queues_occ` is zero at the end exactly when no packet is pending. -/
theorem schedWhile_result (cap : Nat) (m0 : List (FlowId × FlowState)) (n : Nat)
    (m : List (FlowId × FlowState)) (q : List Packet) (qlen : Int) (full : Bool) (occ : Nat)
    (m1 : List (FlowId × FlowState)) (q1 : List Packet) (occ1 : Nat)
    (h : schedWhile cap n m q qlen full occ = Except.ok (m1, q1, occ1))
    (hp : List.Forall₂ Popped m0 m)
    (h1 : full = true → cap ≤ q.length ∧ 1 ≤ occ ∧ 1 ≤ totalPending m)
    (h2 : ¬ ((q.length : Int) > qlen ∧ full = false) → full = false →
      List.Forall₂ Tidied m0 m ∧ occ = totalPending m) :
    (q1.length < cap → List.Forall₂ Tidied m0 m1) ∧ (occ1 = 0 ↔ totalPending m1 = 0) := by
  induction n generalizing m q qlen full occ with
  | zero => simp [schedWhile] at h
  | succ n ih =>
    simp only [schedWhile] at h
    split at h
    · split at h
      · cases h
      · rename_i m2 q2 occ2 full2 hfor
        obtain ⟨p1, p2, -, -⟩ := schedFor_pass _ _ _ _ _ _ _ _ hfor
        have hpop := schedFor_popped _ _ _ _ _ _ _ _ hfor
        refine ih m2 q2 _ full2 occ2 h (forall2_Popped_trans hp hpop) p1 (fun _ hf => ?_)
        obtain ⟨a, b⟩ := p2 hf
        exact ⟨forall2_Tidied_left hp a, by omega⟩
    · rename_i hcond
      cases h
      cases hfull : full with
      | true =>
        obtain ⟨a, b, c⟩ := h1 hfull
        exact ⟨fun hlt => absurd hlt (by omega), by omega⟩
      | false =>
        obtain ⟨a, b⟩ := h2 hcond hfull
        exact ⟨fun _ => a, by omega⟩

theorem find_of_forall2_Tidied {m0 m1 : List (FlowId × FlowState)}
    (h : List.Forall₂ Tidied m0 m1) (fid : FlowId) (st1 : FlowState)
    (hf : FlowMap.find m1 fid = some st1) :
    ∃ st0, FlowMap.find m0 fid = some st0 ∧ (QueueInv st0.queue → NoneBelow st1) := by
  induction m0 generalizing m1 with
  | nil =>
    cases h
    simp [FlowMap.find] at hf
  | cons a rest ih =>
    cases h with
    | cons hab hrest =>
      rename_i b rest1
      obtain ⟨ka, va⟩ := a
      obtain ⟨kb, vb⟩ := b
      have hk : ka = kb := hab.1
      subst hk
      by_cases hfk : fid = ka
      · subst hfk
        simp only [FlowMap.find, if_true, Option.some.injEq] at hf ⊢
        subst hf
        exact ⟨va, rfl, hab.2⟩
      · simp only [FlowMap.find, hfk, if_false] at hf ⊢
        exact ih hrest hf

/-- The admission loop of `CoCoASched`: with room left in the transmit queue at
its end, no flow with an ordered pending queue keeps a packet below its window
edge; `queues_occ` is zero at its end exactly when no packet is pending. -/
theorem CoCoASched_loop_result (dev : Device) (flows : List (FlowId × FlowState))
    (q : List Packet) (occ : Nat) (h : CoCoASched_loop dev = Except.ok (flows, q, occ)) :
    (q.length < dev.m_queue_cap → DevQueueInv dev.flow_info →
      ∀ fid st, FlowMap.find flows fid = some st → NoneBelow st) ∧
    (occ = 0 ↔ totalPending flows = 0) := by
  unfold CoCoASched_loop at h
  obtain ⟨r1, r2⟩ := schedWhile_result dev.m_queue_cap dev.flow_info _ _ _ _ _ _ _ _ _ h
    (forall2_Popped_refl _) (fun hc => by cases hc)
    (fun hn => absurd ⟨by omega, rfl⟩ hn)
  refine ⟨fun hlt hinv fid st hf => ?_, r2⟩
  obtain ⟨st0, hf0, himp⟩ := find_of_forall2_Tidied (r1 hlt) fid st hf
  exact himp (hinv fid st0 hf0)

/-! ## The order of the pending queues -/

theorem PQ_mem_push (l : List (Packet × Nat)) (x z : Packet × Nat) :
    z ∈ PQ.push l x ↔ z = x ∨ z ∈ l := by
  induction l with
  | nil => simp [PQ.push]
  | cons y rest ih =>
    simp only [PQ.push]
    split
    · simp
    · simp only [List.mem_cons, ih]
      tauto

theorem QueueInv_push (l : List (Packet × Nat)) (p : Packet) (h : QueueInv l) :
    QueueInv (PQ.push l (p, p.seq)) := by
  constructor
  · have hp := h.1
    clear h
    induction l with
    | nil => simp [PQ.push]
    | cons y rest ih =>
      simp only [PQ.push]
      obtain ⟨hy, hrest⟩ := List.pairwise_cons.1 hp
      split
      · rename_i hlt
        refine List.pairwise_cons.2 ⟨fun z hz => ?_, hp⟩
        rcases List.mem_cons.1 hz with he | hr
        · rw [he]
          exact Nat.le_of_lt hlt
        · exact le_trans (Nat.le_of_lt hlt) (hy z hr)
      · rename_i hnlt
        refine List.pairwise_cons.2 ⟨fun z hz => ?_, ih hrest⟩
        rcases (PQ_mem_push rest _ z).1 hz with he | hr
        · rw [he]
          exact Nat.le_of_not_lt hnlt
        · exact hy z hr
  · intro z hz
    rcases (PQ_mem_push l _ z).1 hz with he | hr
    · rw [he]
    · exact h.2 z hr

theorem Send_handshake_queue (st : FlowState) (p : Packet) :
    (Send_handshake st p).queue = st.queue := by
  unfold Send_handshake
  split
  · split <;> rfl
  · split <;> rfl
  · split <;> rfl
  · rfl

theorem PKT_SENT_flow_queue (st : FlowState) (p : Packet) :
    (PKT_SENT_flow st p).queue = st.queue := by
  have h0 : (sent_max_sent st p).queue = st.queue := by
    unfold sent_max_sent
    split <;> rfl
  unfold PKT_SENT_flow
  split
  · exact h0
  · exact h0

theorem ACK_RCVD_flow_queue (st : FlowState) (a : Nat) :
    (ACK_RCVD_flow st a).queue = st.queue := by
  have h1 : ∀ s, (ack_window_edge s a).queue = s.queue := by
    intro s
    unfold ack_window_edge
    split <;> rfl
  have h2 : ∀ s, (ack_max_ack s a).queue = s.queue := by
    intro s
    unfold ack_max_ack
    split <;> rfl
  have h3 : ∀ s, (ack_new_ack s a).queue = s.queue := by
    intro s
    unfold ack_new_ack
    split <;> rfl
  have h4 : ∀ s, (ack_dup_acks s a).queue = s.queue := by
    intro s
    unfold ack_dup_acks
    split
    · rfl
    · split <;> rfl
  have hb : (ACK_RCVD_bookkeeping st a).queue = st.queue := by
    unfold ACK_RCVD_bookkeeping
    rw [h4, h3, h2, h1]
  show (ACK_RCVD_pre st a).queue = _
  unfold ACK_RCVD_pre
  simp only
  split
  · exact hb
  · exact hb

theorem RenoControl_switch_queue (s : CCState) (st : FlowState) :
    (RenoControl_switch s st).queue = st.queue := by
  cases s <;> rfl

theorem QueueInv_of_atomic {a b : FlowState} (h : Atomic a b) (hi : QueueInv a.queue) :
    QueueInv b.queue := by
  cases h with
  | handshake p hst => rw [Send_handshake_queue]; exact hi
  | tear hst => exact hi
  | queue q hq =>
    rcases hq with hs | ⟨p, hp⟩
    · exact QueueInv_suffix hi hs
    · show QueueInv q
      rw [hp]
      exact QueueInv_push _ p hi
  | sent p => rw [PKT_SENT_flow_queue]; exact hi
  | recv_syn hst hs => exact hi
  | recv_synack hst hs hini => exact hi
  | recv_ack hst hs hini => exact hi
  | ack n hpre => rw [ACK_RCVD_flow_queue]; exact hi
  | reno s => rw [RenoControl_switch_queue]; exact hi
  | rto => exact hi
  | rto_start => exact hi

theorem QueueInv_of_flowTrans {a b : FlowState} (h : FlowTrans a b) (hi : QueueInv a.queue) :
    QueueInv b.queue := by
  induction h with
  | refl => exact hi
  | tail _ hbc ih => exact QueueInv_of_atomic hbc ih

theorem DevQueueInv_step {dev : Device} {c : Call} {d : Device}
    (hinv : DevQueueInv dev.flow_info) (h : step dev c = Except.ok d) :
    DevQueueInv d.flow_info := by
  intro fid st2 hf2
  have he := step_evolves h fid
  cases hf1 : FlowMap.find dev.flow_info fid with
  | none =>
    exact QueueInv_of_flowTrans (he.2 hf1 st2 hf2) ⟨List.Pairwise.nil, fun x hx => by cases hx⟩
  | some st1 =>
    obtain ⟨st3, hf3, ht⟩ := he.1 st1 hf1
    rw [hf2] at hf3
    cases hf3
    exact QueueInv_of_flowTrans ht (hinv fid st1 hf1)

/-- In every device state reached from an empty flow table by entry-point calls,
the pending queue of every flow is in ascending order of sequence numbers. -/
theorem DevQueueInv_run {dev0 : Device} (calls : List Call) {dev : Device}
    (h0 : dev0.flow_info = []) (h : run dev0 calls = Except.ok dev) :
    DevQueueInv dev.flow_info := by
  have hinv0 : DevQueueInv dev0.flow_info := by
    intro k s hk
    rw [h0] at hk
    cases hk
  clear h0
  induction calls generalizing dev0 with
  | nil =>
    simp only [CoCoA.run] at h
    cases h
    exact hinv0
  | cons c cs ih =>
    simp only [CoCoA.run] at h
    split at h
    · cases h
    · rename_i dev1 hs
      exact ih h (DevQueueInv_step hinv0 hs)

/-! ## Pending packets and the window edge after `CoCoASched` -/

/-- Claim C17, counterexample. The device `exSmallFifo` (transmit queue of
capacity 1) runs the calls `exTwoFlowCalls`: the transmit queue is full, the
first flow has the packet 1001 pending inside its window, the second flow has the
packets 5000 and 6460 pending and `cm_start = 6460`. The call of `CoCoASched`
returns; the transmit queue refuses the packet of the first flow, the loop
stops, and the second flow still has the packet 5000 pending, below its
`cm_start`. -/
theorem CoCoASched_full_fifo_keeps_stale_packet :
    isOk (run exSmallFifo exTwoFlowCalls) = true ∧
    (runTo exSmallFifo exTwoFlowCalls).m_queue.length =
      (runTo exSmallFifo exTwoFlowCalls).m_queue_cap ∧
    isOk (run exSmallFifo (exTwoFlowCalls ++ [Call.CoCoASched])) = true ∧
    (flowOf (runTo exSmallFifo (exTwoFlowCalls ++ [Call.CoCoASched])).flow_info
      (sendFid exDataB5000)).cm_start = 6460 ∧
    (exDataB5000, 5000) ∈
      (flowOf (runTo exSmallFifo (exTwoFlowCalls ++ [Call.CoCoASched])).flow_info
        (sendFid exDataB5000)).queue ∧
    exDataB5000.seq = 5000 ∧
    ¬ (∀ x ∈ (flowOf (runTo exSmallFifo (exTwoFlowCalls ++ [Call.CoCoASched])).flow_info
        (sendFid exDataB5000)).queue,
      (flowOf (runTo exSmallFifo (exTwoFlowCalls ++ [Call.CoCoASched])).flow_info
        (sendFid exDataB5000)).cm_start ≤ x.1.seq) := by
  have h4 : (flowOf (runTo exSmallFifo (exTwoFlowCalls ++ [Call.CoCoASched])).flow_info
      (sendFid exDataB5000)).cm_start = 6460 := by decide!
  have h5 : (exDataB5000, 5000) ∈
      (flowOf (runTo exSmallFifo (exTwoFlowCalls ++ [Call.CoCoASched])).flow_info
        (sendFid exDataB5000)).queue := by decide!
  refine ⟨by decide!, by decide!, by decide!, h4, h5, rfl, fun hall => ?_⟩
  have := hall _ h5
  rw [h4] at this
  exact absurd this (by decide)

/-- Claim C17, amended. On a device reached from an empty flow table by
entry-point calls, a call of `CoCoASched` whose admission loop returns and leaves
room in the transmit queue (the queue has refused no packet) returns, and
afterwards every packet that remains pending in any flow has a sequence number
not below the `cm_start` of its flow. -/
theorem pending_not_below_window (dev0 : Device) (h0 : dev0.flow_info = [])
    (calls : List Call) (dev : Device) (hrun : run dev0 calls = Except.ok dev)
    (flows : List (FlowId × FlowState)) (q : List Packet) (occ : Nat)
    (hloop : CoCoASched_loop dev = Except.ok (flows, q, occ))
    (hroom : q.length < dev.m_queue_cap) :
    ∃ d, CoCoASched dev = Except.ok d ∧ d.flow_info = flows ∧
      ∀ fid st, FlowMap.find d.flow_info fid = some st →
        ∀ x ∈ st.queue, st.cm_start ≤ x.1.seq := by
  obtain ⟨d, hd, hfl, -⟩ := CoCoASched_of_loop dev flows q occ hloop
  refine ⟨d, hd, hfl, fun fid st hf => ?_⟩
  rw [hfl] at hf
  exact (CoCoASched_loop_result dev flows q occ hloop).1 hroom (DevQueueInv_run calls h0 hrun)
    fid st hf

theorem pending_not_below_window_witness :
    ∃ d, CoCoASched exPending = Except.ok d ∧
      d.flow_info = (valueOr (CoCoASched_loop exPending) ([], [], 0)).1 ∧
      ∀ fid st, FlowMap.find d.flow_info fid = some st →
        ∀ x ∈ st.queue, st.cm_start ≤ x.1.seq :=
  pending_not_below_window exDevice rfl
    [Call.Send exSyn, Call.Receive exSynAck, Call.Send exAck, Call.Send exData1] exPending rfl
    _ _ _ (ok_of_isOk ([], [], 0) (by decide!)) (by decide!)

/-! ## The flag `queues_empty` -/

theorem find_le_totalPending (m : List (FlowId × FlowState)) (fid : FlowId) (st : FlowState)
    (h : FlowMap.find m fid = some st) : st.queue.length ≤ totalPending m := by
  induction m with
  | nil => simp [FlowMap.find] at h
  | cons e rest ih =>
    obtain ⟨k, v⟩ := e
    rw [totalPending_cons]
    by_cases hk : fid = k
    · simp only [FlowMap.find, hk, if_true, Option.some.injEq] at h
      subst h
      exact Nat.le_add_right _ _
    · simp only [FlowMap.find, hk, if_false] at h
      have := ih h
      omega

theorem PQ_push_length (l : List (Packet × Nat)) (x : Packet × Nat) :
    (PQ.push l x).length = l.length + 1 := by
  induction l with
  | nil => rfl
  | cons y rest ih =>
    simp only [PQ.push]
    split
    · rfl
    · simp only [List.length_cons, ih]

/-- Claim C18, counterexample. On the device `exPending` one packet is pending and
`queues_empty` is false. The first pass of the loop of `CoCoASched` admits the
packet and pops it; the event `PKT_DEQ` raised right after the pop returns and
leaves `queues_empty` false although no packet is pending any more. -/
theorem PKT_DEQ_leaves_queues_empty_stale :
    totalPending exPending.flow_info = 1 ∧ exPending.queues_empty = false ∧
    isOk (schedFor exPending.m_queue_cap exPending.flow_info exPending.m_queue 0) = true ∧
    isOk (CoCoAEventHandler
      { exPending with
        flow_info := (valueOr (schedFor exPending.m_queue_cap exPending.flow_info
          exPending.m_queue 0) ([], [], 0, false)).1,
        m_queue := (valueOr (schedFor exPending.m_queue_cap exPending.flow_info
          exPending.m_queue 0) ([], [], 0, false)).2.1 }
      (sendFid exData1) exData1 CCEvent.PKT_DEQ) = true ∧
    (valueOr (CoCoAEventHandler
      { exPending with
        flow_info := (valueOr (schedFor exPending.m_queue_cap exPending.flow_info
          exPending.m_queue 0) ([], [], 0, false)).1,
        m_queue := (valueOr (schedFor exPending.m_queue_cap exPending.flow_info
          exPending.m_queue 0) ([], [], 0, false)).2.1 }
      (sendFid exData1) exData1 CCEvent.PKT_DEQ) exPending).queues_empty = false ∧
    totalPending (valueOr (CoCoAEventHandler
      { exPending with
        flow_info := (valueOr (schedFor exPending.m_queue_cap exPending.flow_info
          exPending.m_queue 0) ([], [], 0, false)).1,
        m_queue := (valueOr (schedFor exPending.m_queue_cap exPending.flow_info
          exPending.m_queue 0) ([], [], 0, false)).2.1 }
      (sendFid exData1) exData1 CCEvent.PKT_DEQ) exPending).flow_info = 0 := by
  refine ⟨by decide!, by decide!, by decide!, by decide!, by decide!, by decide!⟩

/-- Claim C18, amended. (1) Right after every `PKT_ENQ` event `queues_empty` is
false and a packet is pending, so `queues_empty` is true exactly when no packet
is pending. (2) The event `PKT_DEQ` returns the device as it is, so it does not
update `queues_empty`. (3) At the end of every call of `CoCoASched` that returns,
after all pops of the call, `queues_empty` is true exactly when no packet is
pending in any flow. -/
theorem queues_empty_iff :
    (∀ (dev : Device) (key : FlowId) (p : Packet) (d : Device),
      CoCoAEventHandler dev key p CCEvent.PKT_ENQ = Except.ok d →
      d.queues_empty = false ∧ totalPending d.flow_info ≠ 0 ∧
      (d.queues_empty = true ↔ totalPending d.flow_info = 0)) ∧
    (∀ (dev : Device) (key : FlowId) (p : Packet) (d : Device),
      CoCoAEventHandler dev key p CCEvent.PKT_DEQ = Except.ok d → d = dev) ∧
    (∀ (dev d : Device), CoCoASched dev = Except.ok d →
      (d.queues_empty = true ↔ totalPending d.flow_info = 0)) := by
  refine ⟨fun dev key p d h => ?_, fun dev key p d h => ?_, fun dev d h => ?_⟩
  · unfold CoCoAEventHandler at h
    split at h
    · cases h
    · rename_i st hf
      simp only at h
      cases h
      have hlen := find_le_totalPending _ _ _
        (FlowMap_find_insert_self dev.flow_info key
          { st with queue := PQ.push st.queue (p, p.seq) })
      simp only [PQ_push_length] at hlen
      have hne : totalPending (FlowMap.insert dev.flow_info key
          { st with queue := PQ.push st.queue (p, p.seq) }) ≠ 0 := by omega
      exact ⟨rfl, hne, ⟨fun hc => (by cases hc), fun hc => absurd hc hne⟩⟩
  · unfold CoCoAEventHandler at h
    split at h
    · cases h
    · simp only at h
      cases h
      rfl
  · cases hl : CoCoASched_loop dev with
    | error e =>
      unfold CoCoASched at h
      rw [hl] at h
      cases h
    | ok r =>
      obtain ⟨flows, q, occ⟩ := r
      obtain ⟨d1, hd1, hfl, hqe, -⟩ := CoCoASched_of_loop dev flows q occ hl
      rw [hd1] at h
      cases h
      rw [hqe, hfl]
      have := (CoCoASched_loop_result dev flows q occ hl).2
      simp only [decide_eq_true_eq]
      exact this

theorem queues_empty_iff_witness :
    ((runTo exAfterHandshake [Call.Send exData1]).queues_empty = false ∧
      totalPending (runTo exAfterHandshake [Call.Send exData1]).flow_info ≠ 0 ∧
      ((runTo exAfterHandshake [Call.Send exData1]).queues_empty = true ↔
        totalPending (runTo exAfterHandshake [Call.Send exData1]).flow_info = 0)) ∧
    ((valueOr (CoCoASched exPending) exPending).queues_empty = true ↔
      totalPending (valueOr (CoCoASched exPending) exPending).flow_info = 0) :=
  ⟨queues_empty_iff.1
      { exAfterHandshake with
        flow_info := ensureFlow exAfterHandshake.flow_info (sendFid exData1) }
      (sendFid exData1) exData1 (runTo exAfterHandshake [Call.Send exData1]) rfl,
   queues_empty_iff.2.2 exPending (valueOr (CoCoASched exPending) exPending)
      (ok_of_isOk exPending (by decide!))⟩

/-! ## The engine `RenoControl` -/

/-- The function `RenoControl` returns for a flow of the table and writes the
result of its switch to that flow. -/
theorem RenoControl_found (dev : Device) (s : CCState) (fid : FlowId) (st : FlowState)
    (hf : FlowMap.find dev.flow_info fid = some st) :
    ∃ d, RenoControl dev s fid = Except.ok d ∧
      FlowMap.find d.flow_info fid = some (RenoControl_switch s st) ∧
      (∀ k, k ≠ fid → FlowMap.find d.flow_info k = FlowMap.find dev.flow_info k) := by
  unfold RenoControl
  rw [hf]
  exact ⟨_, rfl, FlowMap_find_insert_self _ _ _, fun k hk => FlowMap_find_insert_ne _ _ _ _ hk⟩

/-- Claim C22. The engine in MD and FR, on exact rationals. For every flow of the
table, `RenoControl (MD, fid)` returns and sets `cc_recovery_seq = max_sent__val`,
`cc_tmp_win` to half the old `cm_window_size`, `cc_ss_threshold` to that new
`cc_tmp_win` and `cm_window_size` to the new `cc_tmp_win` plus `dup_acks__val`;
`RenoControl (FR, fid)` returns and sets `cm_window_size = cc_tmp_win +
dup_acks__val`. No other field of the flow and no other flow changes. -/
theorem RenoControl_MD_FR (dev : Device) (fid : FlowId) (st : FlowState)
    (hf : FlowMap.find dev.flow_info fid = some st) :
    (∃ d, RenoControl dev CCState.MD fid = Except.ok d ∧
      FlowMap.find d.flow_info fid = some
        ({ st with
            cc_recovery_seq := st.max_sent__val,
            cc_tmp_win := st.cm_window_size / 2,
            cc_ss_threshold := st.cm_window_size / 2,
            cm_window_size := st.cm_window_size / 2 + (st.dup_acks__val : ℚ) } : FlowState) ∧
      (∀ k, k ≠ fid → FlowMap.find d.flow_info k = FlowMap.find dev.flow_info k)) ∧
    (∃ d, RenoControl dev CCState.FR fid = Except.ok d ∧
      FlowMap.find d.flow_info fid = some
        ({ st with cm_window_size := st.cc_tmp_win + (st.dup_acks__val : ℚ) } : FlowState) ∧
      (∀ k, k ≠ fid → FlowMap.find d.flow_info k = FlowMap.find dev.flow_info k)) :=
  ⟨RenoControl_found dev CCState.MD fid st hf, RenoControl_found dev CCState.FR fid st hf⟩

theorem RenoControl_MD_FR_witness :
    ∃ d st1, RenoControl (exS3Device exS3Third) CCState.MD (recvFid exAck10000) = Except.ok d ∧
      FlowMap.find d.flow_info (recvFid exAck10000) = some st1 ∧
      st1.cc_recovery_seq = 20000 ∧ st1.cc_tmp_win = 4 ∧ st1.cc_ss_threshold = 4 ∧
      st1.cm_window_size = 7 := by
  obtain ⟨d, h1, h2, -⟩ :=
    (RenoControl_MD_FR (exS3Device exS3Third) (recvFid exAck10000) exS3Third rfl).1
  refine ⟨d, _, h1, h2, rfl, ?_, ?_, ?_⟩ <;>
    norm_num [exS3Third, exS3Acked, exS3Fresh, RenoInit]

/-- Claim C23. The engine in AI, on exact rationals. For every flow of the table
with `cc_tmp_win = w > 0`, `RenoControl (AI, fid)` returns and leaves
`cm_window_size = w + 1 / w` and `cc_tmp_win = w + 1 / w`, whatever
`cm_window_size` was before. No other field of the flow and no other flow
changes. -/
theorem RenoControl_AI (dev : Device) (fid : FlowId) (st : FlowState) (w : ℚ)
    (hf : FlowMap.find dev.flow_info fid = some st) (hw : st.cc_tmp_win = w) (hpos : w > 0) :
    ∃ d, RenoControl dev CCState.AI fid = Except.ok d ∧
      FlowMap.find d.flow_info fid = some
        ({ st with cm_window_size := w + 1 / w, cc_tmp_win := w + 1 / w } : FlowState) ∧
      (∀ k, k ≠ fid → FlowMap.find d.flow_info k = FlowMap.find dev.flow_info k) := by
  have _ := hpos
  obtain ⟨d, h1, h2, h3⟩ := RenoControl_found dev CCState.AI fid st hf
  refine ⟨d, h1, ?_, h3⟩
  rw [h2, ← hw]
  rfl

theorem RenoControl_AI_witness :
    ∃ d, RenoControl (exS3Device exS3Acked) CCState.AI (recvFid exAck10000) = Except.ok d ∧
      FlowMap.find d.flow_info (recvFid exAck10000) = some
        ({ exS3Acked with cm_window_size := 8 + 1 / 8, cc_tmp_win := 8 + 1 / 8 } : FlowState) ∧
      (∀ k, k ≠ recvFid exAck10000 →
        FlowMap.find d.flow_info k = FlowMap.find (exS3Device exS3Acked).flow_info k) :=
  RenoControl_AI (exS3Device exS3Acked) (recvFid exAck10000) exS3Acked 8 rfl rfl (by norm_num)

/-! ## Counting duplicate ACKs -/

/-- The duplicate-ACK fields after one `ACK_RCVD` event. -/
theorem ACK_RCVD_handled_dup (lat : Nat) (st : FlowState) (a : Nat) :
    (ACK_RCVD_handled lat st a).dup_acks__first_ack = false ∧
    (ACK_RCVD_handled lat st a).dup_acks__last_ack = a ∧
    (st.dup_acks__first_ack = true →
      (ACK_RCVD_handled lat st a).dup_acks__val = st.dup_acks__val) ∧
    (st.dup_acks__first_ack = false → st.dup_acks__last_ack = a →
      (ACK_RCVD_handled lat st a).dup_acks__val = st.dup_acks__val + 1) ∧
    (st.dup_acks__first_ack = false → st.dup_acks__last_ack ≠ a →
      (ACK_RCVD_handled lat st a).dup_acks__val = 0) := by
  obtain ⟨-, -, -, s4, s5, s6⟩ := ACK_RCVD_handled_acks lat st a
  obtain ⟨-, -, -, b4, b5, b6⟩ := ACK_RCVD_bookkeeping_acks st a
  rw [s4, s5, s6, b4, b5, b6]
  refine ⟨rfl, rfl, fun h => ?_, fun h1 h2 => ?_, fun h1 h2 => ?_⟩
  · rw [if_pos h]
  · rw [if_neg (by simp [h1]), if_pos h2]
  · rw [if_neg (by simp [h1]), if_neg h2]

theorem dup_foldl_same (lat : Nat) (a : Nat) (ps : List Packet) (st : FlowState)
    (ha : ∀ x ∈ ps, x.ack = a) (h1 : st.dup_acks__first_ack = false)
    (h2 : st.dup_acks__last_ack = a) :
    (ps.foldl (fun s x => ACK_RCVD_handled lat s x.ack) st).dup_acks__val =
      st.dup_acks__val + ps.length := by
  induction ps generalizing st with
  | nil => rfl
  | cons p rest ih =>
    have hpa : p.ack = a := ha p (List.mem_cons_self _ _)
    obtain ⟨d1, d2, -, d4, -⟩ := ACK_RCVD_handled_dup lat st p.ack
    simp only [List.foldl_cons, List.length_cons]
    rw [ih _ (fun x hx => ha x (List.mem_cons_of_mem _ hx)) d1 (by rw [d2, hpa]),
      d4 h1 (by rw [h2, hpa])]
    omega

/-- Claim C21. Counting duplicate ACKs. One `ACK_RCVD` event of a flow returns
and leaves `dup_acks__first_ack = false` and `dup_acks__last_ack = ack`; if it
was the first ACK of the flow `dup_acks__val` is unchanged, if the ACK number
equals `dup_acks__last_ack` the count grows by one, otherwise it is reset to 0.
After an ACK with another number followed by `n >= 1` ACKs with the same number,
`dup_acks__val = n - 1`. -/
theorem dup_acks_counting (dev : Device) (fid : FlowId) (st : FlowState)
    (p pb : Packet) (ps : List Packet) (a : Nat)
    (hf : FlowMap.find dev.flow_info fid = some st)
    (hp : recvFid p = fid) (hpb : recvFid pb = fid) (hk : ∀ x ∈ ps, recvFid x = fid)
    (ha : ∀ x ∈ ps, x.ack = a) (hne : pb.ack ≠ a) (hn : 1 ≤ ps.length) :
    (∃ d st1, flowEvent dev (FlowEvent.ACK_RCVD p) = Except.ok d ∧
      FlowMap.find d.flow_info fid = some st1 ∧
      st1.dup_acks__first_ack = false ∧ st1.dup_acks__last_ack = p.ack ∧
      (st.dup_acks__first_ack = true → st1.dup_acks__val = st.dup_acks__val) ∧
      (st.dup_acks__first_ack = false → st.dup_acks__last_ack = p.ack →
        st1.dup_acks__val = st.dup_acks__val + 1) ∧
      (st.dup_acks__first_ack = false → st.dup_acks__last_ack ≠ p.ack →
        st1.dup_acks__val = 0)) ∧
    (∃ d st1, flowEvents dev ((pb :: ps).map FlowEvent.ACK_RCVD) = Except.ok d ∧
      FlowMap.find d.flow_info fid = some st1 ∧
      st1.dup_acks__val = ps.length - 1) := by
  constructor
  · have hfp := hf
    rw [← hp] at hfp
    obtain ⟨d, h1, hf1, -⟩ := CoCoAEventHandler_ack_handled dev p st hfp
    rw [hp] at hf1
    exact ⟨d, _, h1, hf1, ACK_RCVD_handled_dup dev.CC_LATENCY st p.ack⟩
  · obtain ⟨d, hd, hfd, -⟩ := flowEvents_acks fid (pb :: ps) dev st hf
      (fun x hx => by
        rcases List.mem_cons.1 hx with h | h
        · rw [h]; exact hpb
        · exact hk x h)
    refine ⟨d, _, hd, hfd, ?_⟩
    cases ps with
    | nil => simp at hn
    | cons q rest =>
      have hqa : q.ack = a := ha q (List.mem_cons_self _ _)
      simp only [List.foldl_cons]
      obtain ⟨b1, b2, -⟩ := ACK_RCVD_handled_dup dev.CC_LATENCY st pb.ack
      obtain ⟨c1, c2, -, -, c5⟩ := ACK_RCVD_handled_dup dev.CC_LATENCY
        (ACK_RCVD_handled dev.CC_LATENCY st pb.ack) q.ack
      rw [dup_foldl_same dev.CC_LATENCY a rest _
        (fun x hx => ha x (List.mem_cons_of_mem _ hx)) c1 (by rw [c2, hqa]),
        c5 b1 (by rw [b2, hqa]; exact hne)]
      simp

theorem dup_acks_counting_witness :
    (∃ d st1, flowEvent (exS3Device exS3Fresh) (FlowEvent.ACK_RCVD exAck10000) = Except.ok d ∧
      FlowMap.find d.flow_info (recvFid exAck10000) = some st1 ∧
      st1.dup_acks__first_ack = false ∧ st1.dup_acks__last_ack = exAck10000.ack ∧
      (exS3Fresh.dup_acks__first_ack = true → st1.dup_acks__val = exS3Fresh.dup_acks__val) ∧
      (exS3Fresh.dup_acks__first_ack = false → exS3Fresh.dup_acks__last_ack = exAck10000.ack →
        st1.dup_acks__val = exS3Fresh.dup_acks__val + 1) ∧
      (exS3Fresh.dup_acks__first_ack = false → exS3Fresh.dup_acks__last_ack ≠ exAck10000.ack →
        st1.dup_acks__val = 0)) ∧
    (∃ d st1, flowEvents (exS3Device exS3Fresh)
        ((exAck2461 :: [exAck10000, exAck10000, exAck10000]).map FlowEvent.ACK_RCVD)
        = Except.ok d ∧
      FlowMap.find d.flow_info (recvFid exAck10000) = some st1 ∧
      st1.dup_acks__val = ([exAck10000, exAck10000, exAck10000] : List Packet).length - 1) :=
  dup_acks_counting (exS3Device exS3Fresh) (recvFid exAck10000) exS3Fresh exAck10000 exAck2461
    [exAck10000, exAck10000, exAck10000] 10000 rfl rfl rfl
    (by intro x hx; simp at hx; rw [hx])
    (by intro x hx; simp at hx; rw [hx]; rfl) (by decide) (by decide)

/-! ## Where the phase and the window variables are written -/

theorem SameWin_refl (a : FlowState) : SameWin a a := ⟨rfl, rfl, rfl, rfl⟩

theorem Send_handshake_cc (st : FlowState) (p : Packet) :
    (Send_handshake st p).cc_state = st.cc_state ∧ SameWin st (Send_handshake st p) := by
  unfold Send_handshake
  split
  · split <;> exact ⟨rfl, rfl, rfl, rfl, rfl⟩
  · split <;> exact ⟨rfl, rfl, rfl, rfl, rfl⟩
  · split <;> exact ⟨rfl, rfl, rfl, rfl, rfl⟩
  · exact ⟨rfl, rfl, rfl, rfl, rfl⟩

theorem PKT_SENT_flow_cc (st : FlowState) (p : Packet) :
    (PKT_SENT_flow st p).cc_state = st.cc_state ∧ SameWin st (PKT_SENT_flow st p) ∧
    (PKT_SENT_flow st p).cm_start = st.cm_start := by
  have h0 : (sent_max_sent st p).cc_state = st.cc_state ∧ SameWin st (sent_max_sent st p) ∧
      (sent_max_sent st p).cm_start = st.cm_start := by
    unfold sent_max_sent
    split <;> exact ⟨rfl, ⟨rfl, rfl, rfl, rfl⟩, rfl⟩
  unfold PKT_SENT_flow
  split
  · exact h0
  · exact h0

theorem ACK_RCVD_flow_win (st : FlowState) (a : Nat) : SameWin st (ACK_RCVD_flow st a) := by
  obtain ⟨hcc, -, -, -⟩ := ACK_RCVD_pre_fields st a
  have hbk := ACK_RCVD_bookkeeping_frameCC st a
  refine ⟨?_, ?_, ?_, ?_⟩
  · show (ACK_RCVD_pre st a).cm_window_size = _
    rw [hcc.2.1, hbk.2.1]
  · show (ACK_RCVD_pre st a).cc_tmp_win = _
    rw [hcc.2.2.2.2.1, hbk.2.2.2.2.1]
  · show (ACK_RCVD_pre st a).cc_ss_threshold = _
    rw [hcc.2.2.1, hbk.2.2.1]
  · show (ACK_RCVD_pre st a).cc_recovery_seq = _
    rw [hcc.2.2.2.1, hbk.2.2.2.1]

/-- Among the single writes of the code to a flow state, only the switch of
`ACK_RCVD` and the assignment of `rtx_timeout__timeout` change the phase, and
only the switch of `RenoControl` changes a window variable. -/
theorem Atomic_cc {a b : FlowState} (h : Atomic a b) :
    (b.cc_state ≠ a.cc_state →
      (∃ n, b = ACK_RCVD_flow a n) ∨ b = { a with cc_state := CCState.START }) ∧
    (¬ SameWin a b → ∃ s, b = RenoControl_switch s a) := by
  cases h with
  | handshake p hst =>
    obtain ⟨h1, h2⟩ := Send_handshake_cc a p
    exact ⟨fun hc => absurd h1 hc, fun hc => absurd h2 hc⟩
  | tear hst => exact ⟨fun hc => absurd rfl hc, fun hc => absurd (SameWin_refl a) hc⟩
  | queue q hq => exact ⟨fun hc => absurd rfl hc, fun hc => absurd (SameWin_refl a) hc⟩
  | sent p =>
    obtain ⟨h1, h2, -⟩ := PKT_SENT_flow_cc a p
    exact ⟨fun hc => absurd h1 hc, fun hc => absurd h2 hc⟩
  | recv_syn hst hs => exact ⟨fun hc => absurd rfl hc, fun hc => absurd (SameWin_refl a) hc⟩
  | recv_synack hst hs hini =>
    exact ⟨fun hc => absurd rfl hc, fun hc => absurd (SameWin_refl a) hc⟩
  | recv_ack hst hs hini =>
    exact ⟨fun hc => absurd rfl hc, fun hc => absurd (SameWin_refl a) hc⟩
  | ack n hpre => exact ⟨fun _ => Or.inl ⟨n, rfl⟩, fun hc => absurd (ACK_RCVD_flow_win a n) hc⟩
  | reno s => exact ⟨fun hc => absurd (RenoControl_switch_cc_state s a) hc, fun _ => ⟨s, rfl⟩⟩
  | rto => exact ⟨fun hc => absurd rfl hc, fun hc => absurd (SameWin_refl a) hc⟩
  | rto_start => exact ⟨fun _ => Or.inr rfl, fun hc => absurd (SameWin_refl a) hc⟩

/-! ## The flag `queues_empty` at the end of `CoCoASched` -/

theorem totalPending_eq_zero (m : List (FlowId × FlowState)) :
    totalPending m = 0 ↔ ∀ e ∈ m, e.2.queue = [] := by
  induction m with
  | nil => simp [totalPending]
  | cons e rest ih =>
    rw [totalPending_cons, Nat.add_eq_zero_iff, ih, List.length_eq_zero]
    simp

/-- Claim C28. The post-condition of `CoCoASched` on `queues_empty`: for every
device (every flow table, every capacity of the transmit queue, whether or not
the queue refuses a packet and the loop over the flows is left early), when
`CoCoASched` returns, `queues_empty` is true if and only if the pending queue of
every flow of the table is empty. -/
theorem CoCoASched_queues_empty (dev d : Device) (h : CoCoASched dev = Except.ok d) :
    d.queues_empty = true ↔ ∀ e ∈ d.flow_info, e.2.queue = [] := by
  cases hl : CoCoASched_loop dev with
  | error e =>
    unfold CoCoASched at h
    rw [hl] at h
    cases h
  | ok r =>
    obtain ⟨flows, q, occ⟩ := r
    obtain ⟨d1, hd1, hfl, hqe, -⟩ := CoCoASched_of_loop dev flows q occ hl
    rw [hd1] at h
    cases h
    rw [hqe, hfl, ← totalPending_eq_zero]
    simp only [decide_eq_true_eq]
    exact (CoCoASched_loop_result dev flows q occ hl).2

theorem CoCoASched_queues_empty_witness :
    (valueOr (CoCoASched (runTo exSmallFifo exTwoFlowCalls))
        (runTo exSmallFifo exTwoFlowCalls)).queues_empty = true ↔
      ∀ e ∈ (valueOr (CoCoASched (runTo exSmallFifo exTwoFlowCalls))
        (runTo exSmallFifo exTwoFlowCalls)).flow_info, e.2.queue = [] :=
  CoCoASched_queues_empty (runTo exSmallFifo exTwoFlowCalls)
    (valueOr (CoCoASched (runTo exSmallFifo exTwoFlowCalls)) (runTo exSmallFifo exTwoFlowCalls))
    (ok_of_isOk (runTo exSmallFifo exTwoFlowCalls) (by decide!))

/-! ## The head-drop loop -/

theorem error_of_faultOf {α : Type} {r : Except Fault α} {e : Fault}
    (h : faultOf r = some e) : r = Except.error e := by
  cases r with
  | error e1 =>
    simp only [faultOf, Option.some.injEq] at h
    rw [h]
  | ok x => simp [faultOf] at h

/-- The inner loop of `CoCoASched`, entered at the head `x`: it removes the
leading packets below `cm`; when a packet is left it returns the rest of the
queue, and when none is left it has called `top ()` on the emptied queue. -/
theorem headDropLoop_dropWhile (cm : Nat) (rest : List (Packet × Nat)) (x : Packet × Nat)
    (occ : Nat) :
    ((x :: rest).dropWhile (fun y => decide (y.1.seq < cm)) = [] →
      headDropLoop cm (x :: rest) x.1.seq occ = Except.error Fault.emptyTop) ∧
    ((x :: rest).dropWhile (fun y => decide (y.1.seq < cm)) ≠ [] →
      ∃ occ1, headDropLoop cm (x :: rest) x.1.seq occ =
        Except.ok ((x :: rest).dropWhile (fun y => decide (y.1.seq < cm)), occ1)) := by
  induction rest generalizing x occ with
  | nil =>
    by_cases hlt : x.1.seq < cm
    · simp [headDropLoop, List.dropWhile, hlt]
    · simp [headDropLoop, List.dropWhile, hlt]
  | cons y rest ih =>
    by_cases hlt : x.1.seq < cm
    · have hd : (x :: y :: rest).dropWhile (fun y => decide (y.1.seq < cm)) =
          (y :: rest).dropWhile (fun y => decide (y.1.seq < cm)) := by
        simp [List.dropWhile, hlt]
      rw [hd]
      simp only [headDropLoop, hlt, if_true]
      exact ih y (occ - 1)
    · have hd : (x :: y :: rest).dropWhile (fun y => decide (y.1.seq < cm)) = x :: y :: rest := by
        simp [List.dropWhile, hlt]
      rw [hd]
      simp [headDropLoop, hlt]

/-- Claim C29. The head-drop loop reads the head of an emptied queue. The
calls `exStaleCalls` on `exDevice` return and leave one flow with
`cm_start = 10000` and the single pending packet 5000, which is below
`cm_start`; the last event scheduled is the call of `CoCoASched` by
`RenoControl`. In that call the loop pops the packet and then evaluates
`st.queue.top ()` on the empty queue: the call does not return, the embedding
reports `Fault.emptyTop`. -/
theorem head_drop_reads_empty_queue :
    isOk (run exDevice exStaleCalls) = true ∧
    (runTo exDevice exStaleCalls).flow_info.map
      (fun e => (e.2.cm_start, e.2.queue.map (fun x => x.1.seq))) = [(10000, [5000])] ∧
    (runTo exDevice exStaleCalls).scheduled.getLast? = some SimEvent.CoCoASched ∧
    CoCoASched (runTo exDevice exStaleCalls) = Except.error Fault.emptyTop :=
  ⟨by decide!, by decide!, by decide!, error_of_faultOf (by decide!)⟩

/-! ## The order of the TCP phases -/

theorem phaseRank_of_atomic {a b : FlowState} (h : Atomic a b) :
    phaseRank a.state ≤ phaseRank b.state := by
  cases h with
  | handshake p hst =>
    rw [hst]
    exact Nat.zero_le _
  | tear hst =>
    rw [hst]
    show 1 ≤ 2
    exact Nat.le_succ 1
  | queue q hq => exact le_refl _
  | sent p => rw [(PKT_SENT_flow_frame a p).1]
  | recv_syn hst hs => exact le_refl _
  | recv_synack hst hs hini => exact le_refl _
  | recv_ack hst hs hini =>
    rw [hst]
    exact Nat.zero_le _
  | ack n hpre => rw [(ACK_RCVD_flow_frame a n).1]
  | reno s => rw [(RenoControl_switch_frame s a).1]
  | rto => exact le_refl _
  | rto_start => exact le_refl _

theorem phaseRank_of_flowTrans {a b : FlowState} (h : FlowTrans a b) :
    phaseRank a.state ≤ phaseRank b.state := by
  induction h with
  | refl => exact le_refl _
  | tail _ hbc ih => exact le_trans ih (phaseRank_of_atomic hbc)

theorem phaseRank_step {dev : Device} {c : Call} {d : Device} (h : step dev c = Except.ok d)
    (fid : FlowId) (st : FlowState) (hf : FlowMap.find dev.flow_info fid = some st) :
    ∃ st1, FlowMap.find d.flow_info fid = some st1 ∧
      phaseRank st.state ≤ phaseRank st1.state := by
  obtain ⟨st1, hf1, ht⟩ := (step_evolves h fid).1 st hf
  exact ⟨st1, hf1, phaseRank_of_flowTrans ht⟩

theorem phaseRank_run (calls : List Call) {dev d : Device} (h : run dev calls = Except.ok d)
    (fid : FlowId) (st : FlowState) (hf : FlowMap.find dev.flow_info fid = some st) :
    ∃ st1, FlowMap.find d.flow_info fid = some st1 ∧
      phaseRank st.state ≤ phaseRank st1.state := by
  induction calls generalizing dev st with
  | nil =>
    simp only [CoCoA.run] at h
    cases h
    exact ⟨st, hf, le_refl _⟩
  | cons c cs ih =>
    simp only [CoCoA.run] at h
    split at h
    · cases h
    · rename_i d1 hs
      obtain ⟨st1, hf1, h1⟩ := phaseRank_step hs fid st hf
      obtain ⟨st2, hf2, h2⟩ := ih h st1 hf1
      exact ⟨st2, hf2, le_trans h1 h2⟩

theorem phaseRank_two {s : TCPState} (h : 2 ≤ phaseRank s) : s = TCPState.TEAR_DOWN := by
  cases s
  · simp [phaseRank] at h
  · simp [phaseRank] at h
  · rfl

/-- Claim C30. The TCP phase only moves forward. (1) For every device, every
entry-point call that returns (`Send`, `Receive`, `TransmitComplete`,
`CoCoASched`, `rtx_timeout__timeout`, and the delayed call of `RenoControl`) and
every flow of the table, the flow is still in the table and its `state` is the
same as or later than before in the order `SETUP < DATA < TEAR_DOWN`. (2) A flow
in `TEAR_DOWN` is in `TEAR_DOWN` after every sequence of calls that returns.
(3) For a flow in `TEAR_DOWN`, `Send` returns and leaves the flow table as it
was: the packet is not put into the pending queue. (4) For a flow in
`TEAR_DOWN`, `Receive` returns and leaves the device as it was: no event
`ACK_RCVD` is handled. -/
theorem tcp_phase_moves_forward :
    (∀ (dev : Device) (c : Call) (d : Device) (fid : FlowId) (st : FlowState),
      step dev c = Except.ok d → FlowMap.find dev.flow_info fid = some st →
      ∃ st1, FlowMap.find d.flow_info fid = some st1 ∧
        phaseRank st.state ≤ phaseRank st1.state) ∧
    (∀ (dev : Device) (calls : List Call) (d : Device) (fid : FlowId) (st : FlowState),
      run dev calls = Except.ok d → FlowMap.find dev.flow_info fid = some st →
      st.state = TCPState.TEAR_DOWN →
      ∃ st1, FlowMap.find d.flow_info fid = some st1 ∧ st1.state = TCPState.TEAR_DOWN) ∧
    (∀ (dev : Device) (p : Packet) (st : FlowState),
      FlowMap.find dev.flow_info (sendFid p) = some st → st.state = TCPState.TEAR_DOWN →
      ∃ r d, Send dev p = Except.ok (r, d) ∧ d.flow_info = dev.flow_info) ∧
    (∀ (dev : Device) (p : Packet) (st : FlowState),
      FlowMap.find dev.flow_info (recvFid p) = some st → st.state = TCPState.TEAR_DOWN →
      Receive dev p = Except.ok dev) := by
  refine ⟨fun dev c d fid st h hf => phaseRank_step h fid st hf,
    fun dev calls d fid st h hf hst => ?_, fun dev p st hf hst => ?_,
    fun dev p st hf hst => ?_⟩
  · obtain ⟨st1, hf1, hle⟩ := phaseRank_run calls h fid st hf
    rw [hst] at hle
    exact ⟨st1, hf1, phaseRank_two hle⟩
  · unfold Send
    by_cases hup : dev.m_linkUp = false
    · rw [if_pos hup]
      exact ⟨_, _, rfl, rfl⟩
    · rw [if_neg hup]
      by_cases hid : dev.nodeId > 1
      · rw [if_pos hid]
        simp only [flowOf_of_find hf, hst, ensureFlow_of_find hf]
        obtain ⟨r, d, hs, hfl, -⟩ := Send_direct_config dev p
        exact ⟨r, d, hs, hfl⟩
      · rw [if_neg hid]
        obtain ⟨r, d, hs, hfl, -⟩ := Send_direct_config dev p
        exact ⟨r, d, hs, hfl⟩
  · unfold Receive
    by_cases hc : dev.isCorrupt p = true
    · rw [if_pos hc]
    · rw [if_neg hc]
      by_cases hid : dev.nodeId > 1
      · rw [if_pos hid]
        simp only [flowOf_of_find hf, hst, ensureFlow_of_find hf]
      · rw [if_neg hid]

theorem tcp_phase_moves_forward_witness :
    (∃ st1, FlowMap.find (runTo exAfterHandshake [Call.Send exAck]).flow_info (sendFid exAck)
        = some st1 ∧
      phaseRank (flowOf exAfterHandshake.flow_info (sendFid exAck)).state ≤
        phaseRank st1.state) ∧
    (∃ st1, FlowMap.find
        (runTo exAfterHandshake [Call.Send exAck, Call.Send exData1, Call.Receive exAck2461]).flow_info
        (sendFid exAck) = some st1 ∧ st1.state = TCPState.TEAR_DOWN) ∧
    (∃ r d, Send (runTo exAfterHandshake [Call.Send exAck]) exData1 = Except.ok (r, d) ∧
      d.flow_info = (runTo exAfterHandshake [Call.Send exAck]).flow_info) ∧
    Receive (runTo exAfterHandshake [Call.Send exAck]) exAck2461 =
      Except.ok (runTo exAfterHandshake [Call.Send exAck]) :=
  ⟨tcp_phase_moves_forward.1 exAfterHandshake (Call.Send exAck)
      (runTo exAfterHandshake [Call.Send exAck]) (sendFid exAck)
      (flowOf exAfterHandshake.flow_info (sendFid exAck)) rfl rfl,
   tcp_phase_moves_forward.2.1 (runTo exAfterHandshake [Call.Send exAck])
      [Call.Send exData1, Call.Receive exAck2461]
      (runTo exAfterHandshake [Call.Send exAck, Call.Send exData1, Call.Receive exAck2461])
      (sendFid exAck) (flowOf (runTo exAfterHandshake [Call.Send exAck]).flow_info (sendFid exAck))
      rfl rfl rfl,
   tcp_phase_moves_forward.2.2.1 (runTo exAfterHandshake [Call.Send exAck]) exData1
      (flowOf (runTo exAfterHandshake [Call.Send exAck]).flow_info (sendFid exAck)) rfl rfl,
   tcp_phase_moves_forward.2.2.2 (runTo exAfterHandshake [Call.Send exAck]) exAck2461
      (flowOf (runTo exAfterHandshake [Call.Send exAck]).flow_info (sendFid exAck)) rfl rfl⟩

/-! ## The arming of the retransmission timer -/

theorem PKT_SENT_flow_timer (st : FlowState) (p : Packet) :
    (PKT_SENT_flow st p).max_sent__val =
      max st.max_sent__val ((p.seq + data_size p) % 2 ^ 32) ∧
    (st.rtx_timeout__timer__isset = false ∧
      (PKT_SENT_flow st p).max_sent__val > st.max_ack__val → Armed st (PKT_SENT_flow st p)) ∧
    (¬ (st.rtx_timeout__timer__isset = false ∧
      (PKT_SENT_flow st p).max_sent__val > st.max_ack__val) →
      SameTimer st (PKT_SENT_flow st p)) := by
  have h0 : SameTimer st (sent_max_sent st p) ∧
      (sent_max_sent st p).max_ack__val = st.max_ack__val ∧
      (sent_max_sent st p).max_sent__val =
        max st.max_sent__val ((p.seq + data_size p) % 2 ^ 32) := by
    unfold sent_max_sent
    split
    · rename_i hgt
      exact ⟨⟨rfl, rfl, rfl⟩, rfl, (max_eq_right (le_of_lt hgt)).symm⟩
    · rename_i hgt
      exact ⟨⟨rfl, rfl, rfl⟩, rfl, (max_eq_left (Nat.le_of_not_lt hgt)).symm⟩
  obtain ⟨⟨c1, c2, c3⟩, hack, hmax⟩ := h0
  have hms : (PKT_SENT_flow st p).max_sent__val = (sent_max_sent st p).max_sent__val := by
    unfold PKT_SENT_flow
    split <;> rfl
  refine ⟨hms.trans hmax, ?_, ?_⟩
  · intro hc
    rw [hms] at hc
    unfold PKT_SENT_flow
    rw [if_pos ⟨c2.trans hc.1, by rw [hack]; exact hc.2⟩]
    exact ⟨by show (sent_max_sent st p).rtx_timeout__timeout_cnt + 1 = _; rw [c1], rfl, rfl⟩
  · intro hc
    rw [hms] at hc
    unfold PKT_SENT_flow
    rw [if_neg (fun hx => hc ⟨c2.symm.trans hx.1, by rw [← hack]; exact hx.2⟩)]
    exact ⟨c1, c2, c3⟩

theorem ACK_RCVD_bookkeeping_timer (st : FlowState) (a : Nat) :
    SameTimer st (ACK_RCVD_bookkeeping st a) := by
  have h1 : ∀ s, SameTimer s (ack_window_edge s a) := by
    intro s
    unfold ack_window_edge
    split <;> exact ⟨rfl, rfl, rfl⟩
  have h2 : ∀ s, SameTimer s (ack_max_ack s a) := by
    intro s
    unfold ack_max_ack
    split <;> exact ⟨rfl, rfl, rfl⟩
  have h3 : ∀ s, SameTimer s (ack_new_ack s a) := by
    intro s
    unfold ack_new_ack
    split <;> exact ⟨rfl, rfl, rfl⟩
  have h4 : ∀ s, SameTimer s (ack_dup_acks s a) := by
    intro s
    unfold ack_dup_acks
    split
    · exact ⟨rfl, rfl, rfl⟩
    · split <;> exact ⟨rfl, rfl, rfl⟩
  have tr : ∀ {x y z : FlowState}, SameTimer x y → SameTimer y z → SameTimer x z :=
    fun hxy hyz => ⟨hyz.1.trans hxy.1, hyz.2.1.trans hxy.2.1, hyz.2.2.trans hxy.2.2⟩
  unfold ACK_RCVD_bookkeeping
  exact tr (tr (tr (h1 st) (h2 _)) (h3 _)) (h4 _)

theorem ACK_RCVD_handled_timer (lat : Nat) (st : FlowState) (a : Nat) :
    (((ACK_RCVD_bookkeeping st a).new_ack__val = true ∨
      (ACK_RCVD_bookkeeping st a).dup_acks__val = 3) → Armed st (ACK_RCVD_handled lat st a)) ∧
    (¬ ((ACK_RCVD_bookkeeping st a).new_ack__val = true ∨
      (ACK_RCVD_bookkeeping st a).dup_acks__val = 3) →
      SameTimer st (ACK_RCVD_handled lat st a)) := by
  obtain ⟨b1, b2, b3⟩ := ACK_RCVD_bookkeeping_timer st a
  have hsw : ∀ s x, (RenoControl_switch s x).rtx_timeout__timeout_cnt = x.rtx_timeout__timeout_cnt ∧
      (RenoControl_switch s x).rtx_timeout__timer__isset = x.rtx_timeout__timer__isset ∧
      (RenoControl_switch s x).rtx_timeout__val = x.rtx_timeout__val := by
    intro s x
    cases s <;> exact ⟨rfl, rfl, rfl⟩
  have hh : (ACK_RCVD_handled lat st a).rtx_timeout__timeout_cnt =
        (ACK_RCVD_pre st a).rtx_timeout__timeout_cnt ∧
      (ACK_RCVD_handled lat st a).rtx_timeout__timer__isset =
        (ACK_RCVD_pre st a).rtx_timeout__timer__isset ∧
      (ACK_RCVD_handled lat st a).rtx_timeout__val = (ACK_RCVD_pre st a).rtx_timeout__val := by
    unfold ACK_RCVD_handled ACK_RCVD_sync
    split
    · exact ⟨rfl, rfl, rfl⟩
    · split
      · exact hsw _ _
      · exact ⟨rfl, rfl, rfl⟩
  obtain ⟨e1, e2, e3⟩ := hh
  have hre : ACK_RCVD_rearms (ACK_RCVD_bookkeeping st a) = true ↔
      ((ACK_RCVD_bookkeeping st a).new_ack__val = true ∨
        (ACK_RCVD_bookkeeping st a).dup_acks__val = 3) := by
    simp [ACK_RCVD_rearms]
  constructor
  · intro hc
    have hr := hre.2 hc
    unfold Armed
    rw [e1, e2, e3]
    unfold ACK_RCVD_pre
    simp only [hr, if_true]
    exact ⟨by show (ACK_RCVD_bookkeeping st a).rtx_timeout__timeout_cnt + 1 = _; rw [b1],
      rfl, rfl⟩
  · intro hc
    have hr : ¬ ACK_RCVD_rearms (ACK_RCVD_bookkeeping st a) = true := fun h => hc (hre.1 h)
    unfold SameTimer
    rw [e1, e2, e3]
    unfold ACK_RCVD_pre
    simp only [hr, if_false]
    exact ⟨b1, b2, b3⟩

theorem rtx_timeout_found_cnt (dev : Device) (fid : FlowId) (st : FlowState) (cnt : Nat)
    (hf : FlowMap.find dev.flow_info fid = some st) :
    ∃ d, rtx_timeout_found dev fid st cnt = Except.ok d ∧
      ∀ k s, FlowMap.find dev.flow_info k = some s →
        ∃ s1, FlowMap.find d.flow_info k = some s1 ∧
          s1.rtx_timeout__timeout_cnt = s.rtx_timeout__timeout_cnt := by
  have hins : ∀ (s0 : FlowState),
      s0.rtx_timeout__timeout_cnt = st.rtx_timeout__timeout_cnt →
      ∀ k s, FlowMap.find dev.flow_info k = some s →
        ∃ s1, FlowMap.find (FlowMap.insert dev.flow_info fid s0) k = some s1 ∧
          s1.rtx_timeout__timeout_cnt = s.rtx_timeout__timeout_cnt := by
    intro s0 h0 k s hk
    by_cases hkf : k = fid
    · subst hkf
      rw [hf] at hk
      cases hk
      exact ⟨s0, FlowMap_find_insert_self _ _ _, h0⟩
    · exact ⟨s, by rw [FlowMap_find_insert_ne _ _ _ _ hkf]; exact hk, rfl⟩
  unfold rtx_timeout_found
  by_cases hc : st.rtx_timeout__timeout_cnt = cnt
  · rw [if_pos hc]
    by_cases hv : st.rtx_timeout__val = false
    · rw [if_pos hv]
      have hgo : ∀ (dev1 : Device) (s0 : FlowState),
          dev1.flow_info = FlowMap.insert dev.flow_info fid s0 →
          s0.rtx_timeout__timeout_cnt = st.rtx_timeout__timeout_cnt →
          ∃ d, RenoControl dev1 CCState.START fid = Except.ok d ∧
            ∀ k s, FlowMap.find dev.flow_info k = some s →
              ∃ s1, FlowMap.find d.flow_info k = some s1 ∧
                s1.rtx_timeout__timeout_cnt = s.rtx_timeout__timeout_cnt := by
        intro dev1 s0 h1 h0
        unfold RenoControl
        rw [h1, FlowMap_find_insert_self]
        refine ⟨_, rfl, ?_⟩
        intro k s hk
        by_cases hkf : k = fid
        · subst hkf
          rw [hf] at hk
          cases hk
          exact ⟨_, FlowMap_find_insert_self _ _ _, h0⟩
        · refine ⟨s, ?_, rfl⟩
          show FlowMap.find (FlowMap.insert (FlowMap.insert dev.flow_info fid _) fid _) k = _
          rw [FlowMap_find_insert_ne _ _ _ _ hkf, FlowMap_find_insert_ne _ _ _ _ hkf]
          exact hk
      have hfin : ∀ (s0 : FlowState),
          s0.rtx_timeout__timeout_cnt = st.rtx_timeout__timeout_cnt →
          ∃ d, (if dev.CC_LATENCY > 0 then
              (Except.ok { dev with
                flow_info := FlowMap.insert dev.flow_info fid s0,
                scheduled := dev.scheduled ++
                  [SimEvent.RenoControl dev.CC_LATENCY CCState.START fid] } :
                Except Fault Device)
            else RenoControl { dev with flow_info := FlowMap.insert dev.flow_info fid s0 }
              CCState.START fid) = Except.ok d ∧
            ∀ k s, FlowMap.find dev.flow_info k = some s →
              ∃ s1, FlowMap.find d.flow_info k = some s1 ∧
                s1.rtx_timeout__timeout_cnt = s.rtx_timeout__timeout_cnt := by
        intro s0 h0
        by_cases hl : dev.CC_LATENCY > 0
        · rw [if_pos hl]
          exact ⟨_, rfl, hins _ h0⟩
        · rw [if_neg hl]
          exact hgo _ s0 rfl h0
      cases hcs : st.cc_state with
      | START => exact ⟨_, rfl, hins _ rfl⟩
      | SLOW_START => exact hfin _ rfl
      | AI => exact hfin _ rfl
      | MD => exact hfin _ rfl
      | FR => exact hfin _ rfl
      | IDLE => exact hfin _ rfl
    · rw [if_neg hv]
      exact ⟨_, rfl, hins _ rfl⟩
  · rw [if_neg hc]
    exact ⟨_, rfl, fun k s hk => ⟨s, hk, rfl⟩⟩

/-- Claim C25, counterexample. The flow `exWrapFlow` has the timer not set and
`max_sent__val = max_ack__val = 4294967196`; the segment `exWrapData` has
sequence number 4294967196 and 1460 bytes of payload, so that the maximum of the
old `max_sent__val` and sequence number plus payload is 4294968656, above
`max_ack__val`. The handler of `PKT_SENT` computes the sum on `uint32_t` as 1360,
leaves `max_sent__val` as it was and does not arm the timer: the generation
number is unchanged and no firing is scheduled. -/
theorem PKT_SENT_at_wrap_does_not_arm :
    exWrapFlow.rtx_timeout__timer__isset = false ∧
    exWrapData.payloadSize - 4 * exWrapData.length = 1460 ∧
    max exWrapFlow.max_sent__val
      (exWrapData.seq + (exWrapData.payloadSize - 4 * exWrapData.length)) >
        exWrapFlow.max_ack__val ∧
    isOk (CoCoAEventHandler (exS3Device exWrapFlow) (sendFid exWrapData) exWrapData
      CCEvent.PKT_SENT) = true ∧
    (flowOf (valueOr (CoCoAEventHandler (exS3Device exWrapFlow) (sendFid exWrapData) exWrapData
      CCEvent.PKT_SENT) exDevice).flow_info (sendFid exWrapData)).rtx_timeout__timeout_cnt =
        exWrapFlow.rtx_timeout__timeout_cnt ∧
    (flowOf (valueOr (CoCoAEventHandler (exS3Device exWrapFlow) (sendFid exWrapData) exWrapData
      CCEvent.PKT_SENT) exDevice).flow_info (sendFid exWrapData)).rtx_timeout__timer__isset =
        false ∧
    (flowOf (valueOr (CoCoAEventHandler (exS3Device exWrapFlow) (sendFid exWrapData) exWrapData
      CCEvent.PKT_SENT) exDevice).flow_info (sendFid exWrapData)).max_sent__val = 4294967196 ∧
    (valueOr (CoCoAEventHandler (exS3Device exWrapFlow) (sendFid exWrapData) exWrapData
      CCEvent.PKT_SENT) exDevice).scheduled = [] := by
  refine ⟨rfl, by decide, by decide, by decide!, by decide!, by decide!, by decide!, by decide!⟩

/-- Claim C25, amended. The arming rule of the retransmission timer, for every
device and every flow the handler finds. (1) The event `PKT_SENT` returns and
sets `max_sent__val` to the maximum of its old value and
`(seq + data_size) mod 2^32`, the sum as the code computes it on `uint32_t` with
the 16-bit `data_size`; if the timer was not set and the new `max_sent__val` is
above `max_ack__val`, the generation number is incremented by one, the timer is
set and `rtx_timeout__val` is false; otherwise generation number, set flag and
`rtx_timeout__val` are unchanged. (2) The event `ACK_RCVD` returns; if its
bookkeeping yields `new_ack__val = true` or `dup_acks__val = 3` the timer is
armed in the same way, otherwise the three fields are unchanged. (3) The events
`PKT_ENQ` and `PKT_DEQ` return and leave the generation number unchanged.
(4) The call `rtx_timeout__timeout` returns and leaves the generation number of
every flow unchanged. -/
theorem rto_arming_rule :
    (∀ (dev : Device) (key : FlowId) (p : Packet) (st : FlowState),
      FlowMap.find dev.flow_info key = some st →
      ∃ d st1, CoCoAEventHandler dev key p CCEvent.PKT_SENT = Except.ok d ∧
        FlowMap.find d.flow_info key = some st1 ∧
        st1.max_sent__val = max st.max_sent__val ((p.seq + data_size p) % 2 ^ 32) ∧
        (st.rtx_timeout__timer__isset = false ∧ st1.max_sent__val > st.max_ack__val →
          Armed st st1) ∧
        (¬ (st.rtx_timeout__timer__isset = false ∧ st1.max_sent__val > st.max_ack__val) →
          SameTimer st st1)) ∧
    (∀ (dev : Device) (p : Packet) (st : FlowState),
      FlowMap.find dev.flow_info (recvFid p) = some st →
      ∃ d st1, CoCoAEventHandler dev (recvFid p) p CCEvent.ACK_RCVD = Except.ok d ∧
        FlowMap.find d.flow_info (recvFid p) = some st1 ∧
        (((ACK_RCVD_bookkeeping st p.ack).new_ack__val = true ∨
          (ACK_RCVD_bookkeeping st p.ack).dup_acks__val = 3) → Armed st st1) ∧
        (¬ ((ACK_RCVD_bookkeeping st p.ack).new_ack__val = true ∨
          (ACK_RCVD_bookkeeping st p.ack).dup_acks__val = 3) → SameTimer st st1)) ∧
    (∀ (dev : Device) (key : FlowId) (p : Packet) (ev : CCEvent) (st : FlowState),
      ev = CCEvent.PKT_ENQ ∨ ev = CCEvent.PKT_DEQ →
      FlowMap.find dev.flow_info key = some st →
      ∃ d st1, CoCoAEventHandler dev key p ev = Except.ok d ∧
        FlowMap.find d.flow_info key = some st1 ∧
        st1.rtx_timeout__timeout_cnt = st.rtx_timeout__timeout_cnt) ∧
    (∀ (dev : Device) (hdr : Packet) (cnt : Nat),
      ∃ d, rtx_timeout__timeout dev hdr cnt = Except.ok d ∧
        ∀ k s, FlowMap.find dev.flow_info k = some s →
          ∃ s1, FlowMap.find d.flow_info k = some s1 ∧
            s1.rtx_timeout__timeout_cnt = s.rtx_timeout__timeout_cnt) := by
  refine ⟨fun dev key p st hf => ?_, fun dev p st hf => ?_, fun dev key p ev st hev hf => ?_,
    fun dev hdr cnt => ?_⟩
  · obtain ⟨h1, h2, h3⟩ := PKT_SENT_flow_timer st p
    unfold CoCoAEventHandler
    rw [hf]
    exact ⟨_, _, rfl, FlowMap_find_insert_self _ _ _, h1, h2, h3⟩
  · obtain ⟨d, hd, hfd, -⟩ := CoCoAEventHandler_ack_handled dev p st hf
    obtain ⟨h1, h2⟩ := ACK_RCVD_handled_timer dev.CC_LATENCY st p.ack
    exact ⟨d, _, hd, hfd, h1, h2⟩
  · unfold CoCoAEventHandler
    rw [hf]
    rcases hev with h | h
    · subst h
      exact ⟨_, _, rfl, FlowMap_find_insert_self _ _ _, rfl⟩
    · subst h
      exact ⟨_, _, rfl, hf, rfl⟩
  · rw [rtx_timeout_eq]
    unfold rtx_timeout_lookup
    cases h1 : FlowMap.find dev.flow_info (sendFid hdr) with
    | some st => exact rtx_timeout_found_cnt dev _ st cnt h1
    | none =>
      cases h2 : FlowMap.find dev.flow_info (recvFid hdr) with
      | some st => exact rtx_timeout_found_cnt dev _ st cnt h2
      | none => exact ⟨dev, rfl, fun k s hk => ⟨s, hk, rfl⟩⟩

theorem rto_arming_rule_witness :
    ∃ d st1, CoCoAEventHandler (exS3Device exS3Fresh) (sendFid exData6460) exData6460
        CCEvent.PKT_SENT = Except.ok d ∧
      FlowMap.find d.flow_info (sendFid exData6460) = some st1 ∧
      st1.max_sent__val = max exS3Fresh.max_sent__val
        ((exData6460.seq + data_size exData6460) % 2 ^ 32) ∧
      (exS3Fresh.rtx_timeout__timer__isset = false ∧
        st1.max_sent__val > exS3Fresh.max_ack__val → Armed exS3Fresh st1) ∧
      (¬ (exS3Fresh.rtx_timeout__timer__isset = false ∧
        st1.max_sent__val > exS3Fresh.max_ack__val) → SameTimer exS3Fresh st1) :=
  rto_arming_rule.1 (exS3Device exS3Fresh) (sendFid exData6460) exData6460 exS3Fresh rfl

/-! ## The admission rule of `CoCoASched` -/

theorem ACK_RCVD_handled_new_eq (st : FlowState) (a : Nat)
    (hnew : (ACK_RCVD_bookkeeping st a).new_ack__val = true) :
    (ACK_RCVD_flow st a).cc_state =
      newAckPhase st.cc_state (decide (st.cm_window_size < st.cc_ss_threshold)) ∧
    ACK_RCVD_handled 0 st a =
      RenoControl_switch
        (newAckPhase st.cc_state (decide (st.cm_window_size < st.cc_ss_threshold)))
        (ACK_RCVD_flow st a) := by
  obtain ⟨hcc, hnv, -, -⟩ := ACK_RCVD_pre_fields st a
  have hbk := ACK_RCVD_bookkeeping_frameCC st a
  have hasm := ACK_RCVD_asm_new (ACK_RCVD_pre st a) (by rw [hnv]; exact hnew)
  rw [hcc.1, hcc.2.1, hcc.2.2.1, hbk.1, hbk.2.1, hbk.2.2.1] at hasm
  have hph : (ACK_RCVD_flow st a).cc_state =
      newAckPhase st.cc_state (decide (st.cm_window_size < st.cc_ss_threshold)) := by
    show (ACK_RCVD_asm (ACK_RCVD_pre st a)).1 = _
    rw [hasm]
  refine ⟨hph, ?_⟩
  unfold ACK_RCVD_handled ACK_RCVD_sync ACK_RCVD_transitioned
  rw [if_neg (by decide), hasm]
  simp only [if_true]
  rw [hph]

theorem ACK_RCVD_handled_old_eq (st : FlowState) (a : Nat)
    (hold : (ACK_RCVD_bookkeeping st a).new_ack__val = false) :
    (ACK_RCVD_flow st a).cc_state =
      (dupAckPhase st.cc_state (ACK_RCVD_bookkeeping st a).dup_acks__val
        (decide ((ACK_RCVD_bookkeeping st a).max_ack__val > st.cc_recovery_seq))).1 ∧
    ACK_RCVD_handled 0 st a =
      if (dupAckPhase st.cc_state (ACK_RCVD_bookkeeping st a).dup_acks__val
        (decide ((ACK_RCVD_bookkeeping st a).max_ack__val > st.cc_recovery_seq))).2 = true then
        RenoControl_switch
          (dupAckPhase st.cc_state (ACK_RCVD_bookkeeping st a).dup_acks__val
            (decide ((ACK_RCVD_bookkeeping st a).max_ack__val > st.cc_recovery_seq))).1
          (ACK_RCVD_flow st a)
      else ACK_RCVD_flow st a := by
  obtain ⟨hcc, hnv, hdv, hmv⟩ := ACK_RCVD_pre_fields st a
  have hbk := ACK_RCVD_bookkeeping_frameCC st a
  have hasm := ACK_RCVD_asm_old (ACK_RCVD_pre st a) (by rw [hnv]; exact hold)
  rw [hcc.1, hcc.2.2.2.1, hdv, hmv, hbk.1, hbk.2.2.2.1] at hasm
  have hph : (ACK_RCVD_flow st a).cc_state =
      (dupAckPhase st.cc_state (ACK_RCVD_bookkeeping st a).dup_acks__val
        (decide ((ACK_RCVD_bookkeeping st a).max_ack__val > st.cc_recovery_seq))).1 := by
    show (ACK_RCVD_asm (ACK_RCVD_pre st a)).1 = _
    rw [hasm]
  refine ⟨hph, ?_⟩
  unfold ACK_RCVD_handled ACK_RCVD_sync ACK_RCVD_transitioned
  rw [if_neg (by decide), hasm, hph]

theorem ShadowInv_of_same {a b : FlowState} (hc : b.cc_state = a.cc_state) (hw : SameWin a b)
    (h : ShadowInv a) : ShadowInv b := by
  unfold ShadowInv at h ⊢
  rw [hc, hw.1, hw.2.1]
  exact h

theorem ShadowInv_switch (st f : FlowState) (ph : CCState) (hfc : f.cc_state = ph)
    (hw : SameWin st f)
    (hsrc : ph = CCState.SLOW_START ∨ ph = CCState.IDLE →
      st.cm_window_size = st.cc_tmp_win ∨ st.cm_window_size = st.cc_tmp_win + 1) :
    ShadowInv (RenoControl_switch ph f) := by
  obtain ⟨w1, w2, -, -⟩ := hw
  unfold ShadowInv
  rw [RenoControl_switch_cc_state, hfc]
  cases ph with
  | START => exact Or.inl rfl
  | SLOW_START =>
    show f.cm_window_size + 1 = f.cc_tmp_win + 1 ∨ f.cm_window_size + 1 = f.cc_tmp_win + 1 + 1
    rw [w1, w2]
    rcases hsrc (Or.inl rfl) with h | h
    · exact Or.inl (by rw [h])
    · exact Or.inr (by rw [h])
  | AI => rfl
  | MD => trivial
  | FR => trivial
  | IDLE =>
    show f.cm_window_size = f.cc_tmp_win ∨ f.cm_window_size = f.cc_tmp_win + 1
    rw [w1, w2]
    exact hsrc (Or.inr rfl)

theorem ShadowInv_src {st : FlowState} (h : ShadowInv st)
    (hph : st.cc_state = CCState.START ∨ st.cc_state = CCState.SLOW_START ∨
      st.cc_state = CCState.AI ∨ st.cc_state = CCState.IDLE) :
    st.cm_window_size = st.cc_tmp_win ∨ st.cm_window_size = st.cc_tmp_win + 1 := by
  unfold ShadowInv at h
  rcases hph with hp | hp | hp | hp <;> rw [hp] at h
  · exact h
  · exact h
  · exact Or.inl h
  · exact h

theorem ShadowInv_ACK_RCVD (st : FlowState) (a : Nat) (h : ShadowInv st) :
    ShadowInv (ACK_RCVD_handled 0 st a) := by
  have hw := ACK_RCVD_flow_win st a
  cases hnew : (ACK_RCVD_bookkeeping st a).new_ack__val with
  | true =>
    obtain ⟨hph, heq⟩ := ACK_RCVD_handled_new_eq st a hnew
    rw [heq]
    refine ShadowInv_switch st _ _ hph hw (fun htgt => ?_)
    apply ShadowInv_src h
    cases hs : st.cc_state
    · exact Or.inl rfl
    · exact Or.inr (Or.inl rfl)
    · exact Or.inr (Or.inr (Or.inl rfl))
    · rw [hs] at htgt
      simp [newAckPhase] at htgt
    · rw [hs] at htgt
      simp [newAckPhase] at htgt
    · exact Or.inr (Or.inr (Or.inr rfl))
  | false =>
    obtain ⟨hph, heq⟩ := ACK_RCVD_handled_old_eq st a hnew
    rw [heq]
    split
    · rename_i hen
      refine ShadowInv_switch st _ _ hph hw (fun htgt => ?_)
      apply ShadowInv_src h
      cases hs : st.cc_state
      · exact Or.inl rfl
      · exact Or.inr (Or.inl rfl)
      · exact Or.inr (Or.inr (Or.inl rfl))
      · rw [hs] at htgt
        exfalso
        unfold dupAckPhase at htgt
        simp only at htgt
        split at htgt <;> simp at htgt
      · rw [hs] at htgt
        exfalso
        unfold dupAckPhase at htgt
        simp only at htgt
        split at htgt <;> simp at htgt
      · exact Or.inr (Or.inr (Or.inr rfl))
    · rename_i hen
      have hsame := dupAckPhase_unchanged _ _ _ (by simpa using hen)
      exact ShadowInv_of_same (hph.trans hsame) hw h

theorem ShadowInv_rto_fire (st : FlowState) (cnt : Nat) (h : ShadowInv st) :
    ShadowInv (rto_fire_flow st cnt) := by
  unfold rto_fire_flow
  split
  · split
    · split
      · exact ShadowInv_of_same rfl ⟨rfl, rfl, rfl, rfl⟩ h
      · exact Or.inl rfl
    · exact ShadowInv_of_same rfl ⟨rfl, rfl, rfl, rfl⟩ h
  · exact h

theorem ShadowInv_PKT_SENT (st : FlowState) (p : Packet) (h : ShadowInv st) :
    ShadowInv (PKT_SENT_flow st p) := by
  obtain ⟨h1, h2, -⟩ := PKT_SENT_flow_cc st p
  exact ShadowInv_of_same h1 h2 h

theorem DevShadow_insert {m : List (FlowId × FlowState)} (h : DevShadow m) (fid : FlowId)
    (s : FlowState) (hs : ShadowInv s) : DevShadow (FlowMap.insert m fid s) := by
  intro k st hk
  by_cases hkf : k = fid
  · subst hkf
    rw [FlowMap_find_insert_self] at hk
    cases hk
    exact hs
  · rw [FlowMap_find_insert_ne _ _ _ _ hkf] at hk
    exact h k st hk

theorem DevShadow_of_find {m m1 : List (FlowId × FlowState)} (h : DevShadow m) (fid : FlowId)
    (s : FlowState) (hs : ShadowInv s) (hf : FlowMap.find m1 fid = some s)
    (hne : ∀ k, k ≠ fid → FlowMap.find m1 k = FlowMap.find m k) : DevShadow m1 := by
  intro k st hk
  by_cases hkf : k = fid
  · subst hkf
    rw [hf] at hk
    cases hk
    exact hs
  · rw [hne k hkf] at hk
    exact h k st hk

/-- The block of `rtx_timeout__timeout` with `CC_LATENCY = 0` returns and leaves
the flow it was called for in the state `rto_fire_flow`. -/
theorem rtx_timeout_found_flow (dev : Device) (fid : FlowId) (st : FlowState) (cnt : Nat)
    (hlat : dev.CC_LATENCY = 0) (hf : FlowMap.find dev.flow_info fid = some st) :
    ∃ d, rtx_timeout_found dev fid st cnt = Except.ok d ∧
      FlowMap.find d.flow_info fid = some (rto_fire_flow st cnt) ∧
      (∀ k, k ≠ fid → FlowMap.find d.flow_info k = FlowMap.find dev.flow_info k) ∧
      d.CC_LATENCY = dev.CC_LATENCY := by
  have hz : ¬ dev.CC_LATENCY > 0 := by omega
  have hgo : ∀ (dev1 : Device) (s0 : FlowState),
      dev1.flow_info = FlowMap.insert dev.flow_info fid s0 →
      dev1.CC_LATENCY = dev.CC_LATENCY →
      ∃ d, RenoControl dev1 CCState.START fid = Except.ok d ∧
        FlowMap.find d.flow_info fid = some (RenoControl_switch CCState.START s0) ∧
        (∀ k, k ≠ fid → FlowMap.find d.flow_info k = FlowMap.find dev.flow_info k) ∧
        d.CC_LATENCY = dev.CC_LATENCY := by
    intro dev1 s0 h1 h2
    unfold RenoControl
    rw [h1, FlowMap_find_insert_self]
    refine ⟨_, rfl, FlowMap_find_insert_self _ _ _, fun k hk => ?_, h2⟩
    show FlowMap.find (FlowMap.insert (FlowMap.insert dev.flow_info fid _) fid _) k = _
    rw [FlowMap_find_insert_ne _ _ _ _ hk, FlowMap_find_insert_ne _ _ _ _ hk]
  unfold rtx_timeout_found rto_fire_flow
  by_cases hc : st.rtx_timeout__timeout_cnt = cnt
  · rw [if_pos hc, if_pos hc]
    by_cases hv : st.rtx_timeout__val = false
    · rw [if_pos hv, if_pos hv]
      cases hcs : st.cc_state with
      | START =>
        exact ⟨_, rfl, FlowMap_find_insert_self _ _ _,
          fun k hk => FlowMap_find_insert_ne _ _ _ _ hk, rfl⟩
      | SLOW_START =>
        simp only [if_neg hz]
        exact hgo _ _ rfl rfl
      | AI =>
        simp only [if_neg hz]
        exact hgo _ _ rfl rfl
      | MD =>
        simp only [if_neg hz]
        exact hgo _ _ rfl rfl
      | FR =>
        simp only [if_neg hz]
        exact hgo _ _ rfl rfl
      | IDLE =>
        simp only [if_neg hz]
        exact hgo _ _ rfl rfl
    · rw [if_neg hv, if_neg hv]
      exact ⟨_, rfl, FlowMap_find_insert_self _ _ _,
        fun k hk => FlowMap_find_insert_ne _ _ _ _ hk, rfl⟩
  · rw [if_neg hc, if_neg hc]
    exact ⟨dev, rfl, hf, fun k _ => rfl, rfl⟩

theorem rtx_timeout_lookup_find {m : List (FlowId × FlowState)} {hdr : Packet} {fid : FlowId}
    {st : FlowState} (h : rtx_timeout_lookup m hdr = some (fid, st)) :
    FlowMap.find m fid = some st := by
  unfold rtx_timeout_lookup at h
  cases h1 : FlowMap.find m (sendFid hdr) with
  | some s =>
    rw [h1] at h
    simp only [Option.some.injEq, Prod.mk.injEq] at h
    rw [← h.1, ← h.2]
    exact h1
  | none =>
    rw [h1] at h
    cases h2 : FlowMap.find m (recvFid hdr) with
    | some s =>
      rw [h2] at h
      simp only [Option.some.injEq, Prod.mk.injEq] at h
      rw [← h.1, ← h.2]
      exact h2
    | none =>
      rw [h2] at h
      cases h

theorem DevShadow_flowEvent (dev : Device) (ev : FlowEvent) (d : Device)
    (hlat : dev.CC_LATENCY = 0) (hinv : DevShadow dev.flow_info)
    (h : flowEvent dev ev = Except.ok d) :
    d.CC_LATENCY = 0 ∧ DevShadow d.flow_info := by
  cases ev with
  | PKT_SENT p =>
    simp only [flowEvent] at h
    unfold CoCoAEventHandler at h
    cases hf : FlowMap.find dev.flow_info (sendFid p) with
    | none =>
      rw [hf] at h
      cases h
    | some st =>
      rw [hf] at h
      simp only at h
      cases h
      exact ⟨hlat, DevShadow_insert hinv _ _ (ShadowInv_PKT_SENT st p (hinv _ _ hf))⟩
  | ACK_RCVD p =>
    simp only [flowEvent] at h
    cases hf : FlowMap.find dev.flow_info (recvFid p) with
    | none =>
      unfold CoCoAEventHandler at h
      rw [hf] at h
      cases h
    | some st =>
      obtain ⟨d1, hd1, hfd, hne, -, -, hl, -⟩ := CoCoAEventHandler_ack_sync dev p st hf hlat
      rw [hd1] at h
      cases h
      refine ⟨hl.trans hlat, DevShadow_of_find hinv (recvFid p) _ ?_ hfd hne⟩
      have hs := ShadowInv_ACK_RCVD st p.ack (hinv _ _ hf)
      unfold ACK_RCVD_handled at hs
      rw [if_neg (by decide)] at hs
      exact hs
  | rto_fire hdr cnt =>
    simp only [flowEvent] at h
    rw [rtx_timeout_eq] at h
    cases hl : rtx_timeout_lookup dev.flow_info hdr with
    | none =>
      rw [hl] at h
      cases h
      exact ⟨hlat, hinv⟩
    | some r =>
      obtain ⟨fid, st⟩ := r
      rw [hl] at h
      simp only at h
      have hf := rtx_timeout_lookup_find hl
      obtain ⟨d1, hd1, hfd, hne, hl1⟩ := rtx_timeout_found_flow dev fid st cnt hlat hf
      rw [hd1] at h
      cases h
      exact ⟨hl1.trans hlat,
        DevShadow_of_find hinv fid _ (ShadowInv_rto_fire st cnt (hinv _ _ hf)) hfd hne⟩

theorem DevShadow_flowEvents (evs : List FlowEvent) (dev d : Device)
    (hlat : dev.CC_LATENCY = 0) (hinv : DevShadow dev.flow_info)
    (h : flowEvents dev evs = Except.ok d) :
    d.CC_LATENCY = 0 ∧ DevShadow d.flow_info := by
  induction evs generalizing dev with
  | nil =>
    simp only [flowEvents] at h
    cases h
    exact ⟨hlat, hinv⟩
  | cons ev rest ih =>
    simp only [flowEvents] at h
    split at h
    · cases h
    · rename_i d1 h1
      obtain ⟨a, b⟩ := DevShadow_flowEvent dev ev d1 hlat hinv h1
      exact ih d1 a b h

theorem ShadowInv_RenoInit : ShadowInv (RenoInit default) := by
  unfold ShadowInv
  show (1 : ℚ) = 0 ∨ (1 : ℚ) = 0 + 1
  exact Or.inr (by norm_num)

theorem slow_start_to_AI (st : FlowState) (a : Nat) (hs : st.cc_state = CCState.SLOW_START)
    (hnew : (ACK_RCVD_bookkeeping st a).new_ack__val = true)
    (hge : ¬ st.cm_window_size < st.cc_ss_threshold) :
    (ACK_RCVD_handled 0 st a).cc_state = CCState.AI ∧
    (ACK_RCVD_handled 0 st a).cm_window_size = st.cc_tmp_win + 1 / st.cc_tmp_win := by
  obtain ⟨hph, heq⟩ := ACK_RCVD_handled_new_eq st a hnew
  have hw := ACK_RCVD_flow_win st a
  have hp : newAckPhase st.cc_state (decide (st.cm_window_size < st.cc_ss_threshold)) =
      CCState.AI := by
    rw [hs]
    simp [newAckPhase, hge]
  rw [hp] at hph heq
  rw [heq]
  refine ⟨by rw [RenoControl_switch_cc_state, hph], ?_⟩
  show (ACK_RCVD_flow st a).cc_tmp_win + 1 / (ACK_RCVD_flow st a).cc_tmp_win = _
  rw [hw.2.1]

theorem ackRun_fid (base n : Nat) : ∀ x ∈ ackRun base n, recvFid x = recvFid exAck2461 := by
  induction n generalizing base with
  | zero =>
    intro x hx
    simp [ackRun] at hx
  | succ n ih =>
    intro x hx
    simp only [ackRun, List.mem_cons] at hx
    rcases hx with h | h
    · rw [h]
      rfl
    · exact ih _ x h

/-- The slow-start ramp with the shadow: `n` new ACKs on a flow in START or
SLOW_START whose window stays below the threshold add `n` to `cm_window_size` and
to `cc_tmp_win`. -/
theorem ramp_foldl (n : Nat) (st : FlowState) (hinv : AckInv st)
    (hph : st.cc_state = CCState.START ∨ st.cc_state = CCState.SLOW_START)
    (hroom : st.cm_window_size + (n : ℚ) ≤ st.cc_ss_threshold) :
    ((ackRun st.max_ack__val n).foldl (fun s x => ACK_RCVD_handled 0 s x.ack) st).cm_window_size
      = st.cm_window_size + (n : ℚ) ∧
    ((ackRun st.max_ack__val n).foldl (fun s x => ACK_RCVD_handled 0 s x.ack) st).cc_tmp_win
      = st.cc_tmp_win + (n : ℚ) ∧
    ((ackRun st.max_ack__val n).foldl (fun s x => ACK_RCVD_handled 0 s x.ack) st).cc_ss_threshold
      = st.cc_ss_threshold ∧
    ((ackRun st.max_ack__val n).foldl (fun s x => ACK_RCVD_handled 0 s x.ack) st).max_ack__val
      = st.max_ack__val + n ∧
    AckInv ((ackRun st.max_ack__val n).foldl (fun s x => ACK_RCVD_handled 0 s x.ack) st) ∧
    (1 ≤ n →
      ((ackRun st.max_ack__val n).foldl (fun s x => ACK_RCVD_handled 0 s x.ack) st).cc_state
        = CCState.SLOW_START) := by
  induction n generalizing st with
  | zero =>
    exact ⟨by simp [ackRun], by simp [ackRun], rfl, rfl, hinv, fun h => absurd h (by decide)⟩
  | succ n ih =>
    have hgt : st.max_ack__val + 1 > st.max_ack__val := Nat.lt_succ_self _
    have hlt : st.cm_window_size < st.cc_ss_threshold := by
      have hn : (0 : ℚ) ≤ (n : ℚ) := Nat.cast_nonneg n
      push_cast at hroom
      linarith
    have hph1 : st.cc_state = CCState.START ∨
        (st.cc_state = CCState.SLOW_START ∧ st.cm_window_size < st.cc_ss_threshold) := by
      rcases hph with h | h
      · exact Or.inl h
      · exact Or.inr ⟨h, hlt⟩
    obtain ⟨s1, s2, s3⟩ := slow_start_step st (st.max_ack__val + 1) hinv hgt hph1
    obtain ⟨n1, -, n3, n4⟩ := ACK_RCVD_handled_new 0 st (st.max_ack__val + 1) hinv
    have hnew : (ACK_RCVD_bookkeeping st (st.max_ack__val + 1)).new_ack__val = true := by
      obtain ⟨-, a2, -⟩ := ACK_RCVD_handled_acks 0 st (st.max_ack__val + 1)
      rw [← a2]
      exact n1.2 hgt
    have htmp : (ACK_RCVD_handled 0 st (st.max_ack__val + 1)).cc_tmp_win = st.cc_tmp_win + 1 := by
      obtain ⟨hp, heq⟩ := ACK_RCVD_handled_new_eq st (st.max_ack__val + 1) hnew
      have hss : newAckPhase st.cc_state (decide (st.cm_window_size < st.cc_ss_threshold)) =
          CCState.SLOW_START := by
        rcases hph with h | h
        · rw [h]
          rfl
        · rw [h]
          simp [newAckPhase, hlt]
      rw [heq, hss]
      show (ACK_RCVD_flow st (st.max_ack__val + 1)).cc_tmp_win + 1 = _
      rw [(ACK_RCVD_flow_win st (st.max_ack__val + 1)).2.1]
    have hmax : (ACK_RCVD_handled 0 st (st.max_ack__val + 1)).max_ack__val =
        st.max_ack__val + 1 := (n4 hgt).1
    have hroom1 : (ACK_RCVD_handled 0 st (st.max_ack__val + 1)).cm_window_size + (n : ℚ) ≤
        (ACK_RCVD_handled 0 st (st.max_ack__val + 1)).cc_ss_threshold := by
      rw [s2, s3]
      push_cast at hroom
      linarith
    obtain ⟨r1, r2, r3, r4, r5, -⟩ := ih (ACK_RCVD_handled 0 st (st.max_ack__val + 1)) n3
      (Or.inr s1) hroom1
    rw [hmax] at r1 r2 r3 r4 r5
    simp only [ackRun, List.foldl_cons]
    refine ⟨?_, ?_, ?_, ?_, r5, fun _ => ?_⟩
    · rw [r1, s2]
      push_cast
      ring
    · rw [r2, htmp]
      push_cast
      ring
    · rw [r3, s3]
    · rw [r4]
      omega
    · by_cases hn : 1 ≤ n
      · have := (ih (ACK_RCVD_handled 0 st (st.max_ack__val + 1)) n3 (Or.inr s1) hroom1).2.2.2.2.2 hn
        rw [hmax] at this
        exact this
      · have hn0 : n = 0 := by omega
        subst hn0
        simp only [ackRun, List.foldl_nil]
        exact s1

/-- One new ACK on a flow as `RenoInit` leaves it, but with any value `w0` in the
member `cc_tmp_win` that `RenoInit` does not name: the flow is in SLOW_START with
`cm_window_size = 2` and `cc_tmp_win = w0 + 1`, so the two agree only for
`w0 = 1`. -/
theorem first_ack_from_any_shadow (w0 : ℚ) :
    (ACK_RCVD_handled 0 ({ RenoInit default with cc_tmp_win := w0 } : FlowState) 2461).cc_state
      = CCState.SLOW_START ∧
    (ACK_RCVD_handled 0 ({ RenoInit default with cc_tmp_win := w0 } : FlowState)
      2461).cm_window_size = 2 ∧
    (ACK_RCVD_handled 0 ({ RenoInit default with cc_tmp_win := w0 } : FlowState)
      2461).cc_tmp_win = w0 + 1 := by
  have hinv : AckInv ({ RenoInit default with cc_tmp_win := w0 } : FlowState) := rfl
  have hgt : 2461 > ({ RenoInit default with cc_tmp_win := w0 } : FlowState).max_ack__val := by
    show 2461 > 0
    decide
  obtain ⟨s1, s2, -⟩ := slow_start_step _ 2461 hinv hgt (Or.inl rfl)
  obtain ⟨n1, -, -, -⟩ := ACK_RCVD_handled_new 0 _ 2461 hinv
  have hnew : (ACK_RCVD_bookkeeping ({ RenoInit default with cc_tmp_win := w0 } : FlowState)
      2461).new_ack__val = true := by
    obtain ⟨-, a2, -⟩ := ACK_RCVD_handled_acks 0
      ({ RenoInit default with cc_tmp_win := w0 } : FlowState) 2461
    rw [← a2]
    exact n1.2 hgt
  obtain ⟨-, heq⟩ := ACK_RCVD_handled_new_eq _ 2461 hnew
  refine ⟨s1, ?_, ?_⟩
  · rw [s2]
    show (1 : ℚ) + 1 = 2
    norm_num
  · rw [heq]
    show (ACK_RCVD_flow ({ RenoInit default with cc_tmp_win := w0 } : FlowState)
      2461).cc_tmp_win + 1 = w0 + 1
    rw [(ACK_RCVD_flow_win _ 2461).2.1]

/-- Claim C24. The function `RenoInit` does not initialise `cc_tmp_win`. On the
device `exFreshFlow` (`CC_LATENCY = 0`) the flow is as `RenoInit` leaves it: phase
START, `cm_window_size = 1` and `cc_tmp_win = 0`, since `RenoInit` names no
initializer for `cc_tmp_win`, whereas the switch of `RenoControl` for START sets
both to 1. After the new ACK `exAck2461` the flow is in SLOW_START with
`cm_window_size = 2` and `cc_tmp_win = 1`; with any value `w0` in place of 0 it
would be `cm_window_size = 2` and `cc_tmp_win = w0 + 1`. After 131071 new ACKs the
flow is in SLOW_START with `cm_window_size = 131072` and `cc_tmp_win = 131071`;
the next new ACK moves it to AI and lowers `cm_window_size` below 131072. -/
theorem cc_tmp_win_is_not_the_window :
    exFreshFlow.CC_LATENCY = 0 ∧
    FlowMap.find exFreshFlow.flow_info (recvFid exAck2461) = some (RenoInit default) ∧
    (RenoInit default).cc_state = CCState.START ∧
    (RenoInit default).cc_tmp_win = 0 ∧ (RenoInit default).cm_window_size = 1 ∧
    (RenoControl_switch CCState.START (RenoInit default)).cc_tmp_win = 1 ∧
    (RenoControl_switch CCState.START (RenoInit default)).cm_window_size = 1 ∧
    (∀ w0 : ℚ,
      (ACK_RCVD_handled 0 ({ RenoInit default with cc_tmp_win := w0 } : FlowState)
        2461).cc_state = CCState.SLOW_START ∧
      (ACK_RCVD_handled 0 ({ RenoInit default with cc_tmp_win := w0 } : FlowState)
        2461).cm_window_size = 2 ∧
      (ACK_RCVD_handled 0 ({ RenoInit default with cc_tmp_win := w0 } : FlowState)
        2461).cc_tmp_win = w0 + 1) ∧
    (∃ d st, flowEvents exFreshFlow [FlowEvent.ACK_RCVD exAck2461] = Except.ok d ∧
      FlowMap.find d.flow_info (recvFid exAck2461) = some st ∧
      st.cc_state = CCState.SLOW_START ∧ st.cc_tmp_win = 1 ∧ st.cm_window_size = 2) ∧
    (∃ d st d1 st1,
      flowEvents exFreshFlow ((ackRun 0 131071).map FlowEvent.ACK_RCVD) = Except.ok d ∧
      FlowMap.find d.flow_info (recvFid exAck2461) = some st ∧
      st.cc_state = CCState.SLOW_START ∧ st.cc_tmp_win = 131071 ∧
      st.cm_window_size = 131072 ∧
      flowEvent d (FlowEvent.ACK_RCVD { exAck2461 with ack := 131072 }) = Except.ok d1 ∧
      FlowMap.find d1.flow_info (recvFid exAck2461) = some st1 ∧
      st1.cc_state = CCState.AI ∧ st1.cm_window_size < st.cm_window_size) := by
  refine ⟨rfl, rfl, rfl, rfl, rfl, rfl, rfl, first_ack_from_any_shadow, ?_, ?_⟩
  · obtain ⟨d, hd, hfd, -⟩ := flowEvents_acks (recvFid exAck2461) [exAck2461] exFreshFlow
      (RenoInit default) rfl (fun x hx => by simp at hx; rw [hx])
    refine ⟨d, _, hd, hfd, ?_, ?_, ?_⟩
    · show (ACK_RCVD_handled 0 (RenoInit default) 2461).cc_state = CCState.SLOW_START
      decide!
    · show (ACK_RCVD_handled 0 (RenoInit default) 2461).cc_tmp_win = 1
      decide!
    · show (ACK_RCVD_handled 0 (RenoInit default) 2461).cm_window_size = 2
      decide!
  · obtain ⟨d, hd, hfd, hcfg⟩ := flowEvents_acks (recvFid exAck2461) (ackRun 0 131071)
      exFreshFlow (RenoInit default) rfl (ackRun_fid 0 131071)
    have hramp := ramp_foldl 131071 (RenoInit default) rfl (Or.inl rfl)
      (by show (1 : ℚ) + ((131071 : ℕ) : ℚ) ≤ 131072; norm_num)
    obtain ⟨r1, r2, r3, r4, r5, r6⟩ := hramp
    have hfd0 : FlowMap.find d.flow_info (recvFid exAck2461) =
        some ((ackRun (RenoInit default).max_ack__val 131071).foldl
          (fun s x => ACK_RCVD_handled 0 s x.ack) (RenoInit default)) := hfd
    have hw : ((ackRun (RenoInit default).max_ack__val 131071).foldl
        (fun s x => ACK_RCVD_handled 0 s x.ack) (RenoInit default)).cm_window_size = 131072 := by
      rw [r1]
      show (1 : ℚ) + ((131071 : ℕ) : ℚ) = 131072
      norm_num
    have ht : ((ackRun (RenoInit default).max_ack__val 131071).foldl
        (fun s x => ACK_RCVD_handled 0 s x.ack) (RenoInit default)).cc_tmp_win = 131071 := by
      rw [r2]
      show (0 : ℚ) + ((131071 : ℕ) : ℚ) = 131071
      norm_num
    have hthr : ((ackRun (RenoInit default).max_ack__val 131071).foldl
        (fun s x => ACK_RCVD_handled 0 s x.ack) (RenoInit default)).cc_ss_threshold = 131072 := by
      rw [r3]
      rfl
    have hmax : ((ackRun (RenoInit default).max_ack__val 131071).foldl
        (fun s x => ACK_RCVD_handled 0 s x.ack) (RenoInit default)).max_ack__val = 131071 := by
      rw [r4]
      rfl
    have hss := r6 (by decide)
    generalize (ackRun (RenoInit default).max_ack__val 131071).foldl
        (fun s x => ACK_RCVD_handled 0 s x.ack) (RenoInit default) = st at hfd0 hw ht hthr hmax hss r5
    have hfd1 : FlowMap.find d.flow_info
        (recvFid ({ exAck2461 with ack := 131072 } : Packet)) = some st := hfd0
    obtain ⟨d1, hd1, hf1, -⟩ :=
      CoCoAEventHandler_ack_handled d ({ exAck2461 with ack := 131072 } : Packet) st hfd1
    have hl : d.CC_LATENCY = 0 := hcfg.2.2.1
    rw [hl] at hf1
    obtain ⟨n1, -, -, -⟩ := ACK_RCVD_handled_new 0 st 131072 r5
    have hnew : (ACK_RCVD_bookkeeping st 131072).new_ack__val = true := by
      obtain ⟨-, a2, -⟩ := ACK_RCVD_handled_acks 0 st 131072
      rw [← a2]
      exact n1.2 (by rw [hmax]; decide)
    obtain ⟨q1, q2⟩ := slow_start_to_AI st 131072 hss hnew (by rw [hw, hthr]; norm_num)
    refine ⟨d, st, d1, _, hd, hfd0, hss, ht, hw, hd1, hf1, q1, ?_⟩
    show (ACK_RCVD_handled 0 st 131072).cm_window_size < st.cm_window_size
    rw [q2, ht, hw]
    norm_num

/-- The relation that the code keeps between `cc_tmp_win` and the window. With
`CC_LATENCY = 0`, let every flow of the table be as `RenoInit` leaves it, and let
any sequence of events `PKT_SENT`, `ACK_RCVD` and `rtx_timeout__timeout` return.
Then for every flow of the table: in AI `cm_window_size` equals `cc_tmp_win`; in
START, SLOW_START and IDLE `cm_window_size` is `cc_tmp_win` or `cc_tmp_win + 1`.
A new ACK that moves the flow from SLOW_START to AI returns and sets
`cm_window_size` to `cc_tmp_win + 1 / cc_tmp_win`, taken at `cc_tmp_win` before
the event; this does not lower `cm_window_size` when it was equal to a positive
`cc_tmp_win`, and lowers it when it was `cc_tmp_win + 1` with `cc_tmp_win > 1`. -/
theorem shadow_window (dev : Device) (evs : List FlowEvent) (d : Device)
    (hlat : dev.CC_LATENCY = 0)
    (h0 : ∀ fid st, FlowMap.find dev.flow_info fid = some st → st = RenoInit default)
    (h : flowEvents dev evs = Except.ok d)
    (fid : FlowId) (st : FlowState) (hf : FlowMap.find d.flow_info fid = some st) :
    (st.cc_state = CCState.AI → st.cm_window_size = st.cc_tmp_win) ∧
    (st.cc_state = CCState.START ∨ st.cc_state = CCState.SLOW_START ∨
      st.cc_state = CCState.IDLE →
      st.cm_window_size = st.cc_tmp_win ∨ st.cm_window_size = st.cc_tmp_win + 1) ∧
    (∀ p : Packet, recvFid p = fid → st.cc_state = CCState.SLOW_START →
      (ACK_RCVD_bookkeeping st p.ack).new_ack__val = true →
      ¬ st.cm_window_size < st.cc_ss_threshold →
      ∃ d1 st1, flowEvent d (FlowEvent.ACK_RCVD p) = Except.ok d1 ∧
        FlowMap.find d1.flow_info fid = some st1 ∧ st1.cc_state = CCState.AI ∧
        st1.cm_window_size = st.cc_tmp_win + 1 / st.cc_tmp_win ∧
        (st.cm_window_size = st.cc_tmp_win → 0 < st.cc_tmp_win →
          st.cm_window_size < st1.cm_window_size) ∧
        (st.cm_window_size = st.cc_tmp_win + 1 → 1 < st.cc_tmp_win →
          st1.cm_window_size < st.cm_window_size)) := by
  have hinv0 : DevShadow dev.flow_info := by
    intro k s hk
    rw [h0 k s hk]
    exact ShadowInv_RenoInit
  obtain ⟨hl, hinv⟩ := DevShadow_flowEvents evs dev d hlat hinv0 h
  have hs := hinv fid st hf
  refine ⟨fun hp => ?_, fun hp => ?_, fun p hpf hss hnew hge => ?_⟩
  · unfold ShadowInv at hs
    rw [hp] at hs
    exact hs
  · unfold ShadowInv at hs
    rcases hp with hp | hp | hp <;> rw [hp] at hs <;> exact hs
  · subst hpf
    obtain ⟨d1, hd1, hf1, -⟩ := CoCoAEventHandler_ack_handled d p st hf
    rw [hl] at hf1
    obtain ⟨q1, q2⟩ := slow_start_to_AI st p.ack hss hnew hge
    refine ⟨d1, _, hd1, hf1, q1, q2, fun he hpos => ?_, fun he hgt => ?_⟩
    · rw [q2, he]
      have : 0 < 1 / st.cc_tmp_win := one_div_pos.2 hpos
      linarith
    · rw [q2, he]
      have : 1 / st.cc_tmp_win < 1 := by
        rw [div_lt_one (by linarith)]
        exact hgt
      linarith

theorem shadow_window_witness :
    ((flowOf (valueOr (flowEvents exFreshFlow [FlowEvent.ACK_RCVD exAck2461]) exFreshFlow).flow_info
        (recvFid exAck2461)).cc_state = CCState.AI →
      (flowOf (valueOr (flowEvents exFreshFlow [FlowEvent.ACK_RCVD exAck2461])
        exFreshFlow).flow_info (recvFid exAck2461)).cm_window_size =
      (flowOf (valueOr (flowEvents exFreshFlow [FlowEvent.ACK_RCVD exAck2461])
        exFreshFlow).flow_info (recvFid exAck2461)).cc_tmp_win) ∧
    ((flowOf (valueOr (flowEvents exFreshFlow [FlowEvent.ACK_RCVD exAck2461]) exFreshFlow).flow_info
        (recvFid exAck2461)).cc_state = CCState.START ∨
      (flowOf (valueOr (flowEvents exFreshFlow [FlowEvent.ACK_RCVD exAck2461])
        exFreshFlow).flow_info (recvFid exAck2461)).cc_state = CCState.SLOW_START ∨
      (flowOf (valueOr (flowEvents exFreshFlow [FlowEvent.ACK_RCVD exAck2461])
        exFreshFlow).flow_info (recvFid exAck2461)).cc_state = CCState.IDLE →
      (flowOf (valueOr (flowEvents exFreshFlow [FlowEvent.ACK_RCVD exAck2461])
        exFreshFlow).flow_info (recvFid exAck2461)).cm_window_size =
      (flowOf (valueOr (flowEvents exFreshFlow [FlowEvent.ACK_RCVD exAck2461])
        exFreshFlow).flow_info (recvFid exAck2461)).cc_tmp_win ∨
      (flowOf (valueOr (flowEvents exFreshFlow [FlowEvent.ACK_RCVD exAck2461])
        exFreshFlow).flow_info (recvFid exAck2461)).cm_window_size =
      (flowOf (valueOr (flowEvents exFreshFlow [FlowEvent.ACK_RCVD exAck2461])
        exFreshFlow).flow_info (recvFid exAck2461)).cc_tmp_win + 1) :=
  ⟨(shadow_window exFreshFlow [FlowEvent.ACK_RCVD exAck2461]
      (valueOr (flowEvents exFreshFlow [FlowEvent.ACK_RCVD exAck2461]) exFreshFlow) rfl
      (fun fid st hfind => by
        rw [show exFreshFlow.flow_info = [(recvFid exAck10000, RenoInit default)] from rfl,
          find_single] at hfind
        split at hfind
        · cases hfind
          rfl
        · cases hfind)
      (ok_of_isOk exFreshFlow (by decide!)) (recvFid exAck2461)
      (flowOf (valueOr (flowEvents exFreshFlow [FlowEvent.ACK_RCVD exAck2461])
        exFreshFlow).flow_info (recvFid exAck2461)) (by decide!)).1,
   (shadow_window exFreshFlow [FlowEvent.ACK_RCVD exAck2461]
      (valueOr (flowEvents exFreshFlow [FlowEvent.ACK_RCVD exAck2461]) exFreshFlow) rfl
      (fun fid st hfind => by
        rw [show exFreshFlow.flow_info = [(recvFid exAck10000, RenoInit default)] from rfl,
          find_single] at hfind
        split at hfind
        · cases hfind
          rfl
        · cases hfind)
      (ok_of_isOk exFreshFlow (by decide!)) (recvFid exAck2461)
      (flowOf (valueOr (flowEvents exFreshFlow [FlowEvent.ACK_RCVD exAck2461])
        exFreshFlow).flow_info (recvFid exAck2461)) (by decide!)).2.1⟩

/-! ## The window never closes -/

theorem DevAll_of_find {I : FlowState → Prop} {m m1 : List (FlowId × FlowState)}
    (h : DevAll I m) (fid : FlowId) (s : FlowState) (hs : I s)
    (hf : FlowMap.find m1 fid = some s)
    (hne : ∀ k, k ≠ fid → FlowMap.find m1 k = FlowMap.find m k) : DevAll I m1 := by
  intro k st hk
  by_cases hkf : k = fid
  · subst hkf
    rw [hf] at hk
    cases hk
    exact hs
  · rw [hne k hkf] at hk
    exact h k st hk

/-- A predicate on flow states that the three events keep, with `CC_LATENCY = 0`,
holds for every flow of the table after an event that returns. -/
theorem DevAll_flowEvent (I : FlowState → Prop)
    (hsent : ∀ st p, I st → I (PKT_SENT_flow st p))
    (hack : ∀ st a, I st → I (ACK_RCVD_handled 0 st a))
    (hrto : ∀ st c, I st → I (rto_fire_flow st c))
    (dev : Device) (ev : FlowEvent) (d : Device)
    (hlat : dev.CC_LATENCY = 0) (hinv : DevAll I dev.flow_info)
    (h : flowEvent dev ev = Except.ok d) :
    d.CC_LATENCY = 0 ∧ DevAll I d.flow_info := by
  cases ev with
  | PKT_SENT p =>
    simp only [flowEvent] at h
    unfold CoCoAEventHandler at h
    cases hf : FlowMap.find dev.flow_info (sendFid p) with
    | none =>
      rw [hf] at h
      cases h
    | some st =>
      rw [hf] at h
      simp only at h
      cases h
      exact ⟨hlat, DevAll_of_find hinv (sendFid p) _ (hsent st p (hinv _ _ hf))
        (FlowMap_find_insert_self _ _ _) (fun k hk => FlowMap_find_insert_ne _ _ _ _ hk)⟩
  | ACK_RCVD p =>
    simp only [flowEvent] at h
    cases hf : FlowMap.find dev.flow_info (recvFid p) with
    | none =>
      unfold CoCoAEventHandler at h
      rw [hf] at h
      cases h
    | some st =>
      obtain ⟨d1, hd1, hfd, hne, -, -, hl, -⟩ := CoCoAEventHandler_ack_sync dev p st hf hlat
      rw [hd1] at h
      cases h
      refine ⟨hl.trans hlat, DevAll_of_find hinv (recvFid p) _ ?_ hfd hne⟩
      have hs := hack st p.ack (hinv _ _ hf)
      unfold ACK_RCVD_handled at hs
      rw [if_neg (by decide)] at hs
      exact hs
  | rto_fire hdr cnt =>
    simp only [flowEvent] at h
    rw [rtx_timeout_eq] at h
    cases hl : rtx_timeout_lookup dev.flow_info hdr with
    | none =>
      rw [hl] at h
      cases h
      exact ⟨hlat, hinv⟩
    | some r =>
      obtain ⟨fid, st⟩ := r
      rw [hl] at h
      simp only at h
      have hf := rtx_timeout_lookup_find hl
      obtain ⟨d1, hd1, hfd, hne, hl1⟩ := rtx_timeout_found_flow dev fid st cnt hlat hf
      rw [hd1] at h
      cases h
      exact ⟨hl1.trans hlat, DevAll_of_find hinv fid _ (hrto st cnt (hinv _ _ hf)) hfd hne⟩

theorem DevAll_flowEvents (I : FlowState → Prop)
    (hsent : ∀ st p, I st → I (PKT_SENT_flow st p))
    (hack : ∀ st a, I st → I (ACK_RCVD_handled 0 st a))
    (hrto : ∀ st c, I st → I (rto_fire_flow st c))
    (evs : List FlowEvent) (dev d : Device)
    (hlat : dev.CC_LATENCY = 0) (hinv : DevAll I dev.flow_info)
    (h : flowEvents dev evs = Except.ok d) :
    d.CC_LATENCY = 0 ∧ DevAll I d.flow_info := by
  induction evs generalizing dev with
  | nil =>
    simp only [flowEvents] at h
    cases h
    exact ⟨hlat, hinv⟩
  | cons ev rest ih =>
    simp only [flowEvents] at h
    split at h
    · cases h
    · rename_i d1 h1
      obtain ⟨a, b⟩ := DevAll_flowEvent I hsent hack hrto dev ev d1 hlat hinv h1
      exact ih d1 a b h

theorem one_le_add_inv (w : ℚ) (h : 0 < w) : 1 ≤ w + 1 / w := by
  have h2 : w + 1 / w - 1 = ((w - 1 / 2) ^ 2 + 3 / 4) / w := by
    field_simp
    ring
  have h3 : 0 ≤ ((w - 1 / 2) ^ 2 + 3 / 4) / w := by positivity
  linarith

theorem WinInv_of_same {a b : FlowState} (hc : b.cc_state = a.cc_state) (hw : SameWin a b)
    (h : WinInv a) : WinInv b := by
  unfold WinInv at h ⊢
  rw [hc, hw.1, hw.2.1]
  exact h

theorem WinInv_switch (st f : FlowState) (ph : CCState) (hfc : f.cc_state = ph)
    (hw : SameWin st f) (h : WinInv st)
    (hpos : ph = CCState.AI ∨ ph = CCState.IDLE ∨ ph = CCState.FR → 0 < st.cc_tmp_win)
    (hdup : ph = CCState.MD ∨ ph = CCState.FR → 1 ≤ f.dup_acks__val) :
    WinInv (RenoControl_switch ph f) := by
  obtain ⟨w1, w2, -, -⟩ := hw
  obtain ⟨i1, i2, -⟩ := h
  unfold WinInv
  rw [RenoControl_switch_cc_state, hfc]
  cases ph with
  | START =>
    refine ⟨?_, ?_, fun _ => ?_⟩
    · show (1 : ℚ) ≤ 1
      exact le_refl _
    · show (0 : ℚ) ≤ 1
      norm_num
    · show (0 : ℚ) < 1
      norm_num
  | SLOW_START =>
    refine ⟨?_, ?_, fun _ => ?_⟩
    · show 1 ≤ f.cm_window_size + 1
      rw [w1]
      linarith
    · show 0 ≤ f.cc_tmp_win + 1
      rw [w2]
      linarith
    · show 0 < f.cc_tmp_win + 1
      rw [w2]
      linarith
  | AI =>
    have hp := hpos (Or.inl rfl)
    have h1 := one_le_add_inv st.cc_tmp_win hp
    refine ⟨?_, ?_, fun _ => ?_⟩
    · show 1 ≤ f.cc_tmp_win + 1 / f.cc_tmp_win
      rw [w2]
      exact h1
    · show 0 ≤ f.cc_tmp_win + 1 / f.cc_tmp_win
      rw [w2]
      linarith
    · show 0 < f.cc_tmp_win + 1 / f.cc_tmp_win
      rw [w2]
      linarith
  | MD =>
    have hd : (1 : ℚ) ≤ (f.dup_acks__val : ℚ) := by
      exact_mod_cast hdup (Or.inl rfl)
    refine ⟨?_, ?_, fun _ => ?_⟩
    · show 1 ≤ f.cm_window_size / 2 + (f.dup_acks__val : ℚ)
      rw [w1]
      linarith
    · show 0 ≤ f.cm_window_size / 2
      rw [w1]
      linarith
    · show 0 < f.cm_window_size / 2
      rw [w1]
      linarith
  | FR =>
    have hd : (1 : ℚ) ≤ (f.dup_acks__val : ℚ) := by
      exact_mod_cast hdup (Or.inr rfl)
    have hp := hpos (Or.inr (Or.inr rfl))
    refine ⟨?_, ?_, fun _ => ?_⟩
    · show 1 ≤ f.cc_tmp_win + (f.dup_acks__val : ℚ)
      rw [w2]
      linarith
    · show 0 ≤ f.cc_tmp_win
      rw [w2]
      exact i2
    · show 0 < f.cc_tmp_win
      rw [w2]
      exact hp
  | IDLE =>
    have hp := hpos (Or.inr (Or.inl rfl))
    refine ⟨?_, ?_, fun _ => ?_⟩
    · show 1 ≤ f.cm_window_size
      rw [w1]
      exact i1
    · show 0 ≤ f.cc_tmp_win
      rw [w2]
      exact i2
    · show 0 < f.cc_tmp_win
      rw [w2]
      exact hp

theorem newAckPhase_target (ph : CCState) (b : Bool) :
    (newAckPhase ph b = CCState.AI ∨ newAckPhase ph b = CCState.IDLE ∨
      newAckPhase ph b = CCState.FR → ph ≠ CCState.START) ∧
    ¬ (newAckPhase ph b = CCState.MD ∨ newAckPhase ph b = CCState.FR) := by
  cases ph <;> cases b <;> simp [newAckPhase]

theorem dupAckPhase_engaged (ph : CCState) (dup : Nat) (fresh : Bool)
    (hen : (dupAckPhase ph dup fresh).2 = true) :
    ph ≠ CCState.START ∧
    ((dupAckPhase ph dup fresh).1 = CCState.MD ∨ (dupAckPhase ph dup fresh).1 = CCState.FR →
      1 ≤ dup) := by
  cases ph
  · simp [dupAckPhase] at hen
  · unfold dupAckPhase at hen ⊢
    by_cases hd : dup = 3
    · exact ⟨by decide, fun _ => by omega⟩
    · simp [hd] at hen
  · unfold dupAckPhase at hen ⊢
    by_cases hd : dup = 3
    · exact ⟨by decide, fun _ => by omega⟩
    · simp [hd] at hen
  · unfold dupAckPhase at hen ⊢
    by_cases hd : dup > 0
    · exact ⟨by decide, fun _ => hd⟩
    · simp [hd] at hen
  · unfold dupAckPhase at hen ⊢
    by_cases hd : dup > 0
    · exact ⟨by decide, fun _ => hd⟩
    · simp [hd] at hen
  · simp [dupAckPhase] at hen

theorem WinInv_ACK_RCVD (st : FlowState) (a : Nat) (h : WinInv st) :
    WinInv (ACK_RCVD_handled 0 st a) := by
  have hw := ACK_RCVD_flow_win st a
  cases hnew : (ACK_RCVD_bookkeeping st a).new_ack__val with
  | true =>
    obtain ⟨hph, heq⟩ := ACK_RCVD_handled_new_eq st a hnew
    obtain ⟨t1, t2⟩ := newAckPhase_target st.cc_state
      (decide (st.cm_window_size < st.cc_ss_threshold))
    rw [heq]
    exact WinInv_switch st _ _ hph hw h (fun htgt => h.2.2 (t1 htgt))
      (fun htgt => absurd htgt t2)
  | false =>
    obtain ⟨hph, heq⟩ := ACK_RCVD_handled_old_eq st a hnew
    rw [heq]
    split
    · rename_i hen
      obtain ⟨e1, e2⟩ := dupAckPhase_engaged _ _ _ hen
      have hdup : (ACK_RCVD_flow st a).dup_acks__val =
          (ACK_RCVD_bookkeeping st a).dup_acks__val := (ACK_RCVD_flow_acks st a).2.2.2.1
      exact WinInv_switch st _ _ hph hw h (fun _ => h.2.2 e1)
        (fun htgt => by rw [hdup]; exact e2 htgt)
    · rename_i hen
      have hsame := dupAckPhase_unchanged _ _ _ (by simpa using hen)
      exact WinInv_of_same (hph.trans hsame) hw h

theorem WinInv_rto_fire (st : FlowState) (cnt : Nat) (h : WinInv st) :
    WinInv (rto_fire_flow st cnt) := by
  unfold rto_fire_flow
  split
  · split
    · split
      · exact WinInv_of_same rfl ⟨rfl, rfl, rfl, rfl⟩ h
      · refine ⟨?_, ?_, fun _ => ?_⟩
        · show (1 : ℚ) ≤ 1
          exact le_refl _
        · show (0 : ℚ) ≤ 1
          norm_num
        · show (0 : ℚ) < 1
          norm_num
    · exact WinInv_of_same rfl ⟨rfl, rfl, rfl, rfl⟩ h
  · exact h

theorem WinInv_PKT_SENT (st : FlowState) (p : Packet) (h : WinInv st) :
    WinInv (PKT_SENT_flow st p) := by
  obtain ⟨h1, h2, -⟩ := PKT_SENT_flow_cc st p
  exact WinInv_of_same h1 h2 h

theorem WinInv_RenoInit : WinInv (RenoInit default) := by
  refine ⟨?_, ?_, fun hc => absurd rfl hc⟩
  · show (1 : ℚ) ≤ 1
    exact le_refl _
  · show (0 : ℚ) ≤ 0
    exact le_refl _

/-- The phase AI is entered by the switch of `ACK_RCVD` only from a phase other
than START. -/
theorem ACK_RCVD_flow_AI_source (st : FlowState) (a : Nat)
    (hph : (ACK_RCVD_flow st a).cc_state = CCState.AI) : st.cc_state ≠ CCState.START := by
  cases hnew : (ACK_RCVD_bookkeeping st a).new_ack__val with
  | true =>
    obtain ⟨h1, -⟩ := ACK_RCVD_handled_new_eq st a hnew
    rw [h1] at hph
    exact (newAckPhase_target st.cc_state _).1 (Or.inl hph)
  | false =>
    obtain ⟨h1, -⟩ := ACK_RCVD_handled_old_eq st a hnew
    rw [h1] at hph
    intro hs
    rw [hs] at hph
    simp [dupAckPhase] at hph

theorem fitsWindow_at_edge (st : FlowState) (p : Packet) (hw : 1 ≤ st.cm_window_size)
    (hseq : p.seq = st.cm_start) (hsz : data_size p ≤ MSS) : fitsWindow st p = true := by
  rw [fitsWindow_iff]
  refine ⟨by rw [hseq], ?_⟩
  have h1 : (p.seq + data_size p) % 2 ^ 32 ≤ st.cm_start + MSS := by
    have := Nat.mod_le (p.seq + data_size p) (2 ^ 32)
    omega
  have h2 : (((p.seq + data_size p) % 2 ^ 32 : Nat) : ℚ) ≤ ((st.cm_start + MSS : Nat) : ℚ) := by
    exact_mod_cast h1
  have h3 : (0 : ℚ) ≤ (MSS : ℚ) := Nat.cast_nonneg _
  rw [Nat.cast_add] at h2
  have h4 : (MSS : ℚ) ≤ st.cm_window_size * (MSS : ℚ) := by nlinarith
  linarith

/-- Claim C31. The admission window never closes. With `CC_LATENCY = 0`, let every
flow of the table be as `RenoInit` leaves it, and let any sequence of events
`PKT_SENT`, `ACK_RCVD` and `rtx_timeout__timeout` (live or stale) return. Then
for every flow of the table `cm_window_size >= 1`, and `cc_tmp_win > 0` unless
the flow is still in START; whenever the switch of an `ACK_RCVD` event ends in
AI with `transitioned` set, so that `RenoControl` is called for AI, it is called
on a flow state with `cc_tmp_win > 0`; and a packet with `seq = cm_start` and
`data_size <= MSS` passes the window test of `CoCoASched`, which is the case for
a packet whose payload length `payloadSize - 4 * length` is between 0 and `MSS`. -/
theorem window_never_closes (dev : Device) (evs : List FlowEvent) (d : Device)
    (hlat : dev.CC_LATENCY = 0)
    (h0 : ∀ fid st, FlowMap.find dev.flow_info fid = some st → st = RenoInit default)
    (h : flowEvents dev evs = Except.ok d)
    (fid : FlowId) (st : FlowState) (hf : FlowMap.find d.flow_info fid = some st) :
    1 ≤ st.cm_window_size ∧
    (st.cc_state ≠ CCState.START → 0 < st.cc_tmp_win) ∧
    (∀ a : Nat, ACK_RCVD_transitioned st a = true →
      (ACK_RCVD_flow st a).cc_state = CCState.AI → 0 < (ACK_RCVD_flow st a).cc_tmp_win) ∧
    (∀ p : Packet, p.seq = st.cm_start → data_size p ≤ MSS → fitsWindow st p = true) ∧
    (∀ p : Packet, p.seq = st.cm_start → p.payloadSize < 65536 → 0 ≤ payload p →
      payload p ≤ (MSS : Int) → fitsWindow st p = true) := by
  have hinv0 : DevAll WinInv dev.flow_info := by
    intro k s hk
    rw [h0 k s hk]
    exact WinInv_RenoInit
  obtain ⟨-, hinv⟩ := DevAll_flowEvents WinInv WinInv_PKT_SENT WinInv_ACK_RCVD WinInv_rto_fire
    evs dev d hlat hinv0 h
  obtain ⟨i1, i2, i3⟩ := hinv fid st hf
  refine ⟨i1, i3, fun a _ hai => ?_, fun p hseq hsz => fitsWindow_at_edge st p i1 hseq hsz,
    fun p hseq hwf h0p hle => fitsWindow_at_edge st p i1 hseq ?_⟩
  · rw [(ACK_RCVD_flow_win st a).2.1]
    exact i3 (ACK_RCVD_flow_AI_source st a hai)
  · unfold payload at h0p hle
    unfold data_size
    omega

theorem window_never_closes_witness :
    1 ≤ (flowOf (valueOr (flowEvents exFreshFlow
        [FlowEvent.ACK_RCVD exAck2461, FlowEvent.rto_fire exAck2461 1]) exFreshFlow).flow_info
        (recvFid exAck2461)).cm_window_size ∧
    fitsWindow (flowOf (valueOr (flowEvents exFreshFlow
        [FlowEvent.ACK_RCVD exAck2461, FlowEvent.rto_fire exAck2461 1]) exFreshFlow).flow_info
        (recvFid exAck2461)) { exData with seq := 2461 } = true :=
  ⟨(window_never_closes exFreshFlow
      [FlowEvent.ACK_RCVD exAck2461, FlowEvent.rto_fire exAck2461 1]
      (valueOr (flowEvents exFreshFlow
        [FlowEvent.ACK_RCVD exAck2461, FlowEvent.rto_fire exAck2461 1]) exFreshFlow) rfl
      (fun fid st hfind => by
        rw [show exFreshFlow.flow_info = [(recvFid exAck10000, RenoInit default)] from rfl,
          find_single] at hfind
        split at hfind
        · cases hfind
          rfl
        · cases hfind)
      (ok_of_isOk exFreshFlow (by decide!)) (recvFid exAck2461)
      (flowOf (valueOr (flowEvents exFreshFlow
        [FlowEvent.ACK_RCVD exAck2461, FlowEvent.rto_fire exAck2461 1]) exFreshFlow).flow_info
        (recvFid exAck2461)) (by decide!)).1,
   (window_never_closes exFreshFlow
      [FlowEvent.ACK_RCVD exAck2461, FlowEvent.rto_fire exAck2461 1]
      (valueOr (flowEvents exFreshFlow
        [FlowEvent.ACK_RCVD exAck2461, FlowEvent.rto_fire exAck2461 1]) exFreshFlow) rfl
      (fun fid st hfind => by
        rw [show exFreshFlow.flow_info = [(recvFid exAck10000, RenoInit default)] from rfl,
          find_single] at hfind
        split at hfind
        · cases hfind
          rfl
        · cases hfind)
      (ok_of_isOk exFreshFlow (by decide!)) (recvFid exAck2461)
      (flowOf (valueOr (flowEvents exFreshFlow
        [FlowEvent.ACK_RCVD exAck2461, FlowEvent.rto_fire exAck2461 1]) exFreshFlow).flow_info
        (recvFid exAck2461)) (by decide!)).2.2.2.1 { exData with seq := 2461 }
      (by decide!) (by decide)⟩

/-! ## Termination of `CoCoASched` -/

/-- The `while` loop of `CoCoASched` gives the same result with more fuel, once
the fuel suffices. -/
theorem schedWhile_more_fuel (cap : Nat) (n k : Nat) (m : List (FlowId × FlowState))
    (q : List Packet) (qlen : Int) (full : Bool) (occ : Nat)
    (h : schedWhile cap n m q qlen full occ ≠ Except.error Fault.fuel) :
    schedWhile cap (n + k) m q qlen full occ = schedWhile cap n m q qlen full occ := by
  induction n generalizing m q qlen full occ with
  | zero => exact absurd rfl h
  | succ n ih =>
    rw [Nat.succ_add]
    simp only [schedWhile] at h ⊢
    split
    · cases hfor : schedFor cap m q 0 with
      | error e => rfl
      | ok r =>
        obtain ⟨m1, q1, occ1, full1⟩ := r
        rename_i hcond
        rw [if_pos hcond, hfor] at h
        exact ih _ _ _ _ _ h
    · rfl

theorem LastOk_of_popped {a b : FlowId × FlowState} (h : Popped a b) (ha : LastOk a.2) :
    LastOk b.2 := by
  obtain ⟨-, pq, he, hs⟩ := h
  intro x hx
  rw [he] at hx ⊢
  simp only at hx ⊢
  obtain ⟨t, ht⟩ := hs
  have hne : pq ≠ [] := by
    intro hc
    rw [hc] at hx
    cases hx
  apply ha x
  rw [← ht, List.getLast?_append_of_ne_nil _ hne]
  exact hx

theorem headDropLoop_ok (cm : Nat) (rest : List (Packet × Nat)) (x : Packet × Nat) (occ : Nat)
    (h : ∀ y, (x :: rest).getLast? = some y → cm ≤ y.1.seq) :
    ∃ r, headDropLoop cm (x :: rest) x.1.seq occ = Except.ok r := by
  have hne : (x :: rest).dropWhile (fun y => decide (y.1.seq < cm)) ≠ [] := by
    intro hc
    rw [List.dropWhile_eq_nil_iff] at hc
    have hl : ∃ y, (x :: rest).getLast? = some y := by
      cases hg : (x :: rest).getLast? with
      | none => simp at hg
      | some y => exact ⟨y, rfl⟩
    obtain ⟨y, hy⟩ := hl
    have hmem : y ∈ x :: rest := List.mem_of_mem_getLast? hy
    have h1 := hc y hmem
    have h2 := h y hy
    simp only [decide_eq_true_eq] at h1
    omega
  obtain ⟨occ1, h1⟩ := (headDropLoop_dropWhile cm rest x occ).2 hne
  exact ⟨_, h1⟩

theorem schedFor_ok (cap : Nat) (m : List (FlowId × FlowState)) (q : List Packet) (occ : Nat)
    (h : ∀ e ∈ m, LastOk e.2) : ∃ r, schedFor cap m q occ = Except.ok r := by
  induction m generalizing q occ with
  | nil => exact ⟨_, rfl⟩
  | cons e rest ih =>
    obtain ⟨fid, st⟩ := e
    have hrest : ∀ e ∈ rest, LastOk e.2 := fun e he => h e (List.mem_cons_of_mem _ he)
    have hst : LastOk st := h (fid, st) (List.mem_cons_self _ _)
    unfold schedFor
    cases hq : st.queue with
    | nil =>
      simp only
      obtain ⟨r, hr⟩ := ih q (occ + ([] : List (Packet × Nat)).length) hrest
      rw [hr]
      exact ⟨_, rfl⟩
    | cons x tl =>
      obtain ⟨p, k⟩ := x
      simp only
      by_cases hlt : p.seq < st.cm_start
      · rw [if_pos hlt]
        obtain ⟨r, hr⟩ := headDropLoop_ok st.cm_start tl (p, k)
          (occ + ((p, k) :: tl).length) (by rw [← hq]; exact hst)
        rw [hr]
        obtain ⟨pq, occ0⟩ := r
        simp only
        obtain ⟨r2, hr2⟩ := ih q occ0 hrest
        rw [hr2]
        exact ⟨_, rfl⟩
      · rw [if_neg hlt]
        by_cases hfit : fitsWindow st p = true
        · rw [if_pos hfit]
          cases he : Enqueue cap q p with
          | mk b q0 =>
            cases b with
            | true =>
              simp only
              obtain ⟨r2, hr2⟩ := ih q0 (occ + ((p, k) :: tl).length - 1) hrest
              rw [hr2]
              exact ⟨_, rfl⟩
            | false => exact ⟨_, rfl⟩
        · rw [if_neg hfit]
          obtain ⟨r, hr⟩ := ih q (occ + ((p, k) :: tl).length) hrest
          rw [hr]
          exact ⟨_, rfl⟩

theorem schedWhile_ok (cap : Nat) (n : Nat) (m : List (FlowId × FlowState))
    (q : List Packet) (qlen : Int) (full : Bool) (occ : Nat) (hn : 1 ≤ n)
    (hc : ((q.length : Int) > qlen ∧ full = false) → totalPending m + 2 ≤ n)
    (hl : ∀ e ∈ m, LastOk e.2) :
    ∃ r, schedWhile cap n m q qlen full occ = Except.ok r := by
  induction n generalizing m q qlen full occ with
  | zero => omega
  | succ n ih =>
    simp only [schedWhile]
    by_cases hcond : (q.length : Int) > qlen ∧ full = false
    · rw [if_pos hcond]
      have hfuel := hc hcond
      obtain ⟨r, hfor⟩ := schedFor_ok cap m q 0 hl
      obtain ⟨m2, q2, occ2, full2⟩ := r
      rw [hfor]
      simp only
      obtain ⟨-, -, hmeas, hle⟩ := schedFor_pass _ _ _ _ _ _ _ _ hfor
      have hpop := schedFor_popped _ _ _ _ _ _ _ _ hfor
      refine ih m2 q2 _ full2 occ2 (by omega) (fun hc2 => ?_) (fun e2 he2 => ?_)
      · have : q2.length > q.length := by
          have := hc2.1
          omega
        omega
      · obtain ⟨e1, he1, hp⟩ := forall2_Popped_mem hpop he2
        exact LastOk_of_popped hp (hl e1 he1)
    · rw [if_neg hcond]
      exact ⟨_, rfl⟩

/-- Claim C32. The function `CoCoASched` terminates. (1) For every device,
`totalPending + 2` evaluations of the condition of the outer `while` loop
suffice: the loop model does not run out of fuel, and more fuel gives the same
result. (2) A pass of the `for` loop that returns does not shrink the transmit
queue, and the packets it adds to it leave the pending queues. (3) After a pass
the `while` loop goes on only if the transmit queue has grown and has refused no
packet; otherwise that pass was the last. (4) The inner head-drop loop, when it
returns, leaves a rest of the queue it started from, shorter if the head was
below `cm_start`. (5) When the last packet of every pending queue is not below
`cm_start` of its flow, `CoCoASched` returns. -/
theorem CoCoASched_terminates :
    (∀ dev : Device, CoCoASched_loop dev ≠ Except.error Fault.fuel ∧
      ∀ n, totalPending dev.flow_info + 2 ≤ n →
        schedWhile dev.m_queue_cap n dev.flow_info dev.m_queue (-1) false 0 =
          CoCoASched_loop dev) ∧
    (∀ (cap : Nat) (m : List (FlowId × FlowState)) (q : List Packet) (occ : Nat)
      (m1 : List (FlowId × FlowState)) (q1 : List Packet) (occ1 : Nat) (full : Bool),
      schedFor cap m q occ = Except.ok (m1, q1, occ1, full) →
      q.length ≤ q1.length ∧ (q1.length - q.length) + totalPending m1 ≤ totalPending m) ∧
    (∀ (cap n : Nat) (m : List (FlowId × FlowState)) (q : List Packet) (qlen : Int)
      (full : Bool) (occ : Nat),
      ¬ ((q.length : Int) > qlen ∧ full = false) →
      schedWhile cap (n + 1) m q qlen full occ = Except.ok (m, q, occ)) ∧
    (∀ (cm : Nat) (x : Packet × Nat) (rest : List (Packet × Nat)) (occ : Nat)
      (pq1 : List (Packet × Nat)) (occ1 : Nat),
      headDropLoop cm (x :: rest) x.1.seq occ = Except.ok (pq1, occ1) →
      pq1 <:+ x :: rest ∧ (x.1.seq < cm → pq1.length < (x :: rest).length)) ∧
    (∀ dev : Device, (∀ e ∈ dev.flow_info, LastOk e.2) →
      ∃ d, CoCoASched dev = Except.ok d) := by
  refine ⟨fun dev => ⟨CoCoASched_loop_ne_fuel dev, fun n hn => ?_⟩,
    fun cap m q occ m1 q1 occ1 full h => ?_, fun cap n m q qlen full occ hc => ?_,
    fun cm x rest occ pq1 occ1 h => ?_, fun dev hl => ?_⟩
  · obtain ⟨k, hk⟩ := Nat.exists_eq_add_of_le hn
    rw [hk]
    exact schedWhile_more_fuel _ _ k _ _ _ _ _ (CoCoASched_loop_ne_fuel dev)
  · obtain ⟨-, -, hmeas, hle⟩ := schedFor_pass _ _ _ _ _ _ _ _ h
    exact ⟨hle, hmeas⟩
  · simp only [schedWhile]
    rw [if_neg hc]
  · have hsuf := headDropLoop_suffix _ _ _ _ _ _ h
    refine ⟨hsuf, fun hlt => ?_⟩
    cases rest with
    | nil =>
      simp only [headDropLoop, if_pos hlt] at h
      cases h
    | cons y r =>
      simp only [headDropLoop, if_pos hlt] at h
      have h2 := (headDropLoop_suffix _ _ _ _ _ _ h).length_le
      simp only [List.length_cons] at h2 ⊢
      omega
  · have hloop : ∃ r, CoCoASched_loop dev = Except.ok r := by
      unfold CoCoASched_loop
      exact schedWhile_ok _ _ _ _ _ _ _ (by omega) (fun _ => le_refl _) hl
    obtain ⟨r, hr⟩ := hloop
    obtain ⟨flows, q, occ⟩ := r
    obtain ⟨d, hd, -⟩ := CoCoASched_of_loop dev flows q occ hr
    exact ⟨d, hd⟩

theorem CoCoASched_terminates_witness :
    (schedWhile exBlockedDevice.m_queue_cap 10 exBlockedDevice.flow_info
        exBlockedDevice.m_queue (-1) false 0 = CoCoASched_loop exBlockedDevice) ∧
    (∃ d, CoCoASched exBlockedDevice = Except.ok d) :=
  ⟨(CoCoASched_terminates.1 exBlockedDevice).2 10 (by decide),
   CoCoASched_terminates.2.2.2.2 exBlockedDevice (fun e he => by
      rw [show exBlockedDevice.flow_info = [(sendFid exData6460, exBlockedFlow)] from rfl,
        List.mem_singleton] at he
      rw [he]
      intro x hx
      have hq : x = (exData6460, 6460) := by
        have : (some (exData6460, 6460) : Option (Packet × Nat)) = some x := hx
        cases this
        rfl
      rw [hq]
      decide)⟩

/-! ## No packet is lost or duplicated by `CoCoASched` -/

theorem Accounted_refl (m : List (FlowId × FlowState)) : Accounted m m 0 := by
  induction m with
  | nil => exact Accounted.nil
  | cons e rest ih =>
    exact Accounted.cons e e rest rest [] [] 0 0 (Popped_refl e) (by simp) (by simp) (by simp)
      ih (by simp)

theorem Popped_cm_start {a b : FlowId × FlowState} (h : Popped a b) :
    b.2.cm_start = a.2.cm_start := by
  obtain ⟨_, pq, e, _⟩ := h
  rw [e]

theorem Accounted_trans {m m1 m2 : List (FlowId × FlowState)} {A B : Multiset Packet}
    (h1 : Accounted m m1 A) (h2 : Accounted m1 m2 B) : Accounted m m2 (A + B) := by
  induction h1 generalizing m2 B with
  | nil =>
    cases h2
    simpa using Accounted.nil
  | cons e e1 rest rest1 adm drp A1 B1 hp hq hd ha hrest hB ih =>
    cases h2 with
    | cons _ e2 _ rest2 adm2 drp2 A2 B2 hp2 hq2 hd2 ha2 hrest2 hB2 =>
      refine Accounted.cons e e2 rest rest2 (adm ++ adm2) (drp ++ drp2) (A1 + A2) _
        (Popped_trans hp hp2) ?_ ?_ ?_ (ih hrest2) ?_
      · rw [hq, hq2, ← Multiset.coe_add, ← Multiset.coe_add]
        abel
      · intro x hx
        rcases List.mem_append.1 hx with h | h
        · exact hd x h
        · rw [← Popped_cm_start hp]
          exact hd2 x h
      · intro x hx
        rcases List.mem_append.1 hx with h | h
        · exact ha x h
        · rw [← Popped_fitsWindow hp x]
          exact ha2 x h
      · rw [hB, hB2, ← Multiset.coe_add]
        abel

theorem headDropLoop_split (cm : Nat) (rest : List (Packet × Nat)) (x : Packet × Nat)
    (occ : Nat) (pq : List (Packet × Nat)) (occ1 : Nat)
    (h : headDropLoop cm (x :: rest) x.1.seq occ = Except.ok (pq, occ1)) :
    ∃ drp : List (Packet × Nat), x :: rest = drp ++ pq ∧ ∀ y ∈ drp, y.1.seq < cm := by
  by_cases hn : (x :: rest).dropWhile (fun y => decide (y.1.seq < cm)) = []
  · rw [(headDropLoop_dropWhile cm rest x occ).1 hn] at h
    cases h
  · obtain ⟨occ2, h2⟩ := (headDropLoop_dropWhile cm rest x occ).2 hn
    rw [h2] at h
    simp only [Except.ok.injEq, Prod.mk.injEq] at h
    refine ⟨(x :: rest).takeWhile (fun y => decide (y.1.seq < cm)), ?_, fun y hy => ?_⟩
    · rw [← h.1]
      exact (List.takeWhile_append_dropWhile _ _).symm
    · have := List.mem_takeWhile_imp hy
      simpa using this

theorem schedFor_accounted (cap : Nat) (m : List (FlowId × FlowState)) (q : List Packet)
    (occ : Nat) (m1 : List (FlowId × FlowState)) (q1 : List Packet) (occ1 : Nat) (full : Bool)
    (h : schedFor cap m q occ = Except.ok (m1, q1, occ1, full)) :
    ∃ added : List Packet, q1 = q ++ added ∧ Accounted m m1 ↑added := by
  induction m generalizing q occ m1 q1 occ1 full with
  | nil =>
    simp [schedFor] at h
    obtain ⟨h1, h2, -⟩ := h
    subst h1 h2
    exact ⟨[], by simp, by simpa using Accounted.nil⟩
  | cons e rest ih =>
    obtain ⟨fid, st⟩ := e
    unfold schedFor at h
    split at h
    · split at h
      · cases h
      · rename_i fl q2 occ2 full2 hrec
        cases h
        obtain ⟨added, hq1, hacc⟩ := ih _ _ _ _ _ _ hrec
        exact ⟨added, hq1, Accounted.cons _ _ _ _ [] [] _ _ (Popped_refl _) (by simp)
          (by simp) (by simp) hacc (by simp)⟩
    · rename_i p k tl hq
      split at h
      · split at h
        · cases h
        · rename_i pq occ0 hdrop
          split at h
          · cases h
          · rename_i fl q2 occ2 full2 hrec
            cases h
            obtain ⟨added, hq1, hacc⟩ := ih _ _ _ _ _ _ hrec
            obtain ⟨drp, hsplit, hbelow⟩ := headDropLoop_split _ _ _ _ _ _ hdrop
            refine ⟨added, hq1, Accounted.cons (fid, st) (fid, { st with queue := pq }) _ _ []
              (drp.map Prod.fst) _ _ ⟨rfl, pq, rfl, ?_⟩ ?_ ?_ (by simp) hacc (by simp)⟩
            · simp only [hq]
              exact headDropLoop_suffix _ _ _ _ _ _ hdrop
            · simp only [hq, hsplit, List.map_append, Multiset.coe_nil, add_zero]
              rw [← Multiset.coe_add]
              exact add_comm _ _
            · intro x hx
              obtain ⟨y, hy, hxy⟩ := List.mem_map.1 hx
              rw [← hxy]
              exact hbelow y hy
      · split at h
        · rename_i hfit
          split at h
          · rename_i q0 henq
            split at h
            · cases h
            · rename_i fl q2 occ2 full2 hrec
              cases h
              obtain ⟨added, hq1, hacc⟩ := ih _ _ _ _ _ _ hrec
              have hq0 : q0 = q ++ [p] := by
                unfold Enqueue at henq
                split at henq
                · simp only [Prod.mk.injEq, true_and] at henq
                  exact henq.symm
                · simp at henq
              refine ⟨p :: added, by rw [hq1, hq0, List.append_assoc]; rfl,
                Accounted.cons (fid, st) (fid, { st with queue := tl }) _ _ [p] [] _ _
                  ⟨rfl, tl, rfl, ?_⟩ ?_ (by simp) ?_ hacc ?_⟩
              · simp only [hq]
                exact List.suffix_cons _ _
              · simp only [hq, List.map_cons, Multiset.coe_nil, add_zero]
                rw [add_comm, Multiset.coe_add, List.singleton_append]
              · intro x hx
                simp only [List.mem_singleton] at hx
                rw [hx]
                exact hfit
              · rw [Multiset.coe_add, List.singleton_append]
          · rename_i q0 henq
            cases h
            have hq0 : q1 = q := by
              unfold Enqueue at henq
              split at henq
              · simp at henq
              · simp only [Prod.mk.injEq, true_and] at henq
                exact henq.symm
            exact ⟨[], by simp [hq0], by simpa using Accounted_refl _⟩
        · split at h
          · cases h
          · rename_i fl q2 occ2 full2 hrec
            cases h
            obtain ⟨added, hq1, hacc⟩ := ih _ _ _ _ _ _ hrec
            exact ⟨added, hq1, Accounted.cons _ _ _ _ [] [] _ _ (Popped_refl _) (by simp)
              (by simp) (by simp) hacc (by simp)⟩

theorem schedWhile_accounted (cap : Nat) (n : Nat) (m : List (FlowId × FlowState))
    (q : List Packet) (qlen : Int) (full : Bool) (occ : Nat)
    (m1 : List (FlowId × FlowState)) (q1 : List Packet) (occ1 : Nat)
    (h : schedWhile cap n m q qlen full occ = Except.ok (m1, q1, occ1)) :
    ∃ added : List Packet, q1 = q ++ added ∧ Accounted m m1 ↑added := by
  induction n generalizing m q qlen full occ with
  | zero => simp [schedWhile] at h
  | succ n ih =>
    simp only [schedWhile] at h
    split at h
    · split at h
      · cases h
      · rename_i m2 q2 occ2 full2 hfor
        obtain ⟨add1, hq2, hacc1⟩ := schedFor_accounted _ _ _ _ _ _ _ _ hfor
        obtain ⟨add2, hq1, hacc2⟩ := ih _ _ _ _ _ h
        refine ⟨add1 ++ add2, by rw [hq1, hq2, List.append_assoc], ?_⟩
        rw [← Multiset.coe_add]
        exact Accounted_trans hacc1 hacc2
    · cases h
      exact ⟨[], by simp, by simpa using Accounted_refl _⟩

/-- Claim C33. The function `CoCoASched` neither loses nor duplicates packets.
(1) When `CoCoASched` returns, the transmit queue left by the admission loop is
the old one followed by the admitted packets `added` (from it the head goes to
the transmitter if that was `READY`), and entry by entry of the flow table
(`Accounted`): the flow state is changed only in its pending queue, the queue
after is a rest of the queue before, and the packets of the queue before are, as
a multiset, those still pending, those admitted from this flow and those dropped;
every dropped packet has `seq < cm_start`, every admitted packet passed the
window test, and the admitted packets of all flows together are, as a multiset,
exactly `added`. (2) When the transmit queue is full, the visit of a flow whose
head passes the window test leaves this and the later entries and the transmit
queue as they were and sets `m_queue_full`: the packet remains pending. (3) With
`m_queue_full` set the `while` loop ends without another pass. -/
theorem CoCoASched_accounts_for_packets :
    (∀ dev d : Device, CoCoASched dev = Except.ok d →
      ∃ (q added : List Packet), q = dev.m_queue ++ added ∧ TransmitFromFifo dev q d ∧
        Accounted dev.flow_info d.flow_info ↑added) ∧
    (∀ (cap : Nat) (q : List Packet) (occ : Nat) (fid : FlowId) (st : FlowState)
      (rest : List (FlowId × FlowState)) (p : Packet) (k : Nat) (tl : List (Packet × Nat)),
      st.queue = (p, k) :: tl → st.cm_start ≤ p.seq → fitsWindow st p = true →
      cap ≤ q.length →
      schedFor cap ((fid, st) :: rest) q occ =
        Except.ok ((fid, st) :: rest, q, occ + st.queue.length, true)) ∧
    (∀ (cap n : Nat) (m : List (FlowId × FlowState)) (q : List Packet) (qlen : Int)
      (occ : Nat), schedWhile cap (n + 1) m q qlen true occ = Except.ok (m, q, occ)) := by
  refine ⟨fun dev d h => ?_, fun cap q occ fid st rest p k tl hq hle hfit hfull => ?_,
    fun cap n m q qlen occ => ?_⟩
  · cases hl : CoCoASched_loop dev with
    | error e =>
      unfold CoCoASched at h
      rw [hl] at h
      cases h
    | ok r =>
      obtain ⟨flows, q, occ⟩ := r
      obtain ⟨d1, hd1, hfl, -, htx, -⟩ := CoCoASched_of_loop dev flows q occ hl
      rw [hd1] at h
      cases h
      unfold CoCoASched_loop at hl
      obtain ⟨added, hq, hacc⟩ := schedWhile_accounted _ _ _ _ _ _ _ _ _ _ hl
      exact ⟨q, added, hq, htx, by rw [hfl]; exact hacc⟩
  · have hlt : ¬ p.seq < st.cm_start := by omega
    have henq : Enqueue cap q p = (false, q) := by
      unfold Enqueue
      rw [if_neg (by omega)]
    simp [schedFor, hq, hlt, hfit, henq]
  · simp [schedWhile]

theorem CoCoASched_accounts_for_packets_witness :
    (∃ (q added : List Packet), q = exPending.m_queue ++ added ∧
      TransmitFromFifo exPending q (valueOr (CoCoASched exPending) exPending) ∧
      Accounted exPending.flow_info (valueOr (CoCoASched exPending) exPending).flow_info
        ↑added) ∧
    schedFor 1 [(sendFid exData6460, exFitFlow)] [exAck] 0 =
      Except.ok ([(sendFid exData6460, exFitFlow)], [exAck], 0 + exFitFlow.queue.length, true) :=
  ⟨CoCoASched_accounts_for_packets.1 exPending (valueOr (CoCoASched exPending) exPending)
      (ok_of_isOk exPending (by decide!)),
   CoCoASched_accounts_for_packets.2.1 1 [exAck] 0 (sendFid exData6460) exFitFlow []
      exData6460 6460 [] rfl (by decide) (by decide!) (by decide)⟩

/-! ## Where the entry points write the phase and the window variables -/

theorem SameCC_refl (a : FlowState) : SameCC a a := ⟨rfl, rfl, rfl, rfl, rfl⟩

theorem SameCC_trans (a b c : FlowState) (h1 : SameCC a b) (h2 : SameCC b c) : SameCC a c :=
  ⟨h2.1.trans h1.1, h2.2.1.trans h1.2.1, h2.2.2.1.trans h1.2.2.1,
    h2.2.2.2.1.trans h1.2.2.2.1, h2.2.2.2.2.trans h1.2.2.2.2⟩

theorem Evolves_ensure_insert_of {R : FlowState → FlowState → Prop} (hr : ∀ s, R s s)
    (ht : ∀ a b c, R a b → R b c → R a c)
    (m : List (FlowId × FlowState)) (fid : FlowId) (s : FlowState)
    (hs : R (flowOf m fid) s) : Evolves R m (FlowMap.insert (ensureFlow m fid) fid s) := by
  refine Evolves_trans ht (Evolves_of_ensureFlow hr m fid) ?_
  apply Evolves_of_insert hr
  rw [flowOf_ensureFlow]
  exact hs

theorem Evolves_found_insert_of {R : FlowState → FlowState → Prop} (hr : ∀ s, R s s)
    (m : List (FlowId × FlowState)) (fid : FlowId) (st s : FlowState)
    (hf : FlowMap.find m fid = some st) (hs : R st s) : Evolves R m (FlowMap.insert m fid s) := by
  apply Evolves_of_insert hr
  rw [flowOf_of_find hf]
  exact hs

/-- The flow table `m1` is `m` but for the entry of `key`. -/
theorem Evolves_of_finds {R : FlowState → FlowState → Prop} (hr : ∀ s, R s s)
    (m m1 : List (FlowId × FlowState)) (key : FlowId) (s : FlowState)
    (hf : FlowMap.find m1 key = some s)
    (hne : ∀ k, k ≠ key → FlowMap.find m1 k = FlowMap.find m k)
    (hs : R (flowOf m key) s) : Evolves R m m1 := by
  intro k
  by_cases hk : k = key
  · subst hk
    rw [hf]
    refine ⟨fun st1 h => ⟨_, rfl, ?_⟩, fun h st2 h2 => ?_⟩
    · rw [flowOf_of_find h] at hs
      exact hs
    · rw [flowOf_of_none h] at hs
      cases h2
      exact hs
  · rw [hne k hk]
    refine ⟨fun st1 h => ⟨st1, h, hr st1⟩, fun h st2 h2 => ?_⟩
    rw [h] at h2
    cases h2

theorem Evolves_comp {R S : FlowState → FlowState → Prop} (hr : ∀ s, R s s)
    {m1 m2 m3 : List (FlowId × FlowState)} (h12 : Evolves R m1 m2) (h23 : Evolves S m2 m3) :
    Evolves (fun a c => ∃ b, R a b ∧ S b c) m1 m3 := by
  intro fid
  refine ⟨fun st1 h => ?_, fun h st3 h3 => ?_⟩
  · obtain ⟨st2, h2, r12⟩ := (h12 fid).1 st1 h
    obtain ⟨st3, h3, r23⟩ := (h23 fid).1 st2 h2
    exact ⟨st3, h3, st2, r12, r23⟩
  · cases h2 : FlowMap.find m2 fid with
    | none => exact ⟨_, hr _, (h23 fid).2 h2 st3 h3⟩
    | some st2 =>
      obtain ⟨st3b, h3b, r23⟩ := (h23 fid).1 st2 h2
      rw [h3] at h3b
      cases h3b
      exact ⟨st2, (h12 fid).2 h st2 h2, r23⟩

theorem CoCoAEventHandler_sameCC {dev : Device} {key : FlowId} {p : Packet} {ev : CCEvent}
    {d : Device} (h : CoCoAEventHandler dev key p ev = Except.ok d)
    (hev : ev ≠ CCEvent.ACK_RCVD) : Evolves SameCC dev.flow_info d.flow_info := by
  unfold CoCoAEventHandler at h
  split at h
  · cases h
  · rename_i st hf
    cases ev with
    | PKT_ENQ =>
      simp only at h
      cases h
      exact Evolves_found_insert_of SameCC_refl _ _ st _ hf ⟨rfl, rfl, rfl, rfl, rfl⟩
    | PKT_DEQ =>
      simp only at h
      cases h
      exact Evolves_refl SameCC_refl _
    | PKT_SENT =>
      simp only at h
      cases h
      obtain ⟨h1, h2, -⟩ := PKT_SENT_flow_cc st p
      exact Evolves_found_insert_of SameCC_refl _ _ st _ hf ⟨h1, h2⟩
    | ACK_RCVD => exact absurd rfl hev

theorem Send_sameCC {dev : Device} {p : Packet} {r : Bool} {d : Device}
    (h : Send dev p = Except.ok (r, d)) : Evolves SameCC dev.flow_info d.flow_info := by
  unfold Send at h
  split at h
  · cases h
    exact Evolves_refl SameCC_refl _
  · split at h
    · simp only at h
      split at h
      · rename_i hst
        have hd := (Send_direct_flows h).1
        simp only at hd
        rw [hd]
        exact Evolves_ensure_insert_of SameCC_refl SameCC_trans _ _ _ (Send_handshake_cc _ p)
      · rename_i hst
        split at h
        · split at h
          · cases h
          · rename_i d1 hh
            cases h
            have he := CoCoAEventHandler_sameCC hh (by intro hc; cases hc)
            simp only at he
            exact Evolves_trans SameCC_trans (Evolves_of_ensureFlow SameCC_refl _ _) he
        · split at h
          · have hd := (Send_fin_flows h).1
            simp only at hd
            rw [hd]
            exact Evolves_of_ensureFlow SameCC_refl _ _
          · have hd := (Send_direct_flows h).1
            simp only at hd
            rw [hd]
            exact Evolves_ensure_insert_of SameCC_refl SameCC_trans _ _ _
              ⟨rfl, rfl, rfl, rfl, rfl⟩
      · have hd := (Send_direct_flows h).1
        simp only at hd
        rw [hd]
        exact Evolves_of_ensureFlow SameCC_refl _ _
    · rw [(Send_direct_flows h).1]
      exact Evolves_refl SameCC_refl _

theorem TransmitComplete_sameCC {dev : Device} {d : Device}
    (h : TransmitComplete dev = Except.ok d) : Evolves SameCC dev.flow_info d.flow_info := by
  unfold TransmitComplete at h
  split at h
  · split at h
    · cases h
    · rename_i cur hcur
      simp only at h
      split at h
      · cases h
      · rename_i dev1 hsent
        have h1 : Evolves SameCC dev.flow_info dev1.flow_info := by
          split at hsent
          · split at hsent
            · have he := CoCoAEventHandler_sameCC hsent (by intro hc; cases hc)
              simpa using he
            · cases hsent
              exact Evolves_refl SameCC_refl _
          · cases hsent
            exact Evolves_refl SameCC_refl _
        split at h
        · cases h
          exact h1
        · split at h
          · cases h
          · rename_i x r dev2 hts
            cases h
            have := (TransmitStart_flows hts).1
            simp only at this
            rw [this]
            exact h1
  · cases h

theorem Popped_sameCC {a b : FlowId × FlowState} (h : Popped a b) : SameCC a.2 b.2 := by
  obtain ⟨_, pq, e, _⟩ := h
  rw [e]
  exact ⟨rfl, rfl, rfl, rfl, rfl⟩

theorem Evolves_sameCC_of_popped {m1 m2 : List (FlowId × FlowState)}
    (h : List.Forall₂ Popped m1 m2) : Evolves SameCC m1 m2 := by
  induction m1 generalizing m2 with
  | nil =>
    cases h
    exact Evolves_refl SameCC_refl _
  | cons a rest ih =>
    cases h with
    | cons hab hrest =>
      rename_i b rest2
      obtain ⟨ka, va⟩ := a
      obtain ⟨kb, vb⟩ := b
      have hk : ka = kb := hab.1
      subst hk
      intro fid
      by_cases hf : fid = ka
      · subst hf
        simp only [FlowMap.find, if_true]
        refine ⟨fun st1 h1 => ?_, fun h1 => ?_⟩
        · cases h1
          exact ⟨vb, rfl, Popped_sameCC hab⟩
        · cases h1
      · simp only [FlowMap.find, hf, if_false]
        exact ih hrest fid

theorem CoCoASched_sameCC {dev : Device} {d : Device}
    (h : CoCoASched dev = Except.ok d) : Evolves SameCC dev.flow_info d.flow_info := by
  unfold CoCoASched at h
  split at h
  · cases h
  · rename_i flows q occ hloop
    have hp : Evolves SameCC dev.flow_info flows :=
      Evolves_sameCC_of_popped (schedWhile_popped _ _ _ _ _ _ _ _ _ _ hloop)
    split at h
    · split at h
      · split at h
        · cases h
        · rename_i r dev1 hts
          cases h
          have := (TransmitStart_flows hts).1
          simp only at this
          rw [this]
          exact hp
      · cases h
    · cases h
      exact hp

theorem AckWrite_refl (ack : Nat) (a : FlowState) : AckWrite ack a a := Or.inl rfl

theorem AckStep_of_sameCC (ack : Nat) (a b : FlowState) (h : SameCC a b) : AckStep ack a b :=
  ⟨b, h, Or.inl rfl⟩

theorem RtoStep_refl (a : FlowState) : RtoStep a a := ⟨a, SameCC_refl a, Or.inl rfl⟩

theorem CoCoAEventHandler_ack_write {dev : Device} {p : Packet} {d : Device}
    (h : CoCoAEventHandler dev (recvFid p) p CCEvent.ACK_RCVD = Except.ok d) :
    Evolves (AckWrite p.ack) dev.flow_info d.flow_info := by
  cases hf : FlowMap.find dev.flow_info (recvFid p) with
  | none =>
    unfold CoCoAEventHandler at h
    rw [hf] at h
    cases h
  | some st =>
    rw [CoCoAEventHandler_ack_eq dev _ p st hf] at h
    split at h
    · split at h
      · cases h
        exact Evolves_found_insert_of (AckWrite_refl _) _ _ st _ hf (Or.inr (Or.inl rfl))
      · unfold RenoControl at h
        simp only [FlowMap_find_insert_self] at h
        cases h
        refine Evolves_of_finds (AckWrite_refl _) _ _ (recvFid p) _
          (FlowMap_find_insert_self _ _ _) (fun k hk => ?_) ?_
        · show FlowMap.find (FlowMap.insert (FlowMap.insert dev.flow_info _ _) _ _) k = _
          rw [FlowMap_find_insert_ne _ _ _ _ hk, FlowMap_find_insert_ne _ _ _ _ hk]
        · rw [flowOf_of_find hf]
          exact Or.inr (Or.inr rfl)
    · cases h
      exact Evolves_found_insert_of (AckWrite_refl _) _ _ st _ hf (Or.inr (Or.inl rfl))

theorem Receive_ackStep {dev : Device} {p : Packet} {d : Device}
    (h : Receive dev p = Except.ok d) : Evolves (AckStep p.ack) dev.flow_info d.flow_info := by
  have hmono : ∀ {m1 m2 : List (FlowId × FlowState)}, Evolves SameCC m1 m2 →
      Evolves (AckStep p.ack) m1 m2 := fun he => Evolves_mono (AckStep_of_sameCC p.ack) he
  have hcomp : ∀ {m1 m2 m3 : List (FlowId × FlowState)}, Evolves SameCC m1 m2 →
      Evolves (AckWrite p.ack) m2 m3 → Evolves (AckStep p.ack) m1 m3 :=
    fun h12 h23 => Evolves_comp SameCC_refl h12 h23
  unfold Receive at h
  split at h
  · cases h
    exact Evolves_refl (fun s => AckStep_of_sameCC _ s s (SameCC_refl s)) _
  · split at h
    · simp only at h
      split at h
      · rename_i hst
        split at h
        · rename_i hs
          split at h
          · cases h
            exact hmono (Evolves_ensure_insert_of SameCC_refl SameCC_trans _ _ _
              ⟨rfl, rfl, rfl, rfl, rfl⟩)
          · cases h
            exact hmono (Evolves_of_ensureFlow SameCC_refl _ _)
        · rename_i hs
          split at h
          · have he := CoCoAEventHandler_ack_write h
            simp only at he
            refine hcomp ?_ he
            exact Evolves_ensure_insert_of SameCC_refl SameCC_trans _ _ _
              ⟨rfl, rfl, rfl, rfl, rfl⟩
          · cases h
            exact hmono (Evolves_of_ensureFlow SameCC_refl _ _)
        · rename_i hs
          split at h
          · have he := CoCoAEventHandler_ack_write h
            simp only at he
            refine hcomp ?_ he
            exact Evolves_ensure_insert_of SameCC_refl SameCC_trans _ _ _
              ⟨rfl, rfl, rfl, rfl, rfl⟩
          · cases h
            exact hmono (Evolves_of_ensureFlow SameCC_refl _ _)
        · cases h
          exact hmono (Evolves_of_ensureFlow SameCC_refl _ _)
      · rename_i hst
        split at h
        · have he := CoCoAEventHandler_ack_write h
          simp only at he
          exact hcomp (Evolves_of_ensureFlow SameCC_refl _ _) he
        · cases h
          exact hmono (Evolves_of_ensureFlow SameCC_refl _ _)
      · cases h
        exact hmono (Evolves_of_ensureFlow SameCC_refl _ _)
    · cases h
      exact Evolves_refl (fun s => AckStep_of_sameCC _ s s (SameCC_refl s)) _

theorem rtx_timeout_found_rtoStep {dev : Device} {fid : FlowId} {st : FlowState} {cnt : Nat}
    {d : Device} (hf : FlowMap.find dev.flow_info fid = some st)
    (h : rtx_timeout_found dev fid st cnt = Except.ok d) :
    Evolves RtoStep dev.flow_info d.flow_info := by
  have hkeep : SameCC st
      { st with rtx_timeout__timer__isset := false, rtx_timeout__val := true } :=
    ⟨rfl, rfl, rfl, rfl, rfl⟩
  unfold rtx_timeout_found at h
  split at h
  · simp only at h
    split at h
    · split at h
      · cases h
        exact Evolves_found_insert_of RtoStep_refl _ _ st _ hf ⟨_, hkeep, Or.inl rfl⟩
      · split at h
        · cases h
          exact Evolves_found_insert_of RtoStep_refl _ _ st _ hf
            ⟨_, hkeep, Or.inr (Or.inl rfl)⟩
        · unfold RenoControl at h
          simp only [FlowMap_find_insert_self] at h
          cases h
          refine Evolves_of_finds RtoStep_refl _ _ fid _
            (FlowMap_find_insert_self _ _ _) (fun k hk => ?_) ?_
          · show FlowMap.find (FlowMap.insert (FlowMap.insert dev.flow_info _ _) _ _) k = _
            rw [FlowMap_find_insert_ne _ _ _ _ hk, FlowMap_find_insert_ne _ _ _ _ hk]
          · rw [flowOf_of_find hf]
            exact ⟨_, hkeep, Or.inr (Or.inr rfl)⟩
    · cases h
      exact Evolves_found_insert_of RtoStep_refl _ _ st _ hf ⟨_, hkeep, Or.inl rfl⟩
  · cases h
    exact Evolves_refl RtoStep_refl _

theorem rtx_timeout_rtoStep {dev : Device} {hdr : Packet} {cnt : Nat} {d : Device}
    (h : rtx_timeout__timeout dev hdr cnt = Except.ok d) :
    Evolves RtoStep dev.flow_info d.flow_info := by
  unfold rtx_timeout__timeout at h
  split at h
  · rename_i st hf
    exact rtx_timeout_found_rtoStep hf h
  · split at h
    · rename_i st hf
      exact rtx_timeout_found_rtoStep hf h
    · cases h
      exact Evolves_refl RtoStep_refl _

theorem RenoControl_engineStep {dev : Device} {s : CCState} {fid : FlowId} {d : Device}
    (h : RenoControl dev s fid = Except.ok d) :
    Evolves (EngineStep s) dev.flow_info d.flow_info := by
  unfold RenoControl at h
  split at h
  · cases h
  · rename_i st hf
    cases h
    exact Evolves_found_insert_of (fun _ => Or.inl rfl) _ _ st _ hf (Or.inr rfl)

/-- Claim C26. The frame of the events that are not control events, and where
the phase and the window variables are written. (1) For every flow state, the
events `PKT_ENQ`, `PKT_DEQ` and `PKT_SENT` return and leave `cc_state`,
`cm_window_size`, `cc_tmp_win`, `cc_ss_threshold`, `cc_recovery_seq` and
`cm_start` of the flow as they were, and do not touch another flow. (2) Every
call of `Send`, `TransmitComplete` or `CoCoASched` that returns keeps every flow
of the table, with `cc_state`, `cm_window_size`, `cc_tmp_win`, `cc_ss_threshold`
and `cc_recovery_seq` as they were (a flow it creates has those of `RenoInit`).
(3) After `Receive` every flow has these five variables as before, or as the
`ACK_RCVD` case leaves them at the end of its switch, or as the switch of
`RenoControl` leaves them when it runs after that. (4) After
`rtx_timeout__timeout` every flow has them as before, or with the phase set to
START, or as the switch of `RenoControl` for START leaves them after that.
(5) The call `RenoControl (s, fid)` leaves every flow as it was or as its switch
for `s` leaves it. (6) The `ACK_RCVD` case up to the end of its switch changes no
window variable, and the switch of `RenoControl` does not change the phase. -/
theorem non_control_events_frame :
    (∀ (dev : Device) (key : FlowId) (p : Packet) (ev : CCEvent) (st : FlowState),
      ev ≠ CCEvent.ACK_RCVD → FlowMap.find dev.flow_info key = some st →
      ∃ d st1, CoCoAEventHandler dev key p ev = Except.ok d ∧
        FlowMap.find d.flow_info key = some st1 ∧
        st1.cc_state = st.cc_state ∧ SameWin st st1 ∧ st1.cm_start = st.cm_start ∧
        ∀ k, k ≠ key → FlowMap.find d.flow_info k = FlowMap.find dev.flow_info k) ∧
    (∀ (dev : Device) (p : Packet) (r : Bool) (d : Device), Send dev p = Except.ok (r, d) →
      Evolves SameCC dev.flow_info d.flow_info) ∧
    (∀ (dev d : Device), TransmitComplete dev = Except.ok d →
      Evolves SameCC dev.flow_info d.flow_info) ∧
    (∀ (dev d : Device), CoCoASched dev = Except.ok d →
      Evolves SameCC dev.flow_info d.flow_info) ∧
    (∀ (dev : Device) (p : Packet) (d : Device), Receive dev p = Except.ok d →
      Evolves (AckStep p.ack) dev.flow_info d.flow_info) ∧
    (∀ (dev : Device) (hdr : Packet) (cnt : Nat) (d : Device),
      rtx_timeout__timeout dev hdr cnt = Except.ok d →
      Evolves RtoStep dev.flow_info d.flow_info) ∧
    (∀ (dev : Device) (s : CCState) (fid : FlowId) (d : Device),
      RenoControl dev s fid = Except.ok d →
      Evolves (EngineStep s) dev.flow_info d.flow_info) ∧
    (∀ (st : FlowState) (a : Nat), SameWin st (ACK_RCVD_flow st a)) ∧
    (∀ (s : CCState) (st : FlowState), (RenoControl_switch s st).cc_state = st.cc_state) := by
  refine ⟨fun dev key p ev st hev hf => ?_, fun dev p r d h => Send_sameCC h,
    fun dev d h => TransmitComplete_sameCC h, fun dev d h => CoCoASched_sameCC h,
    fun dev p d h => Receive_ackStep h, fun dev hdr cnt d h => rtx_timeout_rtoStep h,
    fun dev s fid d h => RenoControl_engineStep h, ACK_RCVD_flow_win,
    RenoControl_switch_cc_state⟩
  unfold CoCoAEventHandler
  rw [hf]
  cases ev with
  | PKT_ENQ =>
    exact ⟨_, _, rfl, FlowMap_find_insert_self _ _ _, rfl, ⟨rfl, rfl, rfl, rfl⟩, rfl,
      fun k hk => FlowMap_find_insert_ne _ _ _ _ hk⟩
  | PKT_DEQ => exact ⟨_, _, rfl, hf, rfl, ⟨rfl, rfl, rfl, rfl⟩, rfl, fun k _ => rfl⟩
  | PKT_SENT =>
    obtain ⟨h1, h2, h3⟩ := PKT_SENT_flow_cc st p
    exact ⟨_, _, rfl, FlowMap_find_insert_self _ _ _, h1, h2, h3,
      fun k hk => FlowMap_find_insert_ne _ _ _ _ hk⟩
  | ACK_RCVD => exact absurd rfl hev

theorem non_control_events_frame_witness :
    (∃ d st1, CoCoAEventHandler (exS3Device exS3Fresh) (sendFid exData1) exData1
        CCEvent.PKT_SENT = Except.ok d ∧
      FlowMap.find d.flow_info (sendFid exData1) = some st1 ∧
      st1.cc_state = exS3Fresh.cc_state ∧ SameWin exS3Fresh st1 ∧
      st1.cm_start = exS3Fresh.cm_start ∧
      ∀ k, k ≠ sendFid exData1 →
        FlowMap.find d.flow_info k = FlowMap.find (exS3Device exS3Fresh).flow_info k) ∧
    Evolves SameCC exAfterHandshake.flow_info
      (valueOr (Send exAfterHandshake exData1) (false, exAfterHandshake)).2.flow_info ∧
    Evolves SameCC exPending.flow_info (valueOr (CoCoASched exPending) exPending).flow_info ∧
    Evolves (AckStep exAck2461.ack) exPending.flow_info
      (valueOr (Receive exPending exAck2461) exPending).flow_info :=
  ⟨non_control_events_frame.1 (exS3Device exS3Fresh) (sendFid exData1) exData1 CCEvent.PKT_SENT
      exS3Fresh (by decide) rfl,
   non_control_events_frame.2.1 exAfterHandshake exData1
      (valueOr (Send exAfterHandshake exData1) (false, exAfterHandshake)).1
      (valueOr (Send exAfterHandshake exData1) (false, exAfterHandshake)).2
      (ok_of_isOk (false, exAfterHandshake) (by decide!)),
   non_control_events_frame.2.2.2.1 exPending (valueOr (CoCoASched exPending) exPending)
      (ok_of_isOk exPending (by decide!)),
   non_control_events_frame.2.2.2.2.1 exPending exAck2461
      (valueOr (Receive exPending exAck2461) exPending) (ok_of_isOk exPending (by decide!))⟩

end CoCoA
